import Mathlib

/-!
The DICOM header parser of dcmloupe.

A shallow embedding of `src/src/dicom_header_parser.c`, of `display_value`
(`src/src/dicom_display.c`) and of `main` (`src/src/main.c`), and theorems about
them.

Modelling conventions.

* A `FILE` is the octets of the input, a cursor and the end-of-file indicator.
  `fread` returns the octets that are there (each taken modulo 256), moves the
  cursor over them and raises the indicator when fewer than asked for were
  read; `fseek` clears the indicator and may place the cursor beyond the end.
* `long` is taken to be wide enough for every cursor position (LP64), so a
  32-bit length is never a negative offset; positions are natural numbers.
* C strings are lists of character codes; a `char` buffer stands for the
  string before its first NUL (`cstring`).
* `stdout` and `stderr` are one chronological list of `Out` events, one event
  per `printf` call; `display_value` is recorded as the event `Out.value`
  carrying its arguments.
* The `while` loops recurse on a fuel argument; `none` (resp.
  `Halt.out_of_fuel`) is returned when the fuel is used up, and `Option.bind`
  passes a `none` of a callee on to the caller.
* The dictionary (`dicom_get_vr`, `dicom_get_name`, `dicom_get_keyword`), the
  terminal width and the outcome of `malloc` are parameters (`Env`).
-/

set_option maxRecDepth 100000
set_option linter.unusedTactic false
set_option linter.unreachableTactic false
set_option linter.unusedVariables false

namespace Dcmloupe

/-! ## C strings -/

/-- ASCII codes of a string literal. -/
def cstr (s : String) : List Nat := s.toList.map Char.toNat

/-- The C string held in a `char` buffer: the bytes before the first NUL. -/
def cstring (buf : List Nat) : List Nat := buf.takeWhile (fun b => b != 0)

/-- Model of `strlen`. -/
def strlen (buf : List Nat) : Nat := (cstring buf).length

/-- Model of `strcmp(a, b) == 0`. -/
def streq (a b : List Nat) : Bool := cstring a == cstring b

/-- Model of `strncpy(vr, s, 2)` into the zeroed buffer `char vr[3]`: the two
bytes `vr[0]`, `vr[1]`. -/
def strncpy2 (s : List Nat) : List Nat := [(cstring s).getD 0 0, (cstring s).getD 1 0]

/-- The value of a `char` holding the octet `b` (plain `char` is signed). -/
def to_char (b : Nat) : Int := if b % 256 < 128 then (b % 256 : Nat) else ((b % 256 : Nat) : Int) - 256

/-! ## The input stream -/

structure FILE where
  data : List Nat
  pos : Nat
  eof : Bool
deriving DecidableEq, Repr

/-- Model of `fread(buf, 1, n, fp)`: the octets read and the stream after. -/
def fread (fp : FILE) (n : Nat) : List Nat × FILE :=
  let got := ((fp.data.drop fp.pos).take n).map (fun b => b % 256)
  (got, { fp with pos := fp.pos + got.length, eof := fp.eof || decide (got.length < n) })

/-- Model of `fseek(fp, off, SEEK_CUR)`: the return code and the stream after. -/
def fseek_cur (fp : FILE) (off : Int) : Int × FILE :=
  if 0 ≤ (fp.pos : Int) + off then
    (0, { fp with pos := ((fp.pos : Int) + off).toNat, eof := false })
  else (-1, fp)

/-- Model of `fseek(fp, p, SEEK_SET)`. -/
def fseek_set (fp : FILE) (p : Int) : Int × FILE :=
  if 0 ≤ p then (0, { fp with pos := p.toNat, eof := false }) else (-1, fp)

def ftell (fp : FILE) : Int := (fp.pos : Int)

def feof (fp : FILE) : Bool := fp.eof

def read_uint16_le (fp : FILE) : Nat × FILE :=
  match fread fp 2 with
  | ([b0, b1], fp1) => (b0 ||| (b1 <<< 8), fp1)
  | (_, fp1) => (0, fp1)

def read_uint16_be (fp : FILE) : Nat × FILE :=
  match fread fp 2 with
  | ([b0, b1], fp1) => ((b0 <<< 8) ||| b1, fp1)
  | (_, fp1) => (0, fp1)

def read_uint32_le (fp : FILE) : Nat × FILE :=
  match fread fp 4 with
  | ([b0, b1, b2, b3], fp1) => (b0 ||| (b1 <<< 8) ||| (b2 <<< 16) ||| (b3 <<< 24), fp1)
  | (_, fp1) => (0, fp1)

def read_uint32_be (fp : FILE) : Nat × FILE :=
  match fread fp 4 with
  | ([b0, b1, b2, b3], fp1) => ((b0 <<< 24) ||| (b1 <<< 16) ||| (b2 <<< 8) ||| b3, fp1)
  | (_, fp1) => (0, fp1)

/-! ## Parser state, environment, output -/

inductive transfer_syntax_type where
  | TRANSFER_EXPLICIT_VR_LITTLE_ENDIAN
  | TRANSFER_IMPLICIT_VR_LITTLE_ENDIAN
  | TRANSFER_EXPLICIT_VR_BIG_ENDIAN
deriving DecidableEq, Repr

structure parser_state where
  ts_type : transfer_syntax_type
  is_explicit_vr : Bool
  is_little_endian : Bool
  collapse_sequences : Bool
  max_sq_depth : Int
  overwrite_max_disp_len : Bool
deriving DecidableEq, Repr

structure display_context where
  is_little_endian : Bool
  overwrite_max_disp_len : Bool
  terminal_width : Int
  val_col_start : Int
deriving DecidableEq, Repr

/-- What the parser takes from outside `dicom_header_parser.c`: the tag
dictionary of `dicom_dict.h`, the terminal width found by
`init_terminal_width`, and whether the `malloc` issued with the cursor at a
given position succeeds. -/
structure Env where
  dicom_get_name : Nat → Option (List Nat)
  dicom_get_vr : Nat → Option (List Nat)
  dicom_get_keyword : Nat → Option (List Nat)
  global_terminal_width : Int
  malloc_ok : Nat → Bool

def global_val_col_start : Int := 108

def create_display_context (env : Env) (state : parser_state) : display_context :=
  { is_little_endian := state.is_little_endian
    overwrite_max_disp_len := state.overwrite_max_disp_len
    terminal_width := env.global_terminal_width
    val_col_start := global_val_col_start }

/-- One event per output call. `err` and `warn_invalid_vr` go to `stderr`,
everything else to `stdout`. -/
inductive Out where
  /-- `printf` of a constant text -/
  | lit (s : String)
  /-- `fprintf(stderr, ...)` of an error message -/
  | err (s : String)
  /-- the column header `TAG VR LENGTH KEYWORD NAME VALUE` -/
  | table_header
  /-- the line of dashes under the column header and after a sequence -/
  | rule
  /-- the row of a non-sequence element, up to the value column -/
  | row (group element : Nat) (vr : List Nat) (length : Nat) (keyword name : List Nat)
  /-- the row of a sequence element, up to the value column -/
  | sq_row (group element : Nat) (vr : List Nat) (keyword name : List Nat)
  /-- a call `display_value(vr, data, length, depth, &ctx)` -/
  | value (vr data : List Nat) (length : Nat) (depth : Int) (ctx : display_context)
  /-- `[EMPTY SEQUENCE]` or `[SEQUENCE with N ITEM(S)]` -/
  | sq_collapsed (item_count : Int)
  /-- `(sequence - defined length: N bytes)` -/
  | sq_defined_length (length : Nat)
  /-- `[EMPTY SEQUENCE ABOVE MAX DEPTH]` or `[N ITEM(S) ABOVE MAX SEQUENCE DEPTH]` -/
  | above_max_depth (item_count : Int)
  /-- the line `(FFFE,E000) ... (begin item)`; `none` for undefined length -/
  | item_start (length : Option Nat)
  /-- the line `(FFFE,E00D) ... (end item)` -/
  | item_end
  /-- the line `(FFFE,E0DD) ... (end sequence)` -/
  | seq_end
  /-- the line `... (stopping: pixel data encountered)` of `parse_data_elements` -/
  | pixel_data (group element : Nat)
  /-- the line `... (pixel data encountered: stopping)` of `parse_dicom_header` -/
  | pixel_data_top (group element : Nat)
  /-- `Warning: Invalid VR 'c0c1' at tag (group,element), skipping` on `stderr` -/
  | warn_invalid_vr (c0 c1 group element : Nat)
  /-- the closing line `[Parsed N element(s)]` -/
  | footer (n : Int)
deriving DecidableEq, Repr

/-- The file cursor, `*element_count` and everything written so far. -/
structure Run where
  fp : FILE
  element_count : Int
  out : List Out
deriving DecidableEq, Repr

def Run.emit (r : Run) (o : List Out) : Run := { r with out := r.out ++ o }

def should_disp_tag (tag : Nat) (filter : Option (List Nat)) : Bool :=
  match filter with
  | none => true
  | some tags => if tags.length = 0 then true else tags.any (fun t => t == tag)

def read_uint16 (fp : FILE) (state : parser_state) : Nat × FILE :=
  if state.is_little_endian then read_uint16_le fp else read_uint16_be fp

def read_uint32 (fp : FILE) (state : parser_state) : Nat × FILE :=
  if state.is_little_endian then read_uint32_le fp else read_uint32_be fp

def is_explicit_vr_long (vr : List Nat) : Bool :=
  if strlen vr != 2 then false
  else
    streq vr (cstr "OB") || streq vr (cstr "OD") ||
    streq vr (cstr "OF") || streq vr (cstr "OL") ||
    streq vr (cstr "OW") || streq vr (cstr "SQ") ||
    streq vr (cstr "UC") || streq vr (cstr "UN") ||
    streq vr (cstr "UR") || streq vr (cstr "UT")

def valid_vrs : List (List Nat) :=
  [cstr "AE", cstr "AS", cstr "AT", cstr "CS", cstr "DA", cstr "DS", cstr "DT", cstr "FD",
   cstr "FL", cstr "IS", cstr "LO", cstr "LT", cstr "OB", cstr "OD", cstr "OF", cstr "OL",
   cstr "OW", cstr "PN", cstr "SH", cstr "SL", cstr "SQ", cstr "SS", cstr "ST", cstr "TM",
   cstr "UC", cstr "UI", cstr "UL", cstr "UN", cstr "UR", cstr "US", cstr "UT"]

def is_valid_vr (vr : List Nat) : Bool :=
  if strlen vr != 2 then false
  else if !(vr.take 2).all (fun b =>
      (to_char b ≥ 65 && to_char b ≤ 90) || (to_char b ≥ 48 && to_char b ≤ 57)) then false
  else valid_vrs.any (fun v => streq vr v)

def print_indent (depth : Int) : List Out := List.replicate (depth * 2).toNat (Out.lit "  ")

/-! ## Element headers and values -/

/-- Outcome of reading the VR and length fields of an element header. -/
inductive Header where
  /-- `fread(vr, 1, 2, fp) != 2` -/
  | truncated (fp : FILE)
  /-- `!is_valid_vr(vr)` -/
  | invalid (vr : List Nat) (fp : FILE)
  /-- the VR buffer and the length that were read -/
  | ok (vr : List Nat) (length : Nat) (fp : FILE)
deriving DecidableEq, Repr

/-- Lines 312-335 of `parse_data_elements`, repeated as lines 555-580 of
`parse_dicom_header`: read the VR and the length that follow a tag. -/
def read_vr_length (env : Env) (state : parser_state) (tag : Nat) (fp : FILE) : Header :=
  if state.is_explicit_vr then
    let vr := fread fp 2
    if vr.1.length ≠ 2 then Header.truncated vr.2
    else if !is_valid_vr vr.1 then Header.invalid vr.1 vr.2
    else if is_explicit_vr_long vr.1 then
      let length := read_uint32 (fseek_cur vr.2 2).2 state
      Header.ok vr.1 length.1 length.2
    else
      let length := read_uint16 vr.2 state
      Header.ok vr.1 length.1 length.2
  else
    let length := read_uint32 fp state
    match env.dicom_get_vr tag with
    | some dict_vr => Header.ok (strncpy2 dict_vr) length.1 length.2
    | none => Header.ok (cstr "UN") length.1 length.2

/-- Lines 162-179 of `count_sequence_items`: the VR and the length that follow
the tag `(g,e)`; here the VR is not validated. -/
def count_item_header (env : Env) (state : parser_state) (g e : Nat) (fp : FILE) : Header :=
  if state.is_explicit_vr then
    let vr := fread fp 2
    if vr.1.length ≠ 2 then Header.truncated vr.2
    else if is_explicit_vr_long vr.1 then
      let tag_len := read_uint32 (fseek_cur vr.2 2).2 state
      Header.ok vr.1 tag_len.1 tag_len.2
    else
      let tag_len := read_uint16 vr.2 state
      Header.ok vr.1 tag_len.1 tag_len.2
  else
    let tag_len := read_uint32 fp state
    match env.dicom_get_vr ((g <<< 16) ||| e) with
    | some dict_vr => Header.ok (strncpy2 dict_vr) tag_len.1 tag_len.2
    | none => Header.ok (cstr "UN") tag_len.1 tag_len.2

/-! ## count_sequence_items -/

/-- What one pass through the body of the outer loop of `count_sequence_items`
asks for. -/
inductive CountStep where
  /-- the loop is left (`break`) with the cursor as given; `end_pos` is set when
  the sequence delimiter was read (line 145) -/
  | stop (end_pos : Option Int) (fp : FILE)
  /-- an `(FFFE,xxxx)` element that is neither item nor delimiter: next pass -/
  | skip (fp : FILE)
  /-- an item was counted and skipped; `*end_pos = ftell(fp)`, `continue` -/
  | item (fp : FILE)
  /-- an item of undefined length was counted; its body is to be scanned -/
  | item_undefined (fp : FILE)
deriving DecidableEq, Repr

/-- Lines 136-199 of `count_sequence_items` without the inner loop. -/
def count_step (state : parser_state) (fp : FILE) : CountStep :=
  let current_pos := ftell fp
  let group := read_uint16 fp state
  let element := read_uint16 group.2 state
  if feof element.2 then CountStep.stop none element.2
  else if group.1 = 0xFFFE then
    let length := read_uint32 element.2 state
    if element.1 = 0xE0DD then CountStep.stop (some (ftell length.2)) length.2
    else if element.1 = 0xE000 then
      if length.1 = 0xFFFFFFFF then CountStep.item_undefined length.2
      else if length.1 > 0 then CountStep.item (fseek_cur length.2 length.1).2
      else CountStep.item length.2
    else CountStep.skip length.2
  else CountStep.stop none (fseek_set element.2 current_pos).2

/-- What one pass through the body of the inner loop of `count_sequence_items`
asks for. -/
inductive BodyStep where
  /-- the loop is left (`break`) -/
  | stop (fp : FILE)
  /-- the element was skipped: next pass -/
  | next (fp : FILE)
  /-- a nested sequence of undefined length is to be counted (line 184) -/
  | sequence (fp : FILE)
deriving DecidableEq, Repr

/-- Lines 153-188 of `count_sequence_items` without the recursive call. -/
def body_step (env : Env) (state : parser_state) (fp : FILE) : BodyStep :=
  let g := read_uint16 fp state
  let e := read_uint16 g.2 state
  if feof e.2 then BodyStep.stop e.2
  else if g.1 = 0xFFFE ∧ e.1 = 0xE00D then BodyStep.stop (read_uint32 e.2 state).2
  else
    match count_item_header env state g.1 e.1 e.2 with
    | Header.truncated fp1 => BodyStep.stop fp1
    | Header.invalid _ fp1 => BodyStep.stop fp1
    | Header.ok vr tag_len fp1 =>
      if streq vr (cstr "SQ") then
        if tag_len = 0xFFFFFFFF then BodyStep.sequence fp1
        else if tag_len > 0 then BodyStep.next (fseek_cur fp1 tag_len).2
        else BodyStep.next fp1
      else if tag_len > 0 ∧ tag_len ≠ 0xFFFFFFFF then BodyStep.next (fseek_cur fp1 tag_len).2
      else BodyStep.next fp1

mutual
/-- The outer `while (!feof(fp))` loop of `count_sequence_items`, entered with
the running `item_count` and `*end_pos`; returns `(item_count, *end_pos, fp)`. -/
def count_sequence_items_loop (env : Env) (state : parser_state) :
    Nat → Int → Int → FILE → Option (Int × Int × FILE)
  | 0, _, _, _ => none
  | fuel + 1, item_count, end_pos, fp =>
    if feof fp then some (item_count, end_pos, fp)
    else
      match count_step state fp with
      | CountStep.stop none fp1 => some (item_count, end_pos, fp1)
      | CountStep.stop (some e) fp1 => some (item_count, e, fp1)
      | CountStep.skip fp1 => count_sequence_items_loop env state fuel item_count end_pos fp1
      | CountStep.item fp1 =>
        count_sequence_items_loop env state fuel (item_count + 1) (ftell fp1) fp1
      | CountStep.item_undefined fp1 =>
        (count_item_body env state fuel fp1).bind fun fp2 =>
          count_sequence_items_loop env state fuel (item_count + 1) (ftell fp2) fp2
/-- The inner `while (!feof(fp))` loop of `count_sequence_items`, over the
elements of an item of undefined length. -/
def count_item_body (env : Env) (state : parser_state) : Nat → FILE → Option FILE
  | 0, _ => none
  | fuel + 1, fp =>
    if feof fp then some fp
    else
      match body_step env state fp with
      | BodyStep.stop fp1 => some fp1
      | BodyStep.next fp1 => count_item_body env state fuel fp1
      | BodyStep.sequence fp1 =>
        (count_sequence_items_loop env state fuel 0 (ftell fp1) fp1).bind fun res =>
          count_item_body env state fuel res.2.2
end

/-- Model of `count_sequence_items`: `(item_count, *end_pos, fp)`. -/
def count_sequence_items (env : Env) (state : parser_state) (fuel : Nat) (fp : FILE) :
    Option (Int × Int × FILE) :=
  count_sequence_items_loop env state fuel 0 (ftell fp) fp

/-- Lines 346 and 591: `state.is_explicit_vr ? vr : (dict_vr ? dict_vr : "UN")`. -/
def actual_vr (env : Env) (state : parser_state) (tag : Nat) (vr : List Nat) : List Nat :=
  if state.is_explicit_vr then cstring vr
  else match env.dicom_get_vr tag with
    | some dict_vr => cstring dict_vr
    | none => cstr "UN"

/-- Lines 348-355 and 592-599: the keyword column. -/
def display_keyword (env : Env) (group tag : Nat) : List Nat :=
  match env.dicom_get_keyword tag with
  | some keyword =>
    if group &&& 0x0001 ≠ 0 then (cstr "[PRIVATE TAG] " ++ cstring keyword).take 99
    else cstring keyword
  | none => if group &&& 0x0001 ≠ 0 then cstr "[PRIVATE TAG]" else cstr "[N/A]"

/-- The name column: `name ? name : "[N/A]"`. -/
def display_name (env : Env) (tag : Nat) : List Nat :=
  match env.dicom_get_name tag with
  | some name => cstring name
  | none => cstr "[N/A]"

/-- Lines 420-441 and 672-693: the value of at most 4096 bytes is read and
shown, the rest is skipped. The flag tells whether the loop is left by `break`. -/
def read_and_display (env : Env) (state : parser_state) (vr : List Nat) (length : Nat)
    (depth : Int) (r : Run) : Bool × Run :=
  let read_len := if length < 4096 then length else 4096
  if env.malloc_ok r.fp.pos then
    let value_data := fread r.fp read_len
    let bytes_read := value_data.1.length
    let shown : List Out := if bytes_read > 0
      then [Out.value vr value_data.1 bytes_read depth (create_display_context env state)]
      else []
    if length > read_len then
      let sk := fseek_cur value_data.2 ((length : Int) - (read_len : Int))
      if sk.1 ≠ 0 then
        (true, { r with fp := sk.2, out := r.out ++ shown ++
          [Out.err "\nERROR: Failed to seek in file\n"] })
      else (false, { r with fp := sk.2, out := r.out ++ shown })
    else (false, { r with fp := value_data.2, out := r.out ++ shown })
  else
    (false, { r with fp := (fseek_cur r.fp length).2,
                     out := r.out ++ [Out.lit "(memory alloc failed)"] })

/-- Lines 445-450 and 696-701: a value too large to display is skipped. -/
def skip_large (length : Nat) (r : Run) : Bool × Run :=
  let sk := fseek_cur r.fp length
  if sk.1 ≠ 0 then
    (true, { r with fp := sk.2, out := r.out ++ [Out.lit "(too large to display)",
      Out.err "\nERROR: Failed to seek past large element\n"] })
  else (false, { r with fp := sk.2, out := r.out ++ [Out.lit "(too large to display)"] })

/-- Lines 419-451 of `parse_data_elements`: the value of a non-sequence
element. The flag tells whether the loop is left by `break`. -/
def element_value (env : Env) (state : parser_state) (vr : List Nat) (length : Nat)
    (depth : Int) (r : Run) : Bool × Run :=
  if length > 0 ∧ length ≠ 0xFFFFFFFF ∧ length < 1024 * 1024 then
    read_and_display env state vr length depth r
  else if length = 0xFFFFFFFF then (false, r.emit [Out.lit "(undefined length - non-sequence)"])
  else if length = 0 then (false, r.emit [Out.lit "(empty)"])
  else skip_large length r

/-- What one pass through the body of the loop of `parse_data_elements` asks
for, up to the point where a sequence would be entered. -/
inductive Step where
  /-- the function returns `code`: a `return`, or a `break` (then `code` is 0) -/
  | ret (code : Int) (r : Run)
  /-- the loop goes on: `continue`, or the end of the body -/
  | next (r : Run)
  /-- a sequence element of the given length, its row printed (line 365) -/
  | sequence (length : Nat) (r : Run)
deriving DecidableEq, Repr

/-- Lines 290-365 and 410-454 of `parse_data_elements`: the body of the loop
without the handling of a sequence (lines 367-407). -/
def data_element (env : Env) (state : parser_state) (filter : Option (List Nat))
    (depth : Int) (r : Run) : Step :=
  let group := read_uint16 r.fp state
  let element := read_uint16 group.2 state
  if feof element.2 then Step.ret 0 { r with fp := element.2 }
  else
    let tag := (group.1 <<< 16) ||| element.1
    if depth > 0 ∧ group.1 = 0xFFFE then Step.ret 0 { r with fp := (fseek_cur element.2 (-4)).2 }
    else if group.1 = 0x7FE0 ∧ element.1 = 0x0010 then
      Step.ret 1 { fp := element.2, element_count := r.element_count + 1,
                   out := r.out ++ print_indent depth ++ [Out.pixel_data group.1 element.1] }
    else
      match read_vr_length env state tag element.2 with
      | Header.truncated fp => Step.ret 0 { r with fp := fp }
      | Header.invalid vr fp =>
        Step.ret 0 { r with fp := fp, out := r.out ++
          [Out.warn_invalid_vr (vr.getD 0 0) (vr.getD 1 0) group.1 element.1] }
      | Header.ok vr length fp =>
        if should_disp_tag tag filter = false ∧ tag ≠ 0x00020010 then
          Step.next { r with fp := (fseek_cur fp length).2 }
        else if streq (actual_vr env state tag vr) (cstr "SQ") then
          Step.sequence length { r with fp := fp, out := r.out ++ print_indent depth ++
            [Out.sq_row group.1 element.1 (actual_vr env state tag vr)
              (display_keyword env group.1 tag) (display_name env tag)] }
        else
          let v := element_value env state (actual_vr env state tag vr) length depth
            { r with fp := fp, out := r.out ++ print_indent depth ++
              [Out.row group.1 element.1 (actual_vr env state tag vr) length
                (display_keyword env group.1 tag) (display_name env tag)] }
          if v.1 then Step.ret 0 v.2
          else
            Step.next { v.2 with element_count := v.2.element_count + 1,
                                 out := v.2.out ++ [Out.lit "\n"] }

/-- What one pass through the body of the loop of `parse_sequence` asks for. -/
inductive SeqStep where
  /-- the function returns `code` -/
  | ret (code : Int) (r : Run)
  /-- the loop goes on (`continue`) -/
  | next (r : Run)
  /-- an item of the given length field, its start line printed (line 251) -/
  | item (length : Nat) (r : Run)
deriving DecidableEq, Repr

/-- Lines 222-251 and 271-281 of `parse_sequence`: the body of the loop without
the parsing of the inside of an item (lines 253-269). -/
def sequence_item (state : parser_state) (depth : Int) (r : Run) : SeqStep :=
  let group := read_uint16 r.fp state
  let element := read_uint16 group.2 state
  if feof element.2 then SeqStep.ret (-1) { r with fp := element.2 }
  else if group.1 = 0xFFFE then
    let length := read_uint32 element.2 state
    if element.1 = 0xE0DD then
      SeqStep.ret 0 { fp := length.2, element_count := r.element_count + 1,
                      out := r.out ++ print_indent depth ++ [Out.seq_end] }
    else if element.1 = 0xE000 then
      SeqStep.item length.1
        { fp := length.2, element_count := r.element_count + 1,
          out := r.out ++ print_indent depth ++
            [Out.item_start (if length.1 = 0xFFFFFFFF then none else some length.1)] }
    else if element.1 = 0xE00D then
      SeqStep.next { fp := length.2, element_count := r.element_count + 1,
                     out := r.out ++ print_indent depth ++ [Out.item_end] }
    else SeqStep.ret 0 { r with fp := (fseek_cur length.2 (-4)).2 }
  else SeqStep.ret 0 { r with fp := (fseek_cur element.2 (-4)).2 }

/-! ## parse_sequence and parse_data_elements -/

mutual
/-- Model of `parse_sequence`: the return value and the state after. -/
def parse_sequence (env : Env) (state : parser_state) (max_elements : Int)
    (filter : Option (List Nat)) : Nat → Int → Run → Option (Int × Run)
  | 0, _, _ => none
  | fuel + 1, depth, r =>
    if depth > state.max_sq_depth then
      (count_sequence_items env state fuel r.fp).bind fun res =>
        some (-1, { r with fp := res.2.2,
                           out := r.out ++ print_indent (depth - 1) ++ [Out.above_max_depth res.1] })
    else parse_sequence_loop env state max_elements filter fuel depth r
/-- The `while` loop of `parse_sequence` (lines 221-284). The part of the body
that does not recurse is `sequence_item`. -/
def parse_sequence_loop (env : Env) (state : parser_state) (max_elements : Int)
    (filter : Option (List Nat)) : Nat → Int → Run → Option (Int × Run)
  | 0, _, _ => none
  | fuel + 1, depth, r =>
    if feof r.fp ∨ ¬ r.element_count < max_elements then some (0, r)
    else
      match sequence_item state depth r with
      | SeqStep.ret code r1 => some (code, r1)
      | SeqStep.next r1 => parse_sequence_loop env state max_elements filter fuel depth r1
      | SeqStep.item length r1 =>
        if length = 0xFFFFFFFF then
          (parse_data_elements env state max_elements filter fuel (depth + 1) r1).bind fun res =>
            parse_sequence_loop env state max_elements filter fuel depth res.2
        else if length > 0 then
          let start_pos := ftell r1.fp
          (parse_data_elements env state max_elements filter fuel (depth + 1) r1).bind fun res =>
            let end_pos := ftell res.2.fp
            let bytes_read := end_pos - start_pos
            parse_sequence_loop env state max_elements filter fuel depth
              (if bytes_read < (length : Int)
                then { res.2 with fp := (fseek_set res.2.fp (start_pos + (length : Int))).2 }
                else res.2)
        else parse_sequence_loop env state max_elements filter fuel depth r1
/-- Model of `parse_data_elements`: the return value and the state after. The
part of the loop body that does not recurse is `data_element`. -/
def parse_data_elements (env : Env) (state : parser_state) (max_elements : Int)
    (filter : Option (List Nat)) : Nat → Int → Run → Option (Int × Run)
  | 0, _, _ => none
  | fuel + 1, depth, r =>
    if feof r.fp ∨ ¬ r.element_count < max_elements then some (0, r)
    else
      match data_element env state filter depth r with
      | Step.ret code r1 => some (code, r1)
      | Step.next r1 => parse_data_elements env state max_elements filter fuel depth r1
      | Step.sequence length r1 =>
        if state.collapse_sequences then
          (count_sequence_items env state fuel r1.fp).bind fun res =>
            parse_data_elements env state max_elements filter fuel depth
              { fp := res.2.2, element_count := r1.element_count + 1,
                out := r1.out ++ [Out.sq_collapsed res.1] }
        else if length = 0xFFFFFFFF then
          (parse_sequence env state max_elements filter fuel (depth + 1)
              { r1 with element_count := r1.element_count + 1,
                        out := r1.out ++ [Out.lit "(sequence - undefined length)\n"] }).bind
            fun res =>
              parse_data_elements env state max_elements filter fuel depth
                (res.2.emit (print_indent depth ++ [Out.rule]))
        else if length = 0 then
          parse_data_elements env state max_elements filter fuel depth
            { r1 with element_count := r1.element_count + 1,
                      out := r1.out ++ [Out.lit "(empty sequence)\n"] }
        else
          let start_pos := ftell r1.fp
          (parse_sequence env state max_elements filter fuel (depth + 1)
              { r1 with element_count := r1.element_count + 1,
                        out := r1.out ++ [Out.sq_defined_length length] }).bind
            fun res =>
              let end_pos := ftell res.2.fp
              let bytes_read := end_pos - start_pos
              parse_data_elements env state max_elements filter fuel depth
                ((if bytes_read < (length : Int)
                  then { res.2 with fp := (fseek_set res.2.fp (start_pos + (length : Int))).2 }
                  else res.2).emit (print_indent depth ++ [Out.rule]))
end

/-! ## parse_dicom_header -/

def DICOM_PREAMBLE_SIZE : Nat := 128
def DICOM_PREFIX_SIZE : Nat := 4
def DICOM_PREFIX : List Nat := cstr "DICM"
def TS_IMPLICIT_VR_LITTLE_ENDIAN : List Nat := cstr "1.2.840.10008.1.2"
def TS_EXPLICIT_VR_LITTLE_ENDIAN : List Nat := cstr "1.2.840.10008.1.2.1"
def TS_EXPLICIT_VR_BIG_ENDIAN : List Nat := cstr "1.2.840.10008.1.2.2"

/-- Why a run of the model stops without a result. -/
inductive Halt where
  /-- the fuel of the model is used up -/
  | out_of_fuel
  /-- the program reads outside `transfer_syntax_uid[65]` (undefined behaviour) -/
  | out_of_bounds
deriving DecidableEq, Repr

/-- The locals of `parse_dicom_header` that live across iterations of its loop. -/
structure Top where
  state : parser_state
  in_file_meta : Bool
  transfer_syntax_uid : List Nat
  run : Run
deriving DecidableEq, Repr

/-- Lines 521-544: the switch of the parser mode when the file meta group ends.
Returns the new `state`, the new `in_file_meta` and what is printed. -/
def ts_switch (state : parser_state) (in_file_meta : Bool) (group : Nat)
    (transfer_syntax_uid : List Nat) : parser_state × Bool × List Out :=
  if in_file_meta = true ∧ group ≠ 0x0002 then
    if strlen transfer_syntax_uid > 0 then
      if streq transfer_syntax_uid TS_IMPLICIT_VR_LITTLE_ENDIAN then
        ({ state with ts_type := transfer_syntax_type.TRANSFER_IMPLICIT_VR_LITTLE_ENDIAN,
                      is_explicit_vr := false, is_little_endian := true }, false,
          [Out.lit "\n\t[Transfer Syntax: Implicit VR Little Endian]\n\n"])
      else if streq transfer_syntax_uid TS_EXPLICIT_VR_BIG_ENDIAN then
        ({ state with ts_type := transfer_syntax_type.TRANSFER_EXPLICIT_VR_BIG_ENDIAN,
                      is_explicit_vr := true, is_little_endian := false }, false,
          [Out.lit "\n\t[Transfer Syntax: Explicit VR Big Endian]\n\n"])
      else
        ({ state with ts_type := transfer_syntax_type.TRANSFER_EXPLICIT_VR_LITTLE_ENDIAN,
                      is_explicit_vr := true, is_little_endian := true }, false,
          [Out.lit "\n\t[Transfer Syntax: Explicit VR Little Endian]\n\n"])
    else (state, false, [])
  else (state, in_file_meta, [])

/-- Lines 660-663: the loop that right-trims `transfer_syntax_uid`, started at
index `i`. The index is a `uint32_t`, so `i >= 0` always holds and `i--` wraps
around at 0; an access outside the buffer halts the model. -/
def ts_trim : Nat → List Nat → Nat → Except Halt (List Nat)
  | 0, _, _ => Except.error Halt.out_of_fuel
  | fuel + 1, buf, i =>
    match buf.get? i with
    | none => Except.error Halt.out_of_bounds
    | some c =>
      if c = 32 ∨ c = 0 then ts_trim fuel (buf.set i 0) ((i + 4294967295) % 4294967296)
      else Except.ok buf

/-- Lines 657-670: the capture of the transfer syntax UID. Returns the capture
buffer and the state after. -/
def ts_capture (env : Env) (state : parser_state) (fuel : Nat) (vr : List Nat)
    (length : Nat) (should_display : Bool) (transfer_syntax_uid : List Nat) (r : Run) :
    Except Halt (List Nat × Run) :=
  let got := fread r.fp length
  let uid := got.1 ++ transfer_syntax_uid.drop got.1.length
  if got.1.length = length then
    match ts_trim fuel (uid.set length 0) (length - 1) with
    | Except.error e => Except.error e
    | Except.ok uid1 =>
      Except.ok (uid1, { r with fp := got.2, out := r.out ++
        (if should_display
          then [Out.value vr (cstring uid1) (strlen uid1) 0 (create_display_context env state)]
          else []) })
  else Except.ok (uid, { r with fp := got.2 })

/-- Lines 657-702 of `parse_dicom_header`: the value of a non-sequence element
at top level. Returns the flag "left by `break`", the capture buffer and the
state after. -/
def top_value (env : Env) (state : parser_state) (fuel : Nat) (tag : Nat) (vr : List Nat)
    (length : Nat) (should_display : Bool) (transfer_syntax_uid : List Nat) (r : Run) :
    Except Halt (Bool × List Nat × Run) :=
  if tag = 0x00020010 ∧ length > 0 ∧ length < 65 then
    match ts_capture env state fuel vr length should_display transfer_syntax_uid r with
    | Except.error e => Except.error e
    | Except.ok res => Except.ok (false, res.1, res.2)
  else if length > 0 ∧ length ≠ 0xFFFFFFFF ∧ length < 1024 * 1024 then
    Except.ok ((read_and_display env state vr length 0 r).1, transfer_syntax_uid,
      (read_and_display env state vr length 0 r).2)
  else if length = 0 then Except.ok (false, transfer_syntax_uid, r.emit [Out.lit "(empty)"])
  else Except.ok ((skip_large length r).1, transfer_syntax_uid, (skip_large length r).2)

/-- Lines 601-644 of `parse_dicom_header`: a sequence element at top level,
after its VR and length were read. -/
def top_sequence (env : Env) (state : parser_state) (max_elements : Int)
    (filter : Option (List Nat)) (fuel : Nat) (group element : Nat) (avr : List Nat)
    (length : Nat) (r : Run) : Except Halt Run :=
  let tag := (group <<< 16) ||| element
  let r1 : Run := { r with out := r.out ++
    [Out.sq_row group element avr (display_keyword env group tag) (display_name env tag)] }
  if state.collapse_sequences then
    match count_sequence_items env state fuel r1.fp with
    | none => Except.error Halt.out_of_fuel
    | some res =>
      Except.ok { fp := res.2.2, element_count := r1.element_count + 1,
                  out := r1.out ++ [Out.sq_collapsed res.1] }
  else
    let r2 : Run := { r1 with element_count := r1.element_count + 1, out := r1.out ++
      [if length = 0xFFFFFFFF then Out.lit "(sequence - undefined length)\n"
       else if length = 0 then Out.lit "(empty sequence)\n"
       else Out.lit "(sequence - defined length)\n"] }
    if length = 0xFFFFFFFF then
      match parse_sequence env state max_elements filter fuel 1 r2 with
      | none => Except.error Halt.out_of_fuel
      | some res => Except.ok (res.2.emit [Out.lit "  ", Out.rule])
    else if length > 0 then
      let start_pos := ftell r2.fp
      match parse_sequence env state max_elements filter fuel 1 r2 with
      | none => Except.error Halt.out_of_fuel
      | some res =>
        let end_pos := ftell res.2.fp
        Except.ok ((if end_pos - start_pos < (length : Int)
          then { res.2 with fp := (fseek_set res.2.fp (start_pos + (length : Int))).2 }
          else res.2).emit [Out.lit "  ", Out.rule])
    else Except.ok r2

/-- Lines 546-705 of `parse_dicom_header`: the rest of the loop body once the
tag `(group,element)` was read and the mode was set. Returns the flag "the loop
goes on" (`continue` or end of body, as opposed to `break`), the capture buffer
and the state after. -/
def top_element (env : Env) (state : parser_state) (max_elements : Int)
    (filter : Option (List Nat)) (fuel : Nat) (group element : Nat)
    (transfer_syntax_uid : List Nat) (r : Run) : Except Halt (Bool × List Nat × Run) :=
  let tag := (group <<< 16) ||| element
  if group = 0x7FE0 ∧ element = 0x0010 then
    Except.ok (false, transfer_syntax_uid, r.emit
      ([Out.pixel_data_top group element] ++ List.replicate 148 (Out.lit "=") ++ [Out.lit "\n"]))
  else
    match read_vr_length env state tag r.fp with
    | Header.truncated fp => Except.ok (false, transfer_syntax_uid, { r with fp := fp })
    | Header.invalid vr fp =>
      Except.ok (false, transfer_syntax_uid, { r with fp := fp, out := r.out ++
        [Out.warn_invalid_vr (vr.getD 0 0) (vr.getD 1 0) group element] })
    | Header.ok vr length fp =>
      if should_disp_tag tag filter = false ∧ tag ≠ 0x00020010 then
        Except.ok (true, transfer_syntax_uid, { r with fp := (fseek_cur fp length).2 })
      else if streq (actual_vr env state tag vr) (cstr "SQ") then
        match top_sequence env state max_elements filter fuel group element
            (actual_vr env state tag vr) length { r with fp := fp } with
        | Except.error e => Except.error e
        | Except.ok r1 => Except.ok (true, transfer_syntax_uid, r1)
      else
        match top_value env state fuel tag (actual_vr env state tag vr) length
            (should_disp_tag tag filter) transfer_syntax_uid
            { r with fp := fp, out := r.out ++
              (if should_disp_tag tag filter
                then [Out.row group element (actual_vr env state tag vr) length
                  (display_keyword env group tag) (display_name env tag)]
                else []) } with
        | Except.error e => Except.error e
        | Except.ok res =>
          if res.1 then Except.ok (false, res.2.1, res.2.2)
          else
            Except.ok (true, res.2.1,
              { res.2.2 with element_count := res.2.2.element_count + 1,
                             out := res.2.2.out ++
                               (if should_disp_tag tag filter then [Out.lit "\n"] else []) })

/-- One iteration of the loop of `parse_dicom_header` (the body, lines 514-705),
entered when the loop condition holds. The flag tells whether the loop goes on
(`continue` or end of body) or is left (`break`). -/
def top_step (env : Env) (max_elements : Int) (filter : Option (List Nat)) (fuel : Nat)
    (t : Top) : Except Halt (Bool × Top) :=
  let group := read_uint16 t.run.fp t.state
  let element := read_uint16 group.2 t.state
  if feof element.2 then Except.ok (false, { t with run := { t.run with fp := element.2 } })
  else
    let sw := ts_switch t.state t.in_file_meta group.1 t.transfer_syntax_uid
    match top_element env sw.1 max_elements filter fuel group.1 element.1 t.transfer_syntax_uid
        { t.run with fp := element.2, out := t.run.out ++ sw.2.2 } with
    | Except.error e => Except.error e
    | Except.ok res =>
      Except.ok (res.1, { state := sw.1, in_file_meta := sw.2.1,
                          transfer_syntax_uid := res.2.1, run := res.2.2 })

/-- The loop of `parse_dicom_header` (line 513). -/
def top_loop (env : Env) (max_elements : Int) (filter : Option (List Nat)) :
    Nat → Top → Except Halt Top
  | 0, _ => Except.error Halt.out_of_fuel
  | fuel + 1, t =>
    if feof t.run.fp ∨ ¬ t.run.element_count < max_elements then Except.ok t
    else
      match top_step env max_elements filter fuel t with
      | Except.error e => Except.error e
      | Except.ok res => if res.1 then top_loop env max_elements filter fuel res.2 else Except.ok res.2

/-- The return value of `parse_dicom_header` and everything it wrote. -/
structure Result where
  ret : Int
  out : List Out
deriving DecidableEq, Repr

/-- The state of line 491 and the locals of lines 509-511, after the three
header lines were printed. -/
def top_init (collapse_sequences : Bool) (max_sq_depth : Int) (show_full_values : Bool)
    (fp : FILE) : Top :=
  { state :=
      { ts_type := transfer_syntax_type.TRANSFER_EXPLICIT_VR_LITTLE_ENDIAN
        is_explicit_vr := true
        is_little_endian := true
        collapse_sequences := collapse_sequences
        max_sq_depth := max_sq_depth
        overwrite_max_disp_len := show_full_values }
    in_file_meta := true
    transfer_syntax_uid := List.replicate 65 0
    run :=
      { fp := fp
        element_count := 0
        out := [Out.lit "DICOM version: 2025d\n", Out.table_header, Out.rule] } }

/-- Model of `parse_dicom_header`. `file` is what `fopen(filename, "rb")`
gives: `none` when the file cannot be opened, else its octets. The file name is no
argument of the model: the two messages of lines 464 and 470, which the program
writes with the file name between quotes (`Cannot open file '%s'`,
`Cannot read file '%s': ...`), stand here without it. -/
def parse_dicom_header (env : Env) (fuel : Nat) (file : Option (List Nat)) (max_elements : Int)
    (collapse_sequences : Bool) (max_sq_depth : Int) (show_full_values : Bool)
    (filter : Option (List Nat)) : Except Halt Result :=
  match file with
  | none => Except.ok { ret := -1, out := [Out.err "Error: Cannot open file\n"] }
  | some data =>
    let preamble := fread { data := data, pos := 0, eof := false } DICOM_PREAMBLE_SIZE
    if preamble.1.length ≠ DICOM_PREAMBLE_SIZE then
      Except.ok { ret := -1, out :=
        [Out.err "Error: Cannot read file: Invalid DICOM file (header too short)\n"] }
    else
      let pfx := fread preamble.2 DICOM_PREFIX_SIZE
      if pfx.1.length ≠ DICOM_PREFIX_SIZE then
        Except.ok { ret := -1, out :=
          [Out.err "Error: Invalid DICOM file (missing DICM prefix from header)\n"] }
      else if pfx.1 ≠ DICOM_PREFIX then
        Except.ok { ret := -1, out := [Out.err "Error: Invalid DICM prefix from header\n"] }
      else
        match top_loop env max_elements filter fuel
            (top_init collapse_sequences max_sq_depth show_full_values pfx.2) with
        | Except.error e => Except.error e
        | Except.ok t =>
          Except.ok { ret := 0, out := t.run.out ++ [Out.footer t.run.element_count] }

/-! ## display_value: the display width -/

def INT_MAX : Int := 2147483647

/-- Line 14 of `dicom_display.c`: `depth * 2 * 2`. The `int` arithmetic of lines
14-16 is taken in the integers (an overflow is undefined in C). -/
def indent_width (depth : Int) : Int := depth * 2 * 2

/-- Lines 15-16 of `dicom_display.c`. -/
def max_val_width_int (depth : Int) (ctx : display_context) : Int :=
  if ctx.overwrite_max_disp_len then INT_MAX
  else ctx.terminal_width - ctx.val_col_start - indent_width depth - 10

/-- Line 17 of `dicom_display.c`: the `uint32_t` width used by `display_value`. -/
def max_val_width (depth : Int) (ctx : display_context) : Nat :=
  if max_val_width_int depth ctx > 0 then (max_val_width_int depth ctx).toNat % 4294967296
  else 20

/-! ## main: the command line -/

def DEFAULT_MAX_ELEMENTS : Int := 250
def DEFAULT_MAX_SQ_DEPTH : Int := 5
def MAX_FILTER_TAGS : Nat := 100

/-- Model of `isspace` in the C locale. -/
def isspace (c : Nat) : Bool := c == 32 || (9 ≤ c && c ≤ 13)

/-- The value of `c` as a digit, for the letters too. -/
def digit_value (c : Nat) : Option Nat :=
  if 48 ≤ c ∧ c ≤ 57 then some (c - 48)
  else if 97 ≤ c ∧ c ≤ 122 then some (c - 97 + 10)
  else if 65 ≤ c ∧ c ≤ 90 then some (c - 65 + 10)
  else none

/-- The longest run of digits of the given base at the head of `s`: its value
after `acc` and the number of characters. -/
def read_digits (base : Nat) : List Nat → Nat → Nat × Nat
  | [], acc => (acc, 0)
  | c :: s, acc =>
    match digit_value c with
    | some d =>
      if d < base then ((read_digits base s (acc * base + d)).1,
                        (read_digits base s (acc * base + d)).2 + 1)
      else (acc, 0)
    | none => (acc, 0)

/-- The characters of `s` after leading white space, the sign found there
(`true` for `-`), and the number of characters before the digits. -/
def skip_space_sign (s : List Nat) : List Nat × Bool × Nat :=
  let ws := (s.takeWhile isspace).length
  match s.drop ws with
  | 45 :: t => (t, true, ws + 1)
  | 43 :: t => (t, false, ws + 1)
  | t => (t, false, ws)

/-- Model of `strtol(s, &endptr, 10)` with a 64-bit `long`: the value and
`endptr - s`. -/
def strtol (s : List Nat) : Int × Nat :=
  let h := skip_space_sign s
  let d := read_digits 10 h.1 0
  if d.2 = 0 then (0, 0)
  else if h.2.1 then
    ((if d.1 > 9223372036854775808 then -9223372036854775808 else -(d.1 : Int)), h.2.2 + d.2)
  else ((if d.1 > 9223372036854775807 then 9223372036854775807 else (d.1 : Int)), h.2.2 + d.2)

/-- Is `c` a hexadecimal digit. -/
def isxdigit (c : Nat) : Bool :=
  match digit_value c with
  | some d => d < 16
  | none => false

/-- Model of `strtoul(s, &endptr, 16)` with a 64-bit `unsigned long`: the value
and `endptr - s`. The text `0x` or `0X` before a hexadecimal digit is skipped. -/
def strtoul (s : List Nat) : Nat × Nat :=
  let h := skip_space_sign s
  let p : List Nat × Nat :=
    match h.1 with
    | 48 :: x :: c :: t => if (x = 120 ∨ x = 88) ∧ isxdigit c then (c :: t, 2) else (h.1, 0)
    | t => (t, 0)
  let d := read_digits 16 p.1 0
  if d.2 = 0 then (0, 0)
  else if d.1 > 18446744073709551615 then (18446744073709551615, h.2.2 + p.2 + d.2)
  else if h.2.1 then ((18446744073709551616 - d.1) % 18446744073709551616, h.2.2 + p.2 + d.2)
  else (d.1, h.2.2 + p.2 + d.2)

/-- Model of `strtok`: `s` is the text from the saved position on. Returns the
token and the text behind the delimiter that ended it, or `none` when only
delimiters are left. -/
def strtok (s : List Nat) (delim : List Nat) : Option (List Nat × List Nat) :=
  let t := s.dropWhile (fun c => delim.contains c)
  if t = [] then none
  else
    let token := t.takeWhile (fun c => !delim.contains c)
    some (token, (t.drop token.length).drop 1)

/-- The locals of `main` that the options set. `tags` is
`tag_array[0 .. filter.count)`. -/
structure Args where
  filename : Option (List Nat)
  max_elements : Int
  max_sq_depth : Int
  collapse_sequences : Bool
  show_full_values : Bool
  tags : List Nat
deriving DecidableEq, Repr

/-- The text of a C string, for the messages. -/
def text (s : List Nat) : String := String.mk (s.map Char.ofNat)

/-- Lines 72-87 of `main.c`: the loop over the tokens of a `-f` argument.
`capacity` is `MAX_FILTER_TAGS - filter.count`, `token` the current token and
`rest` the text behind it. An error is the return value of `main` with what was
written. -/
def filter_tokens : Nat → Option (List Nat) → List Nat → List Nat →
    Except (Int × List Out) (List Nat)
  | 0, _, _, tags => Except.ok tags
  | _ + 1, none, _, tags => Except.ok tags
  | capacity + 1, some token, rest, tags =>
    let token1 := token.dropWhile (fun c => c == 32 || c == 9)
    let v := strtoul token1
    let endptr := (token1.drop v.2).dropWhile (fun c => c == 32 || c == 9)
    if token1.length = endptr.length ∨ endptr ≠ [] ∨ v.1 > 0xFFFFFFFF then
      Except.error (1, [Out.err ("Error: Invalid tag '" ++ text token1 ++
        "'. Use format: 00100030 or 0x00100030\n")])
    else
      match strtok rest (cstr ";") with
      | none => filter_tokens capacity none [] (tags ++ [v.1 % 4294967296])
      | some t => filter_tokens capacity (some t.1) t.2 (tags ++ [v.1 % 4294967296])

/-- Lines 33-100 of `main.c`: the loop over `argv[1 ..]`. -/
def main_args : List (List Nat) → Args → Except (Int × List Out) Args
  | [], a => Except.ok a
  | arg :: rest, a =>
    if streq arg (cstr "-c") then main_args rest { a with collapse_sequences := true }
    else if streq arg (cstr "-v") then main_args rest { a with show_full_values := true }
    else if streq arg (cstr "--all") then main_args rest { a with max_elements := INT_MAX }
    else if streq arg (cstr "-n") then
      match rest with
      | [] => Except.error (1, [Out.err "Error: -n requires a number\n"])
      | value :: rest1 =>
        let val := strtol value
        if val.2 = 0 ∨ val.2 ≠ value.length ∨ val.1 ≤ 0 ∨ val.1 > INT_MAX then
          Except.error (1, [Out.err "Error: max_elements must be a positive integer\n"])
        else main_args rest1 { a with max_elements := val.1 }
    else if streq arg (cstr "-d") then
      match rest with
      | [] => Except.error (1, [Out.err "Error: -d requires a number\n"])
      | value :: rest1 =>
        let val := strtol value
        if val.2 = 0 ∨ val.2 ≠ value.length ∨ val.1 ≤ 0 ∨ val.1 > 100 then
          Except.error (1, [Out.err "Error: max_sequence_depth must be between 1 and 100\n"])
        else main_args rest1 { a with max_sq_depth := val.1 }
    else if streq arg (cstr "-f") then
      match rest with
      | [] => Except.error (1,
          [Out.err "Error: -f requires tag(s) in format GGGGEEEE or 0xGGGGEEEE\n"])
      | input :: rest1 =>
        let first := strtok input (cstr ",")
        match filter_tokens (MAX_FILTER_TAGS - a.tags.length) (first.map Prod.fst)
            ((first.map Prod.snd).getD []) a.tags with
        | Except.error e => Except.error e
        | Except.ok tags => main_args rest1 { a with tags := tags }
    else if arg.head? = some 45 then
      Except.error (1, [Out.err ("Unknown option: " ++ text arg ++ "\n")])
    else if a.filename = none then main_args rest { a with filename := some arg }
    else Except.error (1, [Out.err ("Error: Unexpected argument: " ++ text arg ++ "\n")])

/-- The usage text of lines 12-20 of `main.c`. -/
def usage (argv0 : List Nat) : List Out :=
  [Out.err ("Usage: " ++ text argv0 ++ " <dicom_file> [options]\n"),
   Out.err "  <dicom_file>  Path to DICOM file\n",
   Out.err "  Options:\n",
   Out.err "\t-n <num>     Maximum number of elements to parse (default: 250)\n",
   Out.err "\t--all        Parse all elements until start of pixel data\n",
   Out.err "\t-d <depth>   Maximum sequence depth (default: 5)\n",
   Out.err "\t-c           Collapse sequences\n",
   Out.err "\t-v           Show full values (disable truncation)\n",
   Out.err "\t-f <tags>    Filter: show only specific tags (format: 0x00100010;0x00080020)\n"]

/-- Model of `main`: the value it returns and what was written. `fopen` gives
the octets of the file of a given name, `none` when it cannot be opened. -/
def main (env : Env) (fuel : Nat) (fopen : List Nat → Option (List Nat))
    (argv : List (List Nat)) : Except Halt (Int × List Out) :=
  match argv with
  | [] => Except.ok (1, usage [])
  | [argv0] => Except.ok (1, usage argv0)
  | _ :: args =>
    match main_args args
        { filename := none, max_elements := DEFAULT_MAX_ELEMENTS,
          max_sq_depth := DEFAULT_MAX_SQ_DEPTH, collapse_sequences := false,
          show_full_values := false, tags := [] } with
    | Except.error e => Except.ok e
    | Except.ok a =>
      match a.filename with
      | none => Except.ok (1, [Out.err "Error: No DICOM file specified\n"])
      | some filename =>
        match parse_dicom_header env fuel (fopen filename) a.max_elements a.collapse_sequences
            a.max_sq_depth a.show_full_values (some a.tags) with
        | Except.error e => Except.error e
        | Except.ok res => Except.ok (res.ret, res.out)

/-- The exit status that the parent of the process sees for the value returned
by `main`: its low 8 bits. -/
def exit_status (ret : Int) : Nat := (ret % 256).toNat

/-- The exit status of the process run with the given command line. -/
def main_exit_status (env : Env) (fuel : Nat) (fopen : List Nat → Option (List Nat))
    (argv : List (List Nat)) : Except Halt Nat :=
  match main env fuel fopen argv with
  | Except.error e => Except.error e
  | Except.ok r => Except.ok (exit_status r.1)

/-! ## display_value -/

/-- One event per output call of `display_value` (`dicom_display.c`). -/
inductive Disp where
  /-- `printf` of a constant text -/
  | lit (s : String)
  /-- `putchar(c)` -/
  | putchar (c : Nat)
  /-- `printf("%u", val)` -/
  | unsigned (val : Nat)
  /-- `printf("%d", val)` -/
  | signed (val : Int)
  /-- `printf("%g", val)` for the `float` whose object representation, in the
  order of memory, is the four bytes `object` -/
  | float (object : List Nat)
  /-- `printf("%g", val)` for the `double` whose object representation, in the
  order of memory, is the eight bytes `object` -/
  | double (object : List Nat)
  /-- `printf(" [+%u more]", k)` -/
  | more (k : Nat)
  /-- `printf("(%04X,%04X)", group, elem)` -/
  | tag (group elem : Nat)
  /-- `printf("(binary: %u bytes) ", length)` -/
  | binary (length : Nat)
  /-- `printf("%02X ", b)` -/
  | hex (b : Nat)
  /-- `printf("(UNKNOWN VR: %u BYTES)", length)` -/
  | unknown_vr (length : Nat)
deriving DecidableEq, Repr

/-- The octet `data[i]` of `const uint8_t* data`. The buffer is the list `data`;
an index behind it, which `display_value` does not use when the buffer holds
`length` octets, reads 0. -/
def data_at (data : List Nat) (i : Nat) : Nat := data.getD i 0 % 256

/-- Lines 19-24 of `dicom_display.c`: the VRs shown as text. -/
def is_text_vr (vr : List Nat) : Bool :=
  streq vr (cstr "AE") || streq vr (cstr "AS") || streq vr (cstr "CS") ||
  streq vr (cstr "DA") || streq vr (cstr "DS") || streq vr (cstr "DT") ||
  streq vr (cstr "IS") || streq vr (cstr "LO") || streq vr (cstr "LT") ||
  streq vr (cstr "PN") || streq vr (cstr "SH") || streq vr (cstr "ST") ||
  streq vr (cstr "TM") || streq vr (cstr "UC") || streq vr (cstr "UI") ||
  streq vr (cstr "UR") || streq vr (cstr "UT")

/-- Lines 28-31 and 146-149: the loop `for (i; i < display_len; i++)` with
`n = display_len - i` passes to go. A printable octet is written, a NUL leaves
the loop, any other octet is passed over. -/
def put_text (data : List Nat) : Nat → Nat → List Disp
  | 0, _ => []
  | n + 1, i =>
    if data_at data i ≥ 32 ∧ data_at data i < 127 then
      Disp.putchar (data_at data i) :: put_text data n (i + 1)
    else if data_at data i = 0 then []
    else put_text data n (i + 1)

/-- Lines 25-33: the text form of a value, up to the closing quote. -/
def text_value (data : List Nat) (length max_width : Nat) : List Disp :=
  let display_len := if length < max_width then length else max_width
  [Disp.lit "\""] ++ put_text data display_len 0 ++
    (if length > max_width then [Disp.lit "..."] else [])

/-- Lines 137-141: the loop `for (i; i < length && i < 100; i++)` with `n` passes
to go and the counter at `printable_count`. -/
def count_printable (data : List Nat) : Nat → Nat → Nat → Nat
  | 0, _, printable_count => printable_count
  | n + 1, i, printable_count =>
    count_printable data n (i + 1)
      (if (data_at data i ≥ 32 ∧ data_at data i < 127) ∨ data_at data i = 10 ∨
          data_at data i = 13 ∨ data_at data i = 9
        then printable_count + 1 else printable_count)

/-- Lines 153-156 and 162-167: the binary form of a value. -/
def binary_value (data : List Nat) (length : Nat) : List Disp :=
  let show_bytes := if length < 8 then length else 8
  [Disp.binary length] ++ (List.range show_bytes).map (fun i => Disp.hex (data_at data i)) ++
    (if length > 8 then [Disp.lit "..."] else [])

/-- A 16-bit field of `data` at index `i`, lines 38-39 (and 66-67, 122-127). -/
def value_uint16 (little : Bool) (data : List Nat) (i : Nat) : Nat :=
  if little then (data_at data i ||| (data_at data (i + 1) <<< 8)) % 65536
  else ((data_at data i <<< 8) ||| data_at data (i + 1)) % 65536

/-- A 32-bit field at the start of `data`, lines 47-58 (and 75-86). -/
def value_uint32 (little : Bool) (data : List Nat) : Nat :=
  if little then
    (data_at data 0 ||| (data_at data 1 <<< 8) ||| (data_at data 2 <<< 16) |||
      (data_at data 3 <<< 24)) % 4294967296
  else
    ((data_at data 0 <<< 24) ||| (data_at data 1 <<< 16) ||| (data_at data 2 <<< 8) |||
      data_at data 3) % 4294967296

/-- The cast `(int16_t)v` of a 16-bit value. -/
def to_int16 (v : Nat) : Int :=
  if v % 65536 < 32768 then (v % 65536 : Nat) else ((v % 65536 : Nat) : Int) - 65536

/-- The cast `(int32_t)v` of a 32-bit value. -/
def to_int32 (v : Nat) : Int :=
  if v % 4294967296 < 2147483648 then (v % 4294967296 : Nat)
  else ((v % 4294967296 : Nat) : Int) - 4294967296

/-- The suffix `" [+K more]"` of lines 41, 60, 69, 88, 100, 115 and 130 for
elements of `w` bytes. -/
def more_suffix (length w : Nat) : List Disp :=
  if length > w then [Disp.more ((length / w - 1) % 4294967296)] else []

/-- Model of `display_value`: what it writes. `data` is `none` for a null
pointer, else the octets of the buffer. -/
def display_value (vr : List Nat) (data : Option (List Nat)) (length : Nat) (depth : Int)
    (ctx : display_context) : List Disp :=
  match data with
  | none => [Disp.lit "(n/a)"]
  | some data =>
    if length = 0 ∨ length = 0xFFFFFFFF then [Disp.lit "(n/a)"]
    else if is_text_vr vr then
      text_value data length (max_val_width depth ctx) ++ [Disp.lit "\""]
    else if streq vr (cstr "US") then
      if length ≥ 2 then
        [Disp.unsigned (value_uint16 ctx.is_little_endian data 0)] ++ more_suffix length 2
      else []
    else if streq vr (cstr "UL") then
      if length ≥ 4 then
        [Disp.unsigned (value_uint32 ctx.is_little_endian data)] ++ more_suffix length 4
      else []
    else if streq vr (cstr "SS") then
      if length ≥ 2 then
        [Disp.signed (to_int16 (value_uint16 ctx.is_little_endian data 0))] ++
          more_suffix length 2
      else []
    else if streq vr (cstr "SL") then
      if length ≥ 4 then
        [Disp.signed (to_int32 (value_uint32 ctx.is_little_endian data))] ++
          more_suffix length 4
      else []
    else if streq vr (cstr "FL") then
      if length ≥ 4 then
        [Disp.float (if ctx.is_little_endian
          then [data_at data 0, data_at data 1, data_at data 2, data_at data 3]
          else [data_at data 3, data_at data 2, data_at data 1, data_at data 0])] ++
          more_suffix length 4
      else []
    else if streq vr (cstr "FD") then
      if length ≥ 8 then
        [Disp.double (if ctx.is_little_endian
          then [data_at data 0, data_at data 1, data_at data 2, data_at data 3,
                data_at data 4, data_at data 5, data_at data 6, data_at data 7]
          else [data_at data 7, data_at data 6, data_at data 5, data_at data 4,
                data_at data 3, data_at data 2, data_at data 1, data_at data 0])] ++
          more_suffix length 8
      else []
    else if streq vr (cstr "AT") then
      if length ≥ 4 then
        [Disp.tag (value_uint16 ctx.is_little_endian data 0)
          (value_uint16 ctx.is_little_endian data 2)] ++ more_suffix length 4
      else []
    else if streq vr (cstr "SQ") then [Disp.lit "(sequence)"]
    else if streq vr (cstr "UN") ∧ length > 0 ∧ length < 256 then
      if count_printable data (if length < 100 then length else 100) 0 0 > length * 5 / 10 then
        text_value data length (max_val_width depth ctx) ++ [Disp.lit "\" [interpreted]"]
      else binary_value data length
    else if streq vr (cstr "OB") || streq vr (cstr "OW") || streq vr (cstr "OD") ||
        streq vr (cstr "OF") || streq vr (cstr "OL") then
      binary_value data length
    else [Disp.unknown_vr length]

/-- What the call of `display_value` recorded as the event `e` writes; nothing
for the other events. -/
def Out.shown : Out → List Disp
  | Out.value vr data length depth ctx => display_value vr (some data) length depth ctx
  | _ => []

/-! ## Notions used to state the properties -/

/-- The little-endian value of a list of octets: the sum of `b i * 256 ^ i`. -/
def decode_le : List Nat → Nat
  | [] => 0
  | b :: bs => b + 256 * decode_le bs

/-- The big-endian value of a list of octets. -/
def decode_be (bs : List Nat) : Nat := decode_le bs.reverse

/-- The value of a field in the given byte order. -/
def decode (little_endian : Bool) (bs : List Nat) : Nat :=
  if little_endian then decode_le bs else decode_be bs

/-- The `n` octets of the input that start at offset `p` (fewer at the end). -/
def octets (fp : FILE) (p n : Nat) : List Nat :=
  ((fp.data.drop p).take n).map (fun b => b % 256)

/-- The long-form VRs of the specification. -/
def long_form_vrs : List (List Nat) :=
  List.map cstr ["OB", "OD", "OF", "OL", "OW", "SQ", "UC", "UN", "UR", "UT"]

/-- The header size the specification gives, the four tag bytes included. -/
def spec_header_size (explicit_vr : Bool) (vr : List Nat) : Nat :=
  if explicit_vr then (if vr ∈ long_form_vrs then 12 else 8) else 8

/-- Offset (from the start of the header) and width of the length field as the
specification gives them. -/
def spec_length_field (explicit_vr : Bool) (vr : List Nat) : Nat × Nat :=
  if explicit_vr then (if vr ∈ long_form_vrs then (8, 4) else (6, 2)) else (4, 4)

/-- The loop of `parse_dicom_header`, started in `t0`, comes to the head of the
loop in state `t`. -/
inductive TopReach (env : Env) (max_elements : Int) (filter : Option (List Nat)) (t0 : Top) :
    Top → Prop where
  | start : TopReach env max_elements filter t0 t0
  | step (fuel : Nat) (t t1 : Top) :
      TopReach env max_elements filter t0 t →
      ¬ (feof t.run.fp ∨ ¬ t.run.element_count < max_elements) →
      top_step env max_elements filter fuel t = Except.ok (true, t1) →
      TopReach env max_elements filter t0 t1

/-- The group of the tag that the next iteration of the top-level loop reads;
`none` when the input ends inside the tag. -/
def next_group (t : Top) : Option Nat :=
  if feof (read_uint16 (read_uint16 t.run.fp t.state).2 t.state).2 then none
  else some (read_uint16 t.run.fp t.state).1

/-- The mode `(explicit_vr, little_endian)` that the table of the specification
gives for a captured transfer syntax UID. -/
def spec_mode (uid : List Nat) : Bool × Bool :=
  if uid = cstr "1.2.840.10008.1.2" then (false, true)
  else if uid = cstr "1.2.840.10008.1.2.2" then (true, false)
  else (true, true)

/-! ## Sample inputs -/

/-- A dictionary that knows the tag (0010,0010) only. -/
def sample_env : Env :=
  { dicom_get_name := fun t => if t = 0x00100010 then some (cstr "Patient's Name") else none
    dicom_get_vr := fun t => if t = 0x00100010 then some (cstr "PN") else none
    dicom_get_keyword := fun t => if t = 0x00100010 then some (cstr "PatientName") else none
    global_terminal_width := 90
    malloc_ok := fun _ => true }

/-- The 128 bytes of preamble and the magic `DICM`. -/
def sample_magic_header : List Nat := List.replicate 128 0 ++ cstr "DICM"

/-- The element `(0002,0010) UI` with a value of 18 bytes: "1.2.840.10008.1.2" and
a padding space. -/
def sample_ts_implicit : List Nat :=
  [0x02, 0x00, 0x10, 0x00] ++ cstr "UI" ++ [18, 0] ++ cstr "1.2.840.10008.1.2 "

/-- The element `(0010,0010)` in implicit VR: length 8, value "DOE^JANE". -/
def sample_patient_name : List Nat :=
  [0x10, 0x00, 0x10, 0x00] ++ [8, 0, 0, 0] ++ cstr "DOE^JANE"

/-- Scenario 2 of the specification: the implicit-VR switch. -/
def sample_file_implicit : List Nat := sample_magic_header ++ sample_ts_implicit ++ sample_patient_name

/-- The loop state at the entry of `parse_dicom_header`'s loop for a file whose
prefix was accepted: the cursor is at offset 132. -/
def sample_top (data : List Nat) : Top :=
  top_init false 5 false { data := data, pos := 132, eof := false }

/-- The loop state after one iteration from `t` (`t` itself when the iteration
gives no state). -/
def top_after (env : Env) (max_elements : Int) (filter : Option (List Nat)) (fuel : Nat)
    (t : Top) : Top :=
  match top_step env max_elements filter fuel t with
  | Except.ok res => res.2
  | Except.error _ => t

/-- The initial parser state: explicit VR, little endian. -/
def sample_state : parser_state := (sample_top []).state

/-- A stream whose cursor stands behind the tag of the element
`(0008,1140) SQ`, reserved bytes, length 0x2010. -/
def sample_header_stream : FILE :=
  { data := [0x08, 0x00, 0x40, 0x11] ++ cstr "SQ" ++ [0, 0] ++ [0x10, 0x20, 0x00, 0x00]
    pos := 4
    eof := false }

/-- The state carried by a `Step`. -/
def Step.run : Step → Run
  | Step.ret _ r => r
  | Step.next r => r
  | Step.sequence _ r => r

/-- The bound on `element_count` across a call of one of the parsing functions:
the count does not decrease and stays within `max_elements`. -/
def CountBound (max_elements : Int) (r : Run) (res : Int × Run) : Prop :=
  r.element_count ≤ res.2.element_count ∧ res.2.element_count ≤ max_elements

/-- What `parse_dicom_header` gives on the input `file` with 100 units of fuel,
the dictionary `sample_env`, no collapsing, depth 5 (an empty result when the
model halts). -/
def sample_result (file : List Nat) (max_elements : Int) (filter : Option (List Nat)) : Result :=
  match parse_dicom_header sample_env 100 (some file) max_elements false 5 false filter with
  | Except.ok r => r
  | Except.error _ => { ret := 0, out := [] }

/-- The value bytes with all trailing spaces and NULs removed, as the
specification words the capture of the transfer syntax UID. -/
def rtrim (v : List Nat) : List Nat :=
  (v.reverse.dropWhile (fun b => b == 32 || b == 0)).reverse

/-- The element `(0002,0010) UI` whose 4-byte value is `'1' NUL '2' ' '`. -/
def sample_ts_nul : FILE :=
  { data := [0x02, 0x00, 0x10, 0x00] ++ cstr "UI" ++ [4, 0] ++ [49, 0, 50, 32]
    pos := 4
    eof := false }

/-- The element `(0002,0010) UI` with the 20-byte value "1.2.840.10008.1.2.1 ",
the cursor behind its tag. -/
def sample_ts_explicit : FILE :=
  { data := [0x02, 0x00, 0x10, 0x00] ++ cstr "UI" ++ [20, 0] ++ cstr "1.2.840.10008.1.2.1 "
    pos := 4
    eof := false }

/-- A file whose only element is `(0002,0010) UI` with length 0. -/
def sample_file_empty_ts : List Nat :=
  sample_magic_header ++ [0x02, 0x00, 0x10, 0x00] ++ cstr "UI" ++ [0, 0]

/-- The header of `(0008,1110) SQ` with undefined length followed by the header
of an item of undefined length. -/
def sample_open_sequence : List Nat :=
  [0x08, 0x00, 0x10, 0x11] ++ cstr "SQ" ++ [0, 0] ++ [0xFF, 0xFF, 0xFF, 0xFF] ++
  [0xFE, 0xFF, 0x00, 0xE0] ++ [0xFF, 0xFF, 0xFF, 0xFF]

/-- The element `(0008,0060) CS` with the value "CT". -/
def sample_modality : List Nat := [0x08, 0x00, 0x60, 0x00] ++ cstr "CS" ++ [2, 0] ++ cstr "CT"

/-- A file in which the tag `(7FE0,0010)` stands inside a sequence item, with the
element `(0008,0060)` behind it. -/
def sample_file_nested_pixel : List Nat :=
  sample_magic_header ++ sample_open_sequence ++ [0xE0, 0x7F, 0x10, 0x00] ++ sample_modality

/-- A file in which the element `(0008,0005)` inside a sequence item has the
invalid VR "zz", with the element `(0008,0060)` behind it. -/
def sample_file_nested_invalid_vr : List Nat :=
  sample_magic_header ++ sample_open_sequence ++ [0x08, 0x00, 0x05, 0x00] ++ cstr "zz" ++ sample_modality

/-! ## Replacing the octets before an offset -/

/-- The stream `fp` over the octets `d` instead of its own. -/
def FILE.swap (d : List Nat) (fp : FILE) : FILE := { fp with data := d }

/-- The octets of `fp` and `d` are as many and agree from offset `b` on, and the
cursor of `fp` is at `b` or behind it. -/
def Tail (b : Nat) (d : List Nat) (fp : FILE) : Prop :=
  fp.data.length = d.length ∧ fp.data.drop b = d.drop b ∧ b ≤ fp.pos

/-- The stream held by a `Header`. -/
def Header.fp : Header → FILE
  | Header.truncated fp => fp
  | Header.invalid _ fp => fp
  | Header.ok _ _ fp => fp

def Header.swap (d : List Nat) : Header → Header
  | Header.truncated fp => Header.truncated (fp.swap d)
  | Header.invalid vr fp => Header.invalid vr (fp.swap d)
  | Header.ok vr length fp => Header.ok vr length (fp.swap d)

def Run.swap (d : List Nat) (r : Run) : Run := { r with fp := r.fp.swap d }

def Step.swap (d : List Nat) : Step → Step
  | Step.ret code r => Step.ret code (r.swap d)
  | Step.next r => Step.next (r.swap d)
  | Step.sequence length r => Step.sequence length (r.swap d)

def Top.swap (d : List Nat) (t : Top) : Top := { t with run := t.run.swap d }

/-- The state carried by a `SeqStep`. -/
def SeqStep.run : SeqStep → Run
  | SeqStep.ret _ r => r
  | SeqStep.next r => r
  | SeqStep.item _ r => r

/-- The stream held by a `CountStep`. -/
def CountStep.fp : CountStep → FILE
  | CountStep.stop _ fp => fp
  | CountStep.skip fp => fp
  | CountStep.item fp => fp
  | CountStep.item_undefined fp => fp

def CountStep.swap (d : List Nat) : CountStep → CountStep
  | CountStep.stop e fp => CountStep.stop e (fp.swap d)
  | CountStep.skip fp => CountStep.skip (fp.swap d)
  | CountStep.item fp => CountStep.item (fp.swap d)
  | CountStep.item_undefined fp => CountStep.item_undefined (fp.swap d)

/-- The stream held by a `BodyStep`. -/
def BodyStep.fp : BodyStep → FILE
  | BodyStep.stop fp => fp
  | BodyStep.next fp => fp
  | BodyStep.sequence fp => fp

def BodyStep.swap (d : List Nat) : BodyStep → BodyStep
  | BodyStep.stop fp => BodyStep.stop (fp.swap d)
  | BodyStep.next fp => BodyStep.next (fp.swap d)
  | BodyStep.sequence fp => BodyStep.sequence (fp.swap d)

def SeqStep.swap (d : List Nat) : SeqStep → SeqStep
  | SeqStep.ret code r => SeqStep.ret code (r.swap d)
  | SeqStep.next r => SeqStep.next (r.swap d)
  | SeqStep.item length r => SeqStep.item length (r.swap d)

/-- The value that `read_uint16` makes of the octets it read. -/
def uint16_of (little_endian : Bool) (buf : List Nat) : Nat :=
  match buf with
  | [b0, b1] => if little_endian then b0 ||| (b1 <<< 8) else (b0 <<< 8) ||| b1
  | _ => 0

/-- The value that `read_uint32` makes of the octets it read. -/
def uint32_of (little_endian : Bool) (buf : List Nat) : Nat :=
  match buf with
  | [b0, b1, b2, b3] =>
    if little_endian then b0 ||| (b1 <<< 8) ||| (b2 <<< 16) ||| (b3 <<< 24)
    else (b0 <<< 24) ||| (b1 <<< 16) ||| (b2 <<< 8) ||| b3
  | _ => 0

/-- The run `x1` on the replaced octets gives what the run `x` gives, up to the
replacement `sw`, and what `x` gives satisfies `T`. -/
def SimOpt {α : Type} (sw : α → α) (T : α → Prop) (x1 x : Option α) : Prop :=
  x1 = x.map sw ∧ ∀ a, x = some a → T a

/-- The input is shorter than 132 bytes or its bytes 128..131 are not `DICM`. -/
def bad_header (data : List Nat) : Prop :=
  data.length < 132 ∨ octets { data := data, pos := 0, eof := false } 128 4 ≠ cstr "DICM"

/-- The analogue of `SimOpt` for results that may halt. -/
def SimExc {α : Type} (sw : α → α) (T : α → Prop) (x1 x : Except Halt α) : Prop :=
  x1 = (match x with
    | Except.ok a => Except.ok (sw a)
    | Except.error e => Except.error e) ∧
  ∀ a, x = Except.ok a → T a

/-- The octets of `sample_file_implicit` behind a preamble of 128 octets `7`
instead of 128 octets `0`. -/
def sample_file_other_preamble : List Nat :=
  List.replicate 128 7 ++ sample_file_implicit.drop 128

/-! ## Further sample inputs -/

/-- The header of `(0008,0005) UT` with the length field `0xFFFFFFFF`. -/
def sample_undefined_ut : List Nat :=
  [0x08, 0x00, 0x05, 0x00] ++ cstr "UT" ++ [0, 0] ++ [0xFF, 0xFF, 0xFF, 0xFF]

/-- A file whose first element is `(0008,0005) UT` of undefined length, with the
element `(0008,0060)` behind it. -/
def sample_file_top_undefined : List Nat :=
  sample_magic_header ++ sample_undefined_ut ++ sample_modality

/-- The same two elements inside a sequence item. -/
def sample_file_nested_undefined : List Nat :=
  sample_magic_header ++ sample_open_sequence ++ sample_undefined_ut ++ sample_modality

/-- The display context of a terminal of 123 columns. -/
def sample_ctx_123 : display_context :=
  { is_little_endian := true, overwrite_max_disp_len := false,
    terminal_width := 123, val_col_start := global_val_col_start }

/-- The locals of `main` before the first argument is looked at. -/
def sample_args : Args :=
  { filename := none, max_elements := DEFAULT_MAX_ELEMENTS,
    max_sq_depth := DEFAULT_MAX_SQ_DEPTH, collapse_sequences := false,
    show_full_values := false, tags := [] }

/-! ## The value of an element of defined length -/

/-- What is written for the value of a non-sequence element of defined length
`length` whose value starts at the cursor of `fp`: the renderer gets the first
`min length 4096` octets; nothing is read for an empty value, for one of 1 MiB or
more, or when the buffer cannot be allocated. -/
def spec_value_events (env : Env) (state : parser_state) (vr : List Nat) (length : Nat)
    (depth : Int) (fp : FILE) : List Out :=
  if length = 0 then [Out.lit "(empty)"]
  else if length < 1048576 then
    if env.malloc_ok fp.pos then
      [Out.value vr (octets fp fp.pos (min length 4096)) (min length 4096) depth
        (create_display_context env state)]
    else [Out.lit "(memory alloc failed)"]
  else [Out.lit "(too large to display)"]

/-- The element `(0008,1110) SQ` of defined length 18 holding one item of defined
length 10, which holds the element `(0008,0060) CS "CT"`. -/
def sample_defined_sequence : List Nat :=
  [0x08, 0x00, 0x10, 0x11] ++ cstr "SQ" ++ [0, 0] ++ [18, 0, 0, 0] ++
  [0xFE, 0xFF, 0x00, 0xE0] ++ [10, 0, 0, 0] ++ sample_modality

/-- The element `(0010,0010) PN "DOE^JANE"` in explicit VR. -/
def sample_patient_name_explicit : List Nat :=
  [0x10, 0x00, 0x10, 0x00] ++ cstr "PN" ++ [8, 0] ++ cstr "DOE^JANE"

/-- A file with `sample_defined_sequence` followed by the top-level element
`(0010,0010)`. The value of the sequence starts at offset 144. -/
def sample_file_defined_item : List Nat :=
  sample_magic_header ++ sample_defined_sequence ++ sample_patient_name_explicit

/-! ## Lines and their indentation -/

/-- What may end a line of the output whose depth values are at most `D`: any
event that is not the indentation unit `"  "`, a call of `display_value` only
with a depth in `0 .. D`. -/
def line_event (D : Int) : Out → Bool
  | Out.lit s => s != "  "
  | Out.value _ _ _ depth _ => decide (0 ≤ depth) && decide (depth ≤ D)
  | _ => true

/-- The output is a succession of lines, each made of at most `B` indentation
units `"  "` and one event that is not an indentation unit. -/
inductive Lines (B : Nat) (D : Int) : List Out → Prop where
  | nil : Lines B D []
  | line (n : Nat) (e : Out) (rest : List Out) : n ≤ B → line_event D e = true → Lines B D rest →
      Lines B D (List.replicate n (Out.lit "  ") ++ e :: rest)

/-- The item delimiter `(FFFE,E00D)` with its length field 0. -/
def sample_item_end : List Nat := [0xFE, 0xFF, 0x0D, 0xE0] ++ [0, 0, 0, 0]

/-- The sequence delimiter `(FFFE,E0DD)` with its length field 0. -/
def sample_sequence_end : List Nat := [0xFE, 0xFF, 0xDD, 0xE0] ++ [0, 0, 0, 0]

/-- A file with a sequence in an item of a sequence, all of undefined length:
the inner item holds the element `(0008,0060)`. -/
def sample_file_nested_sequence : List Nat :=
  sample_magic_header ++ sample_open_sequence ++ sample_open_sequence ++ sample_modality ++
  sample_item_end ++ sample_sequence_end ++ sample_item_end ++ sample_sequence_end

/-- What `parse_dicom_header` gives on the input `file` with 100 units of fuel, the
dictionary `sample_env`, no filter, no collapsing and the given `max_sq_depth` (an
empty result when the model halts). -/
def sample_result_depth (file : List Nat) (max_sq_depth : Int) : Result :=
  match parse_dicom_header sample_env 100 (some file) 250 false max_sq_depth false none with
  | Except.ok r => r
  | Except.error _ => { ret := 0, out := [] }

/-! ## The layout of a sequence in the input -/

/-- The field of `n` octets at offset `p`, decoded in the byte order of `state`. -/
def field (state : parser_state) (data : List Nat) (p n : Nat) : Nat :=
  decode state.is_little_endian (octets { data := data, pos := 0, eof := false } p n)

/-- The group and the element of the tag at offset `p`. -/
def tag_at (state : parser_state) (data : List Nat) (p : Nat) : Nat × Nat :=
  (field state data p 2, field state data (p + 2) 2)

/-- The size of the header of the element at offset `p`. -/
def header_size_at (state : parser_state) (data : List Nat) (p : Nat) : Nat :=
  spec_header_size state.is_explicit_vr (octets { data := data, pos := 0, eof := false } (p + 4) 2)

/-- The length field of the element at offset `p`. -/
def length_at (state : parser_state) (data : List Nat) (p : Nat) : Nat :=
  field state data
    (p + (spec_length_field state.is_explicit_vr
      (octets { data := data, pos := 0, eof := false } (p + 4) 2)).1)
    (spec_length_field state.is_explicit_vr
      (octets { data := data, pos := 0, eof := false } (p + 4) 2)).2

/-- The VR of the element at offset `p`: the two bytes behind the tag in explicit
VR, else the first two characters of the dictionary entry of the tag, `UN` when
there is none. -/
def vr_at (env : Env) (state : parser_state) (data : List Nat) (p : Nat) : List Nat :=
  if state.is_explicit_vr then octets { data := data, pos := 0, eof := false } (p + 4) 2
  else
    match env.dicom_get_vr (((tag_at state data p).1 <<< 16) ||| (tag_at state data p).2) with
    | some dict_vr => strncpy2 dict_vr
    | none => cstr "UN"

/-- What a stretch of the input holds: `n` items of a sequence, or the rest of
the body of an item of undefined length with its delimiter. -/
inductive Region where
  | items (n : Nat)
  | body
deriving DecidableEq, Repr

/-- The bytes from offset `p` up to offset `q` are `n` items (`Region.items n`),
resp. the elements of an item of undefined length and its delimiter
`(FFFE,E00D)` (`Region.body`). An item is the tag `(FFFE,E000)`, a length field and,
for a defined length, that many bytes, else a body. An element of a body has a
group other than `FFFE` and either a defined length and that many value bytes,
or the VR `SQ`, the length `0xFFFFFFFF`, items and the delimiter `(FFFE,E0DD)`. -/
inductive Layout (env : Env) (state : parser_state) (data : List Nat) :
    Region → Nat → Nat → Prop where
  | done (p : Nat) : Layout env state data (Region.items 0) p p
  | item_defined (n p q : Nat) :
      p + 8 ≤ data.length → tag_at state data p = (0xFFFE, 0xE000) →
      field state data (p + 4) 4 ≠ 0xFFFFFFFF →
      Layout env state data (Region.items n) (p + 8 + field state data (p + 4) 4) q →
      Layout env state data (Region.items (n + 1)) p q
  | item_undefined (n p m q : Nat) :
      p + 8 ≤ data.length → tag_at state data p = (0xFFFE, 0xE000) →
      field state data (p + 4) 4 = 0xFFFFFFFF →
      Layout env state data Region.body (p + 8) m →
      Layout env state data (Region.items n) m q →
      Layout env state data (Region.items (n + 1)) p q
  | item_delimiter (p : Nat) :
      p + 8 ≤ data.length → tag_at state data p = (0xFFFE, 0xE00D) →
      Layout env state data Region.body p (p + 8)
  | element (p q : Nat) :
      p + header_size_at state data p ≤ data.length → (tag_at state data p).1 ≠ 0xFFFE →
      length_at state data p ≠ 0xFFFFFFFF →
      Layout env state data Region.body
        (p + header_size_at state data p + length_at state data p) q →
      Layout env state data Region.body p q
  | sequence (n p m q : Nat) :
      p + header_size_at state data p ≤ data.length → (tag_at state data p).1 ≠ 0xFFFE →
      cstring (vr_at env state data p) = cstr "SQ" → length_at state data p = 0xFFFFFFFF →
      Layout env state data (Region.items n) (p + header_size_at state data p) m →
      m + 8 ≤ data.length → tag_at state data m = (0xFFFE, 0xE0DD) →
      Layout env state data Region.body (m + 8) q →
      Layout env state data Region.body p q

/-- With enough fuel the outer loop of `count_sequence_items`, entered at offset
`p` with `item_count = ic`, returns the count `c` and the stream `fpf`. -/
def LoopGives (env : Env) (state : parser_state) (data : List Nat) (ic : Int) (p : Nat)
    (c : Int) (fpf : FILE) : Prop :=
  ∀ ep, ∃ f0, ∀ fuel, f0 ≤ fuel → ∃ e,
    count_sequence_items_loop env state fuel ic ep { data := data, pos := p, eof := false }
      = some (c, e, fpf)

/-- With enough fuel the inner loop of `count_sequence_items`, entered at offset
`p`, returns with the cursor at offset `q`. -/
def BodyGives (env : Env) (state : parser_state) (data : List Nat) (p q : Nat) : Prop :=
  ∃ f0, ∀ fuel, f0 ≤ fuel →
    count_item_body env state fuel { data := data, pos := p, eof := false }
      = some { data := data, pos := q, eof := false }

/-- What the loops of `count_sequence_items` do on a region: over `n` items the
outer loop goes from `p` to `q` and adds `n` to the count; over a body the inner
loop goes from `p` to `q`. -/
def CountSpec (env : Env) (state : parser_state) (data : List Nat) : Region → Nat → Nat → Prop
  | Region.items n, p, q =>
    ∀ ic c fpf, LoopGives env state data (ic + (n : Int)) q c fpf →
      LoopGives env state data ic p c fpf
  | Region.body, p, q => BodyGives env state data p q

/-- The sequence whose items start at offset `p` is reported with `n` items and
the cursor is left as `fpf`, wherever it is not descended: by
`count_sequence_items` itself, by `parse_sequence` above `max_sq_depth`, and by
the collapse mode at top level and in `parse_data_elements`. -/
def Counted (env : Env) (state : parser_state) (data : List Nat) (p n : Nat) (fpf : FILE) :
    Prop :=
  ∃ f0, ∀ fuel, f0 ≤ fuel →
    (∃ e, count_sequence_items env state fuel { data := data, pos := p, eof := false }
      = some ((n : Int), e, fpf)) ∧
    (∀ (max_elements : Int) (filter : Option (List Nat)) (depth : Int) (r : Run),
      r.fp = { data := data, pos := p, eof := false } → depth > state.max_sq_depth →
      parse_sequence env state max_elements filter (fuel + 1) depth r
        = some (-1, { fp := fpf, element_count := r.element_count,
                      out := r.out ++ print_indent (depth - 1) ++ [Out.above_max_depth n] })) ∧
    (∀ (max_elements : Int) (filter : Option (List Nat)) (group element : Nat)
        (avr : List Nat) (length : Nat) (r : Run),
      r.fp = { data := data, pos := p, eof := false } → state.collapse_sequences = true →
      top_sequence env state max_elements filter fuel group element avr length r
        = Except.ok
            { fp := fpf, element_count := r.element_count + 1,
              out := r.out ++
                [Out.sq_row group element avr
                  (display_keyword env group ((group <<< 16) ||| element))
                  (display_name env ((group <<< 16) ||| element))] ++
                [Out.sq_collapsed n] }) ∧
    (∀ (max_elements : Int) (filter : Option (List Nat)) (depth : Int) (length : Nat)
        (r r1 : Run),
      r.fp.eof = false → r.element_count < max_elements →
      data_element env state filter depth r = Step.sequence length r1 →
      r1.fp = { data := data, pos := p, eof := false } → state.collapse_sequences = true →
      parse_data_elements env state max_elements filter (fuel + 1) depth r
        = parse_data_elements env state max_elements filter fuel depth
            { fp := fpf, element_count := r1.element_count + 1,
              out := r1.out ++ [Out.sq_collapsed n] })

/-- The element `(0008,1110) SQ` of defined length 8 holding one empty item. -/
def sample_short_sequence : List Nat :=
  [0x08, 0x00, 0x10, 0x11] ++ cstr "SQ" ++ [0, 0] ++ [8, 0, 0, 0] ++
  [0xFE, 0xFF, 0x00, 0xE0] ++ [0, 0, 0, 0]

/-- A file with a sequence of undefined length of two items: the first, of the
defined length 20, holds `sample_short_sequence` (its value at offsets 164..171),
the second, of undefined length, the element `(0008,0060)`. -/
def sample_file_guarded_item : List Nat :=
  sample_magic_header ++ [0x08, 0x00, 0x10, 0x11] ++ cstr "SQ" ++ [0, 0] ++
  [0xFF, 0xFF, 0xFF, 0xFF] ++ [0xFE, 0xFF, 0x00, 0xE0] ++ [20, 0, 0, 0] ++
  sample_short_sequence ++
  [0xFE, 0xFF, 0x00, 0xE0] ++ [0xFF, 0xFF, 0xFF, 0xFF] ++ sample_modality ++ sample_item_end ++
  sample_sequence_end

/-- A file with a sequence of undefined length of two items of undefined length:
the first holds `sample_short_sequence` (its value at offsets 164..171), the
second the element `(0008,0060)`. -/
def sample_file_guarded : List Nat :=
  sample_magic_header ++ sample_open_sequence ++ sample_short_sequence ++ sample_item_end ++
  [0xFE, 0xFF, 0x00, 0xE0] ++ [0xFF, 0xFF, 0xFF, 0xFF] ++ sample_modality ++ sample_item_end ++
  sample_sequence_end

/-! ## A sequence of items of undefined length -/

/-- The loop of `parse_sequence` at depth `depth`, entered in the state `r`, finds
`k` items of undefined length, each closed by its delimiter, and is then in the
state `r1`. An item is the tag `(FFFE,E000)` with the length field `0xFFFFFFFF`,
read while `element_count` is below `max_elements`; the elements of the item are
what `parse_data_elements` at `depth + 1` parses behind the start line of the
item, up to the state `rb` in which it stops, with room in `element_count`, at
the tag `(FFFE,E00D)` of offset `m`; the end line of the item follows. -/
inductive Items (env : Env) (state : parser_state) (max_elements : Int)
    (filter : Option (List Nat)) (depth : Int) (data : List Nat) : Nat → Run → Run → Prop where
  | done (r : Run) : Items env state max_elements filter depth data 0 r r
  | item (k p m : Nat) (count : Int) (out : List Out) (fuel0 : Nat) (code : Int) (rb r1 : Run) :
      count < max_elements → p + 8 ≤ data.length →
      tag_at state data p = (0xFFFE, 0xE000) → field state data (p + 4) 4 = 0xFFFFFFFF →
      parse_data_elements env state max_elements filter fuel0 (depth + 1)
          { fp := { data := data, pos := p + 8, eof := false }, element_count := count + 1,
            out := out ++ print_indent depth ++ [Out.item_start none] } = some (code, rb) →
      rb.fp = { data := data, pos := m, eof := false } → rb.element_count < max_elements →
      m + 8 ≤ data.length → tag_at state data m = (0xFFFE, 0xE00D) →
      Items env state max_elements filter depth data k
        { fp := { data := data, pos := m + 8, eof := false },
          element_count := rb.element_count + 1,
          out := rb.out ++ print_indent depth ++ [Out.item_end] } r1 →
      Items env state max_elements filter depth data (k + 1)
        { fp := { data := data, pos := p, eof := false }, element_count := count, out := out } r1

/-- The header of an item of undefined length. -/
def sample_item_start : List Nat := [0xFE, 0xFF, 0x00, 0xE0] ++ [0xFF, 0xFF, 0xFF, 0xFF]

/-- A file with a sequence of undefined length of two items of undefined length,
the first with the element `(0008,0060)`, the second with the element
`(0010,0010)`, and the element `(0008,0060)` behind the sequence. -/
def sample_file_two_items : List Nat :=
  sample_magic_header ++ sample_open_sequence ++ sample_modality ++ sample_item_end ++
  sample_item_start ++ sample_patient_name_explicit ++ sample_item_end ++ sample_sequence_end ++
  sample_modality


/-! ## The numbers shown by display_value -/

/-- The sum of `bytes[i] * 256 ^ i`. -/
def le_value : List Nat → Nat
  | [] => 0
  | b :: bs => b + 256 * le_value bs

/-- The bytes of one element decoded in the given byte order: little-endian as
`le_value`, big-endian as `le_value` of the bytes in reverse order. -/
def spec_unsigned (little : Bool) (bytes : List Nat) : Nat :=
  if little then le_value bytes else le_value bytes.reverse

/-- The value `v` of `w` bytes read as a two's-complement signed number. -/
def spec_signed (w : Nat) (v : Nat) : Int :=
  if v < 2 ^ (8 * w - 1) then (v : Int) else (v : Int) - 2 ^ (8 * w)

/-- A display context with the given byte order, for a terminal of 200 columns. -/
def sample_ctx (little : Bool) : display_context :=
  { is_little_endian := little, overwrite_max_disp_len := false,
    terminal_width := 200, val_col_start := global_val_col_start }

/-! ## The text shown by display_value -/

/-- The VRs that `display_value` shows as text. -/
def text_vrs : List (List Nat) :=
  ["AE", "AS", "CS", "DA", "DS", "DT", "IS", "LO", "LT", "PN", "SH", "ST", "TM", "UC", "UI",
   "UR", "UT"].map cstr

/-- The octet `b` is an ASCII printable character: it lies in `[32,127)`. -/
def printable (b : Nat) : Bool := decide (32 ≤ b) && decide (b < 127)

/-- The text that `display_value` writes for the octets `data` with the width
`max_width`: of the first `min length max_width` octets, those before the first NUL
that are printable. -/
def shown_text (data : List Nat) (length max_width : Nat) : List Nat :=
  (cstring ((data.take (min length max_width)).map (fun b => b % 256))).filter printable

/-- The text of a value in the words of the specification: the printable octets
at the start of the data, up to the first octet that is not printable, cut to
`max_width` characters. -/
def spec_text (data : List Nat) (length max_width : Nat) : List Nat :=
  (((data.take length).map (fun b => b % 256)).takeWhile printable).take max_width

/-- The quoted string of the specification: `spec_text` in double quotes, with
`...` before the closing quote when the text was cut. -/
def spec_text_value (data : List Nat) (length max_width : Nat) : List Disp :=
  [Disp.lit "\""] ++ (spec_text data length max_width).map Disp.putchar ++
    (if max_width < (((data.take length).map (fun b => b % 256)).takeWhile printable).length
      then [Disp.lit "..."] else []) ++
    [Disp.lit "\""]

/-! ## Inputs that end inside a header -/

/-- A file that ends inside the header of its second element: the tag
`(0010,0010)`, the VR `PN` and one of the two bytes of the length field. -/
def sample_file_truncated_length : List Nat :=
  sample_magic_header ++ sample_modality ++ [0x10, 0x00, 0x10, 0x00] ++ cstr "PN" ++ [8]

/-- A file that ends inside the VR of its second element: the tag `(0010,0010)`
and one byte. -/
def sample_file_truncated_vr : List Nat :=
  sample_magic_header ++ sample_modality ++ [0x10, 0x00, 0x10, 0x00] ++ cstr "P"

/-- A file in implicit VR that ends inside the length field of the element
`(0010,0010)`: three of its four bytes are there. -/
def sample_file_truncated_implicit : List Nat :=
  sample_magic_header ++ sample_ts_implicit ++ [0x10, 0x00, 0x10, 0x00] ++ [8, 0, 0]

/-! ## A file in explicit VR big-endian -/

/-- A file whose meta group holds the transfer syntax UID `1.2.840.10008.1.2.2`
and whose main dataset, in big-endian, is the elements `(0028,0010) US` with the
value bytes `02 00` and `(0028,0011) US` with the value bytes `01 00`. -/
def sample_file_big_endian : List Nat :=
  sample_magic_header ++ [0x02, 0x00, 0x10, 0x00] ++ cstr "UI" ++ [20, 0] ++
  cstr "1.2.840.10008.1.2.2 " ++
  [0x00, 0x28, 0x00, 0x10] ++ cstr "US" ++ [0x00, 0x02] ++ [0x02, 0x00] ++
  [0x00, 0x28, 0x00, 0x11] ++ cstr "US" ++ [0x00, 0x02] ++ [0x01, 0x00]

/-- The context of `display_value` in the main dataset of `sample_file_big_endian`. -/
def sample_ctx_big_endian : display_context :=
  { is_little_endian := false, overwrite_max_disp_len := false,
    terminal_width := 90, val_col_start := global_val_col_start }

/-! ## A transfer syntax UID of spaces -/

/-- A file whose element `(0002,0010) UI` has a value of four spaces, with the
element `(0008,0060)` behind it. The value starts at offset 140. -/
def sample_file_blank_ts : List Nat :=
  sample_magic_header ++ [0x02, 0x00, 0x10, 0x00] ++ cstr "UI" ++ [4, 0] ++ cstr "    " ++
  sample_modality

/-! ## Leaving an item or sequence of defined length -/

/-- The state in which an item or a sequence of the declared length `length`, whose
body starts at offset `start`, is left when the nested parse ended in the state `r`:
a cursor before `start + length` is moved there, any other cursor is kept. -/
def leave_defined (start length : Nat) (r : Run) : Run :=
  if r.fp.pos < start + length
    then { r with fp := { r.fp with pos := start + length, eof := false } }
    else r

/-- An item of the declared length 14 whose body is the element `(0008,0060)` (10
bytes) and 4 bytes that start with the group `FFFE`, followed by a sequence
delimiter. The body starts at offset 8. -/
def sample_slack_item : List Nat :=
  [0xFE, 0xFF, 0x00, 0xE0] ++ [14, 0, 0, 0] ++ sample_modality ++ [0xFE, 0xFF, 0, 0] ++
  sample_sequence_end

/-! ## The indentation of a line -/

/-- The events that begin an element row or a framing line: the row of an
element, of a sequence, of pixel data, and the lines of an item start, an item end
and a sequence end. -/
def is_row_start : Out → Bool
  | Out.row _ _ _ _ _ _ => true
  | Out.sq_row _ _ _ _ _ => true
  | Out.pixel_data _ _ => true
  | Out.item_start _ => true
  | Out.item_end => true
  | Out.seq_end => true
  | _ => false

/-- The number of characters of the constant texts among the events `l`. -/
def lit_chars (l : List Out) : Nat :=
  (l.map (fun e => match e with
    | Out.lit s => s.length
    | _ => 0)).sum

/-! ## The depth of a sequence -/

/-- The state `s` with `max_sq_depth` set to `x`. -/
def parser_state.with_depth (x : Int) (s : parser_state) : parser_state :=
  { s with max_sq_depth := x }

/-- The loop state `t` with `max_sq_depth` set to `x`. -/
def Top.with_depth (x : Int) (t : Top) : Top := { t with state := t.state.with_depth x }

/-- The depth with which a sequence at nesting level `k` is parsed: 1 for a
sequence at top level, 2 more for a sequence inside an item of a sequence. -/
def sq_depth (k : Nat) : Int := 2 * (k : Int) - 1

/-! ## Samples for sequences that are not bounded by their length -/

/-- The element `(0008,1115) SQ` of defined length 18 holding one item of defined
length 10, which holds the element `(0008,0060) CS "CT"`. -/
def sample_defined_sequence_b : List Nat :=
  [0x08, 0x00, 0x15, 0x11] ++ cstr "SQ" ++ [0, 0] ++ [18, 0, 0, 0] ++
  [0xFE, 0xFF, 0x00, 0xE0] ++ [10, 0, 0, 0] ++ sample_modality

/-- A file with two sequences at top level, one behind the other:
`sample_defined_sequence` (header at offset 132, value at offsets 144..161) and
`sample_defined_sequence_b` (header at offset 162, value at offsets 174..191). -/
def sample_file_two_sequences : List Nat :=
  sample_magic_header ++ sample_defined_sequence ++ sample_defined_sequence_b

/-- The element `(7FE0,0010) OB` of undefined length: an empty first fragment, a
fragment of 2 bytes and the sequence delimiter. -/
def sample_encapsulated : List Nat :=
  [0xE0, 0x7F, 0x10, 0x00] ++ cstr "OB" ++ [0, 0] ++ [0xFF, 0xFF, 0xFF, 0xFF] ++
  [0xFE, 0xFF, 0x00, 0xE0] ++ [0, 0, 0, 0] ++
  [0xFE, 0xFF, 0x00, 0xE0] ++ [2, 0, 0, 0] ++ [1, 2] ++ sample_sequence_end

/-- A file with a sequence of undefined length of one item of undefined length that
holds `sample_encapsulated`; the delimiter of the item stands at offset 190, the one
of the sequence at offset 198, and the element `(0010,0010)` follows at offset 206. -/
def sample_file_encapsulated : List Nat :=
  sample_magic_header ++ sample_open_sequence ++ sample_encapsulated ++ sample_item_end ++
  sample_sequence_end ++ sample_patient_name_explicit

/-- The loop state at the entry of the loop of `parse_dicom_header` in collapse
mode, for a file whose prefix was accepted. -/
def sample_top_collapsed (data : List Nat) : Top :=
  top_init true 5 false { data := data, pos := 132, eof := false }

/-- What `parse_dicom_header` gives on the input `file` in collapse mode, with 100
units of fuel, the dictionary `sample_env` and no filter (an empty result when the
model halts). -/
def sample_result_collapsed (file : List Nat) : Result :=
  match parse_dicom_header sample_env 100 (some file) 250 true 5 false none with
  | Except.ok r => r
  | Except.error _ => { ret := 0, out := [] }

/-! ## Lemmas on C strings and integers -/

theorem cstring_pair (a b : Nat) (h : strlen [a, b] = 2) : cstring [a, b] = [a, b] := by
  unfold strlen cstring at h
  unfold cstring
  by_cases ha : a = 0
  · subst ha; simp [List.takeWhile] at h
  · have ha1 : (a != 0) = true := by simpa using ha
    by_cases hb : b = 0
    · subst hb; simp [List.takeWhile, ha1] at h
    · have hb1 : (b != 0) = true := by simpa using hb
      simp [List.takeWhile, ha1, hb1]

theorem strlen_pair_nul_left (b : Nat) : strlen [0, b] = 0 := by
  simp [strlen, cstring, List.takeWhile]

theorem strlen_pair_nul_right (a : Nat) : strlen [a, 0] ≤ 1 := by
  by_cases ha : (a != 0) = true <;> simp [strlen, cstring, List.takeWhile, ha]

theorem uint16_or (b0 b1 : Nat) (h0 : b0 < 256) : b0 ||| (b1 <<< 8) = b0 + 256 * b1 := by
  rw [Nat.shiftLeft_eq, Nat.lor_comm, Nat.mul_comm]
  have h := Nat.mul_add_lt_is_or (i := 8) (b := b0) (by simpa using h0) b1
  rw [← h]; norm_num; omega

theorem uint32_or (b0 b1 b2 b3 : Nat) (h0 : b0 < 256) (h1 : b1 < 256) (h2 : b2 < 256) :
    b0 ||| (b1 <<< 8) ||| (b2 <<< 16) ||| (b3 <<< 24)
      = b0 + 256 * (b1 + 256 * (b2 + 256 * b3)) := by
  have e1 := uint16_or b0 b1 h0
  have e2 : (b0 + 256 * b1) ||| (b2 <<< 16) = (b0 + 256 * b1) + 65536 * b2 := by
    rw [Nat.shiftLeft_eq, Nat.lor_comm, Nat.mul_comm]
    have h := Nat.mul_add_lt_is_or (i := 16) (b := b0 + 256 * b1) (by norm_num; omega) b2
    rw [← h]; norm_num; omega
  have e3 : (b0 + 256 * b1 + 65536 * b2) ||| (b3 <<< 24)
      = (b0 + 256 * b1 + 65536 * b2) + 16777216 * b3 := by
    rw [Nat.shiftLeft_eq, Nat.lor_comm, Nat.mul_comm]
    have h := Nat.mul_add_lt_is_or (i := 24) (b := b0 + 256 * b1 + 65536 * b2)
      (by norm_num; omega) b3
    rw [← h]; norm_num; omega
  rw [e1, e2, e3]; ring

theorem is_valid_vr_iff (a b : Nat) : is_valid_vr [a, b] = true ↔ [a, b] ∈ valid_vrs := by
  constructor
  · intro h
    unfold is_valid_vr at h
    split at h
    · simp at h
    · rename_i hlen
      split at h
      · simp at h
      · have hlen2 : strlen [a, b] = 2 := by simpa using hlen
        have hc := cstring_pair a b hlen2
        rw [List.any_eq_true] at h
        obtain ⟨v, hv, hs⟩ := h
        unfold streq at hs
        rw [hc] at hs
        have hv2 : ∀ v ∈ valid_vrs, cstring v = v := by decide
        rw [hv2 v hv] at hs
        have : [a, b] = v := by simpa using hs
        rw [this]; exact hv
  · intro h
    have hall : ∀ v ∈ valid_vrs, is_valid_vr v = true := by decide
    exact hall _ h

theorem valid_vrs_eq : List.map cstr
    ["AE", "AS", "AT", "CS", "DA", "DS", "DT", "FD", "FL", "IS", "LO", "LT", "OB", "OD",
     "OF", "OL", "OW", "PN", "SH", "SL", "SQ", "SS", "ST", "TM", "UC", "UI", "UL", "UN",
     "UR", "US", "UT"] = valid_vrs := by decide


/-! ## Lemmas on the input stream -/

theorem fread_fst (fp : FILE) (n : Nat) : (fread fp n).1 = octets fp fp.pos n := rfl

theorem octets_length (fp : FILE) (p n : Nat) :
    (octets fp p n).length = min n (fp.data.length - p) := by
  simp [octets]

theorem octets_lt (fp : FILE) (p n : Nat) : ∀ b ∈ octets fp p n, b < 256 := by
  intro b hb
  simp only [octets, List.mem_map] at hb
  obtain ⟨a, _, rfl⟩ := hb
  omega

theorem fread_data (fp : FILE) (n : Nat) : (fread fp n).2.data = fp.data := rfl

theorem fread_pos (fp : FILE) (n : Nat) :
    (fread fp n).2.pos = fp.pos + min n (fp.data.length - fp.pos) := by
  simp [fread]

theorem fread_eof (fp : FILE) (n : Nat) :
    (fread fp n).2.eof = (fp.eof || decide (min n (fp.data.length - fp.pos) < n)) := by
  simp [fread]

theorem fread_avail (fp : FILE) (n : Nat) (h : fp.pos + n ≤ fp.data.length) :
    fread fp n = (octets fp fp.pos n, { fp with pos := fp.pos + n }) := by
  have hl : (octets fp fp.pos n).length = n := by rw [octets_length]; omega
  have : fread fp n = (octets fp fp.pos n,
      { fp with pos := fp.pos + (octets fp fp.pos n).length,
                eof := fp.eof || decide ((octets fp fp.pos n).length < n) }) := rfl
  rw [this, hl]; simp

theorem octets_two (fp : FILE) (p : Nat) (h : p + 2 ≤ fp.data.length) :
    ∃ b0 b1, octets fp p 2 = [b0, b1] ∧ b0 < 256 ∧ b1 < 256 := by
  have hl : (octets fp p 2).length = 2 := by rw [octets_length]; omega
  have hb := octets_lt fp p 2
  match hq : octets fp p 2, hl with
  | [b0, b1], _ =>
    rw [hq] at hb
    exact ⟨b0, b1, rfl, hb b0 (by simp), hb b1 (by simp)⟩

theorem octets_four (fp : FILE) (p : Nat) (h : p + 4 ≤ fp.data.length) :
    ∃ b0 b1 b2 b3, octets fp p 4 = [b0, b1, b2, b3] ∧ b0 < 256 ∧ b1 < 256 ∧ b2 < 256 ∧ b3 < 256 := by
  have hl : (octets fp p 4).length = 4 := by rw [octets_length]; omega
  have hb := octets_lt fp p 4
  match hq : octets fp p 4, hl with
  | [b0, b1, b2, b3], _ =>
    rw [hq] at hb
    exact ⟨b0, b1, b2, b3, rfl, hb b0 (by simp), hb b1 (by simp), hb b2 (by simp), hb b3 (by simp)⟩

theorem read_uint16_avail (fp : FILE) (state : parser_state) (h : fp.pos + 2 ≤ fp.data.length) :
    read_uint16 fp state
      = (decode state.is_little_endian (octets fp fp.pos 2), { fp with pos := fp.pos + 2 }) := by
  obtain ⟨b0, b1, hq, h0, h1⟩ := octets_two fp fp.pos h
  unfold read_uint16 read_uint16_le read_uint16_be decode
  rw [fread_avail fp 2 h, hq]
  cases state.is_little_endian
  · simp only [Bool.false_eq_true, if_false, decode_be, List.reverse_cons, List.reverse_nil,
      List.nil_append, List.cons_append, decode_le]
    rw [Nat.lor_comm, uint16_or b1 b0 h1]; simp
  · simp only [if_true, decode_le]
    rw [uint16_or b0 b1 h0]; simp

theorem read_uint32_avail (fp : FILE) (state : parser_state) (h : fp.pos + 4 ≤ fp.data.length) :
    read_uint32 fp state
      = (decode state.is_little_endian (octets fp fp.pos 4), { fp with pos := fp.pos + 4 }) := by
  obtain ⟨b0, b1, b2, b3, hq, h0, h1, h2, h3⟩ := octets_four fp fp.pos h
  unfold read_uint32 read_uint32_le read_uint32_be decode
  rw [fread_avail fp 4 h, hq]
  cases state.is_little_endian
  · simp only [Bool.false_eq_true, if_false, decode_be, List.reverse_cons, List.reverse_nil,
      List.nil_append, List.cons_append, decode_le]
    have e : (b0 <<< 24) ||| (b1 <<< 16) ||| (b2 <<< 8) ||| b3
        = b3 ||| (b2 <<< 8) ||| (b1 <<< 16) ||| (b0 <<< 24) := by
      generalize b0 <<< 24 = x0
      generalize b1 <<< 16 = x1
      generalize b2 <<< 8 = x2
      rw [Nat.lor_comm (x0 ||| x1 ||| x2) b3, Nat.lor_comm (x0 ||| x1) x2, Nat.lor_comm x0 x1,
        Nat.lor_assoc, Nat.lor_assoc]
    rw [e, uint32_or b3 b2 b1 b0 h3 h2 h1]; simp
  · simp only [if_true, decode_le]
    rw [uint32_or b0 b1 b2 b3 h0 h1 h2]; simp

theorem is_explicit_vr_long_iff (vr : List Nat) (h : is_valid_vr vr = true) (h2 : vr.length = 2) :
    is_explicit_vr_long vr = true ↔ vr ∈ long_form_vrs := by
  match vr, h2 with
  | [a, b], _ =>
    have hm := (is_valid_vr_iff a b).1 h
    have key : ∀ v ∈ valid_vrs, (is_explicit_vr_long v = true ↔ v ∈ long_form_vrs) := by decide
    exact key _ hm

theorem octets_data (fp fp1 : FILE) (h : fp1.data = fp.data) (p n : Nat) :
    octets fp1 p n = octets fp p n := by
  simp [octets, h]

theorem fseek_cur_nonneg (fp : FILE) (n : Nat) :
    fseek_cur fp (n : Int) = (0, { fp with pos := fp.pos + n, eof := false }) := by
  unfold fseek_cur
  have h : (0 : Int) ≤ (fp.pos : Int) + (n : Int) := by omega
  rw [if_pos h]
  have e : ((fp.pos : Int) + (n : Int)).toNat = fp.pos + n := by omega
  rw [e]

/-! ## Lemmas on the top-level loop -/

theorem top_step_state (env : Env) (max_elements : Int) (filter : Option (List Nat))
    (fuel : Nat) (t t1 : Top) (go : Bool)
    (h : top_step env max_elements filter fuel t = Except.ok (go, t1)) :
    (next_group t = none ∧ t1.state = t.state ∧ t1.in_file_meta = t.in_file_meta) ∨
    (∃ g, next_group t = some g ∧
      t1.state = (ts_switch t.state t.in_file_meta g t.transfer_syntax_uid).1 ∧
      t1.in_file_meta = (ts_switch t.state t.in_file_meta g t.transfer_syntax_uid).2.1) := by
  unfold top_step at h
  unfold next_group
  dsimp only at h
  split at h
  · rename_i heof
    left
    simp only [Except.ok.injEq, Prod.mk.injEq] at h
    obtain ⟨_, rfl⟩ := h
    simp [heof]
  · rename_i heof
    right
    refine ⟨(read_uint16 t.run.fp t.state).1, by simp [heof], ?_⟩
    split at h
    · exact absurd h (by simp)
    · simp only [Except.ok.injEq, Prod.mk.injEq] at h
      obtain ⟨_, rfl⟩ := h
      exact ⟨rfl, rfl⟩

theorem ts_switch_meta (state : parser_state) (g : Nat) (uid : List Nat) :
    (ts_switch state false g uid).1 = state ∧ (ts_switch state false g uid).2.1 = false := by
  simp [ts_switch]

theorem ts_switch_group2 (state : parser_state) (m : Bool) (uid : List Nat) :
    (ts_switch state m 2 uid).1 = state ∧ (ts_switch state m 2 uid).2.1 = m := by
  simp [ts_switch]

theorem ts_switch_mode (state : parser_state) (g : Nat) (uid : List Nat) (hg : g ≠ 2)
    (hs : state.is_explicit_vr = true ∧ state.is_little_endian = true) :
    (ts_switch state true g uid).2.1 = false ∧
    (((ts_switch state true g uid).1.is_explicit_vr, (ts_switch state true g uid).1.is_little_endian)
      = spec_mode (cstring uid)) := by
  unfold ts_switch spec_mode streq strlen
  have e1 : cstring TS_IMPLICIT_VR_LITTLE_ENDIAN = cstr "1.2.840.10008.1.2" := by decide
  have e2 : cstring TS_EXPLICIT_VR_BIG_ENDIAN = cstr "1.2.840.10008.1.2.2" := by decide
  rw [e1, e2]
  simp only [hg, ne_eq, not_false_eq_true, and_self, if_true, beq_iff_eq]
  by_cases h0 : (cstring uid).length > 0
  · simp only [h0, if_true]
    by_cases h1 : cstring uid = cstr "1.2.840.10008.1.2"
    · simp [h1]
    · by_cases h2 : cstring uid = cstr "1.2.840.10008.1.2.2"
      · have n3 : ¬ cstr "1.2.840.10008.1.2.2" = cstr "1.2.840.10008.1.2" := by decide
        simp [h2, n3]
      · simp [h1, h2]
  · have hnil : cstring uid = [] := by
      cases hc : cstring uid with
      | nil => rfl
      | cons a l => rw [hc] at h0; simp at h0
    simp only [h0, if_false, hnil]
    have n1 : ¬ ([] : List Nat) = cstr "1.2.840.10008.1.2" := by decide
    have n2 : ¬ ([] : List Nat) = cstr "1.2.840.10008.1.2.2" := by decide
    simp [n1, n2, hs.1, hs.2]

theorem top_reach_meta (env : Env) (max_elements : Int) (filter : Option (List Nat))
    (c : Bool) (d : Int) (f : Bool) (fp0 : FILE) (t : Top)
    (hr : TopReach env max_elements filter (top_init c d f fp0) t) :
    t.in_file_meta = true → t.state.is_explicit_vr = true ∧ t.state.is_little_endian = true := by
  induction hr with
  | start => intro _; exact ⟨rfl, rfl⟩
  | step fuel t t1 _ _ hstep ih =>
    intro hm
    rcases top_step_state env max_elements filter fuel t t1 true hstep with ⟨_, hs, hi⟩ | ⟨g, _, hs, hi⟩
    · rw [hs]; exact ih (by rw [← hi]; exact hm)
    · cases hmt : t.in_file_meta
      · rw [hmt] at hi
        rw [(ts_switch_meta t.state g t.transfer_syntax_uid).2] at hi
        rw [hi] at hm; exact absurd hm (by simp)
      · by_cases hg : g = 2
        · subst hg
          rw [hs, (ts_switch_group2 _ _ _).1]; exact ih hmt
        · rw [hmt] at hi
          rw [(ts_switch_mode t.state g t.transfer_syntax_uid hg (ih hmt)).1] at hi
          rw [hi] at hm; exact absurd hm (by simp)


/-! ## Lemmas on `element_count` -/

theorem read_and_display_count (env : Env) (state : parser_state) (vr : List Nat) (length : Nat)
    (depth : Int) (r : Run) :
    (read_and_display env state vr length depth r).2.element_count = r.element_count := by
  unfold read_and_display
  dsimp only
  repeat' split
  all_goals rfl

theorem skip_large_count (length : Nat) (r : Run) :
    (skip_large length r).2.element_count = r.element_count := by
  unfold skip_large
  dsimp only
  repeat' split
  all_goals rfl

theorem element_value_count (env : Env) (state : parser_state) (vr : List Nat) (length : Nat)
    (depth : Int) (r : Run) :
    (element_value env state vr length depth r).2.element_count = r.element_count := by
  unfold element_value
  repeat' split
  · exact read_and_display_count ..
  · rfl
  · rfl
  · exact skip_large_count ..

theorem data_element_count (env : Env) (state : parser_state) (filter : Option (List Nat))
    (depth : Int) (r : Run) :
    r.element_count ≤ (data_element env state filter depth r).run.element_count ∧
    (data_element env state filter depth r).run.element_count ≤ r.element_count + 1 ∧
    (∀ l r1, data_element env state filter depth r = Step.sequence l r1 →
      r1.element_count = r.element_count) := by
  unfold data_element
  dsimp only
  repeat' split
  all_goals
    refine ⟨?_, ?_, ?_⟩
    · simp only [Step.run, element_value_count]; omega
    · simp only [Step.run, element_value_count]; omega
    · intro l r1 h
      first
        | (injection h with _ h2; subst h2; rfl)
        | (injection h; done)

theorem sequence_item_count (state : parser_state) (depth : Int) (r : Run) :
    r.element_count ≤ (sequence_item state depth r).run.element_count ∧
    (sequence_item state depth r).run.element_count ≤ r.element_count + 1 := by
  unfold sequence_item
  dsimp only
  repeat' split
  all_goals
    refine ⟨?_, ?_⟩
    · simp only [SeqStep.run]; omega
    · simp only [SeqStep.run]; omega

theorem parse_count_bound (env : Env) (state : parser_state) (max_elements : Int)
    (filter : Option (List Nat)) (fuel : Nat) :
    (∀ depth r res, r.element_count ≤ max_elements →
      parse_sequence env state max_elements filter fuel depth r = some res →
      CountBound max_elements r res) ∧
    (∀ depth r res, r.element_count ≤ max_elements →
      parse_sequence_loop env state max_elements filter fuel depth r = some res →
      CountBound max_elements r res) ∧
    (∀ depth r res, r.element_count ≤ max_elements →
      parse_data_elements env state max_elements filter fuel depth r = some res →
      CountBound max_elements r res) := by
  induction fuel with
  | zero =>
    refine ⟨?_, ?_, ?_⟩ <;> intro depth r res _ h
    · simp [parse_sequence] at h
    · simp [parse_sequence_loop] at h
    · simp [parse_data_elements] at h
  | succ fuel ih =>
    obtain ⟨ihS, ihL, ihD⟩ := ih
    refine ⟨?_, ?_, ?_⟩
    · intro depth r res hle h
      unfold parse_sequence at h
      split at h
      · obtain ⟨res1, _, h⟩ := Option.bind_eq_some.1 h
        simp only [Option.some.injEq] at h
        subst h
        exact ⟨le_refl _, hle⟩
      · exact ihL _ _ _ hle h
    · intro depth r res hle h
      unfold parse_sequence_loop at h
      unfold CountBound
      split at h
      · simp only [Option.some.injEq] at h; subst h; exact ⟨le_refl _, hle⟩
      · rename_i hguard
        have hlt : r.element_count < max_elements := by
          by_contra hc; exact hguard (Or.inr hc)
        obtain ⟨hd1, hd2⟩ := sequence_item_count state depth r
        split at h
        · rename_i code r1 hd
          rw [hd] at hd1 hd2
          simp only [SeqStep.run] at hd1 hd2
          simp only [Option.some.injEq] at h; subst h
          dsimp only; omega
        · rename_i r1 hd
          rw [hd] at hd1 hd2
          simp only [SeqStep.run] at hd1 hd2
          have h1 := ihL _ _ _ (by omega) h
          unfold CountBound at h1; omega
        · rename_i length r1 hd
          rw [hd] at hd1 hd2
          simp only [SeqStep.run] at hd1 hd2
          split at h
          · obtain ⟨res1, heq, h⟩ := Option.bind_eq_some.1 h
            have h0 := ihD _ _ _ (by omega) heq
            unfold CountBound at h0
            have h1 := ihL _ _ _ (by omega) h
            unfold CountBound at h1; omega
          · split at h
            · obtain ⟨res1, heq, h⟩ := Option.bind_eq_some.1 h
              have h0 := ihD _ _ _ (by omega) heq
              unfold CountBound at h0
              dsimp only at h
              split at h
              · have h1 := ihL _ _ _ (by dsimp only; omega) h
                unfold CountBound at h1; dsimp only at h1; omega
              · have h1 := ihL _ _ _ (by omega) h
                unfold CountBound at h1; omega
            · have h1 := ihL _ _ _ (by omega) h
              unfold CountBound at h1; omega
    · intro depth r res hle h
      unfold parse_data_elements at h
      unfold CountBound
      split at h
      · simp only [Option.some.injEq] at h; subst h; exact ⟨le_refl _, hle⟩
      · rename_i hguard
        have hlt : r.element_count < max_elements := by
          by_contra hc; exact hguard (Or.inr hc)
        obtain ⟨hd1, hd2, hd3⟩ := data_element_count env state filter depth r
        split at h
        · rename_i code r1 hd
          rw [hd] at hd1 hd2
          simp only [Step.run] at hd1 hd2
          simp only [Option.some.injEq] at h; subst h
          dsimp only; omega
        · rename_i r1 hd
          rw [hd] at hd1 hd2
          simp only [Step.run] at hd1 hd2
          have h1 := ihD _ _ _ (by omega) h
          unfold CountBound at h1; omega
        · rename_i length r1 hd
          have hde := hd3 _ _ hd
          split at h
          · obtain ⟨res1, heq, h⟩ := Option.bind_eq_some.1 h
            have h1 := ihD _ _ _ (by dsimp only; omega) h
            unfold CountBound at h1; dsimp only at h1; omega
          · split at h
            · obtain ⟨res1, heq, h⟩ := Option.bind_eq_some.1 h
              have h0 := ihS _ _ _ (by dsimp only; omega) heq
              unfold CountBound at h0; dsimp only at h0
              have h1 := ihD _ _ _ (by simp only [Run.emit]; omega) h
              unfold CountBound at h1
              simp only [Run.emit] at h1; omega
            · split at h
              · have h1 := ihD _ _ _ (by dsimp only; omega) h
                unfold CountBound at h1; dsimp only at h1; omega
              · dsimp only at h
                obtain ⟨res1, heq, h⟩ := Option.bind_eq_some.1 h
                have h0 := ihS _ _ _ (by dsimp only; omega) heq
                unfold CountBound at h0; dsimp only at h0
                split at h
                · have h1 := ihD _ _ _ (by simp only [Run.emit]; omega) h
                  unfold CountBound at h1
                  simp only [Run.emit] at h1; omega
                · have h1 := ihD _ _ _ (by simp only [Run.emit]; omega) h
                  unfold CountBound at h1
                  simp only [Run.emit] at h1; omega

theorem ts_capture_count (env : Env) (state : parser_state) (fuel : Nat) (vr : List Nat)
    (length : Nat) (sd : Bool) (uid : List Nat) (r : Run) (res : List Nat × Run)
    (h : ts_capture env state fuel vr length sd uid r = Except.ok res) :
    res.2.element_count = r.element_count := by
  unfold ts_capture at h
  dsimp only at h
  repeat' split at h
  all_goals first
    | (injection h with h; subst h; rfl)
    | (injection h; done)

theorem top_value_count (env : Env) (state : parser_state) (fuel : Nat) (tag : Nat)
    (vr : List Nat) (length : Nat) (sd : Bool) (uid : List Nat) (r : Run)
    (res : Bool × List Nat × Run)
    (h : top_value env state fuel tag vr length sd uid r = Except.ok res) :
    res.2.2.element_count = r.element_count := by
  unfold top_value at h
  split at h
  · split at h
    · injection h
    · rename_i res1 hc
      injection h with h; subst h
      exact ts_capture_count _ _ _ _ _ _ _ _ _ hc
  · split at h
    · injection h with h; subst h; exact read_and_display_count ..
    · split at h
      · injection h with h; subst h; rfl
      · injection h with h; subst h; exact skip_large_count ..

theorem top_sequence_count (env : Env) (state : parser_state) (max_elements : Int)
    (filter : Option (List Nat)) (fuel : Nat) (group element : Nat) (avr : List Nat)
    (length : Nat) (r r1 : Run) (hlt : r.element_count < max_elements)
    (h : top_sequence env state max_elements filter fuel group element avr length r
      = Except.ok r1) :
    r.element_count ≤ r1.element_count ∧ r1.element_count ≤ max_elements := by
  unfold top_sequence at h
  dsimp only at h
  have hS := (parse_count_bound env state max_elements filter fuel).1
  repeat' split at h
  all_goals first
    | (injection h with h; subst h; dsimp only; omega)
    | (injection h; done)
    | (rename_i heq
       have h0 := hS _ _ _ (by dsimp only; omega) heq
       unfold CountBound at h0; dsimp only at h0
       injection h with h; subst h; simp only [Run.emit]; omega)
    | (rename_i heq _
       have h0 := hS _ _ _ (by dsimp only; omega) heq
       unfold CountBound at h0; dsimp only at h0
       injection h with h; subst h; simp only [Run.emit]; omega)

theorem top_element_count (env : Env) (state : parser_state) (max_elements : Int)
    (filter : Option (List Nat)) (fuel : Nat) (group element : Nat) (uid : List Nat)
    (r : Run) (res : Bool × List Nat × Run) (hlt : r.element_count < max_elements)
    (h : top_element env state max_elements filter fuel group element uid r = Except.ok res) :
    r.element_count ≤ res.2.2.element_count ∧ res.2.2.element_count ≤ max_elements := by
  unfold top_element at h
  dsimp only at h
  split at h
  · injection h with h; subst h; simp only [Run.emit]; omega
  · split at h
    · injection h with h; subst h; dsimp only; omega
    · injection h with h; subst h; dsimp only; omega
    · split at h
      · injection h with h; subst h; dsimp only; omega
      · split at h
        · split at h
          · injection h
          · rename_i r1 hs
            have := top_sequence_count _ _ _ _ _ _ _ _ _ _ _ (by dsimp only; exact hlt) hs
            injection h with h; subst h; dsimp only at this ⊢; omega
        · split at h
          · injection h
          · rename_i res1 hv
            have hc := top_value_count _ _ _ _ _ _ _ _ _ _ hv
            dsimp only at hc
            split at h
            · injection h with h; subst h; dsimp only; omega
            · injection h with h; subst h; dsimp only; omega

theorem top_step_count (env : Env) (max_elements : Int) (filter : Option (List Nat))
    (fuel : Nat) (t : Top) (res : Bool × Top) (hlt : t.run.element_count < max_elements)
    (h : top_step env max_elements filter fuel t = Except.ok res) :
    t.run.element_count ≤ res.2.run.element_count ∧ res.2.run.element_count ≤ max_elements := by
  unfold top_step at h
  dsimp only at h
  split at h
  · injection h with h; subst h; dsimp only; omega
  · split at h
    · injection h
    · rename_i res1 he
      have := top_element_count _ _ _ _ _ _ _ _ _ _ (by dsimp only; exact hlt) he
      injection h with h; subst h; dsimp only at this ⊢; omega

theorem top_loop_count (env : Env) (max_elements : Int) (filter : Option (List Nat))
    (fuel : Nat) : ∀ (t t1 : Top), t.run.element_count ≤ max_elements →
    top_loop env max_elements filter fuel t = Except.ok t1 →
    t.run.element_count ≤ t1.run.element_count ∧ t1.run.element_count ≤ max_elements := by
  induction fuel with
  | zero => intro t t1 _ h; simp [top_loop] at h
  | succ fuel ih =>
    intro t t1 hle h
    unfold top_loop at h
    split at h
    · injection h with h; subst h; omega
    · rename_i hguard
      have hlt : t.run.element_count < max_elements := by
        by_contra hc; exact hguard (Or.inr hc)
      split at h
      · injection h
      · rename_i res hs
        have h0 := top_step_count _ _ _ _ _ _ hlt hs
        split at h
        · have h1 := ih _ _ h0.2 h; omega
        · injection h with h; subst h; exact h0
theorem parse_dicom_header_footer (env : Env) (fuel : Nat) (file : Option (List Nat))
    (max_elements : Int) (hmax : 0 ≤ max_elements) (c : Bool) (d : Int) (f : Bool)
    (filter : Option (List Nat)) (res : Result)
    (h : parse_dicom_header env fuel file max_elements c d f filter = Except.ok res) :
    res.ret = -1 ∨
      ∃ out0 n, res.out = out0 ++ [Out.footer n] ∧ 0 ≤ n ∧ n ≤ max_elements := by
  unfold parse_dicom_header at h
  dsimp only at h
  repeat' split at h
  all_goals first
    | (injection h with h; subst h; left; rfl)
    | (injection h; done)
    | (rename_i t hl
       have hc := top_loop_count env max_elements filter fuel _ _ hmax hl
       injection h with h; subst h
       right
       exact ⟨_, _, rfl, by simpa [top_init] using hc.1, hc.2⟩)

/-! ## Lemmas on the capture of the transfer syntax UID -/

theorem rtrim_concat (v : List Nat) (c : Nat) :
    rtrim (v ++ [c]) = if c = 32 ∨ c = 0 then rtrim v else v ++ [c] := by
  unfold rtrim
  rw [List.reverse_append]
  simp only [List.reverse_cons, List.reverse_nil, List.nil_append, List.singleton_append,
    List.dropWhile_cons]
  by_cases h : c = 32 ∨ c = 0
  · have : (c == 32 || c == 0) = true := by
      rcases h with h | h <;> simp [h]
    simp [this, h]
  · have : (c == 32 || c == 0) = false := by
      simp only [not_or] at h
      simp [h.1, h.2]
    simp [this, h]

theorem cstring_append_zero (x tail : List Nat) : cstring (x ++ 0 :: tail) = cstring x := by
  unfold cstring
  induction x with
  | nil => simp [List.takeWhile]
  | cons a x ih =>
    simp only [List.cons_append, List.takeWhile_cons]
    split
    · rw [ih]
    · rfl

theorem cstring_of_no_nul (x : List Nat) (h : ∀ b ∈ x, b ≠ 0) : cstring x = x := by
  unfold cstring
  rw [List.takeWhile_eq_self_iff]
  intro b hb
  simpa using h b hb

theorem ts_trim_spec (v : List Nat) :
    ∀ (tail : List Nat) (fuel : Nat), (∃ b ∈ v, b ≠ 32 ∧ b ≠ 0) → v.length < 4294967296 →
      v.length ≤ fuel →
      ∃ tail1, ts_trim fuel (v ++ 0 :: tail) (v.length - 1) = Except.ok (rtrim v ++ 0 :: tail1) := by
  induction v using List.reverseRecOn with
  | nil => intro tail fuel h; simp at h
  | append_singleton v c ih =>
    intro tail fuel hne hlt hfuel
    simp only [List.length_append, List.length_singleton] at hlt hfuel
    obtain ⟨f, rfl⟩ : ∃ f, fuel = f + 1 := ⟨fuel - 1, by omega⟩
    have hi : (v ++ [c]).length - 1 = v.length := by simp
    rw [hi]
    unfold ts_trim
    have hget : (v ++ [c] ++ 0 :: tail).get? v.length = some c := by
      rw [List.append_assoc, List.get?_eq_getElem?, List.getElem?_append_right (le_refl _)]
      simp
    rw [hget]
    dsimp only
    rw [rtrim_concat]
    by_cases hc : c = 32 ∨ c = 0
    · simp only [hc, if_true]
      have hne1 : ∃ b ∈ v, b ≠ 32 ∧ b ≠ 0 := by
        obtain ⟨b, hb, hb1, hb2⟩ := hne
        simp only [List.mem_append, List.mem_singleton] at hb
        rcases hb with hb | hb
        · exact ⟨b, hb, hb1, hb2⟩
        · subst hb; rcases hc with hc | hc <;> contradiction
      have hpos : 0 < v.length := by
        obtain ⟨b, hb, _⟩ := hne1
        exact List.length_pos_of_mem hb
      have hidx : (v.length + 4294967295) % 4294967296 = v.length - 1 := by omega
      have hset : (v ++ [c] ++ 0 :: tail).set v.length 0 = v ++ 0 :: 0 :: tail := by
        rw [List.append_assoc, List.set_append_right _ _ (le_refl _)]
        simp
      rw [hidx, hset]
      exact ih (0 :: tail) f hne1 (by omega) (by omega)
    · simp only [hc, if_false]
      exact ⟨tail, by simp⟩

theorem ts_capture_spec (env : Env) (state : parser_state) (fuel : Nat) (vr : List Nat)
    (length : Nat) (sd : Bool) (uid : List Nat) (r : Run) (value : List Nat)
    (hlen : 1 ≤ length ∧ length ≤ 64) (hval : (fread r.fp length).1 = value)
    (hvl : value.length = length) (hne : ∃ b ∈ value, b ≠ 32 ∧ b ≠ 0)
    (hbuf : uid.length = 65) (hfuel : 64 ≤ fuel) :
    ∃ uid1 r1, ts_capture env state fuel vr length sd uid r = Except.ok (uid1, r1) ∧
      cstring uid1 = cstring (rtrim value) := by
  unfold ts_capture
  dsimp only
  rw [hval, hvl]
  simp only [if_true]
  have hdrop : uid.drop length = uid.get ⟨length, by omega⟩ :: uid.drop (length + 1) :=
    List.drop_eq_getElem_cons (by omega)
  have hset : (value ++ List.drop length uid).set length 0
      = value ++ 0 :: uid.drop (length + 1) := by
    have h0 : length - value.length = 0 := by omega
    rw [List.set_append_right _ _ (by omega), hdrop, h0, List.set_cons_zero]
  rw [hset]
  obtain ⟨tail1, ht⟩ := ts_trim_spec value (uid.drop (length + 1)) fuel hne (by omega) (by omega)
  rw [hvl] at ht
  rw [ht]
  exact ⟨_, _, rfl, cstring_append_zero _ _⟩

theorem tag_0002_0010 : (0x0002 <<< 16) ||| 0x0010 = 0x00020010 := by decide

theorem top_element_capture (env : Env) (state : parser_state) (max_elements : Int)
    (filter : Option (List Nat)) (fuel : Nat) (uid : List Nat) (r : Run)
    (vr : List Nat) (length : Nat) (fp : FILE)
    (hhdr : read_vr_length env state 0x00020010 r.fp = Header.ok vr length fp)
    (hsq : streq (actual_vr env state 0x00020010 vr) (cstr "SQ") = false)
    (hlen : 1 ≤ length ∧ length ≤ 64) :
    top_element env state max_elements filter fuel 0x0002 0x0010 uid r
      = match ts_capture env state fuel (actual_vr env state 0x00020010 vr) length
            (should_disp_tag 0x00020010 filter) uid
            { r with fp := fp, out := r.out ++
              (if should_disp_tag 0x00020010 filter
                then [Out.row 0x0002 0x0010 (actual_vr env state 0x00020010 vr) length
                  (display_keyword env 0x0002 0x00020010) (display_name env 0x00020010)]
                else []) } with
        | Except.error e => Except.error e
        | Except.ok res =>
          Except.ok (true, res.1,
            { res.2 with element_count := res.2.element_count + 1,
                         out := res.2.out ++
                           (if should_disp_tag 0x00020010 filter then [Out.lit "\n"] else []) }) := by
  unfold top_element
  simp only [tag_0002_0010]
  have h1 : ¬ ((0x0002 : Nat) = 0x7FE0 ∧ True) := by decide
  rw [if_neg h1, hhdr]
  dsimp only
  have h2 : ¬ (should_disp_tag 0x00020010 filter = false ∧ (0x00020010 : Nat) ≠ 0x00020010) := by
    simp
  rw [if_neg h2, hsq]
  simp only [Bool.false_eq_true, if_false]
  unfold top_value
  have h3 : (0x00020010 : Nat) = 0x00020010 ∧ length > 0 ∧ length < 65 := ⟨rfl, by omega, by omega⟩
  rw [if_pos h3]
  cases ts_capture env state fuel (actual_vr env state 0x00020010 vr) length
      (should_disp_tag 0x00020010 filter) uid _ with
  | error e => rfl
  | ok res => simp

/-! ## Lemmas on the filter -/

theorem tail_drop (b : Nat) (d : List Nat) (fp : FILE) (h : Tail b d fp) (p : Nat) (hp : b ≤ p) :
    d.drop p = fp.data.drop p := by
  obtain ⟨_, h2, _⟩ := h
  have e : p = b + (p - b) := by omega
  rw [e, ← List.drop_drop, ← List.drop_drop, h2]

theorem octets_swap (b : Nat) (d : List Nat) (fp : FILE) (h : Tail b d fp) (p n : Nat)
    (hp : b ≤ p) : octets (fp.swap d) p n = octets fp p n := by
  unfold octets FILE.swap
  dsimp only
  rw [tail_drop b d fp h p hp]

theorem fread_swap (b : Nat) (d : List Nat) (fp : FILE) (h : Tail b d fp) (n : Nat) :
    fread (fp.swap d) n = ((fread fp n).1, (fread fp n).2.swap d) := by
  have e := octets_swap b d fp h fp.pos n h.2.2
  unfold octets FILE.swap at e
  dsimp only at e
  unfold fread FILE.swap
  dsimp only
  rw [e]

theorem tail_fread (b : Nat) (d : List Nat) (fp : FILE) (h : Tail b d fp) (n : Nat) :
    Tail b d (fread fp n).2 := by
  obtain ⟨h1, h2, h3⟩ := h
  refine ⟨h1, h2, ?_⟩
  rw [fread_pos]; omega

theorem read_uint16_eq (fp : FILE) (s : parser_state) :
    read_uint16 fp s = (uint16_of s.is_little_endian (fread fp 2).1, (fread fp 2).2) := by
  unfold read_uint16 read_uint16_le read_uint16_be uint16_of
  generalize fread fp 2 = x
  rcases x with ⟨l, f⟩
  rcases l with _ | ⟨a, _ | ⟨b, _ | ⟨c, l⟩⟩⟩ <;> cases s.is_little_endian <;> rfl

theorem read_uint32_eq (fp : FILE) (s : parser_state) :
    read_uint32 fp s = (uint32_of s.is_little_endian (fread fp 4).1, (fread fp 4).2) := by
  unfold read_uint32 read_uint32_le read_uint32_be uint32_of
  generalize fread fp 4 = x
  rcases x with ⟨l, f⟩
  rcases l with _ | ⟨a, _ | ⟨b, _ | ⟨c, _ | ⟨e, _ | ⟨g, l⟩⟩⟩⟩⟩ <;>
    cases s.is_little_endian <;> rfl

theorem read_uint16_swap (b : Nat) (d : List Nat) (fp : FILE) (h : Tail b d fp)
    (s : parser_state) :
    read_uint16 (fp.swap d) s = ((read_uint16 fp s).1, (read_uint16 fp s).2.swap d) := by
  rw [read_uint16_eq, read_uint16_eq, fread_swap b d fp h]

theorem read_uint32_swap (b : Nat) (d : List Nat) (fp : FILE) (h : Tail b d fp)
    (s : parser_state) :
    read_uint32 (fp.swap d) s = ((read_uint32 fp s).1, (read_uint32 fp s).2.swap d) := by
  rw [read_uint32_eq, read_uint32_eq, fread_swap b d fp h]

theorem read_uint16_snd (fp : FILE) (s : parser_state) :
    (read_uint16 fp s).2 = (fread fp 2).2 := by
  rw [read_uint16_eq]

theorem read_uint32_snd (fp : FILE) (s : parser_state) :
    (read_uint32 fp s).2 = (fread fp 4).2 := by
  rw [read_uint32_eq]

theorem tail_read_uint16 (b : Nat) (d : List Nat) (fp : FILE) (h : Tail b d fp)
    (s : parser_state) : Tail b d (read_uint16 fp s).2 := by
  rw [read_uint16_snd]; exact tail_fread b d fp h 2

theorem tail_read_uint32 (b : Nat) (d : List Nat) (fp : FILE) (h : Tail b d fp)
    (s : parser_state) : Tail b d (read_uint32 fp s).2 := by
  rw [read_uint32_snd]; exact tail_fread b d fp h 4

theorem fseek_cur_swap (d : List Nat) (fp : FILE) (off : Int) :
    fseek_cur (fp.swap d) off = ((fseek_cur fp off).1, (fseek_cur fp off).2.swap d) := by
  unfold fseek_cur FILE.swap
  dsimp only
  split <;> rfl

theorem fseek_set_swap (d : List Nat) (fp : FILE) (p : Int) :
    fseek_set (fp.swap d) p = ((fseek_set fp p).1, (fseek_set fp p).2.swap d) := by
  unfold fseek_set FILE.swap
  dsimp only
  split <;> rfl

theorem tail_fseek_cur (b : Nat) (d : List Nat) (fp : FILE) (h : Tail b d fp) (off : Int)
    (hoff : (b : Int) ≤ (fp.pos : Int) + off) : Tail b d (fseek_cur fp off).2 := by
  obtain ⟨h1, h2, h3⟩ := h
  unfold fseek_cur
  split
  · exact ⟨h1, h2, by dsimp only; omega⟩
  · exact ⟨h1, h2, h3⟩

theorem tail_fseek_set (b : Nat) (d : List Nat) (fp : FILE) (h : Tail b d fp) (p : Int)
    (hp : (b : Int) ≤ p) : Tail b d (fseek_set fp p).2 := by
  obtain ⟨h1, h2, h3⟩ := h
  unfold fseek_set
  split
  · exact ⟨h1, h2, by dsimp only; omega⟩
  · exact ⟨h1, h2, h3⟩

theorem feof_swap (d : List Nat) (fp : FILE) : feof (fp.swap d) = feof fp := rfl

theorem ftell_swap (d : List Nat) (fp : FILE) : ftell (fp.swap d) = ftell fp := rfl

theorem pos_swap (d : List Nat) (fp : FILE) : (fp.swap d).pos = fp.pos := rfl

theorem fread_pos_of_not_eof (fp : FILE) (n : Nat) (h : feof (fread fp n).2 = false) :
    (fread fp n).2.pos = fp.pos + n := by
  unfold feof at h
  rw [fread_eof] at h
  rw [fread_pos]
  simp only [Bool.or_eq_false_iff, decide_eq_false_iff_not] at h
  omega

theorem fread_eof_mono (fp : FILE) (n : Nat) (h : feof (fread fp n).2 = false) :
    feof fp = false := by
  unfold feof at h ⊢
  rw [fread_eof] at h
  simp only [Bool.or_eq_false_iff] at h
  exact h.1

theorem tag_pos_of_not_eof (fp : FILE) (s : parser_state)
    (h : feof (read_uint16 (read_uint16 fp s).2 s).2 = false) :
    (read_uint16 (read_uint16 fp s).2 s).2.pos = fp.pos + 4 := by
  rw [read_uint16_snd] at h ⊢
  have h2 := fread_eof_mono _ _ h
  have p2 := fread_pos_of_not_eof _ _ h
  rw [read_uint16_snd] at h2 p2 ⊢
  have p1 := fread_pos_of_not_eof _ _ h2
  omega
theorem read_vr_length_swap (b : Nat) (d : List Nat) (fp : FILE) (h : Tail b d fp)
    (env : Env) (s : parser_state) (tag : Nat) :
    read_vr_length env s tag (fp.swap d) = (read_vr_length env s tag fp).swap d ∧
    Tail b d (read_vr_length env s tag fp).fp := by
  have t1 := tail_fread b d fp h 2
  have t2 := tail_fseek_cur b d _ t1 2 (by have := t1.2.2; omega)
  have t3 := tail_read_uint32 b d _ t2 s
  have t4 := tail_read_uint16 b d _ t1 s
  have t5 := tail_read_uint32 b d _ h s
  unfold read_vr_length
  dsimp only
  rw [fread_swap b d fp h]
  dsimp only
  rw [fseek_cur_swap]
  dsimp only
  rw [read_uint32_swap b d _ t2, read_uint16_swap b d _ t1, read_uint32_swap b d _ h]
  dsimp only
  repeat' split
  all_goals first
    | exact ⟨rfl, t1⟩
    | exact ⟨rfl, t3⟩
    | exact ⟨rfl, t4⟩
    | exact ⟨rfl, t5⟩

theorem count_item_header_swap (b : Nat) (d : List Nat) (fp : FILE) (h : Tail b d fp)
    (env : Env) (s : parser_state) (g e : Nat) :
    count_item_header env s g e (fp.swap d) = (count_item_header env s g e fp).swap d ∧
    Tail b d (count_item_header env s g e fp).fp := by
  have t1 := tail_fread b d fp h 2
  have t2 := tail_fseek_cur b d _ t1 2 (by have := t1.2.2; omega)
  have t3 := tail_read_uint32 b d _ t2 s
  have t4 := tail_read_uint16 b d _ t1 s
  have t5 := tail_read_uint32 b d _ h s
  unfold count_item_header
  dsimp only
  rw [fread_swap b d fp h]
  dsimp only
  rw [fseek_cur_swap]
  dsimp only
  rw [read_uint32_swap b d _ t2, read_uint16_swap b d _ t1, read_uint32_swap b d _ h]
  dsimp only
  repeat' split
  all_goals first
    | exact ⟨rfl, t1⟩
    | exact ⟨rfl, t3⟩
    | exact ⟨rfl, t4⟩
    | exact ⟨rfl, t5⟩
theorem read_uint32_pos_le (fp : FILE) (s : parser_state) :
    fp.pos ≤ (read_uint32 fp s).2.pos := by
  rw [read_uint32_snd, fread_pos]; omega

theorem read_uint16_pos_le (fp : FILE) (s : parser_state) :
    fp.pos ≤ (read_uint16 fp s).2.pos := by
  rw [read_uint16_snd, fread_pos]; omega

theorem count_step_swap (b : Nat) (d : List Nat) (fp : FILE) (h : Tail b d fp)
    (s : parser_state) :
    count_step s (fp.swap d) = (count_step s fp).swap d ∧ Tail b d (count_step s fp).fp := by
  have t1 := tail_read_uint16 b d fp h s
  have t2 := tail_read_uint16 b d _ t1 s
  have t3 := tail_read_uint32 b d _ t2 s
  have t4 := tail_fseek_cur b d _ t3
    ((read_uint32 (read_uint16 (read_uint16 fp s).2 s).2 s).1 : Nat) (by have := t3.2.2; omega)
  have t5 := tail_fseek_set b d _ t2 (ftell fp) (by unfold ftell; have := h.2.2; omega)
  unfold count_step
  simp only [read_uint16_swap b d fp h, read_uint16_swap b d _ t1, read_uint32_swap b d _ t2,
    fseek_cur_swap, fseek_set_swap, feof_swap, ftell_swap]
  repeat' split
  all_goals first
    | exact ⟨rfl, t2⟩
    | exact ⟨rfl, t3⟩
    | exact ⟨rfl, t4⟩
    | exact ⟨rfl, t5⟩

theorem body_step_swap (b : Nat) (d : List Nat) (fp : FILE) (h : Tail b d fp)
    (env : Env) (s : parser_state) :
    body_step env s (fp.swap d) = (body_step env s fp).swap d ∧
    Tail b d (body_step env s fp).fp := by
  have t1 := tail_read_uint16 b d fp h s
  have t2 := tail_read_uint16 b d _ t1 s
  have t3 := tail_read_uint32 b d _ t2 s
  have hh := count_item_header_swap b d _ t2 env s (read_uint16 fp s).1
    (read_uint16 (read_uint16 fp s).2 s).1
  unfold body_step
  simp only [read_uint16_swap b d fp h, read_uint16_swap b d _ t1, read_uint32_swap b d _ t2,
    feof_swap, hh.1]
  have t4 := hh.2
  revert t4
  cases count_item_header env s (read_uint16 fp s).1 (read_uint16 (read_uint16 fp s).2 s).1
      (read_uint16 (read_uint16 fp s).2 s).2 with
  | truncated fp1 =>
    intro t4
    simp only [Header.swap]
    repeat' split
    all_goals first
      | exact ⟨rfl, t2⟩
      | exact ⟨rfl, t3⟩
      | exact ⟨rfl, t4⟩
  | invalid vr fp1 =>
    intro t4
    simp only [Header.swap]
    repeat' split
    all_goals first
      | exact ⟨rfl, t2⟩
      | exact ⟨rfl, t3⟩
      | exact ⟨rfl, t4⟩
  | ok vr len fp1 =>
    intro t4
    simp only [Header.fp] at t4
    have t5 := tail_fseek_cur b d _ t4 (len : Nat) (by have := t4.2.2; omega)
    simp only [Header.swap, fseek_cur_swap]
    repeat' split
    all_goals first
      | exact ⟨rfl, t2⟩
      | exact ⟨rfl, t3⟩
      | exact ⟨rfl, t4⟩
      | exact ⟨rfl, t5⟩
theorem SimOpt.none_intro {α : Type} (sw : α → α) (T : α → Prop) :
    SimOpt sw T (none : Option α) none :=
  ⟨rfl, fun a h => by simp at h⟩

theorem SimOpt.some_intro {α : Type} (sw : α → α) (T : α → Prop) (v1 v : α)
    (e : v1 = sw v) (t : T v) : SimOpt sw T (some v1) (some v) := by
  refine ⟨by rw [e]; rfl, fun a h => ?_⟩
  simp only [Option.some.injEq] at h
  rw [← h]; exact t

theorem SimOpt.bind {α β : Type} (sw1 : α → α) (T1 : α → Prop) (sw : β → β) (T : β → Prop)
    (a1 a : Option α) (k1 k : α → Option β)
    (h : SimOpt sw1 T1 a1 a) (hk : ∀ r, T1 r → SimOpt sw T (k1 (sw1 r)) (k r)) :
    SimOpt sw T (a1.bind k1) (a.bind k) := by
  obtain ⟨h1, h2⟩ := h
  subst h1
  cases a with
  | none => exact SimOpt.none_intro sw T
  | some r => exact hk r (h2 r rfl)

theorem count_swap (b : Nat) (d : List Nat) (env : Env) (s : parser_state) (fuel : Nat) :
    (∀ ic ep fp, Tail b d fp →
      SimOpt (fun res : Int × Int × FILE => (res.1, res.2.1, res.2.2.swap d))
        (fun res => Tail b d res.2.2)
        (count_sequence_items_loop env s fuel ic ep (fp.swap d))
        (count_sequence_items_loop env s fuel ic ep fp)) ∧
    (∀ fp, Tail b d fp →
      SimOpt (FILE.swap d) (Tail b d)
        (count_item_body env s fuel (fp.swap d)) (count_item_body env s fuel fp)) := by
  induction fuel with
  | zero =>
    refine ⟨fun ic ep fp _ => ?_, fun fp _ => ?_⟩
    · unfold count_sequence_items_loop; exact SimOpt.none_intro _ _
    · unfold count_item_body; exact SimOpt.none_intro _ _
  | succ fuel ih =>
    obtain ⟨ihL, ihB⟩ := ih
    refine ⟨fun ic ep fp h => ?_, fun fp h => ?_⟩
    · unfold count_sequence_items_loop
      simp only [feof_swap]
      by_cases hf : feof fp = true
      · rw [if_pos hf, if_pos hf]
        exact SimOpt.some_intro _ _ _ _ rfl h
      · rw [if_neg hf, if_neg hf, (count_step_swap b d fp h s).1]
        have t := (count_step_swap b d fp h s).2
        revert t
        cases count_step s fp with
        | stop e fp1 =>
          intro t
          cases e with
          | none => exact SimOpt.some_intro _ _ _ _ rfl t
          | some e => exact SimOpt.some_intro _ _ _ _ rfl t
        | skip fp1 => intro t; exact ihL _ _ _ t
        | item fp1 => intro t; exact ihL _ _ _ t
        | item_undefined fp1 =>
          intro t
          simp only [CountStep.swap]
          refine SimOpt.bind _ _ _ _ _ _ _ _ (ihB fp1 t) ?_
          intro fp2 t2
          exact ihL _ _ _ t2
    · unfold count_item_body
      simp only [feof_swap]
      by_cases hf : feof fp = true
      · rw [if_pos hf, if_pos hf]
        exact SimOpt.some_intro _ _ _ _ rfl h
      · rw [if_neg hf, if_neg hf, (body_step_swap b d fp h env s).1]
        have t := (body_step_swap b d fp h env s).2
        revert t
        cases body_step env s fp with
        | stop fp1 => intro t; exact SimOpt.some_intro _ _ _ _ rfl t
        | next fp1 => intro t; exact ihB _ t
        | sequence fp1 =>
          intro t
          simp only [BodyStep.swap]
          refine SimOpt.bind _ _ _ _ _ _ _ _ (ihL 0 (ftell fp1) fp1 t) ?_
          intro res t2
          exact ihB _ t2

theorem count_sequence_items_swap (b : Nat) (d : List Nat) (env : Env) (s : parser_state)
    (fuel : Nat) (fp : FILE) (h : Tail b d fp) :
    SimOpt (fun res : Int × Int × FILE => (res.1, res.2.1, res.2.2.swap d))
      (fun res => Tail b d res.2.2)
      (count_sequence_items env s fuel (fp.swap d)) (count_sequence_items env s fuel fp) := by
  unfold count_sequence_items
  exact (count_swap b d env s fuel).1 _ _ _ h
theorem read_and_display_swap (b : Nat) (d : List Nat) (env : Env) (s : parser_state)
    (vr : List Nat) (length : Nat) (depth : Int) (r : Run) (h : Tail b d r.fp) :
    read_and_display env s vr length depth (r.swap d)
      = ((read_and_display env s vr length depth r).1,
         (read_and_display env s vr length depth r).2.swap d) ∧
    Tail b d (read_and_display env s vr length depth r).2.fp := by
  have hle : (if length < 4096 then length else 4096) ≤ length := by split <;> omega
  unfold read_and_display
  dsimp only
  generalize (if length < 4096 then length else 4096) = read_len at hle
  have t1 := tail_fread b d r.fp h read_len
  have t2 := tail_fseek_cur b d _ t1 ((length : Int) - (read_len : Int))
    (by have := t1.2.2; omega)
  have t3 := tail_fseek_cur b d _ h (length : Nat) (by have := h.2.2; omega)
  simp only [Run.swap, pos_swap, fread_swap b d r.fp h, fseek_cur_swap]
  repeat' split
  all_goals first
    | exact ⟨rfl, t1⟩
    | exact ⟨rfl, t2⟩
    | exact ⟨rfl, t3⟩

theorem skip_large_swap (b : Nat) (d : List Nat) (length : Nat) (r : Run) (h : Tail b d r.fp) :
    skip_large length (r.swap d)
      = ((skip_large length r).1, (skip_large length r).2.swap d) ∧
    Tail b d (skip_large length r).2.fp := by
  have t3 := tail_fseek_cur b d _ h (length : Nat) (by have := h.2.2; omega)
  unfold skip_large
  simp only [Run.swap, fseek_cur_swap]
  repeat' split
  all_goals exact ⟨rfl, t3⟩

theorem element_value_swap (b : Nat) (d : List Nat) (env : Env) (s : parser_state)
    (vr : List Nat) (length : Nat) (depth : Int) (r : Run) (h : Tail b d r.fp) :
    element_value env s vr length depth (r.swap d)
      = ((element_value env s vr length depth r).1,
         (element_value env s vr length depth r).2.swap d) ∧
    Tail b d (element_value env s vr length depth r).2.fp := by
  unfold element_value
  repeat' split
  · exact read_and_display_swap b d env s vr length depth r h
  · exact ⟨rfl, h⟩
  · exact ⟨rfl, h⟩
  · exact skip_large_swap b d length r h

theorem sequence_item_swap (b : Nat) (d : List Nat) (s : parser_state) (depth : Int) (r : Run)
    (h : Tail b d r.fp) :
    sequence_item s depth (r.swap d) = (sequence_item s depth r).swap d ∧
    Tail b d (sequence_item s depth r).run.fp := by
  have t1 := tail_read_uint16 b d r.fp h s
  have t2 := tail_read_uint16 b d _ t1 s
  have t3 := tail_read_uint32 b d _ t2 s
  unfold sequence_item
  simp only [Run.swap, read_uint16_swap b d r.fp h, read_uint16_swap b d _ t1,
    read_uint32_swap b d _ t2, fseek_cur_swap, feof_swap]
  by_cases he : feof (read_uint16 (read_uint16 r.fp s).2 s).2 = true
  · simp only [he, if_true]
    exact ⟨rfl, t2⟩
  · simp only [he, Bool.false_eq_true, if_false]
    have hp := tag_pos_of_not_eof r.fp s (by simpa using he)
    have t4 := tail_fseek_cur b d _ t2 (-4) (by have := h.2.2; omega)
    have t5 := tail_fseek_cur b d _ t3 (-4) (by
      have := h.2.2
      have := read_uint32_pos_le (read_uint16 (read_uint16 r.fp s).2 s).2 s
      omega)
    repeat' split
    all_goals first
      | exact ⟨rfl, t3⟩
      | exact ⟨rfl, t4⟩
      | exact ⟨rfl, t5⟩
theorem data_element_swap (b : Nat) (d : List Nat) (env : Env) (s : parser_state)
    (filter : Option (List Nat)) (depth : Int) (r : Run) (h : Tail b d r.fp) :
    data_element env s filter depth (r.swap d) = (data_element env s filter depth r).swap d ∧
    Tail b d (data_element env s filter depth r).run.fp := by
  have t1 := tail_read_uint16 b d r.fp h s
  have t2 := tail_read_uint16 b d _ t1 s
  have hh := read_vr_length_swap b d _ t2 env s
    (((read_uint16 r.fp s).1 <<< 16) ||| (read_uint16 (read_uint16 r.fp s).2 s).1)
  unfold data_element
  simp only [Run.swap, read_uint16_swap b d r.fp h, read_uint16_swap b d _ t1,
    fseek_cur_swap, feof_swap, hh.1]
  by_cases he : feof (read_uint16 (read_uint16 r.fp s).2 s).2 = true
  · simp only [he, if_true]
    exact ⟨rfl, t2⟩
  · simp only [he, Bool.false_eq_true, if_false]
    have hp := tag_pos_of_not_eof r.fp s (by simpa using he)
    have t4 := tail_fseek_cur b d _ t2 (-4) (by have := h.2.2; omega)
    split
    · exact ⟨rfl, t4⟩
    · split
      · exact ⟨rfl, t2⟩
      · have t5 := hh.2
        revert t5
        cases read_vr_length env s
            (((read_uint16 r.fp s).1 <<< 16) ||| (read_uint16 (read_uint16 r.fp s).2 s).1)
            (read_uint16 (read_uint16 r.fp s).2 s).2 with
        | truncated fp1 => intro t5; exact ⟨rfl, t5⟩
        | invalid vr fp1 => intro t5; exact ⟨rfl, t5⟩
        | ok vr len fp1 =>
          intro t5
          simp only [Header.fp] at t5
          have t6 := tail_fseek_cur b d _ t5 (len : Nat) (by have := t5.2.2; omega)
          simp only [Header.swap, fseek_cur_swap]
          split
          · exact ⟨rfl, t6⟩
          · split
            · exact ⟨rfl, t5⟩
            · have ev := element_value_swap b d env s
                (actual_vr env s
                  (((read_uint16 r.fp s).1 <<< 16) ||| (read_uint16 (read_uint16 r.fp s).2 s).1) vr)
                len depth
                { fp := fp1, element_count := r.element_count,
                  out := r.out ++ print_indent depth ++
                    [Out.row (read_uint16 r.fp s).1 (read_uint16 (read_uint16 r.fp s).2 s).1
                      (actual_vr env s
                        (((read_uint16 r.fp s).1 <<< 16) |||
                          (read_uint16 (read_uint16 r.fp s).2 s).1) vr) len
                      (display_keyword env (read_uint16 r.fp s).1
                        (((read_uint16 r.fp s).1 <<< 16) |||
                          (read_uint16 (read_uint16 r.fp s).2 s).1))
                      (display_name env
                        (((read_uint16 r.fp s).1 <<< 16) |||
                          (read_uint16 (read_uint16 r.fp s).2 s).1))] } t5
              simp only [Run.swap] at ev
              rw [ev.1]
              split
              · exact ⟨rfl, ev.2⟩
              · exact ⟨rfl, ev.2⟩

/-! ## The preamble and the magic -/

theorem parse_dicom_header_bad (env : Env) (fuel : Nat) (data : List Nat) (max_elements : Int)
    (c : Bool) (d : Int) (f : Bool) (filter : Option (List Nat)) (h : bad_header data) :
    ∃ msg, parse_dicom_header env fuel (some data) max_elements c d f filter
      = Except.ok { ret := -1, out := [Out.err msg] } := by
  unfold parse_dicom_header
  dsimp only
  by_cases h1 : (fread { data := data, pos := 0, eof := false } DICOM_PREAMBLE_SIZE).1.length
      ≠ DICOM_PREAMBLE_SIZE
  · rw [if_pos h1]; exact ⟨_, rfl⟩
  · rw [if_neg h1]
    by_cases h2 : (fread (fread { data := data, pos := 0, eof := false } DICOM_PREAMBLE_SIZE).2
        DICOM_PREFIX_SIZE).1.length ≠ DICOM_PREFIX_SIZE
    · rw [if_pos h2]; exact ⟨_, rfl⟩
    · rw [if_neg h2]
      by_cases h3 : (fread (fread { data := data, pos := 0, eof := false } DICOM_PREAMBLE_SIZE).2
          DICOM_PREFIX_SIZE).1 ≠ DICOM_PREFIX
      · rw [if_pos h3]; exact ⟨_, rfl⟩
      · exfalso
        simp only [ne_eq, not_not] at h1 h2 h3
        rw [fread_fst, octets_length] at h1 h2
        simp only [DICOM_PREAMBLE_SIZE, DICOM_PREFIX_SIZE, fread_data, fread_pos] at h1 h2
        have hlen : 132 ≤ data.length := by omega
        rcases h with h | h
        · omega
        · apply h
          rw [fread_fst] at h3
          have hp : (fread { data := data, pos := 0, eof := false } DICOM_PREAMBLE_SIZE).2.pos
              = 128 := by
            rw [fread_pos]; simp only [DICOM_PREAMBLE_SIZE]; omega
          rw [hp] at h3
          exact h3

theorem parse_dicom_header_good (env : Env) (fuel : Nat) (data : List Nat) (max_elements : Int)
    (c : Bool) (d : Int) (f : Bool) (filter : Option (List Nat)) (h : ¬ bad_header data) :
    parse_dicom_header env fuel (some data) max_elements c d f filter
      = match top_loop env max_elements filter fuel
            (top_init c d f { data := data, pos := 132, eof := false }) with
        | Except.error e => Except.error e
        | Except.ok t =>
          Except.ok { ret := 0, out := t.run.out ++ [Out.footer t.run.element_count] } := by
  unfold bad_header at h
  simp only [not_or, not_lt, ne_eq, not_not] at h
  obtain ⟨hlen, hm⟩ := h
  unfold parse_dicom_header
  dsimp only
  have a1 := fread_avail { data := data, pos := 0, eof := false } DICOM_PREAMBLE_SIZE
    (by simp only [DICOM_PREAMBLE_SIZE]; omega)
  rw [a1]
  dsimp only
  have a2 := fread_avail { data := data, pos := 0 + DICOM_PREAMBLE_SIZE, eof := false }
    DICOM_PREFIX_SIZE (by simp only [DICOM_PREAMBLE_SIZE, DICOM_PREFIX_SIZE]; omega)
  rw [a2]
  dsimp only
  have l1 : (octets { data := data, pos := 0, eof := false } 0 DICOM_PREAMBLE_SIZE).length
      = DICOM_PREAMBLE_SIZE := by
    rw [octets_length]; simp only [DICOM_PREAMBLE_SIZE]; omega
  have e2 : octets { data := data, pos := 0 + DICOM_PREAMBLE_SIZE, eof := false }
      (0 + DICOM_PREAMBLE_SIZE) DICOM_PREFIX_SIZE = cstr "DICM" := hm
  rw [e2]
  have l2 : (cstr "DICM").length = DICOM_PREFIX_SIZE := by decide
  have l3 : cstr "DICM" = DICOM_PREFIX := rfl
  simp only [l1, l2, l3, ne_eq, not_true_eq_false, if_false]
  rfl

theorem parse_swap (b : Nat) (d : List Nat) (env : Env) (s : parser_state)
    (max_elements : Int) (filter : Option (List Nat)) (fuel : Nat) :
    (∀ depth r, Tail b d r.fp →
      SimOpt (fun res : Int × Run => (res.1, res.2.swap d)) (fun res => Tail b d res.2.fp)
        (parse_sequence env s max_elements filter fuel depth (r.swap d))
        (parse_sequence env s max_elements filter fuel depth r)) ∧
    (∀ depth r, Tail b d r.fp →
      SimOpt (fun res : Int × Run => (res.1, res.2.swap d)) (fun res => Tail b d res.2.fp)
        (parse_sequence_loop env s max_elements filter fuel depth (r.swap d))
        (parse_sequence_loop env s max_elements filter fuel depth r)) ∧
    (∀ depth r, Tail b d r.fp →
      SimOpt (fun res : Int × Run => (res.1, res.2.swap d)) (fun res => Tail b d res.2.fp)
        (parse_data_elements env s max_elements filter fuel depth (r.swap d))
        (parse_data_elements env s max_elements filter fuel depth r)) := by
  induction fuel with
  | zero =>
    refine ⟨fun depth r _ => ?_, fun depth r _ => ?_, fun depth r _ => ?_⟩
    · unfold parse_sequence; exact SimOpt.none_intro _ _
    · unfold parse_sequence_loop; exact SimOpt.none_intro _ _
    · unfold parse_data_elements; exact SimOpt.none_intro _ _
  | succ fuel ih =>
    obtain ⟨ihS, ihL, ihD⟩ := ih
    refine ⟨fun depth r h => ?_, fun depth r h => ?_, fun depth r h => ?_⟩
    · unfold parse_sequence
      by_cases hd : depth > s.max_sq_depth
      · rw [if_pos hd, if_pos hd]
        refine SimOpt.bind _ _ _ _ _ _ _ _ (count_sequence_items_swap b d env s fuel r.fp h) ?_
        intro res t
        exact SimOpt.some_intro _ _ _ _ rfl t
      · rw [if_neg hd, if_neg hd]
        exact ihL depth r h
    · unfold parse_sequence_loop
      by_cases hg : feof r.fp = true ∨ ¬ r.element_count < max_elements
      · rw [if_pos hg,
          if_pos (show feof (r.swap d).fp = true ∨ ¬ (r.swap d).element_count < max_elements
            from hg)]
        exact SimOpt.some_intro _ _ _ _ rfl h
      · rw [if_neg hg,
          if_neg (show ¬ (feof (r.swap d).fp = true ∨ ¬ (r.swap d).element_count < max_elements)
            from hg), (sequence_item_swap b d s depth r h).1]
        have t := (sequence_item_swap b d s depth r h).2
        revert t
        cases sequence_item s depth r with
        | ret code r1 => intro t; exact SimOpt.some_intro _ _ _ _ rfl t
        | next r1 => intro t; exact ihL depth r1 t
        | item length r1 =>
          intro t
          simp only [SeqStep.swap, SeqStep.run] at t ⊢
          by_cases hl : length = 0xFFFFFFFF
          · rw [if_pos hl, if_pos hl]
            refine SimOpt.bind _ _ _ _ _ _ _ _ (ihD (depth + 1) r1 t) ?_
            intro res tres
            exact ihL depth res.2 tres
          · rw [if_neg hl, if_neg hl]
            by_cases hl0 : length > 0
            · rw [if_pos hl0, if_pos hl0]
              refine SimOpt.bind _ _ _ _ _ _ _ _ (ihD (depth + 1) r1 t) ?_
              intro res tres
              dsimp only
              by_cases hc : ftell res.2.fp - ftell r1.fp < (length : Int)
              · rw [if_pos hc,
                  if_pos (show ftell (res.2.swap d).fp - ftell (r1.swap d).fp < (length : Int)
                    from hc)]
                have := ihL depth
                  { res.2 with fp := (fseek_set res.2.fp (ftell r1.fp + (length : Int))).2 }
                  (tail_fseek_set b d _ tres _ (by
                    have := t.2.2
                    unfold ftell; omega))
                simp only [Run.swap, fseek_set_swap, ftell_swap] at this ⊢
                exact this
              · rw [if_neg hc,
                  if_neg (show ¬ ftell (res.2.swap d).fp - ftell (r1.swap d).fp < (length : Int)
                    from hc)]
                exact ihL depth res.2 tres
            · rw [if_neg hl0, if_neg hl0]
              exact ihL depth r1 t
    · unfold parse_data_elements
      by_cases hg : feof r.fp = true ∨ ¬ r.element_count < max_elements
      · rw [if_pos hg,
          if_pos (show feof (r.swap d).fp = true ∨ ¬ (r.swap d).element_count < max_elements
            from hg)]
        exact SimOpt.some_intro _ _ _ _ rfl h
      · rw [if_neg hg,
          if_neg (show ¬ (feof (r.swap d).fp = true ∨ ¬ (r.swap d).element_count < max_elements)
            from hg), (data_element_swap b d env s filter depth r h).1]
        have t := (data_element_swap b d env s filter depth r h).2
        revert t
        cases data_element env s filter depth r with
        | ret code r1 => intro t; exact SimOpt.some_intro _ _ _ _ rfl t
        | next r1 => intro t; exact ihD depth r1 t
        | sequence length r1 =>
          intro t
          simp only [Step.swap, Step.run] at t ⊢
          by_cases hcol : s.collapse_sequences = true
          · rw [if_pos hcol, if_pos hcol]
            refine SimOpt.bind _ _ _ _ _ _ _ _ (count_sequence_items_swap b d env s fuel r1.fp t) ?_
            intro res tres
            exact ihD depth
              { fp := res.2.2, element_count := r1.element_count + 1,
                out := r1.out ++ [Out.sq_collapsed res.1] } tres
          · rw [if_neg hcol, if_neg hcol]
            by_cases hl : length = 0xFFFFFFFF
            · rw [if_pos hl, if_pos hl]
              refine SimOpt.bind _ _ _ _ _ _ _ _
                (ihS (depth + 1)
                  { r1 with element_count := r1.element_count + 1,
                            out := r1.out ++ [Out.lit "(sequence - undefined length)\n"] } t) ?_
              intro res tres
              exact ihD depth (res.2.emit (print_indent depth ++ [Out.rule])) tres
            · rw [if_neg hl, if_neg hl]
              by_cases hl0 : length = 0
              · rw [if_pos hl0, if_pos hl0]
                exact ihD depth
                  { r1 with element_count := r1.element_count + 1,
                            out := r1.out ++ [Out.lit "(empty sequence)\n"] } t
              · rw [if_neg hl0, if_neg hl0]
                refine SimOpt.bind _ _ _ _ _ _ _ _
                  (ihS (depth + 1)
                    { r1 with element_count := r1.element_count + 1,
                              out := r1.out ++ [Out.sq_defined_length length] } t) ?_
                intro res tres
                dsimp only
                by_cases hc : ftell res.2.fp - ftell r1.fp < (length : Int)
                · rw [if_pos hc,
                    if_pos (show ftell (res.2.swap d).fp - ftell (r1.swap d).fp < (length : Int)
                      from hc)]
                  have := ihD depth
                    (Run.emit
                      { res.2 with fp := (fseek_set res.2.fp (ftell r1.fp + (length : Int))).2 }
                      (print_indent depth ++ [Out.rule]))
                    (tail_fseek_set b d _ tres _ (by
                      have := t.2.2
                      unfold ftell; omega))
                  simp only [Run.swap, Run.emit, fseek_set_swap, ftell_swap] at this ⊢
                  exact this
                · rw [if_neg hc,
                    if_neg (show ¬ ftell (res.2.swap d).fp - ftell (r1.swap d).fp < (length : Int)
                      from hc)]
                  exact ihD depth (res.2.emit (print_indent depth ++ [Out.rule])) tres

theorem SimExc.ok_intro {α : Type} (sw : α → α) (T : α → Prop) (v1 v : α)
    (e : v1 = sw v) (t : T v) : SimExc sw T (Except.ok v1) (Except.ok v) := by
  refine ⟨by rw [e], fun a h => ?_⟩
  injection h with h
  rw [← h]; exact t

theorem SimExc.error_intro {α : Type} (sw : α → α) (T : α → Prop) (e : Halt) :
    SimExc sw T (Except.error e) (Except.error e) :=
  ⟨rfl, fun a h => by injection h⟩

theorem ts_capture_swap (b : Nat) (d : List Nat) (env : Env) (s : parser_state) (fuel : Nat)
    (vr : List Nat) (length : Nat) (sd : Bool) (uid : List Nat) (r : Run) (h : Tail b d r.fp) :
    SimExc (fun res : List Nat × Run => (res.1, res.2.swap d)) (fun res => Tail b d res.2.fp)
      (ts_capture env s fuel vr length sd uid (r.swap d))
      (ts_capture env s fuel vr length sd uid r) := by
  have t1 := tail_fread b d r.fp h length
  unfold ts_capture
  simp only [Run.swap, fread_swap b d r.fp h]
  split
  · cases ts_trim fuel (((fread r.fp length).1 ++
        List.drop (fread r.fp length).1.length uid).set length 0) (length - 1) with
    | error e => exact SimExc.error_intro _ _ e
    | ok u => exact SimExc.ok_intro _ _ _ _ rfl t1
  · exact SimExc.ok_intro _ _ _ _ rfl t1

theorem top_value_swap (b : Nat) (d : List Nat) (env : Env) (s : parser_state) (fuel : Nat)
    (tag : Nat) (vr : List Nat) (length : Nat) (sd : Bool) (uid : List Nat) (r : Run)
    (h : Tail b d r.fp) :
    SimExc (fun res : Bool × List Nat × Run => (res.1, res.2.1, res.2.2.swap d))
      (fun res => Tail b d res.2.2.fp)
      (top_value env s fuel tag vr length sd uid (r.swap d))
      (top_value env s fuel tag vr length sd uid r) := by
  unfold top_value
  split
  · obtain ⟨e1, t1⟩ := ts_capture_swap b d env s fuel vr length sd uid r h
    rw [e1]
    revert t1
    cases ts_capture env s fuel vr length sd uid r with
    | error e => intro t1; exact SimExc.error_intro _ _ e
    | ok res => intro t1; exact SimExc.ok_intro _ _ _ _ rfl (t1 res rfl)
  · split
    · have hr := read_and_display_swap b d env s vr length 0 r h
      rw [hr.1]
      exact SimExc.ok_intro _ _ _ _ rfl hr.2
    · split
      · exact SimExc.ok_intro _ _ _ _ rfl h
      · have hr := skip_large_swap b d length r h
        rw [hr.1]
        exact SimExc.ok_intro _ _ _ _ rfl hr.2

theorem top_sequence_swap (b : Nat) (d : List Nat) (env : Env) (s : parser_state)
    (max_elements : Int) (filter : Option (List Nat)) (fuel : Nat) (group element : Nat)
    (avr : List Nat) (length : Nat) (r : Run) (h : Tail b d r.fp) :
    SimExc (Run.swap d) (fun res => Tail b d res.fp)
      (top_sequence env s max_elements filter fuel group element avr length (r.swap d))
      (top_sequence env s max_elements filter fuel group element avr length r) := by
  unfold top_sequence
  simp only [Run.swap, ftell_swap]
  by_cases hcol : s.collapse_sequences = true
  · simp only [if_pos hcol]
    obtain ⟨e1, t1⟩ := count_sequence_items_swap b d env s fuel r.fp h
    rw [e1]
    revert t1
    cases count_sequence_items env s fuel r.fp with
    | none => intro t1; exact SimExc.error_intro _ _ _
    | some res => intro t1; exact SimExc.ok_intro _ _ _ _ rfl (t1 res rfl)
  · simp only [if_neg hcol]
    generalize (r.out ++
        [Out.sq_row group element avr (display_keyword env group ((group <<< 16) ||| element))
          (display_name env ((group <<< 16) ||| element))] ++
        [if length = 0xFFFFFFFF then Out.lit "(sequence - undefined length)\n"
         else if length = 0 then Out.lit "(empty sequence)\n"
         else Out.lit "(sequence - defined length)\n"]) = o
    obtain ⟨e1, t1⟩ := (parse_swap b d env s max_elements filter fuel).1 1
      { fp := r.fp, element_count := r.element_count + 1, out := o } h
    simp only [Run.swap] at e1
    by_cases hl : length = 0xFFFFFFFF
    · simp only [if_pos hl]
      rw [e1]
      revert t1
      cases parse_sequence env s max_elements filter fuel 1
          { fp := r.fp, element_count := r.element_count + 1, out := o } with
      | none => intro t1; exact SimExc.error_intro _ _ _
      | some res => intro t1; exact SimExc.ok_intro _ _ _ _ rfl (t1 res rfl)
    · simp only [if_neg hl]
      by_cases hl0 : length > 0
      · simp only [if_pos hl0]
        rw [e1]
        revert t1
        cases parse_sequence env s max_elements filter fuel 1
            { fp := r.fp, element_count := r.element_count + 1, out := o } with
        | none => intro t1; exact SimExc.error_intro _ _ _
        | some res =>
          intro t1
          have tres := t1 res rfl
          simp only [Option.map_some', ftell_swap]
          by_cases hc : ftell res.2.fp - ftell r.fp < (length : Int)
          · simp only [if_pos hc]
            refine SimExc.ok_intro _ _ _ _ ?_ ?_
            · simp only [Run.swap, Run.emit, fseek_set_swap]
            · exact tail_fseek_set b d _ tres _ (by
                have := h.2.2
                unfold ftell; omega)
          · simp only [if_neg hc]
            exact SimExc.ok_intro _ _ _ _ rfl tres
      · simp only [if_neg hl0]
        exact SimExc.ok_intro _ _ _ _ rfl h
theorem top_element_swap (b : Nat) (d : List Nat) (env : Env) (s : parser_state)
    (max_elements : Int) (filter : Option (List Nat)) (fuel : Nat) (group element : Nat)
    (uid : List Nat) (r : Run) (h : Tail b d r.fp) :
    SimExc (fun res : Bool × List Nat × Run => (res.1, res.2.1, res.2.2.swap d))
      (fun res => Tail b d res.2.2.fp)
      (top_element env s max_elements filter fuel group element uid (r.swap d))
      (top_element env s max_elements filter fuel group element uid r) := by
  have hh := read_vr_length_swap b d r.fp h env s ((group <<< 16) ||| element)
  unfold top_element
  simp only [Run.swap, hh.1, Run.emit]
  by_cases hp : group = 0x7FE0 ∧ element = 0x0010
  · simp only [if_pos hp]
    exact SimExc.ok_intro _ _ _ _ rfl h
  · simp only [if_neg hp]
    have t5 := hh.2
    revert t5
    cases read_vr_length env s ((group <<< 16) ||| element) r.fp with
    | truncated fp1 => intro t5; exact SimExc.ok_intro _ _ _ _ rfl t5
    | invalid vr fp1 => intro t5; exact SimExc.ok_intro _ _ _ _ rfl t5
    | ok vr len fp1 =>
      intro t5
      simp only [Header.fp] at t5
      have t6 := tail_fseek_cur b d _ t5 (len : Nat) (by have := t5.2.2; omega)
      simp only [Header.swap, fseek_cur_swap]
      by_cases hf : should_disp_tag ((group <<< 16) ||| element) filter = false ∧
          (group <<< 16) ||| element ≠ 0x00020010
      · simp only [if_pos hf]
        exact SimExc.ok_intro _ _ _ _ rfl t6
      · simp only [if_neg hf]
        by_cases hsq : streq (actual_vr env s ((group <<< 16) ||| element) vr) (cstr "SQ") = true
        · simp only [if_pos hsq]
          obtain ⟨e1, t1⟩ := top_sequence_swap b d env s max_elements filter fuel group element
            (actual_vr env s ((group <<< 16) ||| element) vr) len
            { fp := fp1, element_count := r.element_count, out := r.out } t5
          simp only [Run.swap] at e1
          rw [e1]
          revert t1
          cases top_sequence env s max_elements filter fuel group element
              (actual_vr env s ((group <<< 16) ||| element) vr) len
              { fp := fp1, element_count := r.element_count, out := r.out } with
          | error e => intro t1; exact SimExc.error_intro _ _ _
          | ok r1 => intro t1; exact SimExc.ok_intro _ _ _ _ rfl (t1 r1 rfl)
        · simp only [if_neg hsq]
          generalize (r.out ++
            if should_disp_tag ((group <<< 16) ||| element) filter = true then
              [Out.row group element (actual_vr env s ((group <<< 16) ||| element) vr) len
                (display_keyword env group ((group <<< 16) ||| element))
                (display_name env ((group <<< 16) ||| element))]
            else []) = o
          obtain ⟨e1, t1⟩ := top_value_swap b d env s fuel ((group <<< 16) ||| element)
            (actual_vr env s ((group <<< 16) ||| element) vr) len
            (should_disp_tag ((group <<< 16) ||| element) filter) uid
            { fp := fp1, element_count := r.element_count, out := o } t5
          simp only [Run.swap] at e1
          rw [e1]
          revert t1
          cases top_value env s fuel ((group <<< 16) ||| element)
              (actual_vr env s ((group <<< 16) ||| element) vr) len
              (should_disp_tag ((group <<< 16) ||| element) filter) uid
              { fp := fp1, element_count := r.element_count, out := o } with
          | error e => intro t1; exact SimExc.error_intro _ _ _
          | ok res =>
            intro t1
            have tres := t1 res rfl
            dsimp only at tres ⊢
            by_cases hb : res.1 = true
            · simp only [if_pos hb]
              exact SimExc.ok_intro _ _ _ _ rfl tres
            · simp only [if_neg hb]
              exact SimExc.ok_intro _ _ _ _ rfl tres

theorem top_step_swap (b : Nat) (d : List Nat) (env : Env) (max_elements : Int)
    (filter : Option (List Nat)) (fuel : Nat) (t : Top) (h : Tail b d t.run.fp) :
    SimExc (fun res : Bool × Top => (res.1, res.2.swap d)) (fun res => Tail b d res.2.run.fp)
      (top_step env max_elements filter fuel (t.swap d))
      (top_step env max_elements filter fuel t) := by
  have t1 := tail_read_uint16 b d t.run.fp h t.state
  have t2 := tail_read_uint16 b d _ t1 t.state
  unfold top_step
  simp only [Top.swap, Run.swap, read_uint16_swap b d t.run.fp h, read_uint16_swap b d _ t1,
    feof_swap]
  by_cases he : feof (read_uint16 (read_uint16 t.run.fp t.state).2 t.state).2 = true
  · simp only [if_pos he]
    exact SimExc.ok_intro _ _ _ _ rfl t2
  · simp only [if_neg he]
    generalize (t.run.out ++ (ts_switch t.state t.in_file_meta (read_uint16 t.run.fp t.state).1
      t.transfer_syntax_uid).2.2) = o
    obtain ⟨e1, t3⟩ := top_element_swap b d env
      (ts_switch t.state t.in_file_meta (read_uint16 t.run.fp t.state).1 t.transfer_syntax_uid).1
      max_elements filter fuel (read_uint16 t.run.fp t.state).1
      (read_uint16 (read_uint16 t.run.fp t.state).2 t.state).1 t.transfer_syntax_uid
      { fp := (read_uint16 (read_uint16 t.run.fp t.state).2 t.state).2,
        element_count := t.run.element_count, out := o } t2
    simp only [Run.swap] at e1
    rw [e1]
    revert t3
    cases top_element env
        (ts_switch t.state t.in_file_meta (read_uint16 t.run.fp t.state).1 t.transfer_syntax_uid).1
        max_elements filter fuel (read_uint16 t.run.fp t.state).1
        (read_uint16 (read_uint16 t.run.fp t.state).2 t.state).1 t.transfer_syntax_uid
        { fp := (read_uint16 (read_uint16 t.run.fp t.state).2 t.state).2,
          element_count := t.run.element_count, out := o } with
    | error e => intro t3; exact SimExc.error_intro _ _ _
    | ok res => intro t3; exact SimExc.ok_intro _ _ _ _ rfl (t3 res rfl)

theorem top_loop_swap (b : Nat) (d : List Nat) (env : Env) (max_elements : Int)
    (filter : Option (List Nat)) (fuel : Nat) :
    ∀ t : Top, Tail b d t.run.fp →
      SimExc (Top.swap d) (fun res => Tail b d res.run.fp)
        (top_loop env max_elements filter fuel (t.swap d))
        (top_loop env max_elements filter fuel t) := by
  induction fuel with
  | zero => intro t _; unfold top_loop; exact SimExc.error_intro _ _ _
  | succ fuel ih =>
    intro t h
    unfold top_loop
    by_cases hg : feof t.run.fp = true ∨ ¬ t.run.element_count < max_elements
    · rw [if_pos hg,
        if_pos (show feof (t.swap d).run.fp = true ∨ ¬ (t.swap d).run.element_count < max_elements
          from hg)]
      exact SimExc.ok_intro _ _ _ _ rfl h
    · rw [if_neg hg,
        if_neg (show ¬ (feof (t.swap d).run.fp = true ∨
          ¬ (t.swap d).run.element_count < max_elements) from hg)]
      obtain ⟨e1, t1⟩ := top_step_swap b d env max_elements filter fuel t h
      rw [e1]
      revert t1
      cases top_step env max_elements filter fuel t with
      | error e => intro t1; exact SimExc.error_intro _ _ _
      | ok res =>
        intro t1
        have tres := t1 res rfl
        dsimp only at tres ⊢
        by_cases hb : res.1 = true
        · simp only [if_pos hb]
          exact ih res.2 tres
        · simp only [if_neg hb]
          exact SimExc.ok_intro _ _ _ _ rfl tres
theorem fread_snd_eq (fp : FILE) (n : Nat) :
    (fread fp n).2 = { data := fp.data, pos := fp.pos + min n (fp.data.length - fp.pos),
                       eof := fp.eof || decide (min n (fp.data.length - fp.pos) < n) } := by
  simp [fread]

theorem top_init_swap (c : Bool) (d : Int) (f : Bool) (data : List Nat) (fp : FILE) :
    top_init c d f (fp.swap data) = (top_init c d f fp).swap data := rfl

/-- Two inputs of the same length that agree from offset 128 on are parsed alike. -/
theorem parse_dicom_header_preamble (env : Env) (fuel : Nat) (data data2 : List Nat)
    (max_elements : Int) (c : Bool) (d : Int) (f : Bool) (filter : Option (List Nat))
    (hlen : data2.length = data.length) (htail : data2.drop 128 = data.drop 128) :
    parse_dicom_header env fuel (some data2) max_elements c d f filter
      = parse_dicom_header env fuel (some data) max_elements c d f filter := by
  have e1 : (fread { data := data2, pos := 0, eof := false } DICOM_PREAMBLE_SIZE).1.length
      = (fread { data := data, pos := 0, eof := false } DICOM_PREAMBLE_SIZE).1.length := by
    rw [fread_fst, fread_fst, octets_length, octets_length]
    dsimp only
    rw [hlen]
  have e2 : (fread { data := data2, pos := 0, eof := false } DICOM_PREAMBLE_SIZE).2
      = FILE.swap data2 (fread { data := data, pos := 0, eof := false } DICOM_PREAMBLE_SIZE).2 := by
    rw [fread_snd_eq, fread_snd_eq]
    dsimp only [FILE.swap]
    rw [hlen]
  unfold parse_dicom_header
  dsimp only
  rw [e1, e2]
  by_cases h1 : (fread { data := data, pos := 0, eof := false } DICOM_PREAMBLE_SIZE).1.length
      ≠ DICOM_PREAMBLE_SIZE
  · rw [if_pos h1, if_pos h1]
  · rw [if_neg h1, if_neg h1]
    simp only [ne_eq, not_not] at h1
    have hp : (fread { data := data, pos := 0, eof := false } DICOM_PREAMBLE_SIZE).2.pos
        = 128 := by
      rw [fread_fst, octets_length] at h1
      rw [fread_pos]
      simp only [DICOM_PREAMBLE_SIZE] at h1 ⊢
      omega
    have t0 : Tail 128 data2
        (fread { data := data, pos := 0, eof := false } DICOM_PREAMBLE_SIZE).2 :=
      ⟨by rw [fread_data]; exact hlen.symm, by rw [fread_data]; exact htail.symm, by omega⟩
    have t1 := tail_fread 128 data2 _ t0 DICOM_PREFIX_SIZE
    rw [fread_swap 128 data2 _ t0 DICOM_PREFIX_SIZE]
    dsimp only
    by_cases h2 : (fread (fread { data := data, pos := 0, eof := false } DICOM_PREAMBLE_SIZE).2
        DICOM_PREFIX_SIZE).1.length ≠ DICOM_PREFIX_SIZE
    · rw [if_pos h2, if_pos h2]
    · rw [if_neg h2, if_neg h2]
      by_cases h3 : (fread (fread { data := data, pos := 0, eof := false } DICOM_PREAMBLE_SIZE).2
          DICOM_PREFIX_SIZE).1 ≠ DICOM_PREFIX
      · rw [if_pos h3, if_pos h3]
      · rw [if_neg h3, if_neg h3, top_init_swap]
        obtain ⟨e3, _⟩ := top_loop_swap 128 data2 env max_elements filter fuel
          (top_init c d f (fread (fread { data := data, pos := 0, eof := false }
            DICOM_PREAMBLE_SIZE).2 DICOM_PREFIX_SIZE).2) t1
        rw [e3]
        cases top_loop env max_elements filter fuel
          (top_init c d f (fread (fread { data := data, pos := 0, eof := false }
            DICOM_PREAMBLE_SIZE).2 DICOM_PREFIX_SIZE).2) with
        | error e => rfl
        | ok t => rfl

theorem parse_dicom_header_fails_iff (env : Env) (fuel : Nat) (data : List Nat)
    (max_elements : Int) (c : Bool) (d : Int) (f : Bool) (filter : Option (List Nat)) :
    (∃ out, parse_dicom_header env fuel (some data) max_elements c d f filter
        = Except.ok { ret := -1, out := out }) ↔ bad_header data := by
  constructor
  · rintro ⟨out, h⟩
    by_contra hb
    rw [parse_dicom_header_good env fuel data max_elements c d f filter hb] at h
    revert h
    cases top_loop env max_elements filter fuel
        (top_init c d f { data := data, pos := 132, eof := false }) with
    | error e => intro h; cases h
    | ok t =>
      intro h
      have h2 := congrArg (fun x => match x with
        | Except.ok (res : Result) => res.ret
        | Except.error _ => (0 : Int)) h
      dsimp only at h2
      omega
  · intro hb
    obtain ⟨msg, h⟩ := parse_dicom_header_bad env fuel data max_elements c d f filter hb
    exact ⟨_, h⟩

/-! ## Lemmas on values of defined length -/

theorem fseek_cur_forward (fp : FILE) (n : Nat) :
    fseek_cur fp (n : Int) = (0, { fp with pos := fp.pos + n, eof := false }) := by
  unfold fseek_cur
  rw [if_pos (by omega)]
  congr 2

theorem read_and_display_defined (env : Env) (state : parser_state) (vr : List Nat)
    (length : Nat) (depth : Int) (r : Run) (h0 : 0 < length) (h1 : length < 1048576)
    (havail : r.fp.pos + length ≤ r.fp.data.length) :
    ∃ fp2, read_and_display env state vr length depth r
        = (false, { fp := fp2, element_count := r.element_count,
                    out := r.out ++ spec_value_events env state vr length depth r.fp }) ∧
      fp2.data = r.fp.data ∧ fp2.pos = r.fp.pos + length := by
  have hspec : spec_value_events env state vr length depth r.fp
      = if env.malloc_ok r.fp.pos then
          [Out.value vr (octets r.fp r.fp.pos (min length 4096)) (min length 4096) depth
            (create_display_context env state)]
        else [Out.lit "(memory alloc failed)"] := by
    unfold spec_value_events
    rw [if_neg (by omega), if_pos h1]
  have hmin : (if length < 4096 then length else 4096) = min length 4096 := by
    by_cases h : length < 4096
    · rw [if_pos h]; omega
    · rw [if_neg h]; omega
  rw [hspec]
  unfold read_and_display
  dsimp only
  rw [hmin]
  by_cases hm : env.malloc_ok r.fp.pos = true
  · rw [if_pos hm, if_pos hm]
    have hr := fread_avail r.fp (min length 4096) (by omega)
    have hlen : (octets r.fp r.fp.pos (min length 4096)).length = min length 4096 := by
      rw [octets_length]; omega
    rw [hr]
    dsimp only
    rw [hlen]
    have hpos : min length 4096 > 0 := by omega
    rw [if_pos hpos]
    by_cases hgt : length > min length 4096
    · rw [if_pos hgt]
      have hsub : ((length : Int) - ((min length 4096 : Nat) : Int))
          = ((length - min length 4096 : Nat) : Int) := by omega
      rw [hsub, fseek_cur_forward]
      dsimp only
      rw [if_neg (by decide)]
      refine ⟨_, rfl, rfl, ?_⟩
      dsimp only
      omega
    · rw [if_neg hgt]
      refine ⟨_, rfl, rfl, ?_⟩
      dsimp only
      omega
  · rw [if_neg hm, if_neg hm, fseek_cur_forward]
    exact ⟨_, rfl, rfl, rfl⟩

theorem skip_large_defined (length : Nat) (r : Run) :
    skip_large length r
      = (false, { fp := { r.fp with pos := r.fp.pos + length, eof := false },
                  element_count := r.element_count,
                  out := r.out ++ [Out.lit "(too large to display)"] }) := by
  unfold skip_large
  rw [fseek_cur_forward]
  dsimp only
  rw [if_neg (by decide)]

theorem element_value_defined (env : Env) (state : parser_state) (vr : List Nat)
    (length : Nat) (depth : Int) (r : Run) (hl : length ≠ 0xFFFFFFFF)
    (havail : r.fp.pos + length ≤ r.fp.data.length) :
    ∃ fp2, element_value env state vr length depth r
        = (false, { fp := fp2, element_count := r.element_count,
                    out := r.out ++ spec_value_events env state vr length depth r.fp }) ∧
      fp2.data = r.fp.data ∧ fp2.pos = r.fp.pos + length ∧
      (1048576 ≤ length → fp2 = { r.fp with pos := r.fp.pos + length, eof := false }) := by
  unfold element_value
  by_cases h1 : length > 0 ∧ length ≠ 0xFFFFFFFF ∧ length < 1024 * 1024
  · rw [if_pos h1]
    obtain ⟨fp2, e, hd, hp⟩ := read_and_display_defined env state vr length depth r h1.1
      (by omega) havail
    exact ⟨fp2, e, hd, hp, fun h => by omega⟩
  · rw [if_neg h1, if_neg hl]
    by_cases h0 : length = 0
    · rw [if_pos h0]
      refine ⟨r.fp, ?_, rfl, by omega, fun h => by omega⟩
      unfold spec_value_events Run.emit
      rw [if_pos h0]
    · rw [if_neg h0, skip_large_defined]
      have hbig : ¬ length < 1048576 := by omega
      refine ⟨{ r.fp with pos := r.fp.pos + length, eof := false }, ?_, rfl, rfl, fun _ => rfl⟩
      unfold spec_value_events
      rw [if_neg h0, if_neg hbig]
theorem data_element_defined_length (env : Env) (state : parser_state)
    (filter : Option (List Nat)) (depth : Int) (r : Run) (g e : Nat) (fpa fpt : FILE)
    (vr : List Nat) (length : Nat) (fp1 : FILE)
    (hg : read_uint16 r.fp state = (g, fpa)) (he : read_uint16 fpa state = (e, fpt))
    (heof : feof fpt = false)
    (hgrp : ¬ (depth > 0 ∧ g = 0xFFFE)) (hpix : ¬ (g = 0x7FE0 ∧ e = 0x0010))
    (hhdr : read_vr_length env state ((g <<< 16) ||| e) fpt = Header.ok vr length fp1)
    (hdisp : should_disp_tag ((g <<< 16) ||| e) filter = true)
    (hsq : streq (actual_vr env state ((g <<< 16) ||| e) vr) (cstr "SQ") = false)
    (hl : length ≠ 0xFFFFFFFF) (havail : fp1.pos + length ≤ fp1.data.length) :
    ∃ fp2, data_element env state filter depth r
        = Step.next
            { fp := fp2, element_count := r.element_count + 1,
              out := r.out ++ print_indent depth ++
                [Out.row g e (actual_vr env state ((g <<< 16) ||| e) vr) length
                  (display_keyword env g ((g <<< 16) ||| e))
                  (display_name env ((g <<< 16) ||| e))] ++
                spec_value_events env state (actual_vr env state ((g <<< 16) ||| e) vr) length
                  depth fp1 ++ [Out.lit "\n"] } ∧
      fp2.data = fp1.data ∧ fp2.pos = fp1.pos + length ∧
      (1048576 ≤ length → fp2 = { fp1 with pos := fp1.pos + length, eof := false }) := by
  obtain ⟨fp2, hv, hd, hp, hbig⟩ := element_value_defined env state
    (actual_vr env state ((g <<< 16) ||| e) vr) length depth
    { fp := fp1, element_count := r.element_count,
      out := r.out ++ print_indent depth ++
        [Out.row g e (actual_vr env state ((g <<< 16) ||| e) vr) length
          (display_keyword env g ((g <<< 16) ||| e)) (display_name env ((g <<< 16) ||| e))] }
    hl havail
  refine ⟨fp2, ?_, hd, hp, hbig⟩
  unfold data_element
  simp only [hg, he]
  rw [if_neg (by rw [heof]; decide), if_neg hgrp, if_neg hpix, hhdr]
  dsimp only
  rw [if_neg (by rw [hdisp]; simp), hsq]
  simp only [Bool.false_eq_true, if_false]
  rw [hv]
  simp only [Bool.false_eq_true, if_false]

theorem ts_trim_blank (v : List Nat) :
    ∀ (tail : List Nat) (fuel : Nat), v ≠ [] → (∀ b ∈ v, b = 32 ∨ b = 0) →
      (v ++ 0 :: tail).length ≤ 4294967295 → v.length < fuel →
      ts_trim fuel (v ++ 0 :: tail) (v.length - 1) = Except.error Halt.out_of_bounds := by
  induction v using List.reverseRecOn with
  | nil => intro tail fuel h; exact absurd rfl h
  | append_singleton v c ih =>
    intro tail fuel _ hb hlt hfuel
    simp only [List.length_append, List.length_singleton, List.length_cons] at hlt hfuel
    obtain ⟨f, rfl⟩ : ∃ f, fuel = f + 1 := ⟨fuel - 1, by omega⟩
    have hi : (v ++ [c]).length - 1 = v.length := by simp
    rw [hi]
    unfold ts_trim
    have hget : (v ++ [c] ++ 0 :: tail).get? v.length = some c := by
      rw [List.append_assoc, List.get?_eq_getElem?, List.getElem?_append_right (le_refl _)]
      simp
    rw [hget]
    dsimp only
    have hc : c = 32 ∨ c = 0 := hb c (by simp)
    rw [if_pos hc]
    have hset : (v ++ [c] ++ 0 :: tail).set v.length 0 = v ++ 0 :: 0 :: tail := by
      rw [List.append_assoc, List.set_append_right _ _ (le_refl _)]
      simp
    rw [hset]
    by_cases hv : v = []
    · subst hv
      obtain ⟨f1, rfl⟩ : ∃ f1, f = f1 + 1 := ⟨f - 1, by simp at hfuel; omega⟩
      simp only [List.length_nil, List.nil_append]
      unfold ts_trim
      have hnone : (0 :: 0 :: tail).get? ((0 + 4294967295) % 4294967296) = none := by
        rw [List.get?_eq_none]
        simp only [List.length_cons, List.length_nil, List.nil_append] at hlt ⊢
        omega
      rw [hnone]
    · have hpos : 0 < v.length := List.length_pos.2 hv
      have hidx : (v.length + 4294967295) % 4294967296 = v.length - 1 := by omega
      rw [hidx]
      exact ih (0 :: tail) f hv (fun b hb1 => hb b (by simp [hb1]))
        (by simp only [List.length_append, List.length_cons]; omega) (by omega)

theorem ts_capture_run (env : Env) (state : parser_state) (fuel : Nat) (vr : List Nat)
    (length : Nat) (sd : Bool) (uid : List Nat) (r : Run) (res : List Nat × Run)
    (hfull : (fread r.fp length).1.length = length)
    (h : ts_capture env state fuel vr length sd uid r = Except.ok res) :
    res.2 = { fp := (fread r.fp length).2, element_count := r.element_count,
              out := r.out ++ (if sd then [Out.value vr (cstring res.1) (strlen res.1) 0
                (create_display_context env state)] else []) } := by
  unfold ts_capture at h
  dsimp only at h
  rw [if_pos hfull] at h
  split at h
  · injection h
  · injection h with h; subst h; rfl

theorem ts_capture_blank (env : Env) (state : parser_state) (fuel : Nat) (vr : List Nat)
    (length : Nat) (sd : Bool) (uid : List Nat) (r : Run)
    (hlen : 1 ≤ length ∧ length ≤ 64) (hvl : (fread r.fp length).1.length = length)
    (hb : ∀ b ∈ (fread r.fp length).1, b = 32 ∨ b = 0)
    (hbuf : uid.length = 65) (hfuel : 65 ≤ fuel) :
    ts_capture env state fuel vr length sd uid r = Except.error Halt.out_of_bounds := by
  unfold ts_capture
  dsimp only
  rw [if_pos hvl]
  generalize (fread r.fp length).1 = value at hvl hb
  have hdrop : uid.drop length = uid.get ⟨length, by omega⟩ :: uid.drop (length + 1) :=
    List.drop_eq_getElem_cons (by omega)
  have hset : (value ++ List.drop value.length uid).set length 0
      = value ++ 0 :: uid.drop (length + 1) := by
    have h0 : length - value.length = 0 := by omega
    rw [List.set_append_right _ _ (by omega), h0, hvl, hdrop, List.set_cons_zero]
  rw [hset]
  have ht := ts_trim_blank value (uid.drop (length + 1)) fuel
    (by intro h0; rw [h0] at hvl; simp at hvl; omega) hb
    (by simp only [List.length_append, List.length_cons, List.length_drop]; omega)
    (by omega)
  rw [hvl] at ht
  rw [ht]
theorem top_value_defined (env : Env) (state : parser_state) (fuel : Nat) (tag : Nat)
    (vr : List Nat) (length : Nat) (sd : Bool) (uid : List Nat) (r : Run)
    (hts : ¬ (tag = 0x00020010 ∧ length > 0 ∧ length < 65)) (hl : length ≠ 0xFFFFFFFF)
    (havail : r.fp.pos + length ≤ r.fp.data.length) :
    ∃ fp2, top_value env state fuel tag vr length sd uid r
        = Except.ok (false, uid,
            { fp := fp2, element_count := r.element_count,
              out := r.out ++ spec_value_events env state vr length 0 r.fp }) ∧
      fp2.data = r.fp.data ∧ fp2.pos = r.fp.pos + length ∧
      (1048576 ≤ length → fp2 = { r.fp with pos := r.fp.pos + length, eof := false }) := by
  unfold top_value
  rw [if_neg hts]
  by_cases h1 : length > 0 ∧ length ≠ 0xFFFFFFFF ∧ length < 1024 * 1024
  · rw [if_pos h1]
    obtain ⟨fp2, e, hd, hp⟩ := read_and_display_defined env state vr length 0 r h1.1
      (by omega) havail
    rw [e]
    exact ⟨fp2, rfl, hd, hp, fun h => by omega⟩
  · rw [if_neg h1]
    by_cases h0 : length = 0
    · rw [if_pos h0]
      refine ⟨r.fp, ?_, rfl, by omega, fun h => by omega⟩
      unfold spec_value_events Run.emit
      rw [if_pos h0]
    · rw [if_neg h0, skip_large_defined]
      have hbig : ¬ length < 1048576 := by omega
      refine ⟨{ r.fp with pos := r.fp.pos + length, eof := false }, ?_, rfl, rfl, fun _ => rfl⟩
      unfold spec_value_events
      rw [if_neg h0, if_neg hbig]

theorem top_element_defined_length (env : Env) (state : parser_state) (max_elements : Int)
    (filter : Option (List Nat)) (fuel : Nat) (g e : Nat) (uid : List Nat) (r : Run)
    (vr : List Nat) (length : Nat) (fp1 : FILE)
    (hpix : ¬ (g = 0x7FE0 ∧ e = 0x0010))
    (hhdr : read_vr_length env state ((g <<< 16) ||| e) r.fp = Header.ok vr length fp1)
    (hdisp : should_disp_tag ((g <<< 16) ||| e) filter = true)
    (hsq : streq (actual_vr env state ((g <<< 16) ||| e) vr) (cstr "SQ") = false)
    (hl : length ≠ 0xFFFFFFFF) (havail : fp1.pos + length ≤ fp1.data.length)
    (hbuf : uid.length = 65) (hfuel : 65 ≤ fuel) :
    (((g <<< 16) ||| e) = 0x00020010 ∧ 1 ≤ length ∧ length ≤ 64 ∧
      (∀ b ∈ octets fp1 fp1.pos length, b = 32 ∨ b = 0) ∧
      top_element env state max_elements filter fuel g e uid r
        = Except.error Halt.out_of_bounds) ∨
    ∃ uid1 fp2, top_element env state max_elements filter fuel g e uid r
        = Except.ok (true, uid1,
            { fp := fp2, element_count := r.element_count + 1,
              out := r.out ++
                [Out.row g e (actual_vr env state ((g <<< 16) ||| e) vr) length
                  (display_keyword env g ((g <<< 16) ||| e))
                  (display_name env ((g <<< 16) ||| e))] ++
                (if ((g <<< 16) ||| e) = 0x00020010 ∧ 1 ≤ length ∧ length ≤ 64 then
                  [Out.value (actual_vr env state ((g <<< 16) ||| e) vr) (cstring uid1)
                    (strlen uid1) 0 (create_display_context env state)]
                 else spec_value_events env state (actual_vr env state ((g <<< 16) ||| e) vr)
                  length 0 fp1) ++ [Out.lit "\n"] }) ∧
      fp2.data = fp1.data ∧ fp2.pos = fp1.pos + length ∧
      ((((g <<< 16) ||| e) = 0x00020010 ∧ 1 ≤ length ∧ length ≤ 64) →
        cstring uid1 = cstring (rtrim (octets fp1 fp1.pos length))) ∧
      (1048576 ≤ length → fp2 = { fp1 with pos := fp1.pos + length, eof := false }) := by
  unfold top_element
  dsimp only
  rw [if_neg hpix, hhdr]
  dsimp only
  rw [if_neg (by rw [hdisp]; simp), hsq, hdisp]
  simp only [Bool.false_eq_true, if_false, if_true]
  generalize hr0 : (
    { fp := fp1, element_count := r.element_count,
      out := r.out ++ [Out.row g e (actual_vr env state ((g <<< 16) ||| e) vr) length
        (display_keyword env g ((g <<< 16) ||| e)) (display_name env ((g <<< 16) ||| e))] } : Run)
    = r0
  have hr0fp : r0.fp = fp1 := by rw [← hr0]
  have hr0c : r0.element_count = r.element_count := by rw [← hr0]
  have hr0o : r0.out = r.out ++ [Out.row g e (actual_vr env state ((g <<< 16) ||| e) vr) length
      (display_keyword env g ((g <<< 16) ||| e)) (display_name env ((g <<< 16) ||| e))] := by
    rw [← hr0]
  by_cases hts : ((g <<< 16) ||| e) = 0x00020010 ∧ 1 ≤ length ∧ length ≤ 64
  · have hts1 : ((g <<< 16) ||| e) = 0x00020010 ∧ length > 0 ∧ length < 65 :=
      ⟨hts.1, by omega, by omega⟩
    have hread := fread_avail fp1 length havail
    have hoct : (octets fp1 fp1.pos length).length = length := by
      rw [octets_length]; omega
    unfold top_value
    rw [if_pos hts1]
    simp only [if_pos hts]
    by_cases hb : ∀ b ∈ octets fp1 fp1.pos length, b = 32 ∨ b = 0
    · left
      refine ⟨hts.1, hts.2.1, hts.2.2, hb, ?_⟩
      rw [ts_capture_blank env state fuel _ length true uid r0 ⟨hts.2.1, hts.2.2⟩
        (by rw [hr0fp, hread]; exact hoct) (by rw [hr0fp, hread]; exact hb) hbuf hfuel]
    · right
      have hne : ∃ b ∈ octets fp1 fp1.pos length, b ≠ 32 ∧ b ≠ 0 := by
        by_contra hc
        apply hb
        intro b hbm
        by_contra hbb
        exact hc ⟨b, hbm, fun h => hbb (Or.inl h), fun h => hbb (Or.inr h)⟩
      obtain ⟨uid1, r1, hc, hs⟩ := ts_capture_spec env state fuel
        (actual_vr env state ((g <<< 16) ||| e) vr) length true uid r0
        (octets fp1 fp1.pos length) ⟨hts.2.1, hts.2.2⟩ (by rw [hr0fp, hread]) hoct hne hbuf
        (by omega)
      have hrun := ts_capture_run env state fuel _ length true uid r0 (uid1, r1)
        (by rw [hr0fp, hread]; exact hoct) hc
      rw [hc]
      dsimp only at hrun ⊢
      rw [hrun, hr0fp, hread, hr0c, hr0o]
      simp only [if_true, Bool.false_eq_true, if_false]
      exact ⟨uid1, _, rfl, rfl, rfl, fun _ => hs, fun h => by omega⟩
  · right
    have hts1 : ¬ (((g <<< 16) ||| e) = 0x00020010 ∧ length > 0 ∧ length < 65) := by
      intro h; exact hts ⟨h.1, by omega, by omega⟩
    obtain ⟨fp2, hv, hd, hp, hbig⟩ := top_value_defined env state fuel ((g <<< 16) ||| e)
      (actual_vr env state ((g <<< 16) ||| e) vr) length true uid r0 hts1 hl
      (by rw [hr0fp]; exact havail)
    rw [hv]
    simp only [if_neg hts, Bool.false_eq_true, if_false]
    rw [hr0fp] at hd hp hbig
    rw [hr0c, hr0o, hr0fp]
    exact ⟨uid, fp2, rfl, hd, hp, fun h => absurd h hts, hbig⟩

/-! ## The cursor never moves before the start of a nested parse -/

theorem tail_self (fp : FILE) : Tail fp.pos fp.data fp := ⟨rfl, rfl, le_refl _⟩

theorem tail_zero (fp : FILE) : Tail 0 fp.data fp := ⟨rfl, rfl, Nat.zero_le _⟩

theorem data_of_tail_zero (d : List Nat) (fp : FILE) (h : Tail 0 d fp) : fp.data = d := by
  have := h.2.1
  simpa using this

theorem parse_sequence_from (env : Env) (s : parser_state) (max_elements : Int)
    (filter : Option (List Nat)) (fuel : Nat) (depth : Int) (r : Run) (res : Int × Run)
    (h : parse_sequence env s max_elements filter fuel depth r = some res) :
    r.fp.pos ≤ res.2.fp.pos ∧ res.2.fp.data = r.fp.data :=
  ⟨(((parse_swap r.fp.pos r.fp.data env s max_elements filter fuel).1 depth r
      (tail_self r.fp)).2 res h).2.2,
   data_of_tail_zero _ _ (((parse_swap 0 r.fp.data env s max_elements filter fuel).1 depth r
      (tail_zero r.fp)).2 res h)⟩

theorem parse_sequence_loop_from (env : Env) (s : parser_state) (max_elements : Int)
    (filter : Option (List Nat)) (fuel : Nat) (depth : Int) (r : Run) (res : Int × Run)
    (h : parse_sequence_loop env s max_elements filter fuel depth r = some res) :
    r.fp.pos ≤ res.2.fp.pos ∧ res.2.fp.data = r.fp.data :=
  ⟨(((parse_swap r.fp.pos r.fp.data env s max_elements filter fuel).2.1 depth r
      (tail_self r.fp)).2 res h).2.2,
   data_of_tail_zero _ _ (((parse_swap 0 r.fp.data env s max_elements filter fuel).2.1 depth r
      (tail_zero r.fp)).2 res h)⟩

theorem parse_data_elements_from (env : Env) (s : parser_state) (max_elements : Int)
    (filter : Option (List Nat)) (fuel : Nat) (depth : Int) (r : Run) (res : Int × Run)
    (h : parse_data_elements env s max_elements filter fuel depth r = some res) :
    r.fp.pos ≤ res.2.fp.pos ∧ res.2.fp.data = r.fp.data :=
  ⟨(((parse_swap r.fp.pos r.fp.data env s max_elements filter fuel).2.2 depth r
      (tail_self r.fp)).2 res h).2.2,
   data_of_tail_zero _ _ (((parse_swap 0 r.fp.data env s max_elements filter fuel).2.2 depth r
      (tail_zero r.fp)).2 res h)⟩

theorem count_sequence_items_from (env : Env) (s : parser_state) (fuel : Nat) (fp : FILE)
    (res : Int × Int × FILE) (h : count_sequence_items env s fuel fp = some res) :
    fp.pos ≤ res.2.2.pos ∧ res.2.2.data = fp.data :=
  ⟨((count_sequence_items_swap fp.pos fp.data env s fuel fp (tail_self fp)).2 res h).2.2,
   data_of_tail_zero _ _
     ((count_sequence_items_swap 0 fp.data env s fuel fp (tail_zero fp)).2 res h)⟩

/-- The state after a sequence or item of defined length: the cursor is moved to
`start + length` when fewer than `length` bytes were consumed. -/
theorem repair_pos (fp : FILE) (start length : Nat) (hs : start ≤ fp.pos) :
    (if ftell fp - (start : Int) < (length : Int)
      then (fseek_set fp ((start : Int) + (length : Int))).2 else fp)
      = if fp.pos < start + length then { fp with pos := start + length, eof := false }
        else fp := by
  unfold ftell
  by_cases h : fp.pos < start + length
  · rw [if_pos h, if_pos (by omega)]
    unfold fseek_set
    rw [if_pos (by omega)]
    dsimp only
    congr 1
  · rw [if_neg h, if_neg (by omega)]

theorem top_sequence_defined (env : Env) (state : parser_state) (max_elements : Int)
    (filter : Option (List Nat)) (fuel : Nat) (group element : Nat) (avr : List Nat)
    (length : Nat) (r r1 : Run) (hc : state.collapse_sequences = false)
    (h0 : length ≠ 0) (hu : length ≠ 0xFFFFFFFF)
    (h : top_sequence env state max_elements filter fuel group element avr length r
      = Except.ok r1) :
    ∃ res, parse_sequence env state max_elements filter fuel 1
        { fp := r.fp, element_count := r.element_count + 1,
          out := r.out ++
            [Out.sq_row group element avr (display_keyword env group ((group <<< 16) ||| element))
              (display_name env ((group <<< 16) ||| element))] ++
            [Out.lit "(sequence - defined length)\n"] } = some res ∧
      r.fp.pos ≤ res.2.fp.pos ∧
      r1 = { fp := if res.2.fp.pos < r.fp.pos + length
                  then { res.2.fp with pos := r.fp.pos + length, eof := false }
                  else res.2.fp,
             element_count := res.2.element_count,
             out := res.2.out ++ [Out.lit "  ", Out.rule] } := by
  unfold top_sequence at h
  dsimp only at h
  rw [hc] at h
  simp only [Bool.false_eq_true, if_false, if_neg hu, if_neg h0] at h
  rw [if_pos (by omega)] at h
  revert h
  cases hp : parse_sequence env state max_elements filter fuel 1
      { fp := r.fp, element_count := r.element_count + 1,
        out := r.out ++
          [Out.sq_row group element avr (display_keyword env group ((group <<< 16) ||| element))
            (display_name env ((group <<< 16) ||| element))] ++
          [Out.lit "(sequence - defined length)\n"] } with
  | none => intro h; injection h
  | some res =>
    intro h
    have hfrom := parse_sequence_from _ _ _ _ _ _ _ _ hp
    dsimp only at hfrom
    refine ⟨res, rfl, hfrom.1, ?_⟩
    dsimp only at h
    injection h with h
    rw [← h]
    have hrep := repair_pos res.2.fp r.fp.pos length hfrom.1
    unfold ftell at hrep ⊢
    by_cases hlt : res.2.fp.pos < r.fp.pos + length
    · rw [if_pos hlt] at hrep ⊢
      rw [if_pos (by omega)] at hrep ⊢
      unfold Run.emit
      dsimp only
      rw [hrep]
    · rw [if_neg hlt] at hrep ⊢
      rw [if_neg (by omega)]
      rfl
theorem top_element_defined_sequence (env : Env) (state : parser_state) (max_elements : Int)
    (filter : Option (List Nat)) (fuel : Nat) (g e : Nat) (uid : List Nat) (r : Run)
    (vr : List Nat) (length : Nat) (fp1 : FILE) (res : Bool × List Nat × Run)
    (hpix : ¬ (g = 0x7FE0 ∧ e = 0x0010))
    (hhdr : read_vr_length env state ((g <<< 16) ||| e) r.fp = Header.ok vr length fp1)
    (hdisp : should_disp_tag ((g <<< 16) ||| e) filter = true)
    (hsq : streq (actual_vr env state ((g <<< 16) ||| e) vr) (cstr "SQ") = true)
    (hc : state.collapse_sequences = false) (h0 : length ≠ 0) (hu : length ≠ 0xFFFFFFFF)
    (h : top_element env state max_elements filter fuel g e uid r = Except.ok res) :
    ∃ inner, parse_sequence env state max_elements filter fuel 1
        { fp := fp1, element_count := r.element_count + 1,
          out := r.out ++
            [Out.sq_row g e (actual_vr env state ((g <<< 16) ||| e) vr)
              (display_keyword env g ((g <<< 16) ||| e)) (display_name env ((g <<< 16) ||| e))] ++
            [Out.lit "(sequence - defined length)\n"] } = some inner ∧
      fp1.pos ≤ inner.2.fp.pos ∧
      res.2.2.fp.pos = max inner.2.fp.pos (fp1.pos + length) := by
  unfold top_element at h
  dsimp only at h
  rw [if_neg hpix, hhdr] at h
  dsimp only at h
  rw [if_neg (by rw [hdisp]; simp), hsq] at h
  simp only [if_true] at h
  revert h
  cases hs : top_sequence env state max_elements filter fuel g e
      (actual_vr env state ((g <<< 16) ||| e) vr) length
      { fp := fp1, element_count := r.element_count, out := r.out } with
  | error err => intro h; injection h
  | ok r1 =>
    intro h
    dsimp only at h
    injection h with h
    obtain ⟨inner, hp, hfrom, hr1⟩ := top_sequence_defined env state max_elements filter fuel
      g e _ length _ r1 hc h0 hu hs
    refine ⟨inner, hp, hfrom, ?_⟩
    rw [← h, hr1]
    dsimp only at hfrom ⊢
    by_cases hlt : inner.2.fp.pos < fp1.pos + length
    · rw [if_pos hlt]
      dsimp only
      omega
    · rw [if_neg hlt]
      omega
/-! ## Where the nested parse of an item stops -/

theorem read_and_display_no_break (env : Env) (state : parser_state) (vr : List Nat)
    (length : Nat) (depth : Int) (r : Run) :
    (read_and_display env state vr length depth r).1 = false := by
  have hle : (if length < 4096 then length else 4096) ≤ length := by split <;> omega
  unfold read_and_display
  dsimp only
  generalize (if length < 4096 then length else 4096) = read_len at hle
  split
  · split
    · have hsub : ((length : Int) - (read_len : Int)) = ((length - read_len : Nat) : Int) := by
        omega
      rw [hsub, fseek_cur_nonneg]
      simp
    · rfl
  · rfl

theorem element_value_no_break (env : Env) (state : parser_state) (vr : List Nat)
    (length : Nat) (depth : Int) (r : Run) :
    (element_value env state vr length depth r).1 = false := by
  unfold element_value
  split
  · exact read_and_display_no_break ..
  · split
    · rfl
    · split
      · rfl
      · unfold skip_large
        rw [fseek_cur_nonneg]
        simp

/-- The loop body of `parse_data_elements` makes the function return only at the end
of the input, at a tag of group `FFFE` below the top level, at Pixel Data, or at a
VR that is cut off or not valid. -/
theorem data_element_ret (env : Env) (state : parser_state) (filter : Option (List Nat))
    (depth : Int) (r : Run) (code : Int) (r1 : Run)
    (h : data_element env state filter depth r = Step.ret code r1) :
    feof (read_uint16 (read_uint16 r.fp state).2 state).2 = true ∨
    (depth > 0 ∧ (read_uint16 r.fp state).1 = 0xFFFE) ∨
    ((read_uint16 r.fp state).1 = 0x7FE0 ∧
      (read_uint16 (read_uint16 r.fp state).2 state).1 = 0x0010) ∨
    (∃ fp, read_vr_length env state
        (((read_uint16 r.fp state).1 <<< 16) ||| (read_uint16 (read_uint16 r.fp state).2 state).1)
        (read_uint16 (read_uint16 r.fp state).2 state).2 = Header.truncated fp) ∨
    (∃ vr fp, read_vr_length env state
        (((read_uint16 r.fp state).1 <<< 16) ||| (read_uint16 (read_uint16 r.fp state).2 state).1)
        (read_uint16 (read_uint16 r.fp state).2 state).2 = Header.invalid vr fp) := by
  unfold data_element at h
  dsimp only at h
  by_cases h1 : feof (read_uint16 (read_uint16 r.fp state).2 state).2 = true
  · exact Or.inl h1
  · rw [if_neg h1] at h
    by_cases h2 : depth > 0 ∧ (read_uint16 r.fp state).1 = 0xFFFE
    · exact Or.inr (Or.inl h2)
    · rw [if_neg h2] at h
      by_cases h3 : (read_uint16 r.fp state).1 = 0x7FE0 ∧
          (read_uint16 (read_uint16 r.fp state).2 state).1 = 0x0010
      · exact Or.inr (Or.inr (Or.inl h3))
      · rw [if_neg h3] at h
        revert h
        cases hh : read_vr_length env state
          (((read_uint16 r.fp state).1 <<< 16) |||
            (read_uint16 (read_uint16 r.fp state).2 state).1)
          (read_uint16 (read_uint16 r.fp state).2 state).2 with
        | truncated fp => intro _; exact Or.inr (Or.inr (Or.inr (Or.inl ⟨fp, rfl⟩)))
        | invalid vr fp => intro _; exact Or.inr (Or.inr (Or.inr (Or.inr ⟨vr, fp, rfl⟩)))
        | ok vr length fp =>
          intro h
          exfalso
          dsimp only at h
          split at h
          · injection h
          · split at h
            · injection h
            · rw [element_value_no_break] at h
              simp only [Bool.false_eq_true, if_false] at h
              injection h

/-- The pass of the loop of `parse_sequence` over an item of defined length: the
nested parse runs without the length, then the cursor is moved to
`start + length` when it is before that place. -/
theorem parse_sequence_loop_defined_item (env : Env) (state : parser_state)
    (max_elements : Int) (filter : Option (List Nat)) (fuel : Nat) (depth : Int) (r : Run)
    (length : Nat) (r1 : Run) (res : Int × Run)
    (hgo : ¬ (feof r.fp = true ∨ ¬ r.element_count < max_elements))
    (hitem : sequence_item state depth r = SeqStep.item length r1)
    (hu : length ≠ 0xFFFFFFFF) (h0 : 0 < length)
    (hres : parse_data_elements env state max_elements filter fuel (depth + 1) r1 = some res) :
    parse_sequence_loop env state max_elements filter (fuel + 1) depth r
      = parse_sequence_loop env state max_elements filter fuel depth
          (if res.2.fp.pos < r1.fp.pos + length
            then { res.2 with fp := { res.2.fp with pos := r1.fp.pos + length, eof := false } }
            else res.2) := by
  have hfrom := parse_data_elements_from _ _ _ _ _ _ _ _ hres
  have hrep := repair_pos res.2.fp r1.fp.pos length hfrom.1
  rw [parse_sequence_loop]
  rw [if_neg hgo, hitem]
  dsimp only
  rw [if_neg hu, if_pos h0, hres]
  dsimp only [Option.bind]
  unfold ftell at hrep ⊢
  by_cases hlt : res.2.fp.pos < r1.fp.pos + length
  · rw [if_pos hlt] at hrep ⊢
    rw [if_pos (by omega)] at hrep ⊢
    rw [hrep]
  · rw [if_neg hlt, if_neg (by omega)]

/-! ## Lemmas on the indentation of the output -/

theorem lines_append (B : Nat) (D : Int) (a b : List Out) (ha : Lines B D a) (hb : Lines B D b) :
    Lines B D (a ++ b) := by
  induction ha with
  | nil => exact hb
  | line n e rest hn he _ ih =>
    rw [List.append_assoc, List.cons_append]
    exact Lines.line n e _ hn he ih

theorem lines_single (B : Nat) (D : Int) (n : Nat) (e : Out) (hn : n ≤ B)
    (he : line_event D e = true) : Lines B D (List.replicate n (Out.lit "  ") ++ [e]) :=
  Lines.line n e [] hn he Lines.nil

theorem lines_event (B : Nat) (D : Int) (a : List Out) (e : Out) (ha : Lines B D a)
    (he : line_event D e = true) : Lines B D (a ++ [e]) :=
  lines_append B D a [e] ha (lines_single B D 0 e (Nat.zero_le _) he)

theorem lines_indent_event (B : Nat) (D : Int) (a : List Out) (depth : Int) (e : Out)
    (ha : Lines B D a) (hd : (depth * 2).toNat ≤ B) (he : line_event D e = true) :
    Lines B D (a ++ print_indent depth ++ [e]) := by
  rw [List.append_assoc]
  exact lines_append B D a _ ha (lines_single B D _ e hd he)

theorem line_event_ne (D : Int) (e : Out) (h : line_event D e = true) : e ≠ Out.lit "  " := by
  intro he
  rw [he] at h
  have h2 : line_event D (Out.lit "  ") = false := rfl
  rw [h2] at h
  exact Bool.noConfusion h

theorem line_event_value (D : Int) (vr data : List Nat) (length : Nat) (depth : Int)
    (ctx : display_context) (h : line_event D (Out.value vr data length depth ctx) = true) :
    0 ≤ depth ∧ depth ≤ D := by
  simpa [line_event] using h

theorem mem_replicate_indent (n : Nat) (e : Out) (h : e ∈ List.replicate n (Out.lit "  ")) :
    e = Out.lit "  " := (List.mem_replicate.1 h).2

theorem lines_infix (B : Nat) (D : Int) (out : List Out) (h : Lines B D out) (n : Nat) :
    List.replicate n (Out.lit "  ") <:+: out → n ≤ B := by
  induction h with
  | nil =>
    intro hi
    have := List.eq_nil_of_infix_nil hi
    have hl := congrArg List.length this
    simp at hl
    omega
  | line m e rest hm he _ ih =>
    rintro ⟨p, q, hpq⟩
    by_cases hn0 : n = 0
    · omega
    have hne : e ∉ List.replicate n (Out.lit "  ") := fun hmem =>
      line_event_ne D e he (mem_replicate_indent n e hmem)
    rw [List.append_assoc] at hpq
    rcases List.append_eq_append_iff.1 hpq with ⟨a, hA, hs⟩ | ⟨c, hp, hs⟩
    · -- the run starts inside the indentation of the first line
      rcases List.append_eq_append_iff.1 hs with ⟨b1, ha, _⟩ | ⟨c, hs1, hs2⟩
      · have hl := congrArg List.length hA
        rw [ha] at hl
        simp only [List.length_replicate, List.length_append] at hl
        omega
      · cases c with
        | nil =>
          rw [List.append_nil] at hs1
          have hl := congrArg List.length hA
          rw [← hs1] at hl
          simp only [List.length_replicate, List.length_append] at hl
          omega
        | cons c0 c1 =>
          exfalso
          simp only [List.cons_append, List.cons.injEq] at hs2
          apply hne
          rw [hs1, hs2.1]
          simp
    · cases c with
      | nil =>
        exfalso
        simp only [List.nil_append] at hs
        obtain ⟨k, rfl⟩ : ∃ k, n = k + 1 := ⟨n - 1, by omega⟩
        simp only [List.replicate_succ, List.cons_append, List.cons.injEq] at hs
        exact line_event_ne D e he hs.1
      | cons c0 c1 =>
        simp only [List.cons_append, List.cons.injEq] at hs
        exact ih ⟨c1, q, by rw [List.append_assoc]; exact hs.2.symm⟩

theorem lines_value (B : Nat) (D : Int) (out : List Out) (h : Lines B D out) (vr data : List Nat)
    (length : Nat) (depth : Int) (ctx : display_context)
    (hm : Out.value vr data length depth ctx ∈ out) : 0 ≤ depth ∧ depth ≤ D := by
  induction h with
  | nil => simp at hm
  | line m e rest _ he _ ih =>
    rw [List.mem_append, List.mem_cons] at hm
    rcases hm with hm | hm | hm
    · have := mem_replicate_indent m _ hm
      injection this
    · rw [← hm] at he; exact line_event_value D vr data length depth ctx he
    · exact ih hm
theorem lines_read_and_display (B : Nat) (D : Int) (env : Env) (state : parser_state)
    (vr : List Nat) (length : Nat) (depth : Int) (r : Run) (h : Lines B D r.out)
    (hd : 0 ≤ depth ∧ depth ≤ D) :
    Lines B D (read_and_display env state vr length depth r).2.out := by
  have hv : ∀ data n, line_event D (Out.value vr data n depth (create_display_context env state))
      = true := by
    intro data n
    simp [line_event, hd.1, hd.2]
  unfold read_and_display
  dsimp only
  repeat' split
  all_goals first
    | exact h
    | exact lines_event _ _ _ _ h rfl
    | exact lines_event _ _ _ _ h (hv _ _)
    | exact lines_event _ _ _ _ (lines_event _ _ _ _ h (hv _ _)) rfl
    | (rw [List.append_nil]; exact h)
    | (rw [List.append_nil]; exact lines_event _ _ _ _ h rfl)
theorem lines_skip_large (B : Nat) (D : Int) (length : Nat) (r : Run) (h : Lines B D r.out) :
    Lines B D (skip_large length r).2.out := by
  unfold skip_large
  dsimp only
  split
  · exact lines_append _ _ _ _ h (lines_append _ _ [_] [_] (lines_event _ _ _ _ Lines.nil rfl)
      (lines_event _ _ _ _ Lines.nil rfl))
  · exact lines_event _ _ _ _ h rfl

theorem lines_element_value (B : Nat) (D : Int) (env : Env) (state : parser_state)
    (vr : List Nat) (length : Nat) (depth : Int) (r : Run) (h : Lines B D r.out)
    (hd : 0 ≤ depth ∧ depth ≤ D) :
    Lines B D (element_value env state vr length depth r).2.out := by
  unfold element_value
  split
  · exact lines_read_and_display B D env state vr length depth r h hd
  · split
    · exact lines_event _ _ _ _ h rfl
    · split
      · exact lines_event _ _ _ _ h rfl
      · exact lines_skip_large B D length r h

theorem lines_data_element (B : Nat) (D : Int) (env : Env) (state : parser_state)
    (filter : Option (List Nat)) (depth : Int) (r : Run) (h : Lines B D r.out)
    (hd : 0 ≤ depth ∧ depth ≤ D) (hb : (depth * 2).toNat ≤ B) :
    Lines B D (data_element env state filter depth r).run.out := by
  unfold data_element
  dsimp only
  split
  · exact h
  · split
    · exact h
    · split
      · exact lines_indent_event _ _ _ _ _ h hb rfl
      · split
        · exact h
        · exact lines_event _ _ _ _ h rfl
        · split
          · exact h
          · split
            · exact lines_indent_event _ _ _ _ _ h hb rfl
            · split
              · refine lines_element_value B D env state _ _ depth _ ?_ hd
                exact lines_indent_event _ _ _ _ _ h hb rfl
              · refine lines_event _ _ _ _ ?_ rfl
                refine lines_element_value B D env state _ _ depth _ ?_ hd
                exact lines_indent_event _ _ _ _ _ h hb rfl

theorem lines_sequence_item (B : Nat) (D : Int) (state : parser_state) (depth : Int) (r : Run)
    (h : Lines B D r.out) (hb : (depth * 2).toNat ≤ B) :
    Lines B D (sequence_item state depth r).run.out := by
  unfold sequence_item
  dsimp only
  repeat' split
  all_goals first
    | exact h
    | exact lines_indent_event _ _ _ _ _ h hb rfl

/-- The indentation invariant of the nested parsers: with `max_sq_depth = m`, lines
are printed with at most `2 * (m + 1)` indentation units when `parse_data_elements`
is entered at a depth up to `m + 1` and `parse_sequence` at a depth up to `m + 2`. -/
theorem parse_lines (env : Env) (state : parser_state) (max_elements : Int)
    (filter : Option (List Nat)) (B : Nat)
    (hB : B = (2 * (state.max_sq_depth + 1)).toNat) (fuel : Nat) :
    (∀ depth r res, 1 ≤ depth → depth ≤ state.max_sq_depth + 2 →
      Lines B (state.max_sq_depth + 1) r.out →
      parse_sequence env state max_elements filter fuel depth r = some res →
      Lines B (state.max_sq_depth + 1) res.2.out) ∧
    (∀ depth r res, 0 ≤ depth → depth ≤ state.max_sq_depth →
      Lines B (state.max_sq_depth + 1) r.out →
      parse_sequence_loop env state max_elements filter fuel depth r = some res →
      Lines B (state.max_sq_depth + 1) res.2.out) ∧
    (∀ depth r res, 0 ≤ depth → depth ≤ state.max_sq_depth + 1 →
      Lines B (state.max_sq_depth + 1) r.out →
      parse_data_elements env state max_elements filter fuel depth r = some res →
      Lines B (state.max_sq_depth + 1) res.2.out) := by
  induction fuel with
  | zero =>
    refine ⟨?_, ?_, ?_⟩ <;> intro depth r res _ _ _ h
    · simp [parse_sequence] at h
    · simp [parse_sequence_loop] at h
    · simp [parse_data_elements] at h
  | succ fuel ih =>
    obtain ⟨ihS, ihL, ihD⟩ := ih
    refine ⟨?_, ?_, ?_⟩
    · intro depth r res h1 h2 hl h
      unfold parse_sequence at h
      split at h
      · obtain ⟨res1, _, h⟩ := Option.bind_eq_some.1 h
        simp only [Option.some.injEq] at h
        subst h
        exact lines_indent_event _ _ _ _ _ hl (by omega) rfl
      · exact ihL _ _ _ (by omega) (by omega) hl h
    · intro depth r res h1 h2 hl h
      have hb : (depth * 2).toNat ≤ B := by omega
      unfold parse_sequence_loop at h
      split at h
      · simp only [Option.some.injEq] at h; subst h; exact hl
      · have hs := lines_sequence_item B (state.max_sq_depth + 1) state depth r hl hb
        split at h
        · rename_i code r1 hd
          rw [hd] at hs
          simp only [Option.some.injEq] at h; subst h
          exact hs
        · rename_i r1 hd
          rw [hd] at hs
          exact ihL _ _ _ h1 h2 hs h
        · rename_i length r1 hd
          rw [hd] at hs
          simp only [SeqStep.run] at hs
          split at h
          · obtain ⟨res1, heq, h⟩ := Option.bind_eq_some.1 h
            exact ihL _ _ _ h1 h2 (ihD _ _ _ (by omega) (by omega) hs heq) h
          · split at h
            · obtain ⟨res1, heq, h⟩ := Option.bind_eq_some.1 h
              have h0 := ihD _ _ _ (by omega) (by omega) hs heq
              dsimp only at h
              split at h
              · refine ihL _ _ _ h1 h2 ?_ h
                exact h0
              · exact ihL _ _ _ h1 h2 h0 h
            · exact ihL _ _ _ h1 h2 hs h
    · intro depth r res h1 h2 hl h
      have hb : (depth * 2).toNat ≤ B := by omega
      unfold parse_data_elements at h
      split at h
      · simp only [Option.some.injEq] at h; subst h; exact hl
      · have hs := lines_data_element B (state.max_sq_depth + 1) env state filter depth r hl
          ⟨h1, h2⟩ hb
        split at h
        · rename_i code r1 hd
          rw [hd] at hs
          simp only [Option.some.injEq] at h; subst h
          exact hs
        · rename_i r1 hd
          rw [hd] at hs
          exact ihD _ _ _ h1 h2 hs h
        · rename_i length r1 hd
          rw [hd] at hs
          simp only [Step.run] at hs
          split at h
          · obtain ⟨res1, _, h⟩ := Option.bind_eq_some.1 h
            refine ihD _ _ _ h1 h2 ?_ h
            exact lines_event _ _ _ _ hs rfl
          · split at h
            · obtain ⟨res1, heq, h⟩ := Option.bind_eq_some.1 h
              have h0 := ihS _ _ _ (by omega) (by omega) (by
                dsimp only
                exact lines_event _ _ _ _ hs rfl) heq
              refine ihD _ _ _ h1 h2 ?_ h
              unfold Run.emit
              dsimp only
              rw [← List.append_assoc]
              exact lines_indent_event _ _ _ _ _ h0 hb rfl
            · split at h
              · refine ihD _ _ _ h1 h2 ?_ h
                exact lines_event _ _ _ _ hs rfl
              · obtain ⟨res1, heq, h⟩ := Option.bind_eq_some.1 h
                have h0 := ihS _ _ _ (by omega) (by omega) (by
                  dsimp only
                  exact lines_event _ _ _ _ hs rfl) heq
                dsimp only at h
                refine ihD _ _ _ h1 h2 ?_ h
                unfold Run.emit
                rw [← List.append_assoc]
                split
                · exact lines_indent_event _ _ _ _ _ h0 hb rfl
                · exact lines_indent_event _ _ _ _ _ h0 hb rfl
theorem ts_switch_depth (state : parser_state) (m : Bool) (g : Nat) (uid : List Nat) :
    (ts_switch state m g uid).1.max_sq_depth = state.max_sq_depth := by
  unfold ts_switch
  repeat' split
  all_goals rfl

theorem lines_ts_switch (B : Nat) (D : Int) (state : parser_state) (m : Bool) (g : Nat)
    (uid : List Nat) : Lines B D (ts_switch state m g uid).2.2 := by
  unfold ts_switch
  repeat' split
  all_goals first
    | exact Lines.nil
    | exact lines_single B D 0 _ (Nat.zero_le _) rfl

theorem lines_ts_capture (B : Nat) (D : Int) (env : Env) (state : parser_state) (fuel : Nat)
    (vr : List Nat) (length : Nat) (sd : Bool) (uid : List Nat) (r : Run)
    (res : List Nat × Run) (hD : 0 ≤ D) (hl : Lines B D r.out)
    (h : ts_capture env state fuel vr length sd uid r = Except.ok res) :
    Lines B D res.2.out := by
  unfold ts_capture at h
  dsimp only at h
  split at h
  · split at h
    · injection h
    · injection h with h
      subst h
      dsimp only
      split
      · refine lines_event _ _ _ _ hl ?_
        simp [line_event, hD]
      · rw [List.append_nil]; exact hl
  · injection h with h
    subst h
    exact hl

theorem lines_top_value (B : Nat) (D : Int) (env : Env) (state : parser_state) (fuel : Nat)
    (tag : Nat) (vr : List Nat) (length : Nat) (sd : Bool) (uid : List Nat) (r : Run)
    (res : Bool × List Nat × Run) (hD : 0 ≤ D) (hl : Lines B D r.out)
    (h : top_value env state fuel tag vr length sd uid r = Except.ok res) :
    Lines B D res.2.2.out := by
  unfold top_value at h
  split at h
  · split at h
    · injection h
    · rename_i res1 hc
      injection h with h; subst h
      exact lines_ts_capture B D env state fuel vr length sd uid r res1 hD hl hc
  · split at h
    · injection h with h; subst h
      exact lines_read_and_display B D env state vr length 0 r hl ⟨le_refl _, hD⟩
    · split at h
      · injection h with h; subst h
        exact lines_event _ _ _ _ hl rfl
      · injection h with h; subst h
        exact lines_skip_large B D length r hl

theorem lines_top_sequence (B : Nat) (env : Env) (state : parser_state) (max_elements : Int)
    (filter : Option (List Nat)) (fuel : Nat) (group element : Nat) (avr : List Nat)
    (length : Nat) (r r1 : Run) (hB : B = (2 * (state.max_sq_depth + 1)).toNat)
    (hm : 1 ≤ state.max_sq_depth) (hl : Lines B (state.max_sq_depth + 1) r.out)
    (h : top_sequence env state max_elements filter fuel group element avr length r
      = Except.ok r1) :
    Lines B (state.max_sq_depth + 1) r1.out := by
  have hrule : ∀ a, Lines B (state.max_sq_depth + 1) a →
      Lines B (state.max_sq_depth + 1) (a ++ [Out.lit "  ", Out.rule]) := by
    intro a ha
    exact lines_append _ _ _ _ ha (lines_single B _ 1 Out.rule (by omega) rfl)
  have hrow := lines_event B (state.max_sq_depth + 1) r.out
    (Out.sq_row group element avr (display_keyword env group ((group <<< 16) ||| element))
      (display_name env ((group <<< 16) ||| element))) hl rfl
  unfold top_sequence at h
  dsimp only at h
  split at h
  · split at h
    · injection h
    · injection h with h; subst h
      exact lines_event _ _ _ _ hrow rfl
  · have hev : ∀ ev, line_event (state.max_sq_depth + 1) ev = true →
        Lines B (state.max_sq_depth + 1) (r.out ++
          [Out.sq_row group element avr (display_keyword env group ((group <<< 16) ||| element))
            (display_name env ((group <<< 16) ||| element))] ++ [ev]) :=
      fun ev hev => lines_event _ _ _ _ hrow hev
    split at h
    · split at h
      · injection h
      · rename_i res hp
        injection h with h; subst h
        refine hrule _ ((parse_lines env state max_elements filter B hB fuel).1 1 _ res
          (le_refl _) (by omega) ?_ hp)
        exact hev _ rfl
    · split at h
      · split at h
        · injection h
        · rename_i res hp
          injection h with h; subst h
          have h0 := (parse_lines env state max_elements filter B hB fuel).1 1 _ res (le_refl _)
            (by omega) (by
              dsimp only
              exact hev _ (by split <;> rfl)) hp
          unfold Run.emit
          split
          · exact hrule _ h0
          · exact hrule _ h0
      · injection h with h; subst h
        exact hev _ (by split <;> rfl)

theorem lines_top_element (B : Nat) (env : Env) (state : parser_state) (max_elements : Int)
    (filter : Option (List Nat)) (fuel : Nat) (g e : Nat) (uid : List Nat) (r : Run)
    (res : Bool × List Nat × Run) (hB : B = (2 * (state.max_sq_depth + 1)).toNat)
    (hm : 1 ≤ state.max_sq_depth) (hl : Lines B (state.max_sq_depth + 1) r.out)
    (h : top_element env state max_elements filter fuel g e uid r = Except.ok res) :
    Lines B (state.max_sq_depth + 1) res.2.2.out := by
  unfold top_element at h
  dsimp only at h
  split at h
  · injection h with h; subst h
    unfold Run.emit
    dsimp only
    refine lines_append _ _ _ _ hl ?_
    refine lines_append _ _ _ _ (lines_append _ _ [_] _ (lines_single B _ 0 _ (Nat.zero_le _) rfl)
      ?_) (lines_single B _ 0 _ (Nat.zero_le _) rfl)
    generalize (148 : Nat) = k
    induction k with
    | zero => exact Lines.nil
    | succ k ih =>
      rw [List.replicate_succ]
      exact lines_append _ _ [_] _ (lines_single B _ 0 _ (Nat.zero_le _) rfl) ih
  · split at h
    · injection h with h; subst h; exact hl
    · injection h with h; subst h
      exact lines_event _ _ _ _ hl rfl
    · split at h
      · injection h with h; subst h; exact hl
      · split at h
        · split at h
          · injection h
          · rename_i r1 hs
            injection h with h; subst h
            exact lines_top_sequence B env state max_elements filter fuel g e _ _ _ r1 hB hm (by dsimp only; exact hl) hs
        · split at h
          · injection h
          · rename_i res1 hv
            have h0 := lines_top_value B (state.max_sq_depth + 1) env state fuel _ _ _ _ _ _ res1
              (by omega) (by
                dsimp only
                split
                · exact lines_event _ _ _ _ hl rfl
                · rw [List.append_nil]; exact hl) hv
            split at h
            · injection h with h; subst h; exact h0
            · injection h with h; subst h
              dsimp only
              split
              · exact lines_event _ _ _ _ h0 rfl
              · rw [List.append_nil]; exact h0

theorem lines_top_step (B : Nat) (env : Env) (max_elements : Int) (filter : Option (List Nat))
    (fuel : Nat) (t : Top) (res : Bool × Top)
    (hB : B = (2 * (t.state.max_sq_depth + 1)).toNat)
    (hm : 1 ≤ t.state.max_sq_depth) (hl : Lines B (t.state.max_sq_depth + 1) t.run.out)
    (h : top_step env max_elements filter fuel t = Except.ok res) :
    res.2.state.max_sq_depth = t.state.max_sq_depth ∧
    Lines B (t.state.max_sq_depth + 1) res.2.run.out := by
  unfold top_step at h
  dsimp only at h
  split at h
  · injection h with h; subst h
    exact ⟨rfl, hl⟩
  · split at h
    · injection h
    · rename_i res1 he
      injection h with h; subst h
      have hd := ts_switch_depth t.state t.in_file_meta (read_uint16 t.run.fp t.state).1
        t.transfer_syntax_uid
      refine ⟨hd, ?_⟩
      have h0 := lines_top_element B env _ max_elements filter fuel _ _ _ _ res1
        (by rw [hd]; exact hB) (by rw [hd]; exact hm) (by
          rw [hd]
          exact lines_append _ _ _ _ hl (lines_ts_switch B _ _ _ _ _)) he
      rw [hd] at h0
      exact h0

theorem lines_top_loop (B : Nat) (m : Int) (env : Env) (max_elements : Int)
    (filter : Option (List Nat)) (fuel : Nat) :
    ∀ (t t1 : Top), t.state.max_sq_depth = m → B = (2 * (m + 1)).toNat → 1 ≤ m →
      Lines B (m + 1) t.run.out →
      top_loop env max_elements filter fuel t = Except.ok t1 → Lines B (m + 1) t1.run.out := by
  induction fuel with
  | zero => intro t t1 _ _ _ _ h; unfold top_loop at h; injection h
  | succ fuel ih =>
    intro t t1 hs hB hm hl h
    unfold top_loop at h
    split at h
    · injection h with h; subst h; exact hl
    · split at h
      · injection h
      · rename_i res hstep
        obtain ⟨hd, h0⟩ := lines_top_step B env max_elements filter fuel t res
          (by rw [hs]; exact hB) (by rw [hs]; exact hm) (by rw [hs]; exact hl) hstep
        rw [hs] at h0 hd
        split at h
        · exact ih res.2 t1 hd hB hm h0 h
        · injection h with h; subst h; exact h0

theorem lines_parse_dicom_header (env : Env) (fuel : Nat) (file : Option (List Nat))
    (max_elements : Int) (c : Bool) (m : Int) (f : Bool) (filter : Option (List Nat))
    (res : Result) (hm : 1 ≤ m)
    (h : parse_dicom_header env fuel file max_elements c m f filter = Except.ok res) :
    Lines (2 * (m + 1)).toNat (m + 1) res.out := by
  have hB : ∀ e : Out, line_event (m + 1) e = true → Lines (2 * (m + 1)).toNat (m + 1) [e] :=
    fun e he => lines_single _ _ 0 e (Nat.zero_le _) he
  unfold parse_dicom_header at h
  split at h
  · injection h with h; subst h; exact hB _ rfl
  · dsimp only at h
    split at h
    · injection h with h; subst h; exact hB _ rfl
    · split at h
      · injection h with h; subst h; exact hB _ rfl
      · split at h
        · injection h with h; subst h; exact hB _ rfl
        · split at h
          · injection h
          · rename_i t hloop
            injection h with h; subst h
            have h0 := lines_top_loop (2 * (m + 1)).toNat m env max_elements filter fuel _ t rfl rfl
              hm (by
                unfold top_init
                dsimp only
                exact lines_append _ _ [_] _ (hB _ rfl)
                  (lines_append _ _ [_] [_] (hB _ rfl) (hB _ rfl))) hloop
            exact lines_event _ _ _ _ h0 rfl

/-! ## More fuel does not change a result -/

theorem count_fuel_succ (env : Env) (state : parser_state) (fuel : Nat) :
    (∀ ic ep fp res, count_sequence_items_loop env state fuel ic ep fp = some res →
      count_sequence_items_loop env state (fuel + 1) ic ep fp = some res) ∧
    (∀ fp res, count_item_body env state fuel fp = some res →
      count_item_body env state (fuel + 1) fp = some res) := by
  induction fuel with
  | zero =>
    refine ⟨fun ic ep fp res h => ?_, fun fp res h => ?_⟩
    · simp [count_sequence_items_loop] at h
    · simp [count_item_body] at h
  | succ fuel ih =>
    obtain ⟨ihL, ihB⟩ := ih
    refine ⟨fun ic ep fp res h => ?_, fun fp res h => ?_⟩
    · rw [count_sequence_items_loop] at h ⊢
      by_cases he : feof fp = true
      · rw [if_pos he] at h ⊢; exact h
      · rw [if_neg he] at h ⊢
        revert h
        cases count_step state fp with
        | stop e fp1 => cases e <;> exact fun h => h
        | skip fp1 => exact fun h => ihL _ _ _ _ h
        | item fp1 => exact fun h => ihL _ _ _ _ h
        | item_undefined fp1 =>
          intro h
          dsimp only at h ⊢
          obtain ⟨fp2, heq, h2⟩ := Option.bind_eq_some.1 h
          rw [ihB _ _ heq]
          exact ihL _ _ _ _ h2
    · rw [count_item_body] at h ⊢
      by_cases he : feof fp = true
      · rw [if_pos he] at h ⊢; exact h
      · rw [if_neg he] at h ⊢
        revert h
        cases body_step env state fp with
        | stop fp1 => exact fun h => h
        | next fp1 => exact fun h => ihB _ _ h
        | sequence fp1 =>
          intro h
          dsimp only at h ⊢
          obtain ⟨r1, heq, h2⟩ := Option.bind_eq_some.1 h
          rw [ihL _ _ _ _ heq]
          exact ihB _ _ h2

theorem count_loop_fuel_le (env : Env) (state : parser_state) (fuel : Nat) (ic ep : Int)
    (fp : FILE) (res : Int × Int × FILE)
    (h : count_sequence_items_loop env state fuel ic ep fp = some res) :
    ∀ fuel1, fuel ≤ fuel1 → count_sequence_items_loop env state fuel1 ic ep fp = some res := by
  intro fuel1 hle
  induction hle with
  | refl => exact h
  | step _ ih => exact (count_fuel_succ env state _).1 _ _ _ _ ih

theorem count_body_fuel_le (env : Env) (state : parser_state) (fuel : Nat) (fp res : FILE)
    (h : count_item_body env state fuel fp = some res) :
    ∀ fuel1, fuel ≤ fuel1 → count_item_body env state fuel1 fp = some res := by
  intro fuel1 hle
  induction hle with
  | refl => exact h
  | step _ ih => exact (count_fuel_succ env state _).2 _ _ ih

theorem count_sequence_items_fuel_le (env : Env) (state : parser_state) (fuel : Nat)
    (fp : FILE) (res : Int × Int × FILE)
    (h : count_sequence_items env state fuel fp = some res) :
    ∀ fuel1, fuel ≤ fuel1 → count_sequence_items env state fuel1 fp = some res := by
  intro fuel1 hle
  unfold count_sequence_items at h ⊢
  exact count_loop_fuel_le env state fuel _ _ fp res h fuel1 hle

theorem parse_fuel_succ (env : Env) (state : parser_state) (max_elements : Int)
    (filter : Option (List Nat)) (fuel : Nat) :
    (∀ depth r res, parse_sequence env state max_elements filter fuel depth r = some res →
      parse_sequence env state max_elements filter (fuel + 1) depth r = some res) ∧
    (∀ depth r res, parse_sequence_loop env state max_elements filter fuel depth r = some res →
      parse_sequence_loop env state max_elements filter (fuel + 1) depth r = some res) ∧
    (∀ depth r res, parse_data_elements env state max_elements filter fuel depth r = some res →
      parse_data_elements env state max_elements filter (fuel + 1) depth r = some res) := by
  induction fuel with
  | zero =>
    refine ⟨fun depth r res h => ?_, fun depth r res h => ?_, fun depth r res h => ?_⟩
    · simp [parse_sequence] at h
    · simp [parse_sequence_loop] at h
    · simp [parse_data_elements] at h
  | succ fuel ih =>
    obtain ⟨ihS, ihL, ihD⟩ := ih
    refine ⟨fun depth r res h => ?_, fun depth r res h => ?_, fun depth r res h => ?_⟩
    · rw [parse_sequence] at h ⊢
      by_cases hd : depth > state.max_sq_depth
      · rw [if_pos hd] at h ⊢
        obtain ⟨c, heq, h2⟩ := Option.bind_eq_some.1 h
        rw [count_sequence_items_fuel_le env state fuel _ _ heq (fuel + 1) (Nat.le_succ _)]
        exact h2
      · rw [if_neg hd] at h ⊢
        exact ihL _ _ _ h
    · rw [parse_sequence_loop] at h ⊢
      by_cases hg : feof r.fp = true ∨ ¬ r.element_count < max_elements
      · rw [if_pos hg] at h ⊢; exact h
      · rw [if_neg hg] at h ⊢
        revert h
        cases sequence_item state depth r with
        | ret code r1 => exact fun h => h
        | next r1 => exact fun h => ihL _ _ _ h
        | item length r1 =>
          intro h
          dsimp only at h ⊢
          by_cases hu : length = 0xFFFFFFFF
          · rw [if_pos hu] at h ⊢
            obtain ⟨r2, heq, h2⟩ := Option.bind_eq_some.1 h
            rw [ihD _ _ _ heq]
            exact ihL _ _ _ h2
          · rw [if_neg hu] at h ⊢
            by_cases h0 : length > 0
            · rw [if_pos h0] at h ⊢
              obtain ⟨r2, heq, h2⟩ := Option.bind_eq_some.1 h
              rw [ihD _ _ _ heq]
              exact ihL _ _ _ h2
            · rw [if_neg h0] at h ⊢
              exact ihL _ _ _ h
    · rw [parse_data_elements] at h ⊢
      by_cases hg : feof r.fp = true ∨ ¬ r.element_count < max_elements
      · rw [if_pos hg] at h ⊢; exact h
      · rw [if_neg hg] at h ⊢
        revert h
        cases data_element env state filter depth r with
        | ret code r1 => exact fun h => h
        | next r1 => exact fun h => ihD _ _ _ h
        | sequence length r1 =>
          intro h
          dsimp only at h ⊢
          by_cases hc : state.collapse_sequences = true
          · rw [if_pos hc] at h ⊢
            obtain ⟨c, heq, h2⟩ := Option.bind_eq_some.1 h
            rw [count_sequence_items_fuel_le env state fuel _ _ heq (fuel + 1) (Nat.le_succ _)]
            exact ihD _ _ _ h2
          · rw [if_neg hc] at h ⊢
            by_cases hu : length = 0xFFFFFFFF
            · rw [if_pos hu] at h ⊢
              obtain ⟨r2, heq, h2⟩ := Option.bind_eq_some.1 h
              rw [ihS _ _ _ heq]
              exact ihD _ _ _ h2
            · rw [if_neg hu] at h ⊢
              by_cases h0 : length = 0
              · rw [if_pos h0] at h ⊢
                exact ihD _ _ _ h
              · rw [if_neg h0] at h ⊢
                obtain ⟨r2, heq, h2⟩ := Option.bind_eq_some.1 h
                rw [ihS _ _ _ heq]
                exact ihD _ _ _ h2

theorem parse_sequence_fuel_le (env : Env) (state : parser_state) (max_elements : Int)
    (filter : Option (List Nat)) (fuel : Nat) (depth : Int) (r : Run) (res : Int × Run)
    (h : parse_sequence env state max_elements filter fuel depth r = some res) :
    ∀ fuel1, fuel ≤ fuel1 →
      parse_sequence env state max_elements filter fuel1 depth r = some res := by
  intro fuel1 hle
  induction hle with
  | refl => exact h
  | step _ ih => exact (parse_fuel_succ env state max_elements filter _).1 _ _ _ ih

theorem parse_sequence_loop_fuel_le (env : Env) (state : parser_state) (max_elements : Int)
    (filter : Option (List Nat)) (fuel : Nat) (depth : Int) (r : Run) (res : Int × Run)
    (h : parse_sequence_loop env state max_elements filter fuel depth r = some res) :
    ∀ fuel1, fuel ≤ fuel1 →
      parse_sequence_loop env state max_elements filter fuel1 depth r = some res := by
  intro fuel1 hle
  induction hle with
  | refl => exact h
  | step _ ih => exact (parse_fuel_succ env state max_elements filter _).2.1 _ _ _ ih

theorem parse_data_elements_fuel_le (env : Env) (state : parser_state) (max_elements : Int)
    (filter : Option (List Nat)) (fuel : Nat) (depth : Int) (r : Run) (res : Int × Run)
    (h : parse_data_elements env state max_elements filter fuel depth r = some res) :
    ∀ fuel1, fuel ≤ fuel1 →
      parse_data_elements env state max_elements filter fuel1 depth r = some res := by
  intro fuel1 hle
  induction hle with
  | refl => exact h
  | step _ ih => exact (parse_fuel_succ env state max_elements filter _).2.2 _ _ _ ih

/-! ## Item counting on a laid out sequence -/

theorem is_explicit_vr_long_pair (a b : Nat) :
    is_explicit_vr_long [a, b] = true ↔ [a, b] ∈ long_form_vrs := by
  constructor
  · intro h
    unfold is_explicit_vr_long at h
    split at h
    · simp at h
    · rename_i hlen
      have hlen2 : strlen [a, b] = 2 := by simpa using hlen
      have hc := cstring_pair a b hlen2
      unfold streq at h
      rw [hc] at h
      simp only [Bool.or_eq_true, beq_iff_eq, or_assoc] at h
      rcases h with h | h | h | h | h | h | h | h | h | h <;> (rw [h]; decide)
  · intro h
    have hall : ∀ v ∈ long_form_vrs, is_explicit_vr_long v = true := by decide
    exact hall _ h

theorem octets_pos (data : List Nat) (pos : Nat) (eof : Bool) (p n : Nat) :
    octets { data := data, pos := pos, eof := eof } p n
      = octets { data := data, pos := 0, eof := false } p n := rfl

theorem read_uint16_at (state : parser_state) (data : List Nat) (p : Nat) (eof : Bool)
    (h : p + 2 ≤ data.length) :
    read_uint16 { data := data, pos := p, eof := eof } state
      = (field state data p 2, { data := data, pos := p + 2, eof := eof }) := by
  rw [read_uint16_avail _ state h]
  rfl

theorem read_uint32_at (state : parser_state) (data : List Nat) (p : Nat) (eof : Bool)
    (h : p + 4 ≤ data.length) :
    read_uint32 { data := data, pos := p, eof := eof } state
      = (field state data p 4, { data := data, pos := p + 4, eof := eof }) := by
  rw [read_uint32_avail _ state h]
  rfl

theorem count_item_header_at (env : Env) (state : parser_state) (data : List Nat) (p : Nat)
    (hsz : p + header_size_at state data p ≤ data.length) :
    count_item_header env state (tag_at state data p).1 (tag_at state data p).2
        { data := data, pos := p + 4, eof := false }
      = Header.ok (vr_at env state data p) (length_at state data p)
          { data := data, pos := p + header_size_at state data p, eof := false } := by
  unfold header_size_at at hsz
  unfold count_item_header vr_at length_at header_size_at
  cases hexp : state.is_explicit_vr
  · have hsz8 : spec_header_size false
        (octets { data := data, pos := 0, eof := false } (p + 4) 2) = 8 := by
      simp [spec_header_size]
    have hfl : spec_length_field false
        (octets { data := data, pos := 0, eof := false } (p + 4) 2) = (4, 4) := by
      simp [spec_length_field]
    rw [hexp, hsz8] at hsz
    simp only [Bool.false_eq_true, if_false, hsz8, hfl]
    rw [read_uint32_at state data (p + 4) false (by omega)]
    cases env.dicom_get_vr (((tag_at state data p).1 <<< 16) ||| (tag_at state data p).2) <;> rfl
  · rw [hexp] at hsz
    have h8 : 8 ≤ spec_header_size true
        (octets { data := data, pos := 0, eof := false } (p + 4) 2) := by
      unfold spec_header_size; split <;> [split; skip] <;> omega
    simp only [if_true]
    rw [fread_avail _ 2 (by dsimp only; omega)]
    dsimp only
    rw [octets_pos]
    obtain ⟨b0, b1, hq, _, _⟩ := octets_two { data := data, pos := 0, eof := false } (p + 4)
      (by dsimp only; omega)
    rw [hq] at hsz h8 ⊢
    have hlong := is_explicit_vr_long_pair b0 b1
    simp only [List.length_cons, List.length_nil, ne_eq, not_true_eq_false, if_false]
    by_cases hl : is_explicit_vr_long [b0, b1] = true
    · have hm := hlong.1 hl
      have hsz12 : spec_header_size true [b0, b1] = 12 := by simp [spec_header_size, hm]
      have hfl : spec_length_field true [b0, b1] = (8, 4) := by simp [spec_length_field, hm]
      rw [hsz12] at hsz
      rw [if_pos hl, hsz12, hfl]
      have e := fseek_cur_nonneg { data := data, pos := p + 4 + 2, eof := false } 2
      simp only [Nat.cast_ofNat] at e
      rw [e]
      dsimp only
      rw [read_uint32_at state data (p + 4 + 2 + 2) false (by omega)]
    · have hm : [b0, b1] ∉ long_form_vrs := fun h => hl (hlong.2 h)
      have hsz8 : spec_header_size true [b0, b1] = 8 := by simp [spec_header_size, hm]
      have hfl : spec_length_field true [b0, b1] = (6, 2) := by simp [spec_length_field, hm]
      rw [hsz8] at hsz
      rw [if_neg hl, hsz8, hfl]
      rw [read_uint16_at state data (p + 4 + 2) false (by omega)]
      rfl
theorem tag_reads (state : parser_state) (data : List Nat) (p : Nat) (h : p + 4 ≤ data.length) :
    read_uint16 { data := data, pos := p, eof := false } state
      = ((tag_at state data p).1, { data := data, pos := p + 2, eof := false }) ∧
    read_uint16 { data := data, pos := p + 2, eof := false } state
      = ((tag_at state data p).2, { data := data, pos := p + 4, eof := false }) :=
  ⟨read_uint16_at state data p false (by omega),
   read_uint16_at state data (p + 2) false (by omega)⟩

theorem count_step_item_defined (state : parser_state) (data : List Nat) (p : Nat)
    (h : p + 8 ≤ data.length) (ht : tag_at state data p = (0xFFFE, 0xE000))
    (hl : field state data (p + 4) 4 ≠ 0xFFFFFFFF) :
    count_step state { data := data, pos := p, eof := false }
      = CountStep.item { data := data, pos := p + 8 + field state data (p + 4) 4, eof := false } := by
  obtain ⟨h1, h2⟩ := tag_reads state data p (by omega)
  rw [ht] at h1 h2
  unfold count_step
  simp only [h1, h2]
  rw [read_uint32_at state data (p + 4) false (by omega)]
  simp only [feof, Bool.false_eq_true, if_false, if_true, if_neg hl]
  have hne : ¬ ((0xE000 : Nat) = 0xE0DD) := by decide
  simp only [hne, if_false, if_true]
  by_cases h0 : field state data (p + 4) 4 > 0
  · rw [if_pos h0, fseek_cur_nonneg]
  · rw [if_neg h0]
    have : field state data (p + 4) 4 = 0 := by omega
    rw [this]

theorem count_step_item_undefined (state : parser_state) (data : List Nat) (p : Nat)
    (h : p + 8 ≤ data.length) (ht : tag_at state data p = (0xFFFE, 0xE000))
    (hl : field state data (p + 4) 4 = 0xFFFFFFFF) :
    count_step state { data := data, pos := p, eof := false }
      = CountStep.item_undefined { data := data, pos := p + 8, eof := false } := by
  obtain ⟨h1, h2⟩ := tag_reads state data p (by omega)
  rw [ht] at h1 h2
  unfold count_step
  simp only [h1, h2]
  rw [read_uint32_at state data (p + 4) false (by omega)]
  simp only [feof, Bool.false_eq_true, if_false, if_true, hl]
  have hne : ¬ ((0xE000 : Nat) = 0xE0DD) := by decide
  simp only [hne, if_false, if_true]

theorem count_step_delimiter (state : parser_state) (data : List Nat) (p : Nat)
    (h : p + 8 ≤ data.length) (ht : tag_at state data p = (0xFFFE, 0xE0DD)) :
    count_step state { data := data, pos := p, eof := false }
      = CountStep.stop (some ((p + 8 : Nat) : Int)) { data := data, pos := p + 8, eof := false } := by
  obtain ⟨h1, h2⟩ := tag_reads state data p (by omega)
  rw [ht] at h1 h2
  unfold count_step
  simp only [h1, h2]
  rw [read_uint32_at state data (p + 4) false (by omega)]
  simp only [feof, Bool.false_eq_true, if_false, if_true, ftell]

theorem count_step_framing (state : parser_state) (data : List Nat) (p : Nat)
    (h : p + 8 ≤ data.length) (e : Nat) (ht : tag_at state data p = (0xFFFE, e))
    (h1 : e ≠ 0xE0DD) (h2 : e ≠ 0xE000) :
    count_step state { data := data, pos := p, eof := false }
      = CountStep.skip { data := data, pos := p + 8, eof := false } := by
  obtain ⟨hr1, hr2⟩ := tag_reads state data p (by omega)
  rw [ht] at hr1 hr2
  unfold count_step
  simp only [hr1, hr2]
  rw [read_uint32_at state data (p + 4) false (by omega)]
  simp only [feof, Bool.false_eq_true, if_false, if_true, if_neg h1, if_neg h2]

theorem count_step_other (state : parser_state) (data : List Nat) (p : Nat)
    (h : p + 4 ≤ data.length) (hg : (tag_at state data p).1 ≠ 0xFFFE) :
    count_step state { data := data, pos := p, eof := false }
      = CountStep.stop none { data := data, pos := p, eof := false } := by
  obtain ⟨h1, h2⟩ := tag_reads state data p h
  unfold count_step
  simp only [h1, h2]
  simp only [feof, Bool.false_eq_true, if_false, if_neg hg, ftell]
  unfold fseek_set
  rw [if_pos (by omega)]
  rfl

theorem read_uint16_end (state : parser_state) (data : List Nat) (p : Nat) (eof : Bool)
    (h : data.length ≤ p) :
    read_uint16 { data := data, pos := p, eof := eof } state
      = (0, { data := data, pos := p, eof := true }) := by
  have hd : data.drop p = [] := List.drop_eq_nil_of_le h
  unfold read_uint16 read_uint16_le read_uint16_be fread
  simp only [hd, List.take_nil, List.map_nil, List.length_nil, Nat.add_zero]
  cases state.is_little_endian <;> simp

theorem count_step_end (state : parser_state) (data : List Nat) (p : Nat)
    (h : data.length ≤ p) :
    count_step state { data := data, pos := p, eof := false }
      = CountStep.stop none { data := data, pos := p, eof := true } := by
  unfold count_step
  simp only [read_uint16_end state data p _ h, feof, if_true]

theorem body_step_delimiter (env : Env) (state : parser_state) (data : List Nat) (p : Nat)
    (h : p + 8 ≤ data.length) (ht : tag_at state data p = (0xFFFE, 0xE00D)) :
    body_step env state { data := data, pos := p, eof := false }
      = BodyStep.stop { data := data, pos := p + 8, eof := false } := by
  obtain ⟨h1, h2⟩ := tag_reads state data p (by omega)
  rw [ht] at h1 h2
  unfold body_step
  simp only [h1, h2]
  rw [read_uint32_at state data (p + 4) false (by omega)]
  simp only [feof, Bool.false_eq_true, if_false, and_self, if_true]

theorem header_size_at_ge (state : parser_state) (data : List Nat) (p : Nat) :
    8 ≤ header_size_at state data p := by
  unfold header_size_at spec_header_size
  split <;> [split; skip] <;> omega

theorem body_step_element (env : Env) (state : parser_state) (data : List Nat) (p : Nat)
    (h : p + header_size_at state data p ≤ data.length)
    (hg : (tag_at state data p).1 ≠ 0xFFFE) (hl : length_at state data p ≠ 0xFFFFFFFF) :
    body_step env state { data := data, pos := p, eof := false }
      = BodyStep.next { data := data,
                        pos := p + header_size_at state data p + length_at state data p,
                        eof := false } := by
  have h8 := header_size_at_ge state data p
  obtain ⟨h1, h2⟩ := tag_reads state data p (by omega)
  unfold body_step
  simp only [h1, h2]
  rw [count_item_header_at env state data p h]
  have hne : ¬ ((tag_at state data p).1 = 0xFFFE ∧ (tag_at state data p).2 = 0xE00D) :=
    fun hc => hg hc.1
  simp only [feof, Bool.false_eq_true, if_false, if_neg hne, if_neg hl]
  by_cases hs : streq (vr_at env state data p) (cstr "SQ") = true
  · rw [if_pos hs]
    by_cases h0 : length_at state data p > 0
    · rw [if_pos h0, fseek_cur_nonneg]
    · rw [if_neg h0]
      have hz : length_at state data p = 0 := by omega
      rw [hz]
      rfl
  · rw [if_neg hs]
    by_cases h0 : length_at state data p > 0
    · rw [if_pos ⟨h0, hl⟩, fseek_cur_nonneg]
    · rw [if_neg (fun hc => h0 hc.1)]
      have hz : length_at state data p = 0 := by omega
      rw [hz]
      rfl

theorem body_step_sequence (env : Env) (state : parser_state) (data : List Nat) (p : Nat)
    (h : p + header_size_at state data p ≤ data.length)
    (hg : (tag_at state data p).1 ≠ 0xFFFE)
    (hsq : cstring (vr_at env state data p) = cstr "SQ")
    (hl : length_at state data p = 0xFFFFFFFF) :
    body_step env state { data := data, pos := p, eof := false }
      = BodyStep.sequence { data := data, pos := p + header_size_at state data p,
                            eof := false } := by
  have h8 := header_size_at_ge state data p
  obtain ⟨h1, h2⟩ := tag_reads state data p (by omega)
  unfold body_step
  simp only [h1, h2]
  rw [count_item_header_at env state data p h]
  have hne : ¬ ((tag_at state data p).1 = 0xFFFE ∧ (tag_at state data p).2 = 0xE00D) :=
    fun hc => hg hc.1
  have hs : streq (vr_at env state data p) (cstr "SQ") = true := by
    unfold streq
    rw [hsq]
    decide
  simp only [feof, Bool.false_eq_true, if_false, if_neg hne, hs, if_true, hl]
/-- The loops of `count_sequence_items` follow the layout of the input. -/
theorem count_layout (env : Env) (state : parser_state) (data : List Nat) (r : Region)
    (p q : Nat) (h : Layout env state data r p q) : CountSpec env state data r p q := by
  induction h with
  | done p =>
    intro ic c fpf hq
    simpa using hq
  | item_defined n p q hb ht hl _ ih =>
    intro ic c fpf hq ep
    have hq1 : LoopGives env state data (ic + 1 + (n : Int)) q c fpf := by
      have e : ic + 1 + (n : Int) = ic + ((n + 1 : Nat) : Int) := by push_cast; ring
      rw [e]; exact hq
    obtain ⟨f0, hf⟩ := ih (ic + 1) c fpf hq1
      (ftell { data := data, pos := p + 8 + field state data (p + 4) 4, eof := false })
    refine ⟨f0 + 1, fun fuel hle => ?_⟩
    obtain ⟨k, rfl⟩ : ∃ k, fuel = k + 1 := ⟨fuel - 1, by omega⟩
    rw [count_sequence_items_loop]
    simp only [feof, Bool.false_eq_true, if_false]
    rw [count_step_item_defined state data p hb ht hl]
    exact hf k (by omega)
  | item_undefined n p m q hb ht hl _ _ ihb ihi =>
    intro ic c fpf hq ep
    have hq1 : LoopGives env state data (ic + 1 + (n : Int)) q c fpf := by
      have e : ic + 1 + (n : Int) = ic + ((n + 1 : Nat) : Int) := by push_cast; ring
      rw [e]; exact hq
    obtain ⟨f1, hf1⟩ := ihb
    obtain ⟨f2, hf2⟩ := ihi (ic + 1) c fpf hq1
      (ftell { data := data, pos := m, eof := false })
    refine ⟨max f1 f2 + 1, fun fuel hle => ?_⟩
    obtain ⟨k, rfl⟩ : ∃ k, fuel = k + 1 := ⟨fuel - 1, by omega⟩
    rw [count_sequence_items_loop]
    simp only [feof, Bool.false_eq_true, if_false]
    rw [count_step_item_undefined state data p hb ht hl]
    dsimp only
    rw [hf1 k (by omega)]
    exact hf2 k (by omega)
  | item_delimiter p hb ht =>
    refine ⟨1, fun fuel hle => ?_⟩
    obtain ⟨k, rfl⟩ : ∃ k, fuel = k + 1 := ⟨fuel - 1, by omega⟩
    rw [count_item_body]
    simp only [feof, Bool.false_eq_true, if_false]
    rw [body_step_delimiter env state data p hb ht]
  | element p q hb hg hl _ ih =>
    obtain ⟨f0, hf⟩ := ih
    refine ⟨f0 + 1, fun fuel hle => ?_⟩
    obtain ⟨k, rfl⟩ : ∃ k, fuel = k + 1 := ⟨fuel - 1, by omega⟩
    rw [count_item_body]
    simp only [feof, Bool.false_eq_true, if_false]
    rw [body_step_element env state data p hb hg hl]
    exact hf k (by omega)
  | sequence n p m q hb hg hsq hl _ hmb hmt _ ihi ihb =>
    have hdelim : LoopGives env state data (0 + (n : Int)) m (n : Int)
        { data := data, pos := m + 8, eof := false } := by
      intro ep
      refine ⟨1, fun fuel hle => ?_⟩
      obtain ⟨k, rfl⟩ : ∃ k, fuel = k + 1 := ⟨fuel - 1, by omega⟩
      rw [count_sequence_items_loop]
      simp only [feof, Bool.false_eq_true, if_false]
      rw [count_step_delimiter state data m hmb hmt]
      exact ⟨((m + 8 : Nat) : Int), by simp⟩
    obtain ⟨f1, hf1⟩ := ihi 0 (n : Int) _ hdelim
      (ftell { data := data, pos := p + header_size_at state data p, eof := false })
    obtain ⟨f2, hf2⟩ := ihb
    refine ⟨max f1 f2 + 1, fun fuel hle => ?_⟩
    obtain ⟨k, rfl⟩ : ∃ k, fuel = k + 1 := ⟨fuel - 1, by omega⟩
    rw [count_item_body]
    simp only [feof, Bool.false_eq_true, if_false]
    rw [body_step_sequence env state data p hb hg hsq hl]
    dsimp only
    obtain ⟨e, he⟩ := hf1 k (by omega)
    rw [he]
    exact hf2 k (by omega)

theorem count_sequence_items_of_loop (env : Env) (state : parser_state) (data : List Nat)
    (p : Nat) (c : Int) (fpf : FILE) (h : LoopGives env state data 0 p c fpf) :
    ∃ f0, ∀ fuel, f0 ≤ fuel → ∃ e,
      count_sequence_items env state fuel { data := data, pos := p, eof := false }
        = some (c, e, fpf) := by
  unfold count_sequence_items
  exact h _

/-- A sequence of `n` items from `p` to `q` with the delimiter `(FFFE,E0DD)` at `q`
is counted as `n` items, and the cursor is left behind the delimiter. -/
theorem count_delimited (env : Env) (state : parser_state) (data : List Nat) (n p q : Nat)
    (h : Layout env state data (Region.items n) p q)
    (hb : q + 8 ≤ data.length) (ht : tag_at state data q = (0xFFFE, 0xE0DD)) :
    ∃ f0, ∀ fuel, f0 ≤ fuel → ∃ e,
      count_sequence_items env state fuel { data := data, pos := p, eof := false }
        = some ((n : Int), e, { data := data, pos := q + 8, eof := false }) := by
  apply count_sequence_items_of_loop
  apply count_layout env state data _ p q h 0
  intro ep
  refine ⟨1, fun fuel hle => ?_⟩
  obtain ⟨k, rfl⟩ : ∃ k, fuel = k + 1 := ⟨fuel - 1, by omega⟩
  rw [count_sequence_items_loop]
  simp only [feof, Bool.false_eq_true, if_false]
  rw [count_step_delimiter state data q hb ht]
  exact ⟨((q + 8 : Nat) : Int), by simp⟩

/-- A sequence of `n` items from `p` to `q` with a tag of another group than `FFFE`
at `q` is counted as `n` items, and the cursor is left at `q`. -/
theorem count_followed (env : Env) (state : parser_state) (data : List Nat) (n p q : Nat)
    (h : Layout env state data (Region.items n) p q)
    (hb : q + 4 ≤ data.length) (hg : (tag_at state data q).1 ≠ 0xFFFE) :
    ∃ f0, ∀ fuel, f0 ≤ fuel → ∃ e,
      count_sequence_items env state fuel { data := data, pos := p, eof := false }
        = some ((n : Int), e, { data := data, pos := q, eof := false }) := by
  apply count_sequence_items_of_loop
  apply count_layout env state data _ p q h 0
  intro ep
  refine ⟨1, fun fuel hle => ?_⟩
  obtain ⟨k, rfl⟩ : ∃ k, fuel = k + 1 := ⟨fuel - 1, by omega⟩
  rw [count_sequence_items_loop]
  simp only [feof, Bool.false_eq_true, if_false]
  rw [count_step_other state data q hb hg]
  exact ⟨ep, by simp⟩

/-- A sequence of `n` items from `p` to `q` where the input ends at `q` or before is
counted as `n` items, and the cursor is left at `q`. -/
theorem count_at_end (env : Env) (state : parser_state) (data : List Nat) (n p q : Nat)
    (h : Layout env state data (Region.items n) p q) (hb : data.length ≤ q) :
    ∃ f0, ∀ fuel, f0 ≤ fuel → ∃ e,
      count_sequence_items env state fuel { data := data, pos := p, eof := false }
        = some ((n : Int), e, { data := data, pos := q, eof := true }) := by
  apply count_sequence_items_of_loop
  apply count_layout env state data _ p q h 0
  intro ep
  refine ⟨1, fun fuel hle => ?_⟩
  obtain ⟨k, rfl⟩ : ∃ k, fuel = k + 1 := ⟨fuel - 1, by omega⟩
  rw [count_sequence_items_loop]
  simp only [feof, Bool.false_eq_true, if_false]
  rw [count_step_end state data q hb]
  exact ⟨ep, by simp⟩
theorem counted_of_count (env : Env) (state : parser_state) (data : List Nat) (p n : Nat)
    (fpf : FILE)
    (h : ∃ f0, ∀ fuel, f0 ≤ fuel → ∃ e,
      count_sequence_items env state fuel { data := data, pos := p, eof := false }
        = some ((n : Int), e, fpf)) :
    Counted env state data p n fpf := by
  obtain ⟨f0, hf⟩ := h
  refine ⟨f0, fun fuel hle => ⟨hf fuel hle, ?_, ?_, ?_⟩⟩
  · intro max_elements filter depth r hr hd
    obtain ⟨e, he⟩ := hf fuel hle
    rw [parse_sequence, if_pos hd, hr, he]
    rfl
  · intro max_elements filter group element avr length r hr hc
    obtain ⟨e, he⟩ := hf fuel hle
    unfold top_sequence
    dsimp only
    rw [if_pos hc, hr, he]
  · intro max_elements filter depth length r r1 heof hcnt hstep hr1 hc
    obtain ⟨e, he⟩ := hf fuel hle
    have hnot : ¬ (feof r.fp = true ∨ ¬ r.element_count < max_elements) := by
      simp [feof, heof, hcnt]
    rw [parse_data_elements, if_neg hnot, hstep]
    dsimp only
    rw [if_pos hc, hr1, he]
    rfl

/-! ## The loop of parse_sequence over items of undefined length -/

theorem sequence_item_start (state : parser_state) (depth : Int) (data : List Nat) (p : Nat)
    (count : Int) (out : List Out)
    (h : p + 8 ≤ data.length) (ht : tag_at state data p = (0xFFFE, 0xE000)) :
    sequence_item state depth
        { fp := { data := data, pos := p, eof := false }, element_count := count, out := out }
      = SeqStep.item (field state data (p + 4) 4)
          { fp := { data := data, pos := p + 8, eof := false }, element_count := count + 1,
            out := out ++ print_indent depth ++
              [Out.item_start (if field state data (p + 4) 4 = 0xFFFFFFFF then none
                else some (field state data (p + 4) 4))] } := by
  obtain ⟨h1, h2⟩ := tag_reads state data p (by omega)
  rw [ht] at h1 h2
  unfold sequence_item
  simp only [h1, h2]
  rw [read_uint32_at state data (p + 4) false (by omega)]
  simp only [feof, Bool.false_eq_true, if_false, if_true]
  have hne : ¬ ((0xE000 : Nat) = 0xE0DD) := by decide
  simp only [hne, if_false, if_true]

theorem sequence_item_end (state : parser_state) (depth : Int) (data : List Nat) (p : Nat)
    (count : Int) (out : List Out)
    (h : p + 8 ≤ data.length) (ht : tag_at state data p = (0xFFFE, 0xE00D)) :
    sequence_item state depth
        { fp := { data := data, pos := p, eof := false }, element_count := count, out := out }
      = SeqStep.next
          { fp := { data := data, pos := p + 8, eof := false }, element_count := count + 1,
            out := out ++ print_indent depth ++ [Out.item_end] } := by
  obtain ⟨h1, h2⟩ := tag_reads state data p (by omega)
  rw [ht] at h1 h2
  unfold sequence_item
  simp only [h1, h2]
  rw [read_uint32_at state data (p + 4) false (by omega)]
  simp only [feof, Bool.false_eq_true, if_false, if_true]
  have hne : ¬ ((0xE00D : Nat) = 0xE0DD) := by decide
  have hne2 : ¬ ((0xE00D : Nat) = 0xE000) := by decide
  simp only [hne, hne2, if_false, if_true]

theorem sequence_item_delimiter (state : parser_state) (depth : Int) (data : List Nat) (p : Nat)
    (count : Int) (out : List Out)
    (h : p + 8 ≤ data.length) (ht : tag_at state data p = (0xFFFE, 0xE0DD)) :
    sequence_item state depth
        { fp := { data := data, pos := p, eof := false }, element_count := count, out := out }
      = SeqStep.ret 0
          { fp := { data := data, pos := p + 8, eof := false }, element_count := count + 1,
            out := out ++ print_indent depth ++ [Out.seq_end] } := by
  obtain ⟨h1, h2⟩ := tag_reads state data p (by omega)
  rw [ht] at h1 h2
  unfold sequence_item
  simp only [h1, h2]
  rw [read_uint32_at state data (p + 4) false (by omega)]
  simp only [feof, Bool.false_eq_true, if_false, if_true]

theorem items_loop (env : Env) (state : parser_state) (max_elements : Int)
    (filter : Option (List Nat)) (depth : Int) (data : List Nat) (k : Nat) (r r1 : Run)
    (h : Items env state max_elements filter depth data k r r1) (res : Int × Run)
    (hend : ∃ f1, ∀ fuel, f1 ≤ fuel →
      parse_sequence_loop env state max_elements filter fuel depth r1 = some res) :
    ∃ f0, ∀ fuel, f0 ≤ fuel →
      parse_sequence_loop env state max_elements filter fuel depth r = some res := by
  induction h with
  | done r => exact hend
  | item k p m count out fuel0 code rb r1 hc hp ht hl hbody hrb hcb hm htm _ ih =>
    obtain ⟨f2, hf2⟩ := ih hend
    refine ⟨max fuel0 (f2 + 1) + 1, fun fuel hle => ?_⟩
    obtain ⟨j, rfl⟩ : ∃ j, fuel = j + 1 := ⟨fuel - 1, by omega⟩
    have hj0 : fuel0 ≤ j := by omega
    have hj2 : f2 + 1 ≤ j := by omega
    obtain ⟨i, rfl⟩ : ∃ i, j = i + 1 := ⟨j - 1, by omega⟩
    rw [parse_sequence_loop]
    have hnot : ¬ (feof { data := data, pos := p, eof := false } = true ∨ ¬ count < max_elements) := by
      simp [feof, hc]
    dsimp only
    rw [if_neg hnot, sequence_item_start state depth data p count out hp ht, hl]
    dsimp only
    rw [if_pos rfl, if_pos rfl]
    rw [parse_data_elements_fuel_le env state max_elements filter fuel0 _ _ _ hbody (i + 1) hj0]
    rw [Option.bind]
    dsimp only
    rw [parse_sequence_loop]
    have hnot2 : ¬ (feof rb.fp = true ∨ ¬ rb.element_count < max_elements) := by
      rw [hrb]; simp [feof, hcb]
    rw [if_neg hnot2]
    have hrbe : rb =
        { fp := { data := data, pos := m, eof := false },
          element_count := rb.element_count, out := rb.out } := by
      cases rb; simp only at hrb; subst hrb; rfl
    rw [hrbe, sequence_item_end state depth data m _ _ hm htm]
    dsimp only
    exact hf2 i (by omega)

theorem sequence_loop_delimiter (env : Env) (state : parser_state) (max_elements : Int)
    (filter : Option (List Nat)) (depth : Int) (data : List Nat) (q : Nat) (count : Int)
    (out : List Out) (hc : count < max_elements)
    (h : q + 8 ≤ data.length) (ht : tag_at state data q = (0xFFFE, 0xE0DD)) :
    ∃ f1, ∀ fuel, f1 ≤ fuel →
      parse_sequence_loop env state max_elements filter fuel depth
          { fp := { data := data, pos := q, eof := false }, element_count := count, out := out }
        = some (0, { fp := { data := data, pos := q + 8, eof := false },
                     element_count := count + 1,
                     out := out ++ print_indent depth ++ [Out.seq_end] }) := by
  refine ⟨1, fun fuel hle => ?_⟩
  obtain ⟨j, rfl⟩ : ∃ j, fuel = j + 1 := ⟨fuel - 1, by omega⟩
  rw [parse_sequence_loop]
  have hnot : ¬ (feof { data := data, pos := q, eof := false } = true ∨ ¬ count < max_elements) := by
    simp [feof, hc]
  dsimp only
  rw [if_neg hnot, sequence_item_delimiter state depth data q count out h ht]

theorem items_sequence (env : Env) (state : parser_state) (max_elements : Int)
    (filter : Option (List Nat)) (depth : Int) (data : List Nat) (k : Nat) (r : Run)
    (q : Nat) (count : Int) (out : List Out)
    (h : Items env state max_elements filter depth data k r
      { fp := { data := data, pos := q, eof := false }, element_count := count, out := out })
    (hd : depth ≤ state.max_sq_depth) (hc : count < max_elements)
    (hq : q + 8 ≤ data.length) (ht : tag_at state data q = (0xFFFE, 0xE0DD)) :
    ∃ f0, ∀ fuel, f0 ≤ fuel →
      parse_sequence env state max_elements filter fuel depth r
        = some (0, { fp := { data := data, pos := q + 8, eof := false },
                     element_count := count + 1,
                     out := out ++ print_indent depth ++ [Out.seq_end] }) := by
  obtain ⟨f0, hf⟩ := items_loop env state max_elements filter depth data k r _ h _
    (sequence_loop_delimiter env state max_elements filter depth data q count out hc hq ht)
  refine ⟨f0 + 1, fun fuel hle => ?_⟩
  obtain ⟨j, rfl⟩ : ∃ j, fuel = j + 1 := ⟨fuel - 1, by omega⟩
  rw [parse_sequence, if_neg (by omega)]
  exact hf j (by omega)

/-! ## display_value -/

theorem data_at_octet (data : List Nat) (i : Nat) (h : ∀ b ∈ data, b < 256)
    (hi : i < data.length) :
    data_at data i = data.get ⟨i, hi⟩ := by
  unfold data_at
  rw [List.getD_eq_getElem _ _ hi]
  exact Nat.mod_eq_of_lt (h _ (List.getElem_mem _))

theorem data_at_lt (data : List Nat) (i : Nat) : data_at data i < 256 := by
  unfold data_at
  exact Nat.mod_lt _ (by decide)

theorem uint16_or_be (b0 b1 : Nat) (h1 : b1 < 256) : (b0 <<< 8) ||| b1 = b1 + 256 * b0 := by
  rw [Nat.lor_comm]
  exact uint16_or b1 b0 h1

theorem uint32_or_be (b0 b1 b2 b3 : Nat) (h1 : b1 < 256) (h2 : b2 < 256) (h3 : b3 < 256) :
    (b0 <<< 24) ||| (b1 <<< 16) ||| (b2 <<< 8) ||| b3
      = b3 + 256 * (b2 + 256 * (b1 + 256 * b0)) := by
  have e := uint32_or b3 b2 b1 b0 h3 h2 h1
  rw [← e]
  generalize b0 <<< 24 = x
  generalize b1 <<< 16 = y
  generalize b2 <<< 8 = z
  rw [Nat.lor_comm (x ||| y ||| z) b3, Nat.lor_comm (x ||| y) z, Nat.lor_comm x y,
    ← Nat.lor_assoc, ← Nat.lor_assoc]

theorem value_uint16_spec (little : Bool) (data : List Nat) (h : ∀ b ∈ data, b < 256)
    (hl : 2 ≤ data.length) :
    value_uint16 little data 0 = spec_unsigned little (data.take 2) := by
  match data, hl with
  | a :: b :: rest, _ =>
    have ha : a < 256 := h a (by simp)
    have hb : b < 256 := h b (by simp)
    have e0 : data_at (a :: b :: rest) 0 = a := by simp [data_at, Nat.mod_eq_of_lt ha]
    have e1 : data_at (a :: b :: rest) (0 + 1) = b := by simp [data_at, Nat.mod_eq_of_lt hb]
    unfold value_uint16 spec_unsigned
    rw [e0, e1, uint16_or a b ha, uint16_or_be a b hb]
    cases little <;> simp [le_value] <;> omega

theorem value_uint32_spec (little : Bool) (data : List Nat) (h : ∀ b ∈ data, b < 256)
    (hl : 4 ≤ data.length) :
    value_uint32 little data = spec_unsigned little (data.take 4) := by
  match data, hl with
  | a :: b :: c :: d :: rest, _ =>
    have ha : a < 256 := h a (by simp)
    have hb : b < 256 := h b (by simp)
    have hc : c < 256 := h c (by simp)
    have hd : d < 256 := h d (by simp)
    have e0 : data_at (a :: b :: c :: d :: rest) 0 = a := by simp [data_at, Nat.mod_eq_of_lt ha]
    have e1 : data_at (a :: b :: c :: d :: rest) 1 = b := by simp [data_at, Nat.mod_eq_of_lt hb]
    have e2 : data_at (a :: b :: c :: d :: rest) 2 = c := by simp [data_at, Nat.mod_eq_of_lt hc]
    have e3 : data_at (a :: b :: c :: d :: rest) 3 = d := by simp [data_at, Nat.mod_eq_of_lt hd]
    unfold value_uint32 spec_unsigned
    rw [e0, e1, e2, e3, uint32_or a b c d ha hb hc, uint32_or_be a b c d hb hc hd]
    cases little <;> simp [le_value] <;> omega

theorem to_int16_spec (v : Nat) (h : v < 65536) : to_int16 v = spec_signed 2 v := by
  unfold to_int16 spec_signed
  rw [Nat.mod_eq_of_lt h]
  norm_num

theorem to_int32_spec (v : Nat) (h : v < 4294967296) : to_int32 v = spec_signed 4 v := by
  unfold to_int32 spec_signed
  rw [Nat.mod_eq_of_lt h]
  norm_num

theorem value_uint16_lt (little : Bool) (data : List Nat) (i : Nat) :
    value_uint16 little data i < 65536 := by
  unfold value_uint16
  split <;> exact Nat.mod_lt _ (by decide)

theorem value_uint32_lt (little : Bool) (data : List Nat) :
    value_uint32 little data < 4294967296 := by
  unfold value_uint32
  split <;> exact Nat.mod_lt _ (by decide)
theorem display_value_us (data : List Nat) (length : Nat) (depth : Int) (ctx : display_context)
    (h0 : length ≠ 0) (hu : length ≠ 0xFFFFFFFF) :
    display_value (cstr "US") (some data) length depth ctx =
      if length ≥ 2 then
        [Disp.unsigned (value_uint16 ctx.is_little_endian data 0)] ++ more_suffix length 2
      else [] := by
  have h1 : is_text_vr (cstr "US") = false := by decide
  have h2 : streq (cstr "US") (cstr "US") = true := by decide
  unfold display_value
  simp only [h0, hu, h1, h2, or_self, if_false, if_true, Bool.false_eq_true]

theorem display_value_ul (data : List Nat) (length : Nat) (depth : Int) (ctx : display_context)
    (h0 : length ≠ 0) (hu : length ≠ 0xFFFFFFFF) :
    display_value (cstr "UL") (some data) length depth ctx =
      if length ≥ 4 then
        [Disp.unsigned (value_uint32 ctx.is_little_endian data)] ++ more_suffix length 4
      else [] := by
  have h1 : is_text_vr (cstr "UL") = false := by decide
  have h2 : streq (cstr "UL") (cstr "US") = false := by decide
  have h3 : streq (cstr "UL") (cstr "UL") = true := by decide
  unfold display_value
  simp only [h0, hu, h1, h2, h3, or_self, if_false, if_true, Bool.false_eq_true]

theorem display_value_ss (data : List Nat) (length : Nat) (depth : Int) (ctx : display_context)
    (h0 : length ≠ 0) (hu : length ≠ 0xFFFFFFFF) :
    display_value (cstr "SS") (some data) length depth ctx =
      if length ≥ 2 then
        [Disp.signed (to_int16 (value_uint16 ctx.is_little_endian data 0))] ++
          more_suffix length 2
      else [] := by
  have h1 : is_text_vr (cstr "SS") = false := by decide
  have h2 : streq (cstr "SS") (cstr "US") = false := by decide
  have h3 : streq (cstr "SS") (cstr "UL") = false := by decide
  have h4 : streq (cstr "SS") (cstr "SS") = true := by decide
  unfold display_value
  simp only [h0, hu, h1, h2, h3, h4, or_self, if_false, if_true, Bool.false_eq_true]

theorem display_value_sl (data : List Nat) (length : Nat) (depth : Int) (ctx : display_context)
    (h0 : length ≠ 0) (hu : length ≠ 0xFFFFFFFF) :
    display_value (cstr "SL") (some data) length depth ctx =
      if length ≥ 4 then
        [Disp.signed (to_int32 (value_uint32 ctx.is_little_endian data))] ++
          more_suffix length 4
      else [] := by
  have h1 : is_text_vr (cstr "SL") = false := by decide
  have h2 : streq (cstr "SL") (cstr "US") = false := by decide
  have h3 : streq (cstr "SL") (cstr "UL") = false := by decide
  have h4 : streq (cstr "SL") (cstr "SS") = false := by decide
  have h5 : streq (cstr "SL") (cstr "SL") = true := by decide
  unfold display_value
  simp only [h0, hu, h1, h2, h3, h4, h5, or_self, if_false, if_true, Bool.false_eq_true]

theorem display_value_fl (data : List Nat) (length : Nat) (depth : Int) (ctx : display_context)
    (h0 : length ≠ 0) (hu : length ≠ 0xFFFFFFFF) :
    display_value (cstr "FL") (some data) length depth ctx =
      if length ≥ 4 then
        [Disp.float (if ctx.is_little_endian
          then [data_at data 0, data_at data 1, data_at data 2, data_at data 3]
          else [data_at data 3, data_at data 2, data_at data 1, data_at data 0])] ++
          more_suffix length 4
      else [] := by
  have h1 : is_text_vr (cstr "FL") = false := by decide
  have h2 : streq (cstr "FL") (cstr "US") = false := by decide
  have h3 : streq (cstr "FL") (cstr "UL") = false := by decide
  have h4 : streq (cstr "FL") (cstr "SS") = false := by decide
  have h5 : streq (cstr "FL") (cstr "SL") = false := by decide
  have h6 : streq (cstr "FL") (cstr "FL") = true := by decide
  unfold display_value
  simp only [h0, hu, h1, h2, h3, h4, h5, h6, or_self, if_false, if_true, Bool.false_eq_true]

theorem display_value_fd (data : List Nat) (length : Nat) (depth : Int) (ctx : display_context)
    (h0 : length ≠ 0) (hu : length ≠ 0xFFFFFFFF) :
    display_value (cstr "FD") (some data) length depth ctx =
      if length ≥ 8 then
        [Disp.double (if ctx.is_little_endian
          then [data_at data 0, data_at data 1, data_at data 2, data_at data 3,
                data_at data 4, data_at data 5, data_at data 6, data_at data 7]
          else [data_at data 7, data_at data 6, data_at data 5, data_at data 4,
                data_at data 3, data_at data 2, data_at data 1, data_at data 0])] ++
          more_suffix length 8
      else [] := by
  have h1 : is_text_vr (cstr "FD") = false := by decide
  have h2 : streq (cstr "FD") (cstr "US") = false := by decide
  have h3 : streq (cstr "FD") (cstr "UL") = false := by decide
  have h4 : streq (cstr "FD") (cstr "SS") = false := by decide
  have h5 : streq (cstr "FD") (cstr "SL") = false := by decide
  have h6 : streq (cstr "FD") (cstr "FL") = false := by decide
  have h7 : streq (cstr "FD") (cstr "FD") = true := by decide
  unfold display_value
  simp only [h0, hu, h1, h2, h3, h4, h5, h6, h7, or_self, if_false, if_true,
    Bool.false_eq_true]
theorem more_suffix_eq (length w : Nat) (h : length < 4294967296) :
    more_suffix length w = if length > w then [Disp.more (length / w - 1)] else [] := by
  unfold more_suffix
  have : length / w - 1 < 4294967296 := by
    have := Nat.div_le_self length w
    omega
  rw [Nat.mod_eq_of_lt this]

theorem put_text_spec (data : List Nat) (n i : Nat) :
    put_text data n i
      = ((cstring (((data.drop i).take n).map (fun b => b % 256))).filter printable).map
          Disp.putchar := by
  induction n generalizing i with
  | zero =>
    rw [put_text, List.take_zero]
    rfl
  | succ n ih =>
    rw [put_text]
    by_cases hi : i < data.length
    · have hd : data.drop i = data.get ⟨i, hi⟩ :: data.drop (i + 1) :=
        List.drop_eq_getElem_cons hi
      have ha : data_at data i = data.get ⟨i, hi⟩ % 256 := by
        unfold data_at
        rw [List.getD_eq_getElem _ _ hi]
        rfl
      rw [hd, ha, ih (i + 1), List.take_succ_cons, List.map_cons]
      unfold cstring
      generalize data.get ⟨i, hi⟩ % 256 = c
      by_cases hp : c ≥ 32 ∧ c < 127
      · have hc0 : (fun b : Nat => b != 0) c = true := bne_iff_ne.2 (by omega)
        have hpr : printable c = true := by
          unfold printable
          rw [Bool.and_eq_true, decide_eq_true_eq, decide_eq_true_eq]
          omega
        rw [if_pos hp, List.takeWhile_cons_of_pos (p := fun b : Nat => b != 0) hc0,
          List.filter_cons_of_pos hpr]
        rfl
      · rw [if_neg hp]
        by_cases h0 : c = 0
        · subst h0
          rw [if_pos rfl]
          rfl
        · have hc0 : (fun b : Nat => b != 0) c = true := bne_iff_ne.2 h0
          have hpr : ¬ (printable c = true) := by
            unfold printable
            rw [Bool.and_eq_true, decide_eq_true_eq, decide_eq_true_eq]
            omega
          rw [if_neg h0, List.takeWhile_cons_of_pos (p := fun b : Nat => b != 0) hc0,
            List.filter_cons_of_neg hpr]
    · have hd : data.drop i = [] := List.drop_eq_nil_of_le (by omega)
      have ha : data_at data i = 0 := by
        unfold data_at
        rw [List.getD_eq_default _ _ (by omega)]
      rw [hd, ha]
      rfl

theorem text_value_spec (data : List Nat) (length max_width : Nat) :
    text_value data length max_width
      = [Disp.lit "\""] ++ (shown_text data length max_width).map Disp.putchar ++
          (if length > max_width then [Disp.lit "..."] else []) := by
  unfold text_value shown_text
  dsimp only
  rw [put_text_spec]
  have e : (if length < max_width then length else max_width) = min length max_width := by
    by_cases h : length < max_width
    · rw [if_pos h, Nat.min_eq_left (by omega)]
    · rw [if_neg h, Nat.min_eq_right (by omega)]
  rw [e]
  rfl

theorem is_text_vr_of_mem (vr : List Nat) (h : vr ∈ text_vrs) : is_text_vr vr = true := by
  have hall : ∀ v ∈ text_vrs, is_text_vr v = true := by decide
  exact hall vr h

theorem shown_text_length (data : List Nat) (length max_width : Nat) :
    (shown_text data length max_width).length ≤ min length max_width := by
  unfold shown_text cstring
  calc ((List.takeWhile (fun b => b != 0)
          (List.map (fun b => b % 256) (List.take (min length max_width) data))).filter
            printable).length
      ≤ (List.takeWhile (fun b => b != 0)
          (List.map (fun b => b % 256) (List.take (min length max_width) data))).length :=
        List.length_filter_le _ _
    _ ≤ (List.map (fun b => b % 256) (List.take (min length max_width) data)).length :=
        (List.takeWhile_sublist _).length_le
    _ ≤ min length max_width := by simp

theorem count_printable_le (data : List Nat) (n i acc : Nat) :
    count_printable data n i acc ≤ acc + n := by
  induction n generalizing i acc with
  | zero => rw [count_printable]; omega
  | succ n ih =>
    rw [count_printable]
    split
    · have := ih (i + 1) (acc + 1)
      omega
    · have := ih (i + 1) acc
      omega

theorem display_value_un (data : List Nat) (length : Nat) (depth : Int) (ctx : display_context)
    (h0 : 0 < length) (h256 : length < 256) :
    display_value (cstr "UN") (some data) length depth ctx =
      if count_printable data (if length < 100 then length else 100) 0 0 > length * 5 / 10 then
        text_value data length (max_val_width depth ctx) ++ [Disp.lit "\" [interpreted]"]
      else binary_value data length := by
  have h1 : is_text_vr (cstr "UN") = false := by decide
  have h2 : streq (cstr "UN") (cstr "US") = false := by decide
  have h3 : streq (cstr "UN") (cstr "UL") = false := by decide
  have h4 : streq (cstr "UN") (cstr "SS") = false := by decide
  have h5 : streq (cstr "UN") (cstr "SL") = false := by decide
  have h6 : streq (cstr "UN") (cstr "FL") = false := by decide
  have h7 : streq (cstr "UN") (cstr "FD") = false := by decide
  have h8 : streq (cstr "UN") (cstr "AT") = false := by decide
  have h9 : streq (cstr "UN") (cstr "SQ") = false := by decide
  have h10 : streq (cstr "UN") (cstr "UN") = true := by decide
  have hne0 : length ≠ 0 := by omega
  have hneu : length ≠ 0xFFFFFFFF := by omega
  unfold display_value
  simp only [hne0, hneu, h1, h2, h3, h4, h5, h6, h7, h8, h9, h10, or_self, if_false, if_true,
    Bool.false_eq_true, h0, h256, and_self, gt_iff_lt]

/-! ## Leaving an item or sequence of defined length -/

theorem leave_defined_pos (start length : Nat) (r : Run) :
    (leave_defined start length r).fp.pos = max r.fp.pos (start + length) := by
  unfold leave_defined
  by_cases h : r.fp.pos < start + length
  · rw [if_pos h, Nat.max_eq_right (by omega)]
  · rw [if_neg h, Nat.max_eq_left (by omega)]

theorem repair_run (r : Run) (start length : Nat) (hs : start ≤ r.fp.pos) :
    (if ftell r.fp - (start : Int) < (length : Int)
      then { r with fp := (fseek_set r.fp ((start : Int) + (length : Int))).2 } else r)
      = leave_defined start length r := by
  have hrep := repair_pos r.fp start length hs
  unfold leave_defined
  unfold ftell at hrep ⊢
  by_cases hlt : r.fp.pos < start + length
  · rw [if_pos hlt] at hrep ⊢
    rw [if_pos (by omega)] at hrep ⊢
    rw [hrep]
  · rw [if_neg hlt, if_neg (by omega)]

theorem parse_sequence_loop_item_defined (env : Env) (state : parser_state)
    (max_elements : Int) (filter : Option (List Nat)) (fuel : Nat) (depth : Int) (r : Run)
    (length : Nat) (r1 : Run) (res : Int × Run)
    (hgo : ¬ (feof r.fp = true ∨ ¬ r.element_count < max_elements))
    (hitem : sequence_item state depth r = SeqStep.item length r1)
    (hu : length ≠ 0xFFFFFFFF) (h0 : 0 < length)
    (hres : parse_data_elements env state max_elements filter fuel (depth + 1) r1 = some res) :
    parse_sequence_loop env state max_elements filter (fuel + 1) depth r
      = parse_sequence_loop env state max_elements filter fuel depth
          (leave_defined r1.fp.pos length res.2) := by
  have hfrom := parse_data_elements_from _ _ _ _ _ _ _ _ hres
  rw [parse_sequence_loop]
  rw [if_neg hgo, hitem]
  dsimp only
  rw [if_neg hu, if_pos h0, hres]
  dsimp only [Option.bind]
  have e := repair_run res.2 r1.fp.pos length hfrom.1
  unfold ftell at e ⊢
  rw [e]

theorem parse_sequence_loop_item_empty (env : Env) (state : parser_state)
    (max_elements : Int) (filter : Option (List Nat)) (fuel : Nat) (depth : Int) (r : Run)
    (r1 : Run)
    (hgo : ¬ (feof r.fp = true ∨ ¬ r.element_count < max_elements))
    (hitem : sequence_item state depth r = SeqStep.item 0 r1) :
    parse_sequence_loop env state max_elements filter (fuel + 1) depth r
      = parse_sequence_loop env state max_elements filter fuel depth r1 := by
  rw [parse_sequence_loop]
  rw [if_neg hgo, hitem]
  dsimp only
  rw [if_neg (by decide), if_neg (by decide)]

theorem parse_data_elements_sequence_defined (env : Env) (state : parser_state)
    (max_elements : Int) (filter : Option (List Nat)) (fuel : Nat) (depth : Int) (r : Run)
    (length : Nat) (r1 : Run) (res : Int × Run)
    (hgo : ¬ (feof r.fp = true ∨ ¬ r.element_count < max_elements))
    (hsq : data_element env state filter depth r = Step.sequence length r1)
    (hc : state.collapse_sequences = false)
    (hu : length ≠ 0xFFFFFFFF) (h0 : length ≠ 0)
    (hres : parse_sequence env state max_elements filter fuel (depth + 1)
      { fp := r1.fp, element_count := r1.element_count + 1,
        out := r1.out ++ [Out.sq_defined_length length] } = some res) :
    parse_data_elements env state max_elements filter (fuel + 1) depth r
      = parse_data_elements env state max_elements filter fuel depth
          ((leave_defined r1.fp.pos length res.2).emit (print_indent depth ++ [Out.rule])) := by
  have hfrom := parse_sequence_from _ _ _ _ _ _ _ _ hres
  dsimp only at hfrom
  rw [parse_data_elements]
  rw [if_neg hgo, hsq]
  dsimp only
  rw [hc]
  simp only [Bool.false_eq_true, if_false, if_neg hu, if_neg h0]
  rw [hres]
  dsimp only [Option.bind]
  have e := repair_run res.2 r1.fp.pos length hfrom.1
  unfold ftell at e ⊢
  rw [e]

theorem parse_data_elements_sequence_empty (env : Env) (state : parser_state)
    (max_elements : Int) (filter : Option (List Nat)) (fuel : Nat) (depth : Int) (r : Run)
    (r1 : Run)
    (hgo : ¬ (feof r.fp = true ∨ ¬ r.element_count < max_elements))
    (hsq : data_element env state filter depth r = Step.sequence 0 r1)
    (hc : state.collapse_sequences = false) :
    parse_data_elements env state max_elements filter (fuel + 1) depth r
      = parse_data_elements env state max_elements filter fuel depth
          { fp := r1.fp, element_count := r1.element_count + 1,
            out := r1.out ++ [Out.lit "(empty sequence)\n"] } := by
  rw [parse_data_elements]
  rw [if_neg hgo, hsq]
  dsimp only
  rw [hc]
  simp only [Bool.false_eq_true, if_false]
  rw [if_neg (by decide), if_pos trivial]

theorem top_sequence_leave (env : Env) (state : parser_state) (max_elements : Int)
    (filter : Option (List Nat)) (fuel : Nat) (group element : Nat) (avr : List Nat)
    (length : Nat) (r : Run) (res : Int × Run) (hc : state.collapse_sequences = false)
    (h0 : length ≠ 0) (hu : length ≠ 0xFFFFFFFF)
    (hres : parse_sequence env state max_elements filter fuel 1
        { fp := r.fp, element_count := r.element_count + 1,
          out := r.out ++
            [Out.sq_row group element avr (display_keyword env group ((group <<< 16) ||| element))
              (display_name env ((group <<< 16) ||| element))] ++
            [Out.lit "(sequence - defined length)\n"] } = some res) :
    top_sequence env state max_elements filter fuel group element avr length r
      = Except.ok ((leave_defined r.fp.pos length res.2).emit [Out.lit "  ", Out.rule]) := by
  have hfrom := parse_sequence_from _ _ _ _ _ _ _ _ hres
  dsimp only at hfrom
  unfold top_sequence
  dsimp only
  rw [hc]
  simp only [Bool.false_eq_true, if_false, if_neg hu, if_neg h0]
  rw [if_pos (by omega), hres]
  dsimp only
  have e := repair_run res.2 r.fp.pos length hfrom.1
  unfold ftell at e ⊢
  rw [e]

/-! ## The indentation of a line -/

theorem print_indent_units (depth : Int) :
    print_indent depth = List.replicate (2 * depth.toNat) (Out.lit "  ") := by
  unfold print_indent
  congr 1
  omega

theorem lit_chars_replicate (n : Nat) : lit_chars (List.replicate n (Out.lit "  ")) = 2 * n := by
  induction n with
  | zero => rfl
  | succ n ih =>
    rw [List.replicate_succ]
    unfold lit_chars at ih ⊢
    rw [List.map_cons, List.sum_cons, ih]
    have : ("  " : String).length = 2 := by decide
    dsimp only
    omega

theorem plain_of_all (t : List Out) (h : t.all (fun x => !is_row_start x) = true) :
    ∀ x ∈ t, is_row_start x = false := by
  intro x hx
  have := List.all_eq_true.1 h x hx
  simpa using this

theorem read_and_display_tail (env : Env) (state : parser_state) (vr : List Nat) (length : Nat)
    (depth : Int) (r : Run) :
    ∃ t, (read_and_display env state vr length depth r).2.out = r.out ++ t ∧
      ∀ x ∈ t, is_row_start x = false := by
  unfold read_and_display
  dsimp only
  repeat' split
  all_goals first
    | exact ⟨[], rfl, plain_of_all _ rfl⟩
    | exact ⟨_, rfl, plain_of_all _ rfl⟩
    | exact ⟨_, List.append_assoc _ _ _, plain_of_all _ rfl⟩

theorem skip_large_tail (length : Nat) (r : Run) :
    ∃ t, (skip_large length r).2.out = r.out ++ t ∧ ∀ x ∈ t, is_row_start x = false := by
  unfold skip_large
  dsimp only
  repeat' split
  all_goals first
    | exact ⟨_, rfl, plain_of_all _ rfl⟩

theorem element_value_tail (env : Env) (state : parser_state) (vr : List Nat) (length : Nat)
    (depth : Int) (r : Run) :
    ∃ t, (element_value env state vr length depth r).2.out = r.out ++ t ∧
      ∀ x ∈ t, is_row_start x = false := by
  unfold element_value
  split
  · exact read_and_display_tail env state vr length depth r
  · split
    · exact ⟨_, rfl, plain_of_all _ rfl⟩
    · split
      · exact ⟨_, rfl, plain_of_all _ rfl⟩
      · exact skip_large_tail length r

theorem ret_value_tail (env : Env) (state : parser_state) (vr : List Nat) (length : Nat)
    (depth : Int) (pre : List Out) (fp : FILE) (count : Int) (e : Out)
    (he : is_row_start e = true) :
    ∃ tail, (Step.ret 0 (element_value env state vr length depth
        { fp := fp, element_count := count, out := pre ++ print_indent depth ++ [e] }).2).run.out
          = pre ++ tail ∧
      (tail = [] ∨ (∃ c0 c1 g e, tail = [Out.warn_invalid_vr c0 c1 g e]) ∨
        ∃ e rest, tail = print_indent depth ++ e :: rest ∧ is_row_start e = true ∧
          ∀ x ∈ rest, is_row_start x = false) := by
  obtain ⟨t, ht, hplain⟩ := element_value_tail env state vr length depth
    { fp := fp, element_count := count, out := pre ++ print_indent depth ++ [e] }
  dsimp only at ht
  refine ⟨print_indent depth ++ e :: t, ?_, Or.inr (Or.inr ⟨e, t, rfl, he, hplain⟩)⟩
  unfold Step.run
  dsimp only
  rw [ht]
  simp only [List.append_assoc, List.singleton_append]

theorem next_value_tail (env : Env) (state : parser_state) (vr : List Nat) (length : Nat)
    (depth : Int) (pre : List Out) (fp : FILE) (count : Int) (e : Out)
    (he : is_row_start e = true) :
    ∃ tail, (Step.next
        { fp := (element_value env state vr length depth
            { fp := fp, element_count := count, out := pre ++ print_indent depth ++ [e] }).2.fp,
          element_count := (element_value env state vr length depth
            { fp := fp, element_count := count,
              out := pre ++ print_indent depth ++ [e] }).2.element_count + 1,
          out := (element_value env state vr length depth
            { fp := fp, element_count := count,
              out := pre ++ print_indent depth ++ [e] }).2.out ++ [Out.lit "\n"] }).run.out
          = pre ++ tail ∧
      (tail = [] ∨ (∃ c0 c1 g e, tail = [Out.warn_invalid_vr c0 c1 g e]) ∨
        ∃ e rest, tail = print_indent depth ++ e :: rest ∧ is_row_start e = true ∧
          ∀ x ∈ rest, is_row_start x = false) := by
  obtain ⟨t, ht, hplain⟩ := element_value_tail env state vr length depth
    { fp := fp, element_count := count, out := pre ++ print_indent depth ++ [e] }
  dsimp only at ht
  refine ⟨print_indent depth ++ e :: (t ++ [Out.lit "\n"]), ?_,
    Or.inr (Or.inr ⟨e, t ++ [Out.lit "\n"], rfl, he, ?_⟩)⟩
  · unfold Step.run
    dsimp only
    rw [ht]
    simp only [List.append_assoc, List.singleton_append, List.cons_append, List.nil_append]
  · intro x hx
    rcases List.mem_append.1 hx with hx | hx
    · exact hplain x hx
    · rw [List.mem_singleton.1 hx]; rfl

theorem data_element_tail (env : Env) (state : parser_state) (filter : Option (List Nat))
    (depth : Int) (r : Run) :
    ∃ tail, (data_element env state filter depth r).run.out = r.out ++ tail ∧
      (tail = [] ∨ (∃ c0 c1 g e, tail = [Out.warn_invalid_vr c0 c1 g e]) ∨
        ∃ e rest, tail = print_indent depth ++ e :: rest ∧ is_row_start e = true ∧
          ∀ x ∈ rest, is_row_start x = false) := by
  unfold data_element
  dsimp only
  split
  · exact ⟨[], (List.append_nil _).symm, Or.inl rfl⟩
  · split
    · exact ⟨[], (List.append_nil _).symm, Or.inl rfl⟩
    · split
      · exact ⟨_, List.append_assoc _ _ _,
          Or.inr (Or.inr ⟨_, [], rfl, rfl, plain_of_all _ rfl⟩)⟩
      · split
        · exact ⟨[], (List.append_nil _).symm, Or.inl rfl⟩
        · exact ⟨_, rfl, Or.inr (Or.inl ⟨_, _, _, _, rfl⟩)⟩
        · split
          · exact ⟨[], (List.append_nil _).symm, Or.inl rfl⟩
          · split
            · exact ⟨_, List.append_assoc _ _ _,
                Or.inr (Or.inr ⟨_, [], rfl, rfl, plain_of_all _ rfl⟩)⟩
            · split
              · exact ret_value_tail _ _ _ _ _ _ _ _ _ rfl
              · exact next_value_tail _ _ _ _ _ _ _ _ _ rfl

theorem sequence_item_tail (state : parser_state) (depth : Int) (r : Run) :
    ∃ tail, (sequence_item state depth r).run.out = r.out ++ tail ∧
      (tail = [] ∨ ∃ e, tail = print_indent depth ++ [e] ∧ is_row_start e = true) := by
  unfold sequence_item
  dsimp only
  repeat' split
  all_goals first
    | exact ⟨[], (List.append_nil _).symm, Or.inl rfl⟩
    | exact ⟨_, List.append_assoc _ _ _, Or.inr ⟨_, rfl, rfl⟩⟩

/-! ## Progress of the loops -/

theorem tail_mono (b b1 : Nat) (d : List Nat) (fp : FILE) (h : Tail b d fp) (hb : b ≤ b1)
    (hp : b1 ≤ fp.pos) : Tail b1 d fp :=
  ⟨h.1, (tail_drop b d fp h b1 hb).symm, hp⟩

theorem fread_avail_of_not_eof (fp : FILE) (n : Nat) (h : feof (fread fp n).2 = false) :
    fp.pos + n ≤ fp.data.length ∨ n = 0 := by
  unfold feof at h
  rw [fread_eof] at h
  simp only [Bool.or_eq_false_iff, decide_eq_false_iff_not] at h
  omega

theorem tag_avail_of_not_eof (fp : FILE) (s : parser_state)
    (h : feof (read_uint16 (read_uint16 fp s).2 s).2 = false) :
    fp.pos + 4 ≤ fp.data.length := by
  rw [read_uint16_snd] at h
  have h2 := fread_eof_mono _ _ h
  have a2 := fread_avail_of_not_eof _ _ h
  rw [read_uint16_snd] at h2 a2
  have p1 := fread_pos_of_not_eof _ _ h2
  rw [fread_data] at a2
  omega

/-- After a tag that was read in full the cursor is 4 bytes further and within
the input. -/
theorem tail_after_tag (b : Nat) (d : List Nat) (fp : FILE) (h : Tail b d fp) (s : parser_state)
    (he : feof (read_uint16 (read_uint16 fp s).2 s).2 = false) :
    fp.pos + 4 ≤ d.length ∧ Tail (fp.pos + 4) d (read_uint16 (read_uint16 fp s).2 s).2 := by
  have t2 := tail_read_uint16 b d _ (tail_read_uint16 b d fp h s) s
  have hp := tag_pos_of_not_eof fp s he
  have ha := tag_avail_of_not_eof fp s he
  have hb := h.2.2
  refine ⟨by rw [← h.1]; exact ha, tail_mono b _ d _ t2 (by omega) (by omega)⟩

/-- The streams that a pass of the outer loop of `count_sequence_items` hands to
the next pass. -/
theorem count_step_progress (b : Nat) (d : List Nat) (fp : FILE) (h : Tail b d fp)
    (s : parser_state) (fp1 : FILE)
    (hs : count_step s fp = CountStep.skip fp1 ∨ count_step s fp = CountStep.item fp1 ∨
      count_step s fp = CountStep.item_undefined fp1) :
    fp.pos + 4 ≤ d.length ∧ Tail (fp.pos + 4) d fp1 := by
  unfold count_step at hs
  dsimp only at hs
  by_cases he : feof (read_uint16 (read_uint16 fp s).2 s).2 = true
  · rw [if_pos he] at hs
    rcases hs with hs | hs | hs <;> injection hs
  · rw [if_neg he] at hs
    obtain ⟨ha, t2⟩ := tail_after_tag b d fp h s (by simpa using he)
    have t3 := tail_read_uint32 _ d _ t2 s
    have t4 := tail_fseek_cur _ d _ t3
      ((read_uint32 (read_uint16 (read_uint16 fp s).2 s).2 s).1 : Nat)
      (by have := t3.2.2; omega)
    refine ⟨ha, ?_⟩
    revert hs
    repeat' split
    all_goals intro hs
    all_goals rcases hs with hs | hs | hs
    all_goals first
      | (injection hs with hs; rw [← hs]; first | exact t3 | exact t4)
      | injection hs
/-- The streams that a pass of the inner loop of `count_sequence_items` hands on. -/
theorem body_step_progress (b : Nat) (d : List Nat) (fp : FILE) (h : Tail b d fp) (env : Env)
    (s : parser_state) (fp1 : FILE)
    (hs : body_step env s fp = BodyStep.next fp1 ∨ body_step env s fp = BodyStep.sequence fp1) :
    fp.pos + 4 ≤ d.length ∧ Tail (fp.pos + 4) d fp1 := by
  unfold body_step at hs
  dsimp only at hs
  by_cases he : feof (read_uint16 (read_uint16 fp s).2 s).2 = true
  · rw [if_pos he] at hs
    rcases hs with hs | hs <;> injection hs
  · rw [if_neg he] at hs
    obtain ⟨ha, t2⟩ := tail_after_tag b d fp h s (by simpa using he)
    refine ⟨ha, ?_⟩
    have t4 := (count_item_header_swap _ d _ t2 env s (read_uint16 fp s).1
      (read_uint16 (read_uint16 fp s).2 s).1).2
    revert hs t4
    split
    · intro hs
      rcases hs with hs | hs <;> injection hs
    · cases count_item_header env s (read_uint16 fp s).1 (read_uint16 (read_uint16 fp s).2 s).1
          (read_uint16 (read_uint16 fp s).2 s).2 with
      | truncated fp2 =>
        intro hs
        rcases hs with hs | hs <;> injection hs
      | invalid vr fp2 =>
        intro hs
        rcases hs with hs | hs <;> injection hs
      | ok vr len fp2 =>
        intro hs t4
        simp only [Header.fp] at t4
        have t5 := tail_fseek_cur _ d _ t4 (len : Nat) (by have := t4.2.2; omega)
        dsimp only at hs
        revert hs
        repeat' split
        all_goals intro hs
        all_goals rcases hs with hs | hs
        all_goals first
          | (injection hs with hs; rw [← hs]; first | exact t4 | exact t5)
          | injection hs

/-- The state that a pass of the loop of `parse_sequence` hands on. -/
theorem sequence_item_progress (b : Nat) (d : List Nat) (s : parser_state) (depth : Int)
    (r : Run) (h : Tail b d r.fp) (r1 : Run)
    (hs : sequence_item s depth r = SeqStep.next r1 ∨
      ∃ len, sequence_item s depth r = SeqStep.item len r1) :
    r.fp.pos + 4 ≤ d.length ∧ Tail (r.fp.pos + 4) d r1.fp := by
  unfold sequence_item at hs
  dsimp only at hs
  by_cases he : feof (read_uint16 (read_uint16 r.fp s).2 s).2 = true
  · rw [if_pos he] at hs
    rcases hs with hs | ⟨len, hs⟩ <;> injection hs
  · rw [if_neg he] at hs
    obtain ⟨ha, t2⟩ := tail_after_tag b d r.fp h s (by simpa using he)
    have t3 := tail_read_uint32 _ d _ t2 s
    refine ⟨ha, ?_⟩
    revert hs
    repeat' split
    all_goals intro hs
    all_goals rcases hs with hs | ⟨len, hs⟩
    all_goals first
      | (injection hs with hs; rw [← hs]; exact t3)
      | (injection hs with _ hs; rw [← hs]; exact t3)
      | injection hs

/-- The state that a pass of the loop of `parse_data_elements` hands on. -/
theorem data_element_progress (b : Nat) (d : List Nat) (env : Env) (s : parser_state)
    (filter : Option (List Nat)) (depth : Int) (r : Run) (h : Tail b d r.fp) (r1 : Run)
    (hs : data_element env s filter depth r = Step.next r1 ∨
      ∃ len, data_element env s filter depth r = Step.sequence len r1) :
    r.fp.pos + 4 ≤ d.length ∧ Tail (r.fp.pos + 4) d r1.fp := by
  unfold data_element at hs
  dsimp only at hs
  by_cases he : feof (read_uint16 (read_uint16 r.fp s).2 s).2 = true
  · rw [if_pos he] at hs
    rcases hs with hs | ⟨len, hs⟩ <;> injection hs
  · rw [if_neg he] at hs
    obtain ⟨ha, t2⟩ := tail_after_tag b d r.fp h s (by simpa using he)
    refine ⟨ha, ?_⟩
    have t5 := (read_vr_length_swap _ d _ t2 env s
      (((read_uint16 r.fp s).1 <<< 16) ||| (read_uint16 (read_uint16 r.fp s).2 s).1)).2
    revert hs t5
    split
    · intro hs
      rcases hs with hs | ⟨len, hs⟩ <;> injection hs
    · split
      · intro hs
        rcases hs with hs | ⟨len, hs⟩ <;> injection hs
      · cases read_vr_length env s
            (((read_uint16 r.fp s).1 <<< 16) ||| (read_uint16 (read_uint16 r.fp s).2 s).1)
            (read_uint16 (read_uint16 r.fp s).2 s).2 with
        | truncated fp1 =>
          intro hs
          rcases hs with hs | ⟨len, hs⟩ <;> injection hs
        | invalid vr fp1 =>
          intro hs
          rcases hs with hs | ⟨len, hs⟩ <;> injection hs
        | ok vr len fp1 =>
          intro hs t5
          simp only [Header.fp] at t5
          have t6 := tail_fseek_cur _ d _ t5 (len : Nat) (by have := t5.2.2; omega)
          dsimp only at hs
          revert hs
          split
          · intro hs
            rcases hs with hs | ⟨len1, hs⟩
            · injection hs with hs; rw [← hs]; exact t6
            · injection hs
          · split
            · intro hs
              rcases hs with hs | ⟨len1, hs⟩
              · injection hs
              · injection hs with _ hs; rw [← hs]; exact t5
            · split
              · intro hs
                rcases hs with hs | ⟨len1, hs⟩ <;> injection hs
              · intro hs
                rcases hs with hs | ⟨len1, hs⟩
                · injection hs with hs
                  rw [← hs]
                  exact (element_value_swap _ d env s _ len depth _ t5).2
                · injection hs
/-- With fuel above the number of bytes behind the cursor the two loops of
`count_sequence_items` return. -/
theorem count_terminates (env : Env) (s : parser_state) (d : List Nat) (fuel : Nat) :
    (∀ b ic ep fp, Tail b d fp → d.length - fp.pos + 2 ≤ fuel →
      ∃ res, count_sequence_items_loop env s fuel ic ep fp = some res) ∧
    (∀ b fp, Tail b d fp → d.length - fp.pos + 2 ≤ fuel →
      ∃ res, count_item_body env s fuel fp = some res) := by
  induction fuel with
  | zero =>
    refine ⟨fun b ic ep fp _ hf => ?_, fun b fp _ hf => ?_⟩ <;> omega
  | succ fuel ih =>
    refine ⟨fun b ic ep fp h hf => ?_, fun b fp h hf => ?_⟩
    · rw [count_sequence_items_loop]
      by_cases he : feof fp = true
      · rw [if_pos he]; exact ⟨_, rfl⟩
      · rw [if_neg he]
        cases hstep : count_step s fp with
        | stop ep1 fp1 =>
          cases ep1 with
          | none => exact ⟨_, rfl⟩
          | some e => exact ⟨_, rfl⟩
        | skip fp1 =>
          obtain ⟨ha, t⟩ := count_step_progress b d fp h s fp1 (Or.inl hstep)
          exact ih.1 _ ic ep fp1 t (by have := t.2.2; omega)
        | item fp1 =>
          obtain ⟨ha, t⟩ := count_step_progress b d fp h s fp1 (Or.inr (Or.inl hstep))
          exact ih.1 _ (ic + 1) (ftell fp1) fp1 t (by have := t.2.2; omega)
        | item_undefined fp1 =>
          obtain ⟨ha, t⟩ := count_step_progress b d fp h s fp1 (Or.inr (Or.inr hstep))
          obtain ⟨fp2, h2⟩ := ih.2 _ fp1 t (by have := t.2.2; omega)
          have t2 := ((count_swap _ d env s fuel).2 fp1 t).2 fp2 h2
          dsimp only
          rw [h2]
          exact ih.1 _ (ic + 1) (ftell fp2) fp2 t2 (by have := t2.2.2; omega)
    · rw [count_item_body]
      by_cases he : feof fp = true
      · rw [if_pos he]; exact ⟨_, rfl⟩
      · rw [if_neg he]
        cases hstep : body_step env s fp with
        | stop fp1 => exact ⟨_, rfl⟩
        | next fp1 =>
          obtain ⟨ha, t⟩ := body_step_progress b d fp h env s fp1 (Or.inl hstep)
          exact ih.2 _ fp1 t (by have := t.2.2; omega)
        | sequence fp1 =>
          obtain ⟨ha, t⟩ := body_step_progress b d fp h env s fp1 (Or.inr hstep)
          obtain ⟨res, h2⟩ := ih.1 _ 0 (ftell fp1) fp1 t (by have := t.2.2; omega)
          have t2 := ((count_swap _ d env s fuel).1 0 (ftell fp1) fp1 t).2 res h2
          dsimp only
          rw [h2]
          exact ih.2 _ res.2.2 t2 (by have := t2.2.2; omega)

theorem count_sequence_items_terminates (env : Env) (s : parser_state) (b : Nat) (d : List Nat)
    (fuel : Nat) (fp : FILE) (h : Tail b d fp) (hf : d.length - fp.pos + 2 ≤ fuel) :
    ∃ res, count_sequence_items env s fuel fp = some res :=
  (count_terminates env s d fuel).1 b 0 (ftell fp) fp h hf
theorem tail_repair (b : Nat) (d : List Nat) (r0 : Run) (fp0 : FILE) (length : Nat)
    (h : Tail b d r0.fp) (hs : b ≤ fp0.pos) :
    Tail b d (if ftell r0.fp - ftell fp0 < (length : Int)
      then { r0 with fp := (fseek_set r0.fp (ftell fp0 + (length : Int))).2 }
      else r0).fp := by
  split
  · exact tail_fseek_set b d _ h _ (by unfold ftell; omega)
  · exact h

/-- With fuel above the number of bytes behind the cursor `parse_sequence`, its
loop and `parse_data_elements` return. -/
theorem parse_terminates (env : Env) (s : parser_state) (max_elements : Int)
    (filter : Option (List Nat)) (d : List Nat) (fuel : Nat) :
    (∀ b depth r, Tail b d r.fp → d.length - r.fp.pos + 3 ≤ fuel →
      ∃ res, parse_sequence env s max_elements filter fuel depth r = some res) ∧
    (∀ b depth r, Tail b d r.fp → d.length - r.fp.pos + 2 ≤ fuel →
      ∃ res, parse_sequence_loop env s max_elements filter fuel depth r = some res) ∧
    (∀ b depth r, Tail b d r.fp → d.length - r.fp.pos + 2 ≤ fuel →
      ∃ res, parse_data_elements env s max_elements filter fuel depth r = some res) := by
  induction fuel with
  | zero =>
    refine ⟨fun b depth r _ hf => ?_, fun b depth r _ hf => ?_, fun b depth r _ hf => ?_⟩ <;>
      omega
  | succ fuel ih =>
    refine ⟨fun b depth r h hf => ?_, fun b depth r h hf => ?_, fun b depth r h hf => ?_⟩
    · rw [parse_sequence]
      by_cases hd : depth > s.max_sq_depth
      · rw [if_pos hd]
        obtain ⟨res, hres⟩ := count_sequence_items_terminates env s b d fuel r.fp h (by omega)
        rw [hres]
        exact ⟨_, rfl⟩
      · rw [if_neg hd]
        exact ih.2.1 b depth r h (by omega)
    · rw [parse_sequence_loop]
      by_cases hg : feof r.fp = true ∨ ¬ r.element_count < max_elements
      · rw [if_pos hg]; exact ⟨_, rfl⟩
      · rw [if_neg hg]
        cases hstep : sequence_item s depth r with
        | ret code r1 => exact ⟨_, rfl⟩
        | next r1 =>
          obtain ⟨ha, t⟩ := sequence_item_progress b d s depth r h r1 (Or.inl hstep)
          exact ih.2.1 _ depth r1 t (by have := t.2.2; omega)
        | item len r1 =>
          obtain ⟨ha, t⟩ := sequence_item_progress b d s depth r h r1 (Or.inr ⟨len, hstep⟩)
          have hp := t.2.2
          dsimp only
          by_cases hu : len = 0xFFFFFFFF
          · rw [if_pos hu]
            obtain ⟨res, hres⟩ := ih.2.2 _ (depth + 1) r1 t (by omega)
            have t2 := ((parse_swap _ d env s max_elements filter fuel).2.2 (depth + 1) r1
              t).2 res hres
            rw [hres]
            exact ih.2.1 _ depth res.2 t2 (by have := t2.2.2; omega)
          · rw [if_neg hu]
            by_cases h0 : len > 0
            · rw [if_pos h0]
              obtain ⟨res, hres⟩ := ih.2.2 _ (depth + 1) r1 t (by omega)
              have t2 := ((parse_swap _ d env s max_elements filter fuel).2.2 (depth + 1) r1
                t).2 res hres
              rw [hres]
              have t3 := tail_repair _ d res.2 r1.fp len t2 hp
              exact ih.2.1 _ depth _ t3 (by have := t3.2.2; omega)
            · rw [if_neg h0]
              exact ih.2.1 _ depth r1 t (by omega)
    · rw [parse_data_elements]
      by_cases hg : feof r.fp = true ∨ ¬ r.element_count < max_elements
      · rw [if_pos hg]; exact ⟨_, rfl⟩
      · rw [if_neg hg]
        cases hstep : data_element env s filter depth r with
        | ret code r1 => exact ⟨_, rfl⟩
        | next r1 =>
          obtain ⟨ha, t⟩ := data_element_progress b d env s filter depth r h r1 (Or.inl hstep)
          exact ih.2.2 _ depth r1 t (by have := t.2.2; omega)
        | sequence len r1 =>
          obtain ⟨ha, t⟩ := data_element_progress b d env s filter depth r h r1
            (Or.inr ⟨len, hstep⟩)
          have hp := t.2.2
          dsimp only
          by_cases hc : s.collapse_sequences = true
          · rw [if_pos hc]
            obtain ⟨res, hres⟩ := count_sequence_items_terminates env s _ d fuel r1.fp t
              (by omega)
            have t2 := (count_sequence_items_swap _ d env s fuel r1.fp t).2 res hres
            rw [hres]
            exact ih.2.2 _ depth _ t2 (by have := t2.2.2; dsimp only; omega)
          · rw [if_neg hc]
            by_cases hu : len = 0xFFFFFFFF
            · rw [if_pos hu]
              obtain ⟨res, hres⟩ := ih.1 _ (depth + 1)
                { r1 with element_count := r1.element_count + 1,
                          out := r1.out ++ [Out.lit "(sequence - undefined length)\n"] }
                t (by dsimp only; omega)
              have t2 := ((parse_swap _ d env s max_elements filter fuel).1 (depth + 1)
                { r1 with element_count := r1.element_count + 1,
                          out := r1.out ++ [Out.lit "(sequence - undefined length)\n"] }
                t).2 res hres
              rw [hres]
              exact ih.2.2 _ depth _ t2 (by have := t2.2.2; unfold Run.emit; dsimp only; omega)
            · rw [if_neg hu]
              by_cases h0 : len = 0
              · rw [if_pos h0]
                exact ih.2.2 _ depth _ t (by dsimp only; omega)
              · rw [if_neg h0]
                obtain ⟨res, hres⟩ := ih.1 _ (depth + 1)
                  { r1 with element_count := r1.element_count + 1,
                            out := r1.out ++ [Out.sq_defined_length len] }
                  t (by dsimp only; omega)
                have t2 := ((parse_swap _ d env s max_elements filter fuel).1 (depth + 1)
                  { r1 with element_count := r1.element_count + 1,
                            out := r1.out ++ [Out.sq_defined_length len] }
                  t).2 res hres
                rw [hres]
                have t3 := tail_repair _ d res.2 r1.fp len t2 hp
                exact ih.2.2 _ depth _ t3
                  (by have := t3.2.2; unfold Run.emit; dsimp only at this ⊢; omega)
/-! ## Termination at top level -/

theorem ts_trim_length (fuel : Nat) :
    ∀ (buf : List Nat) (i : Nat) (buf1 : List Nat), ts_trim fuel buf i = Except.ok buf1 →
      buf1.length = buf.length := by
  induction fuel with
  | zero => intro buf i buf1 h; rw [ts_trim] at h; injection h
  | succ fuel ih =>
    intro buf i buf1 h
    rw [ts_trim] at h
    cases hg : buf.get? i with
    | none => rw [hg] at h; injection h
    | some c =>
      rw [hg] at h
      dsimp only at h
      by_cases hc : c = 32 ∨ c = 0
      · rw [if_pos hc] at h
        have := ih _ _ _ h
        rw [this, List.length_set]
      · rw [if_neg hc] at h
        injection h with h
        rw [h]

theorem ts_trim_terminates (fuel : Nat) :
    ∀ (buf : List Nat) (i : Nat), buf.length ≤ 0xFFFFFFFF → i + 2 ≤ fuel →
      ts_trim fuel buf i ≠ Except.error Halt.out_of_fuel := by
  induction fuel with
  | zero => intro buf i _ hf; omega
  | succ fuel ih =>
    intro buf i hl hf
    rw [ts_trim]
    cases hg : buf.get? i with
    | none => intro h; injection h with h; injection h
    | some c =>
      dsimp only
      by_cases hc : c = 32 ∨ c = 0
      · rw [if_pos hc]
        cases i with
        | zero =>
          obtain ⟨f, rfl⟩ : ∃ f, fuel = f + 1 := ⟨fuel - 1, by omega⟩
          have hn : (buf.set 0 0).get? ((0 + 4294967295) % 4294967296) = none := by
            rw [List.get?_eq_none, List.length_set]
            omega
          rw [ts_trim, hn]
          intro h; injection h with h; injection h
        | succ j =>
          have e : (j + 1 + 4294967295) % 4294967296 = j := by
            have hj : j + 1 < buf.length := by
              have := List.get?_eq_some.1 hg
              obtain ⟨hlt, _⟩ := this
              exact hlt
            omega
          rw [e]
          exact ih _ j (by rw [List.length_set]; exact hl) (by omega)
      · rw [if_neg hc]
        intro h; injection h

theorem ts_capture_terminates (env : Env) (s : parser_state) (fuel : Nat) (vr : List Nat)
    (length : Nat) (sd : Bool) (uid : List Nat) (r : Run)
    (hlen : length < 65) (hbuf : uid.length ≤ 65) (hf : 66 ≤ fuel) :
    ts_capture env s fuel vr length sd uid r ≠ Except.error Halt.out_of_fuel ∧
    ∀ res, ts_capture env s fuel vr length sd uid r = Except.ok res → res.1.length ≤ 65 := by
  have hgl : (fread r.fp length).1.length ≤ length := by
    rw [fread_fst, octets_length]
    omega
  have hbl : ((fread r.fp length).1 ++ uid.drop (fread r.fp length).1.length).length ≤ 65 := by
    rw [List.length_append, List.length_drop]
    omega
  unfold ts_capture
  dsimp only
  split
  · cases ht : ts_trim fuel (((fread r.fp length).1 ++
        List.drop (fread r.fp length).1.length uid).set length 0) (length - 1) with
    | error e =>
      refine ⟨?_, fun res h => by injection h⟩
      intro h
      injection h with h
      rw [h] at ht
      exact ts_trim_terminates fuel _ _ (by rw [List.length_set]; omega) (by omega) ht
    | ok u =>
      refine ⟨fun h => by injection h, fun res h => ?_⟩
      injection h with h
      rw [← h]
      dsimp only
      rw [ts_trim_length fuel _ _ _ ht, List.length_set]
      exact hbl
  · refine ⟨fun h => by injection h, fun res h => ?_⟩
    injection h with h
    rw [← h]
    exact hbl
theorem top_value_terminates (env : Env) (s : parser_state) (fuel : Nat) (tag : Nat)
    (vr : List Nat) (length : Nat) (sd : Bool) (uid : List Nat) (r : Run)
    (hbuf : uid.length ≤ 65) (hf : 66 ≤ fuel) :
    top_value env s fuel tag vr length sd uid r ≠ Except.error Halt.out_of_fuel ∧
    ∀ res, top_value env s fuel tag vr length sd uid r = Except.ok res →
      res.2.1.length ≤ 65 := by
  unfold top_value
  split
  · rename_i hc
    obtain ⟨h1, h2⟩ := ts_capture_terminates env s fuel vr length sd uid r hc.2.2 hbuf hf
    revert h1 h2
    cases ts_capture env s fuel vr length sd uid r with
    | error e =>
      intro h1 _
      exact ⟨fun h => h1 (by simpa using h), fun res h => by simp at h⟩
    | ok res =>
      intro _ h2
      refine ⟨fun h => by injection h, fun res1 h => ?_⟩
      injection h with h
      rw [← h]
      exact h2 res rfl
  · split
    · refine ⟨fun h => by injection h, fun res h => ?_⟩
      injection h with h
      rw [← h]
      exact hbuf
    · split
      · refine ⟨fun h => by injection h, fun res h => ?_⟩
        injection h with h
        rw [← h]
        exact hbuf
      · refine ⟨fun h => by injection h, fun res h => ?_⟩
        injection h with h
        rw [← h]
        exact hbuf

theorem top_sequence_terminates (env : Env) (s : parser_state) (max_elements : Int)
    (filter : Option (List Nat)) (fuel : Nat) (group element : Nat) (avr : List Nat)
    (length : Nat) (r : Run) (b : Nat) (d : List Nat) (h : Tail b d r.fp)
    (hf : d.length - r.fp.pos + 3 ≤ fuel) :
    top_sequence env s max_elements filter fuel group element avr length r
      ≠ Except.error Halt.out_of_fuel := by
  unfold top_sequence
  dsimp only
  by_cases hc : s.collapse_sequences = true
  · rw [if_pos hc]
    obtain ⟨res, hres⟩ := count_sequence_items_terminates env s b d fuel r.fp h (by omega)
    rw [hres]
    intro h; injection h
  · rw [if_neg hc]
    by_cases hu : length = 0xFFFFFFFF
    · rw [if_pos hu]
      obtain ⟨res, hres⟩ := (parse_terminates env s max_elements filter d fuel).1 b 1
        { fp := r.fp, element_count := r.element_count + 1,
          out := r.out ++
            [Out.sq_row group element avr (display_keyword env group ((group <<< 16) ||| element))
              (display_name env ((group <<< 16) ||| element))] ++
            [if length = 0xFFFFFFFF then Out.lit "(sequence - undefined length)\n"
             else if length = 0 then Out.lit "(empty sequence)\n"
             else Out.lit "(sequence - defined length)\n"] } h hf
      rw [hres]
      intro h; injection h
    · rw [if_neg hu]
      by_cases h0 : length > 0
      · rw [if_pos h0]
        obtain ⟨res, hres⟩ := (parse_terminates env s max_elements filter d fuel).1 b 1
          { fp := r.fp, element_count := r.element_count + 1,
            out := r.out ++
              [Out.sq_row group element avr
                (display_keyword env group ((group <<< 16) ||| element))
                (display_name env ((group <<< 16) ||| element))] ++
              [if length = 0xFFFFFFFF then Out.lit "(sequence - undefined length)\n"
               else if length = 0 then Out.lit "(empty sequence)\n"
               else Out.lit "(sequence - defined length)\n"] } h hf
        rw [hres]
        intro h; injection h
      · rw [if_neg h0]
        intro h; injection h

theorem top_element_terminates (env : Env) (s : parser_state) (max_elements : Int)
    (filter : Option (List Nat)) (fuel : Nat) (group element : Nat) (uid : List Nat) (r : Run)
    (b : Nat) (d : List Nat) (h : Tail b d r.fp) (hf : d.length - r.fp.pos + 3 ≤ fuel)
    (hbuf : uid.length ≤ 65) (h66 : 66 ≤ fuel) :
    top_element env s max_elements filter fuel group element uid r
      ≠ Except.error Halt.out_of_fuel ∧
    ∀ res, top_element env s max_elements filter fuel group element uid r = Except.ok res →
      res.2.1.length ≤ 65 := by
  have h1 := tail_mono b r.fp.pos d r.fp h h.2.2 (le_refl _)
  have t5 := (read_vr_length_swap _ d r.fp h1 env s ((group <<< 16) ||| element)).2
  unfold top_element
  dsimp only
  split
  · refine ⟨fun h => by injection h, fun res h => ?_⟩
    injection h with h
    rw [← h]
    exact hbuf
  · revert t5
    cases read_vr_length env s ((group <<< 16) ||| element) r.fp with
    | truncated fp1 =>
      intro _
      refine ⟨fun h => by injection h, fun res h => ?_⟩
      injection h with h
      rw [← h]
      exact hbuf
    | invalid vr fp1 =>
      intro _
      refine ⟨fun h => by injection h, fun res h => ?_⟩
      injection h with h
      rw [← h]
      exact hbuf
    | ok vr len fp1 =>
      intro t5
      simp only [Header.fp] at t5
      have hp := t5.2.2
      dsimp only
      split
      · refine ⟨fun h => by injection h, fun res h => ?_⟩
        injection h with h
        rw [← h]
        exact hbuf
      · split
        · have hs := top_sequence_terminates env s max_elements filter fuel group element
            (actual_vr env s ((group <<< 16) ||| element) vr) len
            { fp := fp1, element_count := r.element_count, out := r.out } _ d t5
            (by dsimp only; omega)
          revert hs
          cases top_sequence env s max_elements filter fuel group element
              (actual_vr env s ((group <<< 16) ||| element) vr) len
              { fp := fp1, element_count := r.element_count, out := r.out } with
          | error e =>
            intro hs
            exact ⟨fun h => hs (by simpa using h), fun res h => by simp at h⟩
          | ok r1 =>
            intro _
            refine ⟨fun h => by injection h, fun res h => ?_⟩
            injection h with h
            rw [← h]
            exact hbuf
        · generalize (r.out ++
            if should_disp_tag ((group <<< 16) ||| element) filter = true then
              [Out.row group element (actual_vr env s ((group <<< 16) ||| element) vr) len
                (display_keyword env group ((group <<< 16) ||| element))
                (display_name env ((group <<< 16) ||| element))]
            else []) = o
          obtain ⟨hv1, hv2⟩ := top_value_terminates env s fuel ((group <<< 16) ||| element)
            (actual_vr env s ((group <<< 16) ||| element) vr) len
            (should_disp_tag ((group <<< 16) ||| element) filter) uid
            { fp := fp1, element_count := r.element_count, out := o } hbuf h66
          revert hv1 hv2
          cases top_value env s fuel ((group <<< 16) ||| element)
              (actual_vr env s ((group <<< 16) ||| element) vr) len
              (should_disp_tag ((group <<< 16) ||| element) filter) uid
              { fp := fp1, element_count := r.element_count, out := o } with
          | error e =>
            intro hv1 _
            exact ⟨fun h => hv1 h, fun res h => by injection h⟩
          | ok res =>
            intro _ hv2
            have hl := hv2 res rfl
            dsimp only
            split
            · refine ⟨fun h => by injection h, fun res1 h => ?_⟩
              injection h with h
              rw [← h]
              exact hl
            · refine ⟨fun h => by injection h, fun res1 h => ?_⟩
              injection h with h
              rw [← h]
              exact hl
theorem top_step_terminates (env : Env) (max_elements : Int) (filter : Option (List Nat))
    (fuel : Nat) (t : Top) (b : Nat) (d : List Nat) (h : Tail b d t.run.fp)
    (hf : d.length - t.run.fp.pos + 3 ≤ fuel) (hbuf : t.transfer_syntax_uid.length ≤ 65)
    (h66 : 66 ≤ fuel) :
    top_step env max_elements filter fuel t ≠ Except.error Halt.out_of_fuel ∧
    ∀ res, top_step env max_elements filter fuel t = Except.ok res →
      res.2.transfer_syntax_uid.length ≤ 65 ∧
      (res.1 = true →
        t.run.fp.pos + 4 ≤ d.length ∧ Tail (t.run.fp.pos + 4) d res.2.run.fp) := by
  unfold top_step
  dsimp only
  by_cases he : feof (read_uint16 (read_uint16 t.run.fp t.state).2 t.state).2 = true
  · rw [if_pos he]
    refine ⟨fun h => by injection h, fun res h => ?_⟩
    injection h with h
    rw [← h]
    exact ⟨hbuf, fun hc => by injection hc⟩
  · rw [if_neg he]
    obtain ⟨ha, t2⟩ := tail_after_tag b d t.run.fp h t.state (by simpa using he)
    generalize (t.run.out ++ (ts_switch t.state t.in_file_meta (read_uint16 t.run.fp t.state).1
      t.transfer_syntax_uid).2.2) = o
    have hp := t2.2.2
    obtain ⟨h1, h2⟩ := top_element_terminates env
      (ts_switch t.state t.in_file_meta (read_uint16 t.run.fp t.state).1
        t.transfer_syntax_uid).1 max_elements filter fuel (read_uint16 t.run.fp t.state).1
      (read_uint16 (read_uint16 t.run.fp t.state).2 t.state).1 t.transfer_syntax_uid
      { fp := (read_uint16 (read_uint16 t.run.fp t.state).2 t.state).2,
        element_count := t.run.element_count, out := o } _ d t2 (by dsimp only; omega) hbuf h66
    have h3 := (top_element_swap _ d env
      (ts_switch t.state t.in_file_meta (read_uint16 t.run.fp t.state).1
        t.transfer_syntax_uid).1 max_elements filter fuel (read_uint16 t.run.fp t.state).1
      (read_uint16 (read_uint16 t.run.fp t.state).2 t.state).1 t.transfer_syntax_uid
      { fp := (read_uint16 (read_uint16 t.run.fp t.state).2 t.state).2,
        element_count := t.run.element_count, out := o } t2).2
    revert h1 h2 h3
    cases top_element env
        (ts_switch t.state t.in_file_meta (read_uint16 t.run.fp t.state).1
          t.transfer_syntax_uid).1 max_elements filter fuel (read_uint16 t.run.fp t.state).1
        (read_uint16 (read_uint16 t.run.fp t.state).2 t.state).1 t.transfer_syntax_uid
        { fp := (read_uint16 (read_uint16 t.run.fp t.state).2 t.state).2,
          element_count := t.run.element_count, out := o } with
    | error e =>
      intro h1 _ _
      exact ⟨fun h => h1 (by simpa using h), fun res h => by simp at h⟩
    | ok res =>
      intro _ h2 h3
      refine ⟨fun h => by simp at h, fun res1 h => ?_⟩
      dsimp only at h
      injection h with h
      rw [← h]
      exact ⟨h2 res rfl, fun _ => ⟨ha, h3 res rfl⟩⟩

theorem top_loop_terminates (env : Env) (max_elements : Int) (filter : Option (List Nat))
    (d : List Nat) (fuel : Nat) :
    ∀ (b : Nat) (t : Top), Tail b d t.run.fp → d.length - t.run.fp.pos + 70 ≤ fuel →
      t.transfer_syntax_uid.length ≤ 65 →
      top_loop env max_elements filter fuel t ≠ Except.error Halt.out_of_fuel := by
  induction fuel with
  | zero => intro b t _ hf; omega
  | succ fuel ih =>
    intro b t h hf hbuf
    rw [top_loop]
    by_cases hg : feof t.run.fp = true ∨ ¬ t.run.element_count < max_elements
    · rw [if_pos hg]
      intro h; injection h
    · rw [if_neg hg]
      obtain ⟨h1, h2⟩ := top_step_terminates env max_elements filter fuel t b d h (by omega)
        hbuf (by omega)
      revert h1 h2
      cases top_step env max_elements filter fuel t with
      | error e =>
        intro h1 _
        exact fun h => h1 (by simpa using h)
      | ok res =>
        intro _ h2
        obtain ⟨hl, hprog⟩ := h2 res rfl
        dsimp only
        by_cases hc : res.1 = true
        · rw [if_pos hc]
          obtain ⟨ha, t2⟩ := hprog hc
          exact ih _ res.2 t2 (by have := t2.2.2; omega) hl
        · rw [if_neg hc]
          intro h; injection h

theorem parse_dicom_header_terminates (env : Env) (fuel : Nat) (file : Option (List Nat))
    (max_elements : Int) (collapse_sequences : Bool) (max_sq_depth : Int)
    (show_full_values : Bool) (filter : Option (List Nat))
    (hf : (file.getD []).length + 70 ≤ fuel) :
    parse_dicom_header env fuel file max_elements collapse_sequences max_sq_depth
      show_full_values filter ≠ Except.error Halt.out_of_fuel := by
  unfold parse_dicom_header
  cases file with
  | none => intro h; injection h
  | some data =>
    dsimp only
    repeat' split
    all_goals first
      | (intro h; injection h; done)
      | skip
    all_goals rename_i e heq
    all_goals intro h
    all_goals injection h with h
    all_goals rw [h] at heq
    all_goals refine top_loop_terminates env max_elements filter data fuel 0 _ ?_ ?_ ?_ heq
    · exact tail_zero _
    · simp only [Option.getD_some] at hf
      omega
    · simp [top_init]
theorem top_step_progress (env : Env) (max_elements : Int) (filter : Option (List Nat))
    (fuel : Nat) (t : Top) (b : Nat) (d : List Nat) (h : Tail b d t.run.fp)
    (res : Bool × Top) (hres : top_step env max_elements filter fuel t = Except.ok res)
    (hgo : res.1 = true) :
    t.run.fp.pos + 4 ≤ d.length ∧ Tail (t.run.fp.pos + 4) d res.2.run.fp := by
  unfold top_step at hres
  dsimp only at hres
  by_cases he : feof (read_uint16 (read_uint16 t.run.fp t.state).2 t.state).2 = true
  · rw [if_pos he] at hres
    injection hres with hres
    rw [← hres] at hgo
    injection hgo
  · rw [if_neg he] at hres
    obtain ⟨ha, t2⟩ := tail_after_tag b d t.run.fp h t.state (by simpa using he)
    revert hres
    generalize (t.run.out ++ (ts_switch t.state t.in_file_meta (read_uint16 t.run.fp t.state).1
      t.transfer_syntax_uid).2.2) = o
    have h3 := (top_element_swap _ d env
      (ts_switch t.state t.in_file_meta (read_uint16 t.run.fp t.state).1
        t.transfer_syntax_uid).1 max_elements filter fuel (read_uint16 t.run.fp t.state).1
      (read_uint16 (read_uint16 t.run.fp t.state).2 t.state).1 t.transfer_syntax_uid
      { fp := (read_uint16 (read_uint16 t.run.fp t.state).2 t.state).2,
        element_count := t.run.element_count, out := o } t2).2
    revert h3
    cases top_element env
        (ts_switch t.state t.in_file_meta (read_uint16 t.run.fp t.state).1
          t.transfer_syntax_uid).1 max_elements filter fuel (read_uint16 t.run.fp t.state).1
        (read_uint16 (read_uint16 t.run.fp t.state).2 t.state).1 t.transfer_syntax_uid
        { fp := (read_uint16 (read_uint16 t.run.fp t.state).2 t.state).2,
          element_count := t.run.element_count, out := o } with
    | error e =>
      intro _ hres
      simp at hres
    | ok res1 =>
      intro h3 hres
      dsimp only at hres
      injection hres with hres
      rw [← hres]
      exact ⟨ha, h3 res1 rfl⟩

/-! ## The parser does not look at max_sq_depth outside the depth guard -/

theorem count_step_with_depth (x : Int) (s : parser_state) (fp : FILE) :
    count_step (s.with_depth x) fp = count_step s fp := rfl

theorem body_step_with_depth (x : Int) (env : Env) (s : parser_state) (fp : FILE) :
    body_step env (s.with_depth x) fp = body_step env s fp := rfl

theorem data_element_with_depth (x : Int) (env : Env) (s : parser_state)
    (filter : Option (List Nat)) (depth : Int) (r : Run) :
    data_element env (s.with_depth x) filter depth r = data_element env s filter depth r := rfl

theorem sequence_item_with_depth (x : Int) (s : parser_state) (depth : Int) (r : Run) :
    sequence_item (s.with_depth x) depth r = sequence_item s depth r := rfl

theorem count_with_depth (x : Int) (env : Env) (s : parser_state) (fuel : Nat) :
    (∀ ic ep fp, count_sequence_items_loop env (s.with_depth x) fuel ic ep fp
      = count_sequence_items_loop env s fuel ic ep fp) ∧
    (∀ fp, count_item_body env (s.with_depth x) fuel fp = count_item_body env s fuel fp) := by
  induction fuel with
  | zero =>
    refine ⟨fun ic ep fp => ?_, fun fp => ?_⟩
    · rw [count_sequence_items_loop, count_sequence_items_loop]
    · rw [count_item_body, count_item_body]
  | succ fuel ih =>
    refine ⟨fun ic ep fp => ?_, fun fp => ?_⟩
    · rw [count_sequence_items_loop, count_sequence_items_loop, count_step_with_depth]
      simp only [ih.1, ih.2]
    · rw [count_item_body, count_item_body, body_step_with_depth]
      simp only [ih.1, ih.2]

theorem count_sequence_items_with_depth (x : Int) (env : Env) (s : parser_state) (fuel : Nat)
    (fp : FILE) :
    count_sequence_items env (s.with_depth x) fuel fp = count_sequence_items env s fuel fp :=
  (count_with_depth x env s fuel).1 _ _ _

/-- The parsers give the same with `max_sq_depth = x` as with the `max_sq_depth` of
`s` when the two bounds admit the same odd depths: `parse_sequence` runs at odd
depths only, `parse_data_elements` at even ones. -/
theorem parse_with_depth (x : Int) (env : Env) (s : parser_state) (max_elements : Int)
    (filter : Option (List Nat))
    (hx : ∀ d : Int, d % 2 = 1 → (d > x ↔ d > s.max_sq_depth)) (fuel : Nat) :
    (∀ depth r, depth % 2 = 1 →
      parse_sequence env (s.with_depth x) max_elements filter fuel depth r
        = parse_sequence env s max_elements filter fuel depth r) ∧
    (∀ depth r, depth % 2 = 1 →
      parse_sequence_loop env (s.with_depth x) max_elements filter fuel depth r
        = parse_sequence_loop env s max_elements filter fuel depth r) ∧
    (∀ depth r, depth % 2 = 0 →
      parse_data_elements env (s.with_depth x) max_elements filter fuel depth r
        = parse_data_elements env s max_elements filter fuel depth r) := by
  induction fuel with
  | zero =>
    refine ⟨fun depth r _ => ?_, fun depth r _ => ?_, fun depth r _ => ?_⟩
    · rw [parse_sequence, parse_sequence]
    · rw [parse_sequence_loop, parse_sequence_loop]
    · rw [parse_data_elements, parse_data_elements]
  | succ fuel ih =>
    refine ⟨fun depth r hd => ?_, fun depth r hd => ?_, fun depth r hd => ?_⟩
    · rw [parse_sequence, parse_sequence, count_sequence_items_with_depth, ih.2.1 depth r hd]
      have hg : (depth > (s.with_depth x).max_sq_depth) ↔ depth > s.max_sq_depth := hx depth hd
      by_cases h : depth > s.max_sq_depth
      · rw [if_pos h, if_pos (hg.2 h)]
      · rw [if_neg h, if_neg (fun h1 => h (hg.1 h1))]
    · have he : (depth + 1) % 2 = 0 := by omega
      rw [parse_sequence_loop, parse_sequence_loop, sequence_item_with_depth]
      simp only [ih.2.1 depth _ hd, ih.2.2 (depth + 1) _ he]
    · have ho : (depth + 1) % 2 = 1 := by omega
      have hc : (s.with_depth x).collapse_sequences = s.collapse_sequences := rfl
      rw [parse_data_elements, parse_data_elements, data_element_with_depth, hc]
      simp only [ih.2.2 depth _ hd, ih.1 (depth + 1) _ ho, count_sequence_items_with_depth]

theorem ts_switch_with_depth (x : Int) (s : parser_state) (in_file_meta : Bool) (group : Nat)
    (uid : List Nat) :
    ts_switch (s.with_depth x) in_file_meta group uid
      = ((ts_switch s in_file_meta group uid).1.with_depth x,
         (ts_switch s in_file_meta group uid).2) := by
  unfold ts_switch
  split_ifs <;> rfl

theorem ts_switch_max_sq_depth (s : parser_state) (in_file_meta : Bool) (group : Nat)
    (uid : List Nat) :
    (ts_switch s in_file_meta group uid).1.max_sq_depth = s.max_sq_depth := by
  unfold ts_switch
  split_ifs <;> rfl

theorem top_value_with_depth (x : Int) (env : Env) (s : parser_state) (fuel : Nat) (tag : Nat)
    (vr : List Nat) (length : Nat) (should_display : Bool) (uid : List Nat) (r : Run) :
    top_value env (s.with_depth x) fuel tag vr length should_display uid r
      = top_value env s fuel tag vr length should_display uid r := rfl

theorem top_sequence_with_depth (x : Int) (env : Env) (s : parser_state) (max_elements : Int)
    (filter : Option (List Nat))
    (hx : ∀ d : Int, d % 2 = 1 → (d > x ↔ d > s.max_sq_depth))
    (fuel : Nat) (group element : Nat) (avr : List Nat) (length : Nat) (r : Run) :
    top_sequence env (s.with_depth x) max_elements filter fuel group element avr length r
      = top_sequence env s max_elements filter fuel group element avr length r := by
  have hc : (s.with_depth x).collapse_sequences = s.collapse_sequences := rfl
  unfold top_sequence
  simp only [hc, count_sequence_items_with_depth,
    (parse_with_depth x env s max_elements filter hx fuel).1 1 _ (by decide)]

theorem top_element_with_depth (x : Int) (env : Env) (s : parser_state) (max_elements : Int)
    (filter : Option (List Nat))
    (hx : ∀ d : Int, d % 2 = 1 → (d > x ↔ d > s.max_sq_depth))
    (fuel : Nat) (group element : Nat) (uid : List Nat) (r : Run) :
    top_element env (s.with_depth x) max_elements filter fuel group element uid r
      = top_element env s max_elements filter fuel group element uid r := by
  have h1 : ∀ tag fp, read_vr_length env (s.with_depth x) tag fp = read_vr_length env s tag fp :=
    fun _ _ => rfl
  have h2 : ∀ tag vr, actual_vr env (s.with_depth x) tag vr = actual_vr env s tag vr :=
    fun _ _ => rfl
  unfold top_element
  simp only [h1, h2, top_value_with_depth, top_sequence_with_depth x env s max_elements filter hx]

theorem top_step_with_depth (x : Int) (env : Env) (max_elements : Int)
    (filter : Option (List Nat)) (fuel : Nat) (t : Top)
    (hx : ∀ d : Int, d % 2 = 1 → (d > x ↔ d > t.state.max_sq_depth)) :
    top_step env max_elements filter fuel (t.with_depth x)
      = (top_step env max_elements filter fuel t).map fun res => (res.1, res.2.with_depth x) := by
  have h1 : ∀ fp, read_uint16 fp (t.state.with_depth x) = read_uint16 fp t.state := fun _ => rfl
  have hs : ∀ in_file_meta group uid d, d % 2 = 1 →
      (d > x ↔ d > (ts_switch t.state in_file_meta group uid).1.max_sq_depth) := by
    intro a b c d hd
    rw [ts_switch_max_sq_depth]
    exact hx d hd
  unfold top_step
  simp only [Top.with_depth, h1, ts_switch_with_depth]
  split_ifs with hf
  · rfl
  · rw [top_element_with_depth x env _ max_elements filter (hs _ _ _)]
    cases top_element env (ts_switch t.state t.in_file_meta (read_uint16 t.run.fp t.state).1
        t.transfer_syntax_uid).1 max_elements filter fuel (read_uint16 t.run.fp t.state).1
        (read_uint16 (read_uint16 t.run.fp t.state).2 t.state).1 t.transfer_syntax_uid
        { t.run with fp := (read_uint16 (read_uint16 t.run.fp t.state).2 t.state).2,
                     out := t.run.out ++ (ts_switch t.state t.in_file_meta
                       (read_uint16 t.run.fp t.state).1 t.transfer_syntax_uid).2.2 } with
    | error e => rfl
    | ok res => rfl

theorem top_step_max_sq_depth (env : Env) (max_elements : Int) (filter : Option (List Nat))
    (fuel : Nat) (t : Top) (res : Bool × Top)
    (h : top_step env max_elements filter fuel t = Except.ok res) :
    res.2.state.max_sq_depth = t.state.max_sq_depth := by
  unfold top_step at h
  dsimp only at h
  split_ifs at h with hf
  · cases h
    rfl
  · revert h
    cases top_element env (ts_switch t.state t.in_file_meta (read_uint16 t.run.fp t.state).1
        t.transfer_syntax_uid).1 max_elements filter fuel (read_uint16 t.run.fp t.state).1
        (read_uint16 (read_uint16 t.run.fp t.state).2 t.state).1 t.transfer_syntax_uid
        { t.run with fp := (read_uint16 (read_uint16 t.run.fp t.state).2 t.state).2,
                     out := t.run.out ++ (ts_switch t.state t.in_file_meta
                       (read_uint16 t.run.fp t.state).1 t.transfer_syntax_uid).2.2 } with
    | error e => intro h; cases h
    | ok r1 =>
      intro h
      cases h
      exact ts_switch_max_sq_depth _ _ _ _

theorem top_loop_with_depth (x : Int) (env : Env) (max_elements : Int)
    (filter : Option (List Nat)) (fuel : Nat) :
    ∀ t : Top, (∀ d : Int, d % 2 = 1 → (d > x ↔ d > t.state.max_sq_depth)) →
      top_loop env max_elements filter fuel (t.with_depth x)
        = (top_loop env max_elements filter fuel t).map (Top.with_depth x) := by
  induction fuel with
  | zero =>
    intro t _
    rw [top_loop, top_loop]
    rfl
  | succ fuel ih =>
    intro t hx
    have hr : (t.with_depth x).run = t.run := rfl
    rw [top_loop, top_loop, hr, top_step_with_depth x env max_elements filter fuel t hx]
    split_ifs with hc
    · rfl
    · cases hstep : top_step env max_elements filter fuel t with
      | error e => rfl
      | ok res =>
        have hm := top_step_max_sq_depth env max_elements filter fuel t res hstep
        show (if res.1 = true then top_loop env max_elements filter fuel (res.2.with_depth x)
          else Except.ok (res.2.with_depth x)) = _
        by_cases hb : res.1 = true
        · rw [if_pos hb, ih res.2 (by rw [hm]; exact hx)]
          simp only [hb, if_true]
        · rw [if_neg hb]
          simp only [hb, if_false]
          rfl

/-- Two values of `max_sq_depth` that admit the same odd depths give the same
result of `parse_dicom_header`. -/
theorem parse_dicom_header_depth_eq (env : Env) (fuel : Nat) (file : Option (List Nat))
    (max_elements : Int) (collapse : Bool) (x y : Int) (show_full_values : Bool)
    (filter : Option (List Nat)) (hx : ∀ d : Int, d % 2 = 1 → (d > x ↔ d > y)) :
    parse_dicom_header env fuel file max_elements collapse x show_full_values filter
      = parse_dicom_header env fuel file max_elements collapse y show_full_values filter := by
  have hi : ∀ fp, top_init collapse x show_full_values fp
      = (top_init collapse y show_full_values fp).with_depth x := fun _ => rfl
  unfold parse_dicom_header
  cases file with
  | none => rfl
  | some data =>
    simp only [hi]
    split_ifs
    · rfl
    · rfl
    · rfl
    · rw [top_loop_with_depth x env max_elements filter fuel _ hx]
      cases top_loop env max_elements filter fuel (top_init collapse y show_full_values
          (fread (fread { data := data, pos := 0, eof := false } DICOM_PREAMBLE_SIZE).2
            DICOM_PREFIX_SIZE).2) with
      | error e => rfl
      | ok t => rfl

/-! ## The depths of the calls -/

theorem sq_depth_succ (k : Nat) : sq_depth (k + 1) = sq_depth k + 1 + 1 := by
  unfold sq_depth
  push_cast
  ring

/-- The call of `parse_sequence` at top level (lines 627-631 and 637) has depth 1. -/
theorem top_sequence_call (env : Env) (state : parser_state) (max_elements : Int)
    (filter : Option (List Nat)) (fuel : Nat) (group element : Nat) (avr : List Nat)
    (length : Nat) (r : Run) (hc : state.collapse_sequences = false) (hl : length ≠ 0) :
    top_sequence env state max_elements filter fuel group element avr length r
      = match parse_sequence env state max_elements filter fuel (sq_depth 1)
          { fp := r.fp, element_count := r.element_count + 1,
            out := r.out ++
              [Out.sq_row group element avr (display_keyword env group ((group <<< 16) ||| element))
                (display_name env ((group <<< 16) ||| element))] ++
              [if length = 0xFFFFFFFF then Out.lit "(sequence - undefined length)\n"
               else if length = 0 then Out.lit "(empty sequence)\n"
               else Out.lit "(sequence - defined length)\n"] } with
        | none => Except.error Halt.out_of_fuel
        | some res =>
          Except.ok ((if length ≠ 0xFFFFFFFF ∧ ftell res.2.fp - ftell r.fp < (length : Int)
            then { res.2 with fp := (fseek_set res.2.fp (ftell r.fp + (length : Int))).2 }
            else res.2).emit [Out.lit "  ", Out.rule]) := by
  have h1 : sq_depth 1 = 1 := rfl
  have hpos : length > 0 := Nat.pos_of_ne_zero hl
  unfold top_sequence
  rw [h1]
  simp only [hc, Bool.false_eq_true, if_false]
  by_cases hu : length = 0xFFFFFFFF
  · simp only [hu, if_true, ne_eq, not_true_eq_false, false_and, if_false] <;>
      (generalize parse_sequence env state max_elements filter fuel 1 _ = p; cases p <;> rfl)
  · simp only [hu, if_false, hpos, if_true, ne_eq, not_false_eq_true, true_and] <;>
      (generalize parse_sequence env state max_elements filter fuel 1 _ = p; cases p <;> rfl)

/-- The call of `parse_data_elements` for the inside of an item (lines 253-260)
has the depth of the sequence plus 1. -/
theorem item_body_call (env : Env) (state : parser_state) (max_elements : Int)
    (filter : Option (List Nat)) (fuel : Nat) (depth : Int) (r r1 : Run) (length : Nat)
    (hgo : ¬ (feof r.fp ∨ ¬ r.element_count < max_elements))
    (hi : sequence_item state depth r = SeqStep.item length r1) (hl : length ≠ 0) :
    parse_sequence_loop env state max_elements filter (fuel + 1) depth r
      = (parse_data_elements env state max_elements filter fuel (depth + 1) r1).bind fun res =>
          parse_sequence_loop env state max_elements filter fuel depth
            (if length ≠ 0xFFFFFFFF ∧ ftell res.2.fp - ftell r1.fp < (length : Int)
              then { res.2 with fp := (fseek_set res.2.fp (ftell r1.fp + (length : Int))).2 }
              else res.2) := by
  have hpos : length > 0 := Nat.pos_of_ne_zero hl
  rw [parse_sequence_loop, if_neg hgo, hi]
  by_cases hu : length = 0xFFFFFFFF
  · simp only [hu, if_true, ne_eq, not_true_eq_false, false_and, if_false]
  · simp only [hu, if_false, hpos, if_true, ne_eq, not_false_eq_true, true_and]

/-- The call of `parse_sequence` for a sequence inside an item (lines 378-392)
has the depth of the item body plus 1. -/
theorem nested_sequence_call (env : Env) (state : parser_state) (max_elements : Int)
    (filter : Option (List Nat)) (fuel : Nat) (depth : Int) (r r1 : Run) (length : Nat)
    (hgo : ¬ (feof r.fp ∨ ¬ r.element_count < max_elements))
    (hs : data_element env state filter depth r = Step.sequence length r1)
    (hc : state.collapse_sequences = false) (hl : length ≠ 0) :
    parse_data_elements env state max_elements filter (fuel + 1) depth r
      = (parse_sequence env state max_elements filter fuel (depth + 1)
          { r1 with element_count := r1.element_count + 1,
                    out := r1.out ++ [if length = 0xFFFFFFFF
                      then Out.lit "(sequence - undefined length)\n"
                      else Out.sq_defined_length length] }).bind fun res =>
          parse_data_elements env state max_elements filter fuel depth
            ((if length ≠ 0xFFFFFFFF ∧ ftell res.2.fp - ftell r1.fp < (length : Int)
              then { res.2 with fp := (fseek_set res.2.fp (ftell r1.fp + (length : Int))).2 }
              else res.2).emit (print_indent depth ++ [Out.rule])) := by
  rw [parse_data_elements, if_neg hgo, hs]
  simp only [hc, Bool.false_eq_true, if_false]
  by_cases hu : length = 0xFFFFFFFF
  · simp only [hu, if_true, ne_eq, not_true_eq_false, false_and, if_false]
  · simp only [hu, if_false, hl, ne_eq, not_false_eq_true, true_and]

/-- The depth guard of `parse_sequence` (lines 206-219). -/
theorem parse_sequence_guard (env : Env) (state : parser_state) (max_elements : Int)
    (filter : Option (List Nat)) (fuel : Nat) (depth : Int) (r : Run) :
    (depth ≤ state.max_sq_depth →
      parse_sequence env state max_elements filter (fuel + 1) depth r
        = parse_sequence_loop env state max_elements filter fuel depth r) ∧
    (¬ depth ≤ state.max_sq_depth →
      parse_sequence env state max_elements filter (fuel + 1) depth r
        = (count_sequence_items env state fuel r.fp).bind fun res =>
            some (-1, { r with fp := res.2.2, out := r.out ++ print_indent (depth - 1) ++
              [Out.above_max_depth res.1] })) := by
  refine ⟨fun h => ?_, fun h => ?_⟩
  · rw [parse_sequence, if_neg (by omega)]
  · rw [parse_sequence, if_pos (by omega)]


/-- C1: for an input that was opened, `parse_dicom_header` returns `-1` if and
only if the input has fewer than 132 octets or the octets 128..131 are not the
ASCII text `DICM`; in that case the whole output is one error message (no table
line, no element, no footer); and an input `data2` of the same length whose
octets from offset 128 on are those of `data` gives the very same result, so
the octets 0..127 never influence it. -/
theorem header_check (env : Env) (fuel : Nat) (data data2 : List Nat) (max_elements : Int)
    (collapse_sequences : Bool) (max_sq_depth : Int) (show_full_values : Bool)
    (filter : Option (List Nat))
    (hlen : data2.length = data.length) (htail : data2.drop 128 = data.drop 128) :
    ((∃ out, parse_dicom_header env fuel (some data) max_elements collapse_sequences
          max_sq_depth show_full_values filter = Except.ok { ret := -1, out := out }) ↔
      (data.length < 132 ∨
        octets { data := data, pos := 0, eof := false } 128 4 ≠ cstr "DICM")) ∧
    ((data.length < 132 ∨ octets { data := data, pos := 0, eof := false } 128 4 ≠ cstr "DICM") →
      ∃ msg, parse_dicom_header env fuel (some data) max_elements collapse_sequences
          max_sq_depth show_full_values filter
        = Except.ok { ret := -1, out := [Out.err msg] }) ∧
    parse_dicom_header env fuel (some data2) max_elements collapse_sequences max_sq_depth
        show_full_values filter
      = parse_dicom_header env fuel (some data) max_elements collapse_sequences max_sq_depth
          show_full_values filter :=
  ⟨parse_dicom_header_fails_iff env fuel data max_elements collapse_sequences max_sq_depth
      show_full_values filter,
    parse_dicom_header_bad env fuel data max_elements collapse_sequences max_sq_depth
      show_full_values filter,
    parse_dicom_header_preamble env fuel data data2 max_elements collapse_sequences
      max_sq_depth show_full_values filter hlen htail⟩

/-- The statement of `header_check` at `sample_file_implicit` and the same file
behind another preamble. -/
theorem header_check_witness :
    sample_file_other_preamble.length = sample_file_implicit.length ∧
    sample_file_other_preamble.drop 128 = sample_file_implicit.drop 128 ∧
    sample_file_other_preamble ≠ sample_file_implicit ∧
    parse_dicom_header sample_env 100 (some sample_file_other_preamble) 250 false 5 false none
      = parse_dicom_header sample_env 100 (some sample_file_implicit) 250 false 5 false none :=
  ⟨by rfl, by rfl, by decide,
    (header_check sample_env 100 sample_file_implicit sample_file_other_preamble 250 false 5
      false none (by rfl) (by rfl)).2.2⟩

/-- C2: `is_valid_vr` accepts a two-byte token exactly when it is one of the 31
whitelisted VRs; a token with a NUL byte is rejected. -/
theorem is_valid_vr_iff_whitelist (a b : Nat) :
    (is_valid_vr [a, b] = true ↔
      [a, b] ∈ List.map cstr
        ["AE", "AS", "AT", "CS", "DA", "DS", "DT", "FD", "FL", "IS", "LO", "LT", "OB", "OD",
         "OF", "OL", "OW", "PN", "SH", "SL", "SQ", "SS", "ST", "TM", "UC", "UI", "UL", "UN",
         "UR", "US", "UT"]) ∧
    is_valid_vr [0, b] = false ∧ is_valid_vr [a, 0] = false := by
  rw [valid_vrs_eq]
  refine ⟨is_valid_vr_iff a b, ?_, ?_⟩
  · unfold is_valid_vr
    simp [strlen_pair_nul_left]
  · unfold is_valid_vr
    have := strlen_pair_nul_right a
    have h2 : (strlen [a, 0] != 2) = true := by
      simp; omega
    simp [h2]

/-- C3: the VR and length fields that follow a tag at offset `p` make the header 12
bytes long for a long-form VR in explicit-VR mode and 8 bytes long otherwise, and
the length is the field of the specification decoded in the current byte order. -/
theorem header_size_and_length (env : Env) (state : parser_state) (tag : Nat) (fp : FILE)
    (p : Nat) (hpos : fp.pos = p + 4)
    (hvalid : state.is_explicit_vr = true → is_valid_vr (octets fp (p + 4) 2) = true)
    (havail : p + spec_header_size state.is_explicit_vr (octets fp (p + 4) 2) ≤ fp.data.length) :
    ∃ vr fp1,
      read_vr_length env state tag fp
        = Header.ok vr
            (decode state.is_little_endian
              (octets fp (p + (spec_length_field state.is_explicit_vr (octets fp (p + 4) 2)).1)
                (spec_length_field state.is_explicit_vr (octets fp (p + 4) 2)).2)) fp1 ∧
      fp1.pos = p + spec_header_size state.is_explicit_vr (octets fp (p + 4) 2) ∧
      fp1.data = fp.data ∧
      (state.is_explicit_vr = true → vr = octets fp (p + 4) 2) := by
  have hvr2 : (octets fp (p + 4) 2).length = 2 := by
    rw [octets_length]
    have : 8 ≤ spec_header_size state.is_explicit_vr (octets fp (p + 4) 2) := by
      unfold spec_header_size; split <;> [split; skip] <;> omega
    omega
  have h8 : 8 ≤ spec_header_size state.is_explicit_vr (octets fp (p + 4) 2) := by
    unfold spec_header_size; split <;> [split; skip] <;> omega
  cases hexp : state.is_explicit_vr
  · -- implicit VR
    rw [hexp] at havail h8
    have hsz : spec_header_size false (octets fp (p + 4) 2) = 8 := by simp [spec_header_size]
    have hfl : spec_length_field false (octets fp (p + 4) 2) = (4, 4) := by
      simp [spec_length_field]
    rw [hsz] at havail
    rw [hsz, hfl]
    unfold read_vr_length
    simp only [hexp, Bool.false_eq_true, if_false]
    rw [read_uint32_avail fp state (by omega), hpos]
    cases env.dicom_get_vr tag <;> exact ⟨_, _, rfl, rfl, rfl, fun h => by simp at h⟩
  · -- explicit VR
    rw [hexp] at havail h8
    have hv := hvalid hexp
    have hlong := is_explicit_vr_long_iff _ hv hvr2
    unfold read_vr_length
    simp only [hexp, if_true]
    rw [fread_avail fp 2 (by omega), hpos]
    simp only [hvr2, ne_eq, not_true_eq_false, if_false, hv, Bool.not_true, Bool.false_eq_true]
    by_cases hl : is_explicit_vr_long (octets fp (p + 4) 2) = true
    · have hm := hlong.1 hl
      have hsz : spec_header_size true (octets fp (p + 4) 2) = 12 := by
        simp [spec_header_size, hm]
      have hfl : spec_length_field true (octets fp (p + 4) 2) = (8, 4) := by
        simp [spec_length_field, hm]
      rw [hsz] at havail
      rw [hsz, hfl]
      simp only [hl, if_true]
      have e := fseek_cur_nonneg { fp with pos := p + 4 + 2 } 2
      simp only [Nat.cast_ofNat] at e
      rw [e]
      rw [read_uint32_avail _ state (by simp; omega)]
      refine ⟨_, _, rfl, ?_, rfl, fun _ => rfl⟩
      simp
    · have hm : octets fp (p + 4) 2 ∉ long_form_vrs := fun h => hl (hlong.2 h)
      have hsz : spec_header_size true (octets fp (p + 4) 2) = 8 := by
        simp [spec_header_size, hm]
      have hfl : spec_length_field true (octets fp (p + 4) 2) = (6, 2) := by
        simp [spec_length_field, hm]
      rw [hsz] at havail
      rw [hsz, hfl]
      simp only [hl, Bool.false_eq_true, if_false]
      rw [read_uint16_avail _ state (by simp; omega)]
      refine ⟨_, _, rfl, ?_, rfl, fun _ => rfl⟩
      simp
theorem header_size_and_length_witness :
    ∃ vr fp1,
      read_vr_length sample_env sample_state 0x00081140 sample_header_stream
        = Header.ok vr 0x2010 fp1 ∧
      fp1.pos = 12 ∧ fp1.data = sample_header_stream.data ∧
      (sample_state.is_explicit_vr = true → vr = cstr "SQ") :=
  header_size_and_length sample_env sample_state 0x00081140 sample_header_stream 0
    (by rfl) (by decide) (by decide)

/-- C4: in the loop of `parse_dicom_header`, as long as the file meta group lasts the
mode is explicit VR little endian; the iteration that reads the first tag whose
group is not 0x0002 sets the mode that the table of the specification gives for the
captured UID (explicit VR little endian when nothing was captured), and no other
iteration changes the mode. -/
theorem mode_switch (env : Env) (max_elements : Int) (filter : Option (List Nat))
    (c : Bool) (d : Int) (f : Bool) (fp0 : FILE) (t : Top)
    (hr : TopReach env max_elements filter (top_init c d f fp0) t)
    (fuel : Nat) (go : Bool) (t1 : Top) (g : Nat)
    (hstep : top_step env max_elements filter fuel t = Except.ok (go, t1))
    (hg : next_group t = some g) :
    (t.in_file_meta = true → t.state.is_explicit_vr = true ∧ t.state.is_little_endian = true) ∧
    (t.in_file_meta = true ∧ g ≠ 2 →
      t1.in_file_meta = false ∧
      (t1.state.is_explicit_vr, t1.state.is_little_endian)
        = spec_mode (cstring t.transfer_syntax_uid)) ∧
    (t.in_file_meta = true ∧ g = 2 → t1.in_file_meta = true ∧ t1.state = t.state) ∧
    (t.in_file_meta = false → t1.in_file_meta = false ∧ t1.state = t.state) := by
  have hinv := top_reach_meta env max_elements filter c d f fp0 t hr
  refine ⟨hinv, ?_, ?_, ?_⟩
  all_goals
    rcases top_step_state env max_elements filter fuel t t1 go hstep with
      ⟨hn, _, _⟩ | ⟨g1, hg1, hs, hi⟩
    · rw [hn] at hg; exact absurd hg (by simp)
    rw [hg] at hg1
    have hgg : g1 = g := by simpa using hg1.symm
    subst hgg
  · rintro ⟨hm, hne⟩
    rw [hm] at hs hi
    have := ts_switch_mode t.state g1 t.transfer_syntax_uid hne (hinv hm)
    rw [hi, hs]; exact this
  · rintro ⟨hm, rfl⟩
    rw [hs, hi, (ts_switch_group2 _ _ _).1, (ts_switch_group2 _ _ _).2]
    exact ⟨hm, rfl⟩
  · intro hm
    rw [hm] at hs hi
    rw [hs, hi]
    exact ⟨(ts_switch_meta _ _ _).2, (ts_switch_meta _ _ _).1⟩
theorem mode_switch_witness :
    (top_after sample_env 250 none 100
        (top_after sample_env 250 none 100 (sample_top sample_file_implicit))).in_file_meta = false ∧
    ((top_after sample_env 250 none 100
        (top_after sample_env 250 none 100 (sample_top sample_file_implicit))).state.is_explicit_vr,
     (top_after sample_env 250 none 100
        (top_after sample_env 250 none 100 (sample_top sample_file_implicit))).state.is_little_endian)
      = spec_mode (cstr "1.2.840.10008.1.2") :=
  (mode_switch sample_env 250 none false 5 false
    { data := sample_file_implicit, pos := 132, eof := false }
    (top_after sample_env 250 none 100 (sample_top sample_file_implicit))
    (TopReach.step 100 (sample_top sample_file_implicit) _ TopReach.start (by decide) (by rfl))
    100 true
    (top_after sample_env 250 none 100
        (top_after sample_env 250 none 100 (sample_top sample_file_implicit)))
    0x10 (by rfl) (by decide)).2.1 ⟨by decide, by decide⟩

/-- C5 (amended): at top level, for a non-sequence element `(0002,0010)` whose value
of length 1..64 is present in the input and has a byte that is neither a space nor
NUL, the captured transfer syntax UID, read as a NUL-terminated string, is the value
with its trailing spaces and NULs removed, cut at the first NUL that remains; it is
the trimmed value itself when that holds no NUL. -/
theorem ts_uid_capture (env : Env) (state : parser_state) (max_elements : Int)
    (filter : Option (List Nat)) (fuel : Nat) (uid : List Nat) (r : Run)
    (vr : List Nat) (length : Nat) (fp : FILE) (value : List Nat)
    (hhdr : read_vr_length env state 0x00020010 r.fp = Header.ok vr length fp)
    (hsq : streq (actual_vr env state 0x00020010 vr) (cstr "SQ") = false)
    (hlen : 1 ≤ length ∧ length ≤ 64)
    (hval : (fread fp length).1 = value) (hvl : value.length = length)
    (hne : ∃ b ∈ value, b ≠ 32 ∧ b ≠ 0)
    (hbuf : uid.length = 65) (hfuel : 64 ≤ fuel) :
    ∃ uid1 r1,
      top_element env state max_elements filter fuel 0x0002 0x0010 uid r
        = Except.ok (true, uid1, r1) ∧
      cstring uid1 = cstring (rtrim value) ∧
      ((∀ b ∈ rtrim value, b ≠ 0) → cstring uid1 = rtrim value) := by
  rw [top_element_capture env state max_elements filter fuel uid r vr length fp hhdr hsq hlen]
  obtain ⟨uid1, r1, hc, hs⟩ := ts_capture_spec env state fuel (actual_vr env state 0x00020010 vr)
    length (should_disp_tag 0x00020010 filter) uid
    { r with fp := fp, out := r.out ++
      (if should_disp_tag 0x00020010 filter
        then [Out.row 0x0002 0x0010 (actual_vr env state 0x00020010 vr) length
          (display_keyword env 0x0002 0x00020010) (display_name env 0x00020010)]
        else []) } value hlen hval hvl hne hbuf hfuel
  rw [hc]
  exact ⟨_, _, rfl, hs, fun h => by rw [hs, cstring_of_no_nul _ h]⟩

/-- The statement of `ts_uid_capture` at the 20-byte value "1.2.840.10008.1.2.1 ". -/
theorem ts_uid_capture_witness :
    ∃ uid1 r1,
      top_element sample_env sample_state 250 none 100 0x0002 0x0010 (List.replicate 65 0)
          { fp := sample_ts_explicit, element_count := 0, out := [] }
        = Except.ok (true, uid1, r1) ∧
      cstring uid1 = cstr "1.2.840.10008.1.2.1" := by
  obtain ⟨uid1, r1, h, hc, _⟩ := ts_uid_capture sample_env sample_state 250 none 100
    (List.replicate 65 0) { fp := sample_ts_explicit, element_count := 0, out := [] }
    (cstr "UI") 20 { sample_ts_explicit with pos := 8 } (cstr "1.2.840.10008.1.2.1 ")
    (by rfl) (by decide) (by decide) (by rfl) (by rfl) (by decide) (by rfl) (by decide)
  exact ⟨uid1, r1, h, hc.trans (by decide)⟩

/-- The value `'1' NUL '2' ' '` meets the conditions on the value, is captured as
the string "1", and its bytes without the trailing space are `'1' NUL '2'`. -/
theorem ts_uid_capture_nul_counterexample :
    (1 ≤ 4 ∧ 4 ≤ 64) ∧ (∃ b ∈ [49, 0, 50, 32], b ≠ 32 ∧ b ≠ 0) ∧
    ∃ uid1 r1,
      top_element sample_env sample_state 250 none 100 0x0002 0x0010 (List.replicate 65 0)
          { fp := sample_ts_nul, element_count := 0, out := [] }
        = Except.ok (true, uid1, r1) ∧
      cstring uid1 = [49] ∧ rtrim [49, 0, 50, 32] = [49, 0, 50] ∧
      cstring uid1 ≠ rtrim [49, 0, 50, 32] :=
  ⟨by decide, by decide, _, _, rfl, by decide, by decide, by decide⟩

/-- C7 (code at the failing input): with the filter `[0x00100010]` the tag
`(0002,0010)` is not displayed, yet for a `(0002,0010)` element of length 0 the
value text `(empty)` is written and the element is counted. -/
theorem filtered_ts_uid_value_text_written :
    should_disp_tag 0x00020010 (some [0x00100010]) = false ∧
    parse_dicom_header sample_env 100 (some sample_file_empty_ts) 250 false 5 false
        (some [0x00100010])
      = Except.ok
          { ret := 0
            out := [Out.lit "DICOM version: 2025d\n", Out.table_header, Out.rule,
                    Out.lit "(empty)", Out.footer 1] } :=
  ⟨by decide, by rfl⟩

/-- C8: with `max_elements >= 0`, `element_count` never decreases and stays within
`max_elements` across `parse_sequence`, its loop, `parse_data_elements` (at any
depth) and the top-level loop, so the number in the footer `[Parsed N elements]`
is at most `max_elements`. -/
theorem element_count_bounded (env : Env) (max_elements : Int) (hmax : 0 ≤ max_elements)
    (state : parser_state) (filter : Option (List Nat)) (fuel : Nat) :
    (∀ depth r res, r.element_count ≤ max_elements →
      parse_sequence env state max_elements filter fuel depth r = some res →
      r.element_count ≤ res.2.element_count ∧ res.2.element_count ≤ max_elements) ∧
    (∀ depth r res, r.element_count ≤ max_elements →
      parse_sequence_loop env state max_elements filter fuel depth r = some res →
      r.element_count ≤ res.2.element_count ∧ res.2.element_count ≤ max_elements) ∧
    (∀ depth r res, r.element_count ≤ max_elements →
      parse_data_elements env state max_elements filter fuel depth r = some res →
      r.element_count ≤ res.2.element_count ∧ res.2.element_count ≤ max_elements) ∧
    (∀ t t1, t.run.element_count ≤ max_elements →
      top_loop env max_elements filter fuel t = Except.ok t1 →
      t.run.element_count ≤ t1.run.element_count ∧ t1.run.element_count ≤ max_elements) ∧
    (∀ file c d f res,
      parse_dicom_header env fuel file max_elements c d f filter = Except.ok res →
      res.ret = -1 ∨
        ∃ out0 n, res.out = out0 ++ [Out.footer n] ∧ 0 ≤ n ∧ n ≤ max_elements) :=
  ⟨(parse_count_bound env state max_elements filter fuel).1,
   (parse_count_bound env state max_elements filter fuel).2.1,
   (parse_count_bound env state max_elements filter fuel).2.2,
   top_loop_count env max_elements filter fuel,
   fun file c d f res h => parse_dicom_header_footer env fuel file max_elements hmax c d f filter res h⟩

theorem element_count_bounded_witness :
    (sample_result sample_file_implicit 1 none).ret = -1 ∨
      ∃ out0 n, (sample_result sample_file_implicit 1 none).out = out0 ++ [Out.footer n] ∧
        0 ≤ n ∧ n ≤ 1 :=
  (element_count_bounded sample_env 1 (by decide) sample_state none 100).2.2.2.2
    (some sample_file_implicit) false 5 false (sample_result sample_file_implicit 1 none) (by rfl)

/-- C9 (code at the failing input): the tag `(7FE0,0010)` read inside a sequence
item prints the sentinel line, but the parse goes on: the bytes that follow are read
as the element `(0008,0060)` and its row is printed. -/
theorem nested_pixel_data_does_not_stop :
    parse_dicom_header sample_env 100 (some sample_file_nested_pixel) 250 false 5 false none
      = Except.ok
          { ret := 0
            out := [Out.lit "DICOM version: 2025d\n", Out.table_header, Out.rule,
                    Out.sq_row 0x0008 0x1110 (cstr "SQ") (cstr "[N/A]") (cstr "[N/A]"),
                    Out.lit "(sequence - undefined length)\n",
                    Out.lit "  ", Out.lit "  ", Out.item_start none,
                    Out.lit "  ", Out.lit "  ", Out.lit "  ", Out.lit "  ",
                    Out.pixel_data 0x7FE0 0x0010,
                    Out.lit "  ", Out.rule,
                    Out.row 0x0008 0x0060 (cstr "CS") 2 (cstr "[N/A]") (cstr "[N/A]"),
                    Out.value (cstr "CS") (cstr "CT") 2 0
                      { is_little_endian := true, overwrite_max_disp_len := false,
                        terminal_width := 90, val_col_start := 108 },
                    Out.lit "\n", Out.footer 4] } := by
  rfl

/-- C10 (code at the failing input): an invalid VR inside a sequence item prints the
warning and leaves `parse_data_elements` only; the callers go on, and the row of the
element `(0008,0060)` that follows is printed after the warning. -/
theorem nested_invalid_vr_does_not_stop :
    is_valid_vr (cstr "zz") = false ∧
    parse_dicom_header sample_env 100 (some sample_file_nested_invalid_vr) 250 false 5 false none
      = Except.ok
          { ret := 0
            out := [Out.lit "DICOM version: 2025d\n", Out.table_header, Out.rule,
                    Out.sq_row 0x0008 0x1110 (cstr "SQ") (cstr "[N/A]") (cstr "[N/A]"),
                    Out.lit "(sequence - undefined length)\n",
                    Out.lit "  ", Out.lit "  ", Out.item_start none,
                    Out.warn_invalid_vr 122 122 0x0008 0x0005,
                    Out.lit "  ", Out.rule,
                    Out.row 0x0008 0x0060 (cstr "CS") 2 (cstr "[N/A]") (cstr "[N/A]"),
                    Out.value (cstr "CS") (cstr "CT") 2 0
                      { is_little_endian := true, overwrite_max_disp_len := false,
                        terminal_width := 90, val_col_start := 108 },
                    Out.lit "\n", Out.footer 3] } :=
  ⟨by decide, by rfl⟩

/-- C11 (code at the failing input): at top level the element `(0008,0005) UT` with
the length field `0xFFFFFFFF` gets the value text `(too large to display)` and the
cursor is moved `0xFFFFFFFF` bytes on, so the element `(0008,0060)` behind it is
never read; inside a sequence item the same bytes give
`(undefined length - non-sequence)` and the row of `(0008,0060)` follows. -/
theorem top_undefined_length_value_skipped :
    parse_dicom_header sample_env 100 (some sample_file_top_undefined) 250 false 5 false none
      = Except.ok
          { ret := 0
            out := [Out.lit "DICOM version: 2025d\n", Out.table_header, Out.rule,
                    Out.row 0x0008 0x0005 (cstr "UT") 0xFFFFFFFF (cstr "[N/A]") (cstr "[N/A]"),
                    Out.lit "(too large to display)",
                    Out.lit "\n", Out.footer 1] } ∧
    (top_after sample_env 250 none 100 (sample_top sample_file_top_undefined)).run.fp.pos
      = 144 + 0xFFFFFFFF ∧
    parse_dicom_header sample_env 100 (some sample_file_nested_undefined) 250 false 5 false none
      = Except.ok
          { ret := 0
            out := [Out.lit "DICOM version: 2025d\n", Out.table_header, Out.rule,
                    Out.sq_row 0x0008 0x1110 (cstr "SQ") (cstr "[N/A]") (cstr "[N/A]"),
                    Out.lit "(sequence - undefined length)\n",
                    Out.lit "  ", Out.lit "  ", Out.item_start none,
                    Out.lit "  ", Out.lit "  ", Out.lit "  ", Out.lit "  ",
                    Out.row 0x0008 0x0005 (cstr "UT") 0xFFFFFFFF (cstr "[N/A]") (cstr "[N/A]"),
                    Out.lit "(undefined length - non-sequence)",
                    Out.lit "\n",
                    Out.lit "  ", Out.lit "  ", Out.lit "  ", Out.lit "  ",
                    Out.row 0x0008 0x0060 (cstr "CS") 2 (cstr "[N/A]") (cstr "[N/A]"),
                    Out.value (cstr "CS") (cstr "CT") 2 2
                      { is_little_endian := true, overwrite_max_disp_len := false,
                        terminal_width := 90, val_col_start := 108 },
                    Out.lit "\n",
                    Out.lit "  ", Out.rule, Out.footer 4] } :=
  ⟨by rfl, by rfl, by rfl⟩

/-- C12: a displayed non-sequence element whose length field `length` is not
`0xFFFFFFFF` and whose `length` value bytes are in the input leaves the cursor at
`value_start + length` (`fp1` is the stream at the value start) and adds exactly 1 to
`element_count`, inside an item (`data_element`) and at top level (`top_element`).
What is written for the value is `spec_value_events`: the renderer gets the first
`min length 4096` bytes, and for `length >= 1048576` the text is
`(too large to display)` and the stream is only moved by a seek. At top level the
value of `(0002,0010)` of length 1..64 is read into the capture buffer instead; the
only other outcome is that this value holds nothing but spaces and NULs, where the
trim loop leaves the buffer. -/
theorem defined_length_value :
    (∀ (env : Env) (state : parser_state) (filter : Option (List Nat)) (depth : Int) (r : Run)
        (g e : Nat) (fpa fpt : FILE) (vr : List Nat) (length : Nat) (fp1 : FILE),
      read_uint16 r.fp state = (g, fpa) → read_uint16 fpa state = (e, fpt) →
      feof fpt = false → ¬ (depth > 0 ∧ g = 0xFFFE) → ¬ (g = 0x7FE0 ∧ e = 0x0010) →
      read_vr_length env state ((g <<< 16) ||| e) fpt = Header.ok vr length fp1 →
      should_disp_tag ((g <<< 16) ||| e) filter = true →
      streq (actual_vr env state ((g <<< 16) ||| e) vr) (cstr "SQ") = false →
      length ≠ 0xFFFFFFFF → fp1.pos + length ≤ fp1.data.length →
      ∃ fp2, data_element env state filter depth r
          = Step.next
              { fp := fp2, element_count := r.element_count + 1,
                out := r.out ++ print_indent depth ++
                  [Out.row g e (actual_vr env state ((g <<< 16) ||| e) vr) length
                    (display_keyword env g ((g <<< 16) ||| e))
                    (display_name env ((g <<< 16) ||| e))] ++
                  spec_value_events env state (actual_vr env state ((g <<< 16) ||| e) vr)
                    length depth fp1 ++ [Out.lit "\n"] } ∧
        fp2.data = fp1.data ∧ fp2.pos = fp1.pos + length ∧
        (1048576 ≤ length → fp2 = { fp1 with pos := fp1.pos + length, eof := false })) ∧
    (∀ (env : Env) (state : parser_state) (max_elements : Int) (filter : Option (List Nat))
        (fuel : Nat) (g e : Nat) (uid : List Nat) (r : Run) (vr : List Nat) (length : Nat)
        (fp1 : FILE),
      ¬ (g = 0x7FE0 ∧ e = 0x0010) →
      read_vr_length env state ((g <<< 16) ||| e) r.fp = Header.ok vr length fp1 →
      should_disp_tag ((g <<< 16) ||| e) filter = true →
      streq (actual_vr env state ((g <<< 16) ||| e) vr) (cstr "SQ") = false →
      length ≠ 0xFFFFFFFF → fp1.pos + length ≤ fp1.data.length →
      uid.length = 65 → 65 ≤ fuel →
      (((g <<< 16) ||| e) = 0x00020010 ∧ 1 ≤ length ∧ length ≤ 64 ∧
        (∀ b ∈ octets fp1 fp1.pos length, b = 32 ∨ b = 0) ∧
        top_element env state max_elements filter fuel g e uid r
          = Except.error Halt.out_of_bounds) ∨
      ∃ uid1 fp2, top_element env state max_elements filter fuel g e uid r
          = Except.ok (true, uid1,
              { fp := fp2, element_count := r.element_count + 1,
                out := r.out ++
                  [Out.row g e (actual_vr env state ((g <<< 16) ||| e) vr) length
                    (display_keyword env g ((g <<< 16) ||| e))
                    (display_name env ((g <<< 16) ||| e))] ++
                  (if ((g <<< 16) ||| e) = 0x00020010 ∧ 1 ≤ length ∧ length ≤ 64 then
                    [Out.value (actual_vr env state ((g <<< 16) ||| e) vr) (cstring uid1)
                      (strlen uid1) 0 (create_display_context env state)]
                   else spec_value_events env state (actual_vr env state ((g <<< 16) ||| e) vr)
                    length 0 fp1) ++ [Out.lit "\n"] }) ∧
        fp2.data = fp1.data ∧ fp2.pos = fp1.pos + length ∧
        ((((g <<< 16) ||| e) = 0x00020010 ∧ 1 ≤ length ∧ length ≤ 64) →
          cstring uid1 = cstring (rtrim (octets fp1 fp1.pos length))) ∧
        (1048576 ≤ length → fp2 = { fp1 with pos := fp1.pos + length, eof := false })) :=
  ⟨fun env state filter depth r g e fpa fpt vr length fp1 hg he heof hgrp hpix hhdr hdisp hsq
      hl havail =>
    data_element_defined_length env state filter depth r g e fpa fpt vr length fp1 hg he heof
      hgrp hpix hhdr hdisp hsq hl havail,
   fun env state max_elements filter fuel g e uid r vr length fp1 hpix hhdr hdisp hsq hl havail
      hbuf hfuel =>
    top_element_defined_length env state max_elements filter fuel g e uid r vr length fp1 hpix
      hhdr hdisp hsq hl havail hbuf hfuel⟩

/-- The statement of `defined_length_value` for the element `(0008,0060) CS "CT"`
at depth 2: the cursor goes from the value start 8 to 10. -/
theorem defined_length_value_witness :
    ∃ fp2, data_element sample_env sample_state none 2
        { fp := { data := sample_modality, pos := 0, eof := false },
          element_count := 0, out := [] }
        = Step.next
            { fp := fp2, element_count := 0 + 1,
              out := [] ++ print_indent 2 ++
                [Out.row 0x0008 0x0060 (cstr "CS") 2 (cstr "[N/A]") (cstr "[N/A]")] ++
                [Out.value (cstr "CS") (cstr "CT") 2 2
                  (create_display_context sample_env sample_state)] ++ [Out.lit "\n"] } ∧
      fp2.pos = 8 + 2 := by
  obtain ⟨fp2, h, _, hp, _⟩ := defined_length_value.1 sample_env sample_state none 2
    { fp := { data := sample_modality, pos := 0, eof := false }, element_count := 0, out := [] }
    0x0008 0x0060 { data := sample_modality, pos := 2, eof := false }
    { data := sample_modality, pos := 4, eof := false } (cstr "CS") 2
    { data := sample_modality, pos := 8, eof := false }
    (by rfl) (by rfl) (by rfl) (by decide) (by decide) (by rfl) (by rfl) (by decide)
    (by decide) (by decide)
  exact ⟨fp2, h, hp⟩

/-- C13 (code at the failing input): in `sample_file_defined_item` the sequence at
top level has the defined length 18 and its value starts at offset 144. With
collapse off the iteration of the top-level loop that parses the sequence returns
with the cursor at offset 178, the end of the input, not at `144 + 18`: the parse of
the item of length 10 is not stopped after 10 bytes and reads the element
`(0010,0010)` that follows the sequence. In collapse mode the same iteration leaves
the cursor at `144 + 18`. -/
theorem defined_sequence_cursor_overrun :
    read_vr_length sample_env sample_state 0x00081110
        { data := sample_file_defined_item, pos := 136, eof := false }
      = Header.ok (cstr "SQ") 18 { data := sample_file_defined_item, pos := 144, eof := false } ∧
    tag_at sample_state sample_file_defined_item (144 + 18) = (0x0010, 0x0010) ∧
    sample_file_defined_item.length = 178 ∧
    (top_after sample_env 250 none 100 (sample_top sample_file_defined_item)).run.fp.pos = 178 ∧
    (top_after sample_env 250 none 100 (sample_top sample_file_defined_item)).run.fp.pos
      ≠ 144 + 18 ∧
    (top_after sample_env 250 none 100 (sample_top_collapsed sample_file_defined_item)).run.fp.pos
      = 144 + 18 :=
  ⟨by rfl, by rfl, by rfl, by rfl, by decide, by rfl⟩

/-- C14 (code at the failing input): in `sample_file_defined_item` a sequence of
defined length 18 holds one item of defined length 10, whose body starts at offset
152 and holds the element `(0008,0060)`; the element `(0010,0010)`, whose header
starts at offset `152 + 10`, follows the sequence at top level. With collapse off
the parse of the item is not stopped at `152 + 10`: `(0010,0010)` is printed like
`(0008,0060)` behind four units of indentation and with the depth 2, inside the
item, and not at depth 0. In collapse mode, where the item is skipped by its length,
`(0010,0010)` is printed at depth 0. -/
theorem defined_item_budget_overrun :
    octets { data := sample_file_defined_item, pos := 0, eof := false } 144 8
      = [0xFE, 0xFF, 0x00, 0xE0, 10, 0, 0, 0] ∧
    octets { data := sample_file_defined_item, pos := 0, eof := false } (152 + 10) 4
      = [0x10, 0x00, 0x10, 0x00] ∧
    parse_dicom_header sample_env 100 (some sample_file_defined_item) 250 false 5 false none
      = Except.ok
          { ret := 0
            out := [Out.lit "DICOM version: 2025d\n", Out.table_header, Out.rule,
                    Out.sq_row 0x0008 0x1110 (cstr "SQ") (cstr "[N/A]") (cstr "[N/A]"),
                    Out.lit "(sequence - defined length)\n",
                    Out.lit "  ", Out.lit "  ", Out.item_start (some 10),
                    Out.lit "  ", Out.lit "  ", Out.lit "  ", Out.lit "  ",
                    Out.row 0x0008 0x0060 (cstr "CS") 2 (cstr "[N/A]") (cstr "[N/A]"),
                    Out.value (cstr "CS") (cstr "CT") 2 2
                      { is_little_endian := true, overwrite_max_disp_len := false,
                        terminal_width := 90, val_col_start := 108 },
                    Out.lit "\n",
                    Out.lit "  ", Out.lit "  ", Out.lit "  ", Out.lit "  ",
                    Out.row 0x0010 0x0010 (cstr "PN") 8 (cstr "PatientName")
                      (cstr "Patient's Name"),
                    Out.value (cstr "PN") (cstr "DOE^JANE") 8 2
                      { is_little_endian := true, overwrite_max_disp_len := false,
                        terminal_width := 90, val_col_start := 108 },
                    Out.lit "\n",
                    Out.lit "  ", Out.rule, Out.footer 4] } ∧
    parse_dicom_header sample_env 100 (some sample_file_defined_item) 250 true 5 false none
      = Except.ok
          { ret := 0
            out := [Out.lit "DICOM version: 2025d\n", Out.table_header, Out.rule,
                    Out.sq_row 0x0008 0x1110 (cstr "SQ") (cstr "[N/A]") (cstr "[N/A]"),
                    Out.sq_collapsed 1,
                    Out.row 0x0010 0x0010 (cstr "PN") 8 (cstr "PatientName")
                      (cstr "Patient's Name"),
                    Out.value (cstr "PN") (cstr "DOE^JANE") 8 0
                      { is_little_endian := true, overwrite_max_disp_len := false,
                        terminal_width := 90, val_col_start := 108 },
                    Out.lit "\n", Out.footer 2] } :=
  ⟨by rfl, by rfl, by rfl, by rfl⟩

/-- C15: with `max_sq_depth >= 1`, every line of the output of `parse_dicom_header`
is printed at a depth `d` with `0 <= d <= max_sq_depth + 1`. A line printed at depth
`d` is preceded by the `2 * d` indentation units of `print_indent(d)`, and
`display_value` is called with the depth `d`: in the output no run of indentation
units is longer than `2 * (max_sq_depth + 1)`, every call of `display_value` has a
depth in `0 .. max_sq_depth + 1`, and the output is a succession of lines of at most
`2 * (max_sq_depth + 1)` indentation units and one other event each. -/
theorem printed_depth_bounded (env : Env) (fuel : Nat) (file : Option (List Nat))
    (max_elements : Int) (collapse_sequences : Bool) (max_sq_depth : Int)
    (show_full_values : Bool) (filter : Option (List Nat)) (res : Result)
    (hm : 1 ≤ max_sq_depth)
    (h : parse_dicom_header env fuel file max_elements collapse_sequences max_sq_depth
      show_full_values filter = Except.ok res) :
    (∀ n, List.replicate n (Out.lit "  ") <:+: res.out → (n : Int) ≤ 2 * (max_sq_depth + 1)) ∧
    (∀ vr data length depth ctx, Out.value vr data length depth ctx ∈ res.out →
      0 ≤ depth ∧ depth ≤ max_sq_depth + 1) ∧
    Lines (2 * (max_sq_depth + 1)).toNat (max_sq_depth + 1) res.out := by
  have hl := lines_parse_dicom_header env fuel file max_elements collapse_sequences max_sq_depth
    show_full_values filter res hm h
  refine ⟨fun n hn => ?_, fun vr data length depth ctx hmem => ?_, hl⟩
  · have := lines_infix _ _ _ hl n hn
    omega
  · exact lines_value _ _ _ hl vr data length depth ctx hmem

/-- The statement of `printed_depth_bounded` for `sample_file_nested_sequence` and
`max_sq_depth = 1`, where the line `[1 ITEM ABOVE MAX SEQUENCE DEPTH]` is behind
four indentation units. -/
theorem printed_depth_bounded_witness :
    (List.replicate 4 (Out.lit "  ") ++ [Out.above_max_depth 1]) <:+:
      (sample_result_depth sample_file_nested_sequence 1).out ∧
    ∀ n, List.replicate n (Out.lit "  ") <:+:
      (sample_result_depth sample_file_nested_sequence 1).out → (n : Int) ≤ 2 * (1 + 1) :=
  ⟨⟨[Out.lit "DICOM version: 2025d\n", Out.table_header, Out.rule,
      Out.sq_row 0x0008 0x1110 (cstr "SQ") (cstr "[N/A]") (cstr "[N/A]"),
      Out.lit "(sequence - undefined length)\n",
      Out.lit "  ", Out.lit "  ", Out.item_start none,
      Out.lit "  ", Out.lit "  ", Out.lit "  ", Out.lit "  ",
      Out.sq_row 0x0008 0x1110 (cstr "SQ") (cstr "[N/A]") (cstr "[N/A]"),
      Out.lit "(sequence - undefined length)\n"],
     [Out.lit "  ", Out.lit "  ", Out.lit "  ", Out.lit "  ", Out.rule,
      Out.lit "  ", Out.lit "  ", Out.item_end,
      Out.lit "  ", Out.lit "  ", Out.seq_end,
      Out.lit "  ", Out.rule, Out.footer 5], by rfl⟩,
   (printed_depth_bounded sample_env 100 (some sample_file_nested_sequence) 250 false 1 false
      none (sample_result_depth sample_file_nested_sequence 1) (by decide) (by rfl)).1⟩

/-- C16 (code at the failing input): in `sample_file_guarded` the inner sequence has
the defined length 8; its value starts at offset 164 and is one empty item, and the
tag `(FFFE,E00D)` of the enclosing item stands at `164 + 8`. Not descended
(`max_sq_depth = 1`), the sequence is reported with 2 items and the cursor is left
at offset 214, the end of the input, not at `164 + 8`: the item delimiter and the
second item of the enclosing sequence are counted in, and nothing of them is
printed. In `sample_file_guarded_item` the tag `(FFFE,E000)` of the next item of the
enclosing sequence stands at `164 + 8`, and the count is 2 as well. When the
enclosing sequence itself is counted (collapse mode), the inner sequence is skipped
by its length and the 2 items of the enclosing sequence are reported. In
`sample_file_encapsulated` the sequence of undefined length whose value starts at
offset 144 is one item, the delimiter `(FFFE,E0DD)` stands at offset 198 and the
element `(0010,0010)` at offset 206; the count is 1, but the cursor is left at
offset 20260 with the end of the input hit, not at offset 206, so in collapse mode
the element `(0010,0010)` is not printed. -/
theorem skipped_sequence_overcount :
    Layout sample_env sample_state sample_file_guarded (Region.items 1) 164 (164 + 8) ∧
    tag_at sample_state sample_file_guarded (164 + 8) = (0xFFFE, 0xE00D) ∧
    sample_file_guarded.length = 214 ∧
    (count_sequence_items sample_env sample_state 100
        { data := sample_file_guarded, pos := 164, eof := false }).map (fun x => (x.1, x.2.2))
      = some (2, { data := sample_file_guarded, pos := 214, eof := false }) ∧
    (sample_result_depth sample_file_guarded 1).out =
      [Out.lit "DICOM version: 2025d\n", Out.table_header, Out.rule,
       Out.sq_row 8 4368 (cstr "SQ") (cstr "[N/A]") (cstr "[N/A]"),
       Out.lit "(sequence - undefined length)\n",
       Out.lit "  ", Out.lit "  ", Out.item_start none,
       Out.lit "  ", Out.lit "  ", Out.lit "  ", Out.lit "  ",
       Out.sq_row 8 4368 (cstr "SQ") (cstr "[N/A]") (cstr "[N/A]"), Out.sq_defined_length 8,
       Out.lit "  ", Out.lit "  ", Out.lit "  ", Out.lit "  ", Out.above_max_depth 2,
       Out.lit "  ", Out.lit "  ", Out.lit "  ", Out.lit "  ", Out.rule,
       Out.lit "  ", Out.rule, Out.footer 3] ∧
    Layout sample_env sample_state sample_file_guarded_item (Region.items 1) 164 (164 + 8) ∧
    tag_at sample_state sample_file_guarded_item (164 + 8) = (0xFFFE, 0xE000) ∧
    (count_sequence_items sample_env sample_state 100
        { data := sample_file_guarded_item, pos := 164, eof := false }).map
          (fun x => (x.1, x.2.2))
      = some (2, { data := sample_file_guarded_item, pos := 206, eof := false }) ∧
    (sample_result_collapsed sample_file_guarded).out =
      [Out.lit "DICOM version: 2025d\n", Out.table_header, Out.rule,
       Out.sq_row 8 4368 (cstr "SQ") (cstr "[N/A]") (cstr "[N/A]"),
       Out.sq_collapsed 2, Out.footer 1] ∧
    tag_at sample_state sample_file_encapsulated 144 = (0xFFFE, 0xE000) ∧
    tag_at sample_state sample_file_encapsulated 190 = (0xFFFE, 0xE00D) ∧
    tag_at sample_state sample_file_encapsulated 198 = (0xFFFE, 0xE0DD) ∧
    tag_at sample_state sample_file_encapsulated 206 = (0x0010, 0x0010) ∧
    (count_sequence_items sample_env sample_state 100
        { data := sample_file_encapsulated, pos := 144, eof := false }).map
          (fun x => (x.1, x.2.2))
      = some (1, { data := sample_file_encapsulated, pos := 20260, eof := true }) ∧
    (sample_result_collapsed sample_file_encapsulated).out =
      [Out.lit "DICOM version: 2025d\n", Out.table_header, Out.rule,
       Out.sq_row 8 4368 (cstr "SQ") (cstr "[N/A]") (cstr "[N/A]"),
       Out.sq_collapsed 1, Out.footer 1] :=
  ⟨Layout.item_defined 0 164 172 (by decide) (by rfl) (by decide) (Layout.done 172),
   by rfl, by rfl, by rfl, by rfl,
   Layout.item_defined 0 164 172 (by decide) (by rfl) (by decide) (Layout.done 172),
   by rfl, by rfl, by rfl, by rfl, by rfl, by rfl, by rfl, by rfl, by rfl⟩

/-- C17 (code at the failing input): in `sample_file_guarded` the sequence at top
level is of undefined length and has two items of undefined length (offsets 144 and
180), each closed by `(FFFE,E00D)` (offsets 172 and 198), and the delimiter
`(FFFE,E0DD)` at offset 206. The first item ends with a sequence of defined length
8, whose parse at depth 3 is not stopped after 8 bytes and reads on over the
delimiter of the item: the second item and the sequence delimiter are printed at
depth 3, and at depth 1 there is one item-start line, no item-end line and no
sequence-end line; the end of the input is hit behind the delimiter. In collapse
mode, where the inner sequence is skipped by its length, the 2 items are found. -/
theorem undefined_length_sequence_overrun :
    tag_at sample_state sample_file_guarded 144 = (0xFFFE, 0xE000) ∧
    field sample_state sample_file_guarded 148 4 = 0xFFFFFFFF ∧
    tag_at sample_state sample_file_guarded 172 = (0xFFFE, 0xE00D) ∧
    tag_at sample_state sample_file_guarded 180 = (0xFFFE, 0xE000) ∧
    field sample_state sample_file_guarded 184 4 = 0xFFFFFFFF ∧
    tag_at sample_state sample_file_guarded 198 = (0xFFFE, 0xE00D) ∧
    tag_at sample_state sample_file_guarded 206 = (0xFFFE, 0xE0DD) ∧
    top_sequence sample_env sample_state 250 none 100 0x0008 0x1110 (cstr "SQ") 0xFFFFFFFF
        { fp := { data := sample_file_guarded, pos := 144, eof := false },
          element_count := 0, out := [] }
      = Except.ok
          { fp := { data := sample_file_guarded, pos := 214, eof := true },
            element_count := 9,
            out := [Out.sq_row 8 4368 (cstr "SQ") (cstr "[N/A]") (cstr "[N/A]"),
                Out.lit "(sequence - undefined length)\n"] ++
              print_indent 1 ++ [Out.item_start none] ++
              print_indent 2 ++ [Out.sq_row 8 4368 (cstr "SQ") (cstr "[N/A]") (cstr "[N/A]"),
                Out.sq_defined_length 8] ++
              print_indent 3 ++ [Out.item_start (some 0)] ++
              print_indent 3 ++ [Out.item_end] ++
              print_indent 3 ++ [Out.item_start none] ++
              print_indent 4 ++ [Out.row 8 96 (cstr "CS") 2 (cstr "[N/A]") (cstr "[N/A]"),
                Out.value (cstr "CS") (cstr "CT") 2 4
                  (create_display_context sample_env sample_state),
                Out.lit "\n"] ++
              print_indent 3 ++ [Out.item_end] ++
              print_indent 3 ++ [Out.seq_end] ++
              print_indent 2 ++ [Out.rule] ++
              [Out.lit "  ", Out.rule] } ∧
    top_sequence sample_env (sample_top_collapsed sample_file_guarded).state 250 none 100
        0x0008 0x1110 (cstr "SQ") 0xFFFFFFFF
        { fp := { data := sample_file_guarded, pos := 144, eof := false },
          element_count := 0, out := [] }
      = Except.ok
          { fp := { data := sample_file_guarded, pos := 214, eof := false },
            element_count := 1,
            out := [Out.sq_row 8 4368 (cstr "SQ") (cstr "[N/A]") (cstr "[N/A]"),
                Out.sq_collapsed 2] } :=
  ⟨by rfl, by rfl, by rfl, by rfl, by rfl, by rfl, by rfl, by rfl, by rfl⟩

/-- C18 (code at the failing inputs): `main` returns the `-1` of
`parse_dicom_header`, so the exit status is 255, not 1, when the file cannot be
opened, when it has 131 bytes, and when bytes 128..131 are not `DICM`; it is 1 for
a usage error and 0 after a parse. -/
theorem exit_status_of_bad_input :
    main sample_env 100 (fun _ => none) [cstr "dcmloupe", cstr "x.dcm"]
      = Except.ok (-1, [Out.err "Error: Cannot open file\n"]) ∧
    main_exit_status sample_env 100 (fun _ => none) [cstr "dcmloupe", cstr "x.dcm"]
      = Except.ok 255 ∧
    main_exit_status sample_env 100 (fun _ => some (List.replicate 131 0))
        [cstr "dcmloupe", cstr "x.dcm"] = Except.ok 255 ∧
    main_exit_status sample_env 100 (fun _ => some (List.replicate 128 0 ++ cstr "DICOM"))
        [cstr "dcmloupe", cstr "x.dcm"] = Except.ok 255 ∧
    main_exit_status sample_env 100 (fun _ => some sample_file_implicit)
        [cstr "dcmloupe", cstr "x.dcm", cstr "-n"] = Except.ok 1 ∧
    main_exit_status sample_env 100 (fun _ => some sample_file_implicit)
        [cstr "dcmloupe", cstr "x.dcm"] = Except.ok 0 :=
  ⟨by rfl, by rfl, by rfl, by rfl, by rfl, by rfl⟩

/-- C19 (code at the failing input): the first token of a `-f` argument is cut at
`,` only and the later ones at `;` only, so the documented form
`0x00100010;0x00080020` is refused with `Invalid tag` and `main` returns 1, as is
`0x00100010,0x00080020,0x00080060`; the form `0x00100010,0x00080020;0x00080060`
gives the three tags. -/
theorem filter_argument_separators :
    main_args [cstr "x.dcm", cstr "-f", cstr "0x00100010;0x00080020"] sample_args
      = Except.error (1, [Out.err
          "Error: Invalid tag '0x00100010;0x00080020'. Use format: 00100030 or 0x00100030\n"]) ∧
    main sample_env 100 (fun _ => some sample_file_implicit)
        [cstr "dcmloupe", cstr "x.dcm", cstr "-f", cstr "0x00100010;0x00080020"]
      = Except.ok (1, [Out.err
          "Error: Invalid tag '0x00100010;0x00080020'. Use format: 00100030 or 0x00100030\n"]) ∧
    main_args [cstr "x.dcm", cstr "-f", cstr "0x00100010,0x00080020,0x00080060"] sample_args
      = Except.error (1, [Out.err
          "Error: Invalid tag '0x00080020,0x00080060'. Use format: 00100030 or 0x00100030\n"]) ∧
    main_args [cstr "x.dcm", cstr "-f", cstr "0x00100010,0x00080020;0x00080060"] sample_args
      = Except.ok { sample_args with filename := some (cstr "x.dcm"),
                                     tags := [0x00100010, 0x00080020, 0x00080060] } :=
  ⟨by rfl, by rfl, by rfl, by rfl⟩

/-- C20 (amended): with `w = terminal_width - val_col_start - 4 * depth - 10`, the
width used by `display_value` when `show_full_values` is off is `w` itself when
`w > 0` (and `w` fits a `uint32_t`) and 20 when `w <= 0`, so it is at least 1 but
may be below 20; when `show_full_values` is on it is `INT_MAX`. -/
theorem max_val_width_spec (depth : Int) (ctx : display_context) :
    (ctx.overwrite_max_disp_len = true → max_val_width depth ctx = 2147483647) ∧
    (ctx.overwrite_max_disp_len = false →
      0 < ctx.terminal_width - ctx.val_col_start - 4 * depth - 10 →
      ctx.terminal_width - ctx.val_col_start - 4 * depth - 10 < 4294967296 →
      (max_val_width depth ctx : Int)
        = ctx.terminal_width - ctx.val_col_start - 4 * depth - 10) ∧
    (ctx.overwrite_max_disp_len = false →
      ctx.terminal_width - ctx.val_col_start - 4 * depth - 10 ≤ 0 →
      max_val_width depth ctx = 20) ∧
    (ctx.overwrite_max_disp_len = false →
      ctx.terminal_width - ctx.val_col_start - 4 * depth - 10 < 4294967296 →
      1 ≤ max_val_width depth ctx) := by
  have hw : ctx.overwrite_max_disp_len = false → max_val_width_int depth ctx
      = ctx.terminal_width - ctx.val_col_start - 4 * depth - 10 := by
    intro h
    unfold max_val_width_int indent_width
    rw [h]
    simp only [Bool.false_eq_true, if_false]
    omega
  refine ⟨?_, ?_, ?_, ?_⟩
  · intro h
    unfold max_val_width max_val_width_int
    rw [h]
    simp only [if_true]
    decide
  · intro h h0 h1
    unfold max_val_width
    rw [hw h, if_pos h0]
    omega
  · intro h h0
    unfold max_val_width
    rw [hw h, if_neg (by omega)]
  · intro h h1
    unfold max_val_width
    rw [hw h]
    by_cases h0 : ctx.terminal_width - ctx.val_col_start - 4 * depth - 10 > 0
    · rw [if_pos h0]; omega
    · rw [if_neg h0]; decide

/-- The statement of `max_val_width_spec` for a terminal of 200 columns at depth 3. -/
theorem max_val_width_spec_witness :
    (max_val_width 3 { sample_ctx_123 with terminal_width := 200 } : Int) = 70 :=
  (max_val_width_spec 3 { sample_ctx_123 with terminal_width := 200 }).2.1
    (by rfl) (by decide) (by decide)

/-- For a terminal of 123 columns, the value column at 108 and depth 0 the width
is 5, not `max 20 5`. -/
theorem max_val_width_below_floor_counterexample :
    sample_ctx_123.overwrite_max_disp_len = false ∧ (0 : Int) ≤ 0 ∧
    sample_ctx_123.terminal_width - sample_ctx_123.val_col_start - 4 * 0 - 10 = 5 ∧
    max_val_width 0 sample_ctx_123 = 5 ∧
    (max_val_width 0 sample_ctx_123 : Int)
      ≠ max 20 (sample_ctx_123.terminal_width - sample_ctx_123.val_col_start - 4 * 0 - 10) :=
  ⟨by rfl, by decide, by decide, by decide, by decide⟩

/-- C21: for the VRs `US`, `UL`, `SS` and `SL`, a buffer of octets that holds at
least one element (2, 4, 2, 4 bytes) and a `length` of at least that many bytes
(other than the marker `0xFFFFFFFF`), the first thing `display_value` writes is the
number made of the first element: `le_value` of its bytes in little-endian,
`le_value` of the bytes in reverse order in big-endian (`spec_unsigned`), read as a
two's-complement number for `SS` and `SL`. -/
theorem first_element_decoded (data : List Nat) (length : Nat) (depth : Int)
    (ctx : display_context) (hoct : ∀ b ∈ data, b < 256) (hu : length ≠ 0xFFFFFFFF) :
    (2 ≤ length → 2 ≤ data.length →
      display_value (cstr "US") (some data) length depth ctx =
        Disp.unsigned (spec_unsigned ctx.is_little_endian (data.take 2)) ::
          more_suffix length 2) ∧
    (4 ≤ length → 4 ≤ data.length →
      display_value (cstr "UL") (some data) length depth ctx =
        Disp.unsigned (spec_unsigned ctx.is_little_endian (data.take 4)) ::
          more_suffix length 4) ∧
    (2 ≤ length → 2 ≤ data.length →
      display_value (cstr "SS") (some data) length depth ctx =
        Disp.signed (spec_signed 2 (spec_unsigned ctx.is_little_endian (data.take 2))) ::
          more_suffix length 2) ∧
    (4 ≤ length → 4 ≤ data.length →
      display_value (cstr "SL") (some data) length depth ctx =
        Disp.signed (spec_signed 4 (spec_unsigned ctx.is_little_endian (data.take 4))) ::
          more_suffix length 4) ∧
    (∀ bytes, spec_unsigned false bytes = spec_unsigned true bytes.reverse) := by
  refine ⟨fun hl hd => ?_, fun hl hd => ?_, fun hl hd => ?_, fun hl hd => ?_, fun _ => rfl⟩
  · rw [display_value_us data length depth ctx (by omega) hu, if_pos hl,
      value_uint16_spec _ data hoct hd]
    rfl
  · rw [display_value_ul data length depth ctx (by omega) hu, if_pos hl,
      value_uint32_spec _ data hoct hd]
    rfl
  · rw [display_value_ss data length depth ctx (by omega) hu, if_pos hl,
      to_int16_spec _ (value_uint16_lt _ _ _), value_uint16_spec _ data hoct hd]
    rfl
  · rw [display_value_sl data length depth ctx (by omega) hu, if_pos hl,
      to_int32_spec _ (value_uint32_lt _ _), value_uint32_spec _ data hoct hd]
    rfl

/-- The statement of `first_element_decoded` for the bytes `02 00`: as `US` in
big-endian they are shown as 512, in little-endian as 2; the bytes `FF FE` as `SS`
in big-endian are shown as -2. -/
theorem first_element_decoded_witness :
    display_value (cstr "US") (some [0x02, 0x00]) 2 0 (sample_ctx false) = [Disp.unsigned 512] ∧
    display_value (cstr "US") (some [0x02, 0x00]) 2 0 (sample_ctx true) = [Disp.unsigned 2] ∧
    display_value (cstr "SS") (some [0xFF, 0xFE]) 2 0 (sample_ctx false) = [Disp.signed (-2)] :=
  ⟨(first_element_decoded [0x02, 0x00] 2 0 (sample_ctx false) (by decide) (by decide)).1
      (by decide) (by decide),
   (first_element_decoded [0x02, 0x00] 2 0 (sample_ctx true) (by decide) (by decide)).1
      (by decide) (by decide),
   (first_element_decoded [0xFF, 0xFE] 2 0 (sample_ctx false) (by decide) (by decide)).2.2.1
      (by decide) (by decide)⟩

/-- C22 (amended): for every text-like VR and every `length` other than 0 and the
marker `0xFFFFFFFF`, `display_value` writes a double-quoted string. Its content is
`shown_text`: of the first `min length max_val_width` octets of the data, the
printable ones (`[32,127)`) that stand before the first NUL, so an octet that is
neither printable nor NUL is left out and the text goes on behind it; the content
has at most `max_val_width` characters. `...` is written before the closing quote
exactly when `length > max_val_width`. -/
theorem text_value_shown (vr : List Nat) (data : List Nat) (length : Nat) (depth : Int)
    (ctx : display_context) (hvr : vr ∈ text_vrs) (h0 : length ≠ 0)
    (hu : length ≠ 0xFFFFFFFF) :
    display_value vr (some data) length depth ctx
      = [Disp.lit "\""] ++
        (shown_text data length (max_val_width depth ctx)).map Disp.putchar ++
        (if length > max_val_width depth ctx then [Disp.lit "..."] else []) ++
        [Disp.lit "\""] ∧
    (shown_text data length (max_val_width depth ctx)).length ≤ max_val_width depth ctx ∧
    (shown_text data length (max_val_width depth ctx)).length ≤ length ∧
    (∀ c ∈ shown_text data length (max_val_width depth ctx), 32 ≤ c ∧ c < 127) := by
  have hl := shown_text_length data length (max_val_width depth ctx)
  refine ⟨?_, by omega, by omega, ?_⟩
  · unfold display_value
    simp only [h0, hu, or_self, if_false, is_text_vr_of_mem vr hvr, if_true]
    rw [text_value_spec]
  · intro c hc
    unfold shown_text at hc
    have hp := (List.mem_filter.1 hc).2
    simpa [printable] using hp

/-- The statement of `text_value_shown` for the value `DOE^JANE` of a `PN` element
with the widths 82 and 5. -/
theorem text_value_shown_witness :
    display_value (cstr "PN") (some (cstr "DOE^JANE")) 8 0 (sample_ctx true)
      = [Disp.lit "\""] ++ (cstr "DOE^JANE").map Disp.putchar ++ [Disp.lit "\""] ∧
    display_value (cstr "PN") (some (cstr "DOE^JANE")) 8 0 sample_ctx_123
      = [Disp.lit "\""] ++ (cstr "DOE^J").map Disp.putchar ++ [Disp.lit "...", Disp.lit "\""] :=
  ⟨(text_value_shown (cstr "PN") (cstr "DOE^JANE") 8 0 (sample_ctx true) (by decide)
      (by decide) (by decide)).1,
   (text_value_shown (cstr "PN") (cstr "DOE^JANE") 8 0 sample_ctx_123 (by decide)
      (by decide) (by decide)).1⟩

/-- For the octets `A`, 0x01, `B` the printable octets at the start of the data are
`A` alone, but `display_value` writes `"AB"`: the octet 0x01 is left out and does
not end the text. For the octets `A`, `B`, NUL, `C`, `D`, `E`, `F` and the width 5
the text `AB` is not cut, but `display_value` writes `"AB..."`. -/
theorem text_value_counterexample :
    spec_text_value [65, 1, 66] 3 82 = [Disp.lit "\"", Disp.putchar 65, Disp.lit "\""] ∧
    display_value (cstr "PN") (some [65, 1, 66]) 3 0 (sample_ctx true)
      = [Disp.lit "\"", Disp.putchar 65, Disp.putchar 66, Disp.lit "\""] ∧
    max_val_width 0 (sample_ctx true) = 82 ∧
    spec_text_value [65, 66, 0, 67, 68, 69, 70] 7 5
      = [Disp.lit "\"", Disp.putchar 65, Disp.putchar 66, Disp.lit "\""] ∧
    display_value (cstr "PN") (some [65, 66, 0, 67, 68, 69, 70]) 7 0 sample_ctx_123
      = [Disp.lit "\"", Disp.putchar 65, Disp.putchar 66, Disp.lit "...", Disp.lit "\""] ∧
    max_val_width 0 sample_ctx_123 = 5 :=
  ⟨by rfl, by rfl, by rfl, by rfl, by rfl, by rfl⟩

/-- C23: an item or a sequence of the declared length `length` (neither 0 nor
`0xFFFFFFFF`) whose body starts at offset `P` and whose nested parse returned in the
state `x` is left in the state `leave_defined P length x`: by the loop of
`parse_sequence` for an item, by `parse_data_elements` for a sequence inside an
item, by `top_sequence` for a sequence at top level (collapse off). The cursor of
that state is the larger of `P + length` and the cursor of `x`: it is never before
`P + length`, it is `P + length` when the nested parse consumed at most `length`
bytes, and a cursor behind `P + length` is left as it is. -/
theorem defined_length_left (env : Env) (state : parser_state) (max_elements : Int)
    (filter : Option (List Nat)) (fuel : Nat) (length : Nat)
    (hu : length ≠ 0xFFFFFFFF) (h0 : 0 < length) :
    (∀ (depth : Int) (r r1 : Run) (res : Int × Run),
      ¬ (feof r.fp = true ∨ ¬ r.element_count < max_elements) →
      sequence_item state depth r = SeqStep.item length r1 →
      parse_data_elements env state max_elements filter fuel (depth + 1) r1 = some res →
      parse_sequence_loop env state max_elements filter (fuel + 1) depth r
        = parse_sequence_loop env state max_elements filter fuel depth
            (leave_defined r1.fp.pos length res.2)) ∧
    (∀ (depth : Int) (r r1 : Run) (res : Int × Run),
      ¬ (feof r.fp = true ∨ ¬ r.element_count < max_elements) →
      data_element env state filter depth r = Step.sequence length r1 →
      state.collapse_sequences = false →
      parse_sequence env state max_elements filter fuel (depth + 1)
        { fp := r1.fp, element_count := r1.element_count + 1,
          out := r1.out ++ [Out.sq_defined_length length] } = some res →
      parse_data_elements env state max_elements filter (fuel + 1) depth r
        = parse_data_elements env state max_elements filter fuel depth
            ((leave_defined r1.fp.pos length res.2).emit (print_indent depth ++ [Out.rule]))) ∧
    (∀ (group element : Nat) (avr : List Nat) (r : Run) (res : Int × Run),
      state.collapse_sequences = false →
      parse_sequence env state max_elements filter fuel 1
        { fp := r.fp, element_count := r.element_count + 1,
          out := r.out ++
            [Out.sq_row group element avr (display_keyword env group ((group <<< 16) ||| element))
              (display_name env ((group <<< 16) ||| element))] ++
            [Out.lit "(sequence - defined length)\n"] } = some res →
      top_sequence env state max_elements filter fuel group element avr length r
        = Except.ok ((leave_defined r.fp.pos length res.2).emit [Out.lit "  ", Out.rule])) ∧
    (∀ (P : Nat) (x : Run),
      (leave_defined P length x).fp.pos = max x.fp.pos (P + length) ∧
      P + length ≤ (leave_defined P length x).fp.pos ∧
      (x.fp.pos ≤ P + length → (leave_defined P length x).fp.pos = P + length) ∧
      (P + length ≤ x.fp.pos → leave_defined P length x = x)) := by
  refine ⟨?_, ?_, ?_, ?_⟩
  · intro depth r r1 res hgo hitem hres
    exact parse_sequence_loop_item_defined env state max_elements filter fuel depth r length r1
      res hgo hitem hu h0 hres
  · intro depth r r1 res hgo hsq hc hres
    exact parse_data_elements_sequence_defined env state max_elements filter fuel depth r length
      r1 res hgo hsq hc hu (by omega) hres
  · intro group element avr r res hc hres
    exact top_sequence_leave env state max_elements filter fuel group element avr length r res
      hc (by omega) hu hres
  · intro P x
    have hp := leave_defined_pos P length x
    refine ⟨hp, by omega, fun h => by omega, fun h => ?_⟩
    unfold leave_defined
    rw [if_neg (by omega)]

/-- The statement of `defined_length_left` for the item of `sample_slack_item`,
whose nested parse stops after 10 of the 14 bytes (the cursor is moved from 18 to
22), and for the sequence of `sample_file_defined_item` at top level, whose nested
parse runs from 144 to 178, behind `144 + 18` (the cursor is left at 178). -/
theorem defined_length_left_witness :
    parse_sequence_loop sample_env sample_state 250 none 11 1
        { fp := { data := sample_slack_item, pos := 0, eof := false },
          element_count := 0, out := [] }
      = parse_sequence_loop sample_env sample_state 250 none 10 1
          { fp := { data := sample_slack_item, pos := 8 + 14, eof := false },
            element_count := 2,
            out := print_indent 1 ++ [Out.item_start (some 14)] ++ print_indent 2 ++
              [Out.row 0x0008 0x0060 (cstr "CS") 2 (cstr "[N/A]") (cstr "[N/A]"),
               Out.value (cstr "CS") (cstr "CT") 2 2
                 (create_display_context sample_env sample_state),
               Out.lit "\n"] } ∧
    (∃ r, top_sequence sample_env sample_state 250 none 100 0x0008 0x1110 (cstr "SQ") 18
        { fp := { data := sample_file_defined_item, pos := 144, eof := false },
          element_count := 0, out := [] } = Except.ok r ∧ r.fp.pos = 178) :=
  ⟨(defined_length_left sample_env sample_state 250 none 10 14 (by decide) (by decide)).1 1
      { fp := { data := sample_slack_item, pos := 0, eof := false },
        element_count := 0, out := [] }
      { fp := { data := sample_slack_item, pos := 8, eof := false },
        element_count := 1, out := print_indent 1 ++ [Out.item_start (some 14)] }
      (0, { fp := { data := sample_slack_item, pos := 18, eof := false },
            element_count := 2,
            out := print_indent 1 ++ [Out.item_start (some 14)] ++ print_indent 2 ++
              [Out.row 0x0008 0x0060 (cstr "CS") 2 (cstr "[N/A]") (cstr "[N/A]"),
               Out.value (cstr "CS") (cstr "CT") 2 2
                 (create_display_context sample_env sample_state),
               Out.lit "\n"] })
      (by decide) (by rfl) (by rfl),
   ⟨_, (defined_length_left sample_env sample_state 250 none 100 18 (by decide)
      (by decide)).2.2.1 0x0008 0x1110 (cstr "SQ")
      { fp := { data := sample_file_defined_item, pos := 144, eof := false },
        element_count := 0, out := [] } _ (by rfl) (by rfl), by rfl⟩⟩

/-- C24: when the input ends inside the length field of an element, after the tag
and the VR, the parser writes a row for that element, with the length 0 and the
value text `(empty)`, and counts it: for `sample_file_truncated_length` (explicit
VR, one of two length bytes) and `sample_file_truncated_implicit` (implicit VR,
three of four length bytes) the footer counts 2 elements. When the input ends
inside the VR (`sample_file_truncated_vr`) no row is written and the footer counts
1 element. -/
theorem truncated_length_field_row :
    (sample_result sample_file_truncated_length 250 none).out =
      [Out.lit "DICOM version: 2025d\n", Out.table_header, Out.rule,
       Out.row 0x0008 0x0060 (cstr "CS") 2 (cstr "[N/A]") (cstr "[N/A]"),
       Out.value (cstr "CS") (cstr "CT") 2 0 (create_display_context sample_env sample_state),
       Out.lit "\n",
       Out.row 0x0010 0x0010 (cstr "PN") 0 (cstr "PatientName") (cstr "Patient's Name"),
       Out.lit "(empty)", Out.lit "\n",
       Out.footer 2] ∧
    (sample_result sample_file_truncated_vr 250 none).out =
      [Out.lit "DICOM version: 2025d\n", Out.table_header, Out.rule,
       Out.row 0x0008 0x0060 (cstr "CS") 2 (cstr "[N/A]") (cstr "[N/A]"),
       Out.value (cstr "CS") (cstr "CT") 2 0 (create_display_context sample_env sample_state),
       Out.lit "\n",
       Out.footer 1] ∧
    (sample_result sample_file_truncated_implicit 250 none).out =
      [Out.lit "DICOM version: 2025d\n", Out.table_header, Out.rule,
       Out.row 0x0002 0x0010 (cstr "UI") 18 (cstr "[N/A]") (cstr "[N/A]"),
       Out.value (cstr "UI") (cstr "1.2.840.10008.1.2") 17 0
         (create_display_context sample_env sample_state),
       Out.lit "\n",
       Out.lit "\n\t[Transfer Syntax: Implicit VR Little Endian]\n\n",
       Out.row 0x0010 0x0010 (cstr "PN") 0 (cstr "PatientName") (cstr "Patient's Name"),
       Out.lit "(empty)", Out.lit "\n",
       Out.footer 2] :=
  ⟨by rfl, by rfl, by rfl⟩

/-- C25: in `sample_file_big_endian` the first element behind the meta group has
the tag bytes `00 28 00 10`. Its tag was read before the mode was switched, in
little-endian: the row shows `(2800,1000)`, while its length and its value (512) are
decoded in big-endian; the tag `00 28 00 11` of the next element is shown as
`(0028,0011)`. -/
theorem first_tag_after_meta_group_little_endian :
    (sample_result sample_file_big_endian 250 none).out =
      [Out.lit "DICOM version: 2025d\n", Out.table_header, Out.rule,
       Out.row 0x0002 0x0010 (cstr "UI") 20 (cstr "[N/A]") (cstr "[N/A]"),
       Out.value (cstr "UI") (cstr "1.2.840.10008.1.2.2") 19 0
         (create_display_context sample_env sample_state),
       Out.lit "\n",
       Out.lit "\n\t[Transfer Syntax: Explicit VR Big Endian]\n\n",
       Out.row 0x2800 0x1000 (cstr "US") 2 (cstr "[N/A]") (cstr "[N/A]"),
       Out.value (cstr "US") [0x02, 0x00] 2 0 sample_ctx_big_endian,
       Out.lit "\n",
       Out.row 0x0028 0x0011 (cstr "US") 2 (cstr "[N/A]") (cstr "[N/A]"),
       Out.value (cstr "US") [0x01, 0x00] 2 0 sample_ctx_big_endian,
       Out.lit "\n",
       Out.footer 3] ∧
    (Out.value (cstr "US") [0x02, 0x00] 2 0 sample_ctx_big_endian).shown = [Disp.unsigned 512] ∧
    (top_after sample_env 250 none 100
      (top_after sample_env 250 none 100
        (sample_top sample_file_big_endian))).state.is_little_endian = false :=
  ⟨by rfl, by rfl, by rfl⟩

/-- C26 (amended): for the VRs `US`, `UL`, `SS`, `SL`, `FL` and `FD` with the element
width `w` (2, 4, 2, 4, 4, 8) and every `length` from `w` on (below the marker
`0xFFFFFFFF`), `display_value` writes the value and then `" [+K more]"` exactly when
`length > w`, with `K = length / w - 1`; nothing else follows. -/
theorem more_suffix_spec (data : List Nat) (length : Nat) (depth : Int) (ctx : display_context)
    (hu : length < 0xFFFFFFFF) :
    (2 ≤ length →
      display_value (cstr "US") (some data) length depth ctx =
        Disp.unsigned (value_uint16 ctx.is_little_endian data 0) ::
          (if length > 2 then [Disp.more (length / 2 - 1)] else [])) ∧
    (4 ≤ length →
      display_value (cstr "UL") (some data) length depth ctx =
        Disp.unsigned (value_uint32 ctx.is_little_endian data) ::
          (if length > 4 then [Disp.more (length / 4 - 1)] else [])) ∧
    (2 ≤ length →
      display_value (cstr "SS") (some data) length depth ctx =
        Disp.signed (to_int16 (value_uint16 ctx.is_little_endian data 0)) ::
          (if length > 2 then [Disp.more (length / 2 - 1)] else [])) ∧
    (4 ≤ length →
      display_value (cstr "SL") (some data) length depth ctx =
        Disp.signed (to_int32 (value_uint32 ctx.is_little_endian data)) ::
          (if length > 4 then [Disp.more (length / 4 - 1)] else [])) ∧
    (4 ≤ length →
      ∃ object, display_value (cstr "FL") (some data) length depth ctx =
        Disp.float object :: (if length > 4 then [Disp.more (length / 4 - 1)] else [])) ∧
    (8 ≤ length →
      ∃ object, display_value (cstr "FD") (some data) length depth ctx =
        Disp.double object :: (if length > 8 then [Disp.more (length / 8 - 1)] else [])) := by
  have hlt : length < 4294967296 := by omega
  have hne : length ≠ 0xFFFFFFFF := by omega
  refine ⟨fun hl => ?_, fun hl => ?_, fun hl => ?_, fun hl => ?_, fun hl => ?_, fun hl => ?_⟩
  · rw [display_value_us data length depth ctx (by omega) hne, if_pos hl,
      more_suffix_eq _ _ hlt]
    rfl
  · rw [display_value_ul data length depth ctx (by omega) hne, if_pos hl,
      more_suffix_eq _ _ hlt]
    rfl
  · rw [display_value_ss data length depth ctx (by omega) hne, if_pos hl,
      more_suffix_eq _ _ hlt]
    rfl
  · rw [display_value_sl data length depth ctx (by omega) hne, if_pos hl,
      more_suffix_eq _ _ hlt]
    rfl
  · rw [display_value_fl data length depth ctx (by omega) hne, if_pos hl,
      more_suffix_eq _ _ hlt]
    exact ⟨_, rfl⟩
  · rw [display_value_fd data length depth ctx (by omega) hne, if_pos hl,
      more_suffix_eq _ _ hlt]
    exact ⟨_, rfl⟩

/-- The statement of `more_suffix_spec` for `US` values of 2, 4 and 7 bytes: no
suffix, `[+1 more]` and `[+2 more]`. -/
theorem more_suffix_spec_witness :
    display_value (cstr "US") (some [1, 0]) 2 0 (sample_ctx true) = [Disp.unsigned 1] ∧
    display_value (cstr "US") (some [1, 0, 2, 0]) 4 0 (sample_ctx true)
      = [Disp.unsigned 1, Disp.more 1] ∧
    display_value (cstr "US") (some [1, 0, 2, 0, 3, 0, 4]) 7 0 (sample_ctx true)
      = [Disp.unsigned 1, Disp.more 2] :=
  ⟨(more_suffix_spec [1, 0] 2 0 (sample_ctx true) (by decide)).1 (by decide),
   (more_suffix_spec [1, 0, 2, 0] 4 0 (sample_ctx true) (by decide)).1 (by decide),
   (more_suffix_spec [1, 0, 2, 0, 3, 0, 4] 7 0 (sample_ctx true) (by decide)).1 (by decide)⟩

/-- A `US` value of 3 bytes covers `3 / 2 = 1` element, and `display_value` writes
the suffix `[+0 more]` behind it; likewise for a `UL` value of 7 bytes. -/
theorem more_suffix_one_element_counterexample :
    3 / 2 = 1 ∧
    display_value (cstr "US") (some [2, 0, 7]) 3 0 (sample_ctx true)
      = [Disp.unsigned 2, Disp.more 0] ∧
    7 / 4 = 1 ∧
    display_value (cstr "UL") (some [2, 0, 0, 0, 7, 7, 7]) 7 0 (sample_ctx true)
      = [Disp.unsigned 2, Disp.more 0] :=
  ⟨by decide, by rfl, by decide, by rfl⟩

/-- C27: for the VR `UN` and a length from 200 to 255 `display_value` writes the
binary form whatever the octets are: the loop of lines 137-141 counts at most 100
octets, and line 142 compares the count with `length * 5 / 10`, which is 100 or
more. -/
theorem unknown_vr_long_is_binary (data : List Nat) (length : Nat) (depth : Int)
    (ctx : display_context) (h200 : 200 ≤ length) (h256 : length < 256) :
    display_value (cstr "UN") (some data) length depth ctx = binary_value data length := by
  rw [display_value_un data length depth ctx (by omega) h256]
  have hlt : ¬ length < 100 := by omega
  have hc := count_printable_le data 100 0 0
  rw [if_neg hlt, if_neg (by omega)]

/-- The statement of `unknown_vr_long_is_binary` for 200 octets `A`: all of them
are printable, and the binary form is written. With 150 octets of which the first
60 are `A` and the others 0x01, 60 of the first 100 octets are printable and the
binary form is written; with 100 octets of which the first 60 are `A` the text form
is written. -/
theorem unknown_vr_long_is_binary_witness :
    (∀ b ∈ List.replicate 200 65, printable b = true) ∧
    display_value (cstr "UN") (some (List.replicate 200 65)) 200 0 (sample_ctx true)
      = [Disp.binary 200] ++ List.replicate 8 (Disp.hex 65) ++ [Disp.lit "..."] ∧
    count_printable (List.replicate 60 65 ++ List.replicate 90 1) 100 0 0 = 60 ∧
    display_value (cstr "UN") (some (List.replicate 60 65 ++ List.replicate 90 1)) 150 0
        (sample_ctx true)
      = [Disp.binary 150] ++ List.replicate 8 (Disp.hex 65) ++ [Disp.lit "..."] ∧
    display_value (cstr "UN") (some (List.replicate 60 65 ++ List.replicate 40 1)) 100 0
        (sample_ctx true)
      = [Disp.lit "\""] ++ List.replicate 60 (Disp.putchar 65) ++
          [Disp.lit "...", Disp.lit "\" [interpreted]"] :=
  ⟨by decide,
   unknown_vr_long_is_binary (List.replicate 200 65) 200 0 (sample_ctx true) (by decide)
     (by decide),
   by rfl, by rfl, by rfl⟩

/-- C28 (amended): a pass of the loop of `parse_data_elements` at depth `depth`
writes nothing, or the warning of an invalid VR, or one row (of an element, a
sequence or pixel data) directly behind `print_indent depth`, and no other row or
framing line; a pass of the loop of `parse_sequence` at depth `depth` writes nothing
or one framing line (item start, item end, sequence end) directly behind
`print_indent depth`. `print_indent depth` is `2 * depth` times the text of two
spaces: `4 * depth` spaces. -/
theorem row_indentation (env : Env) (state : parser_state) (filter : Option (List Nat))
    (depth : Int) (r : Run) :
    (∃ tail, (data_element env state filter depth r).run.out = r.out ++ tail ∧
      (tail = [] ∨ (∃ c0 c1 g e, tail = [Out.warn_invalid_vr c0 c1 g e]) ∨
        ∃ e rest, tail = print_indent depth ++ e :: rest ∧ is_row_start e = true ∧
          ∀ x ∈ rest, is_row_start x = false)) ∧
    (∃ tail, (sequence_item state depth r).run.out = r.out ++ tail ∧
      (tail = [] ∨ ∃ e, tail = print_indent depth ++ [e] ∧ is_row_start e = true)) ∧
    print_indent depth = List.replicate (2 * depth.toNat) (Out.lit "  ") ∧
    lit_chars (print_indent depth) = 4 * depth.toNat := by
  refine ⟨data_element_tail env state filter depth r, sequence_item_tail state depth r,
    print_indent_units depth, ?_⟩
  rw [print_indent_units, lit_chars_replicate]
  omega

/-- In `sample_file_two_items` the start line of the first item, printed by
`parse_sequence` at depth 1, is preceded by 4 spaces, not by 2, and the row of the
element `(0008,0060)` in that item, printed by `parse_data_elements` at depth 2, is
preceded by 8 spaces, not by 4. -/
theorem row_indentation_counterexample :
    (sequence_item sample_state 1
        { fp := { data := sample_file_two_items, pos := 144, eof := false },
          element_count := 1, out := [] }).run.out
      = [Out.lit "  ", Out.lit "  ", Out.item_start none] ∧
    lit_chars [Out.lit "  ", Out.lit "  "] = 4 ∧ 4 ≠ 2 * 1 ∧
    (data_element sample_env sample_state none 2
        { fp := { data := sample_file_two_items, pos := 152, eof := false },
          element_count := 2, out := [] }).run.out
      = [Out.lit "  ", Out.lit "  ", Out.lit "  ", Out.lit "  ",
         Out.row 0x0008 0x0060 (cstr "CS") 2 (cstr "[N/A]") (cstr "[N/A]"),
         Out.value (cstr "CS") (cstr "CT") 2 2 (create_display_context sample_env sample_state),
         Out.lit "\n"] ∧
    lit_chars [Out.lit "  ", Out.lit "  ", Out.lit "  ", Out.lit "  "] = 8 ∧ 8 ≠ 2 * 2 :=
  ⟨by rfl, by rfl, by decide, by rfl, by rfl, by decide⟩

/-- C29: the parse terminates. With `fuel` of at least the length of the input plus
70, `parse_dicom_header` does not run out of fuel: it returns, or it halts at the
access outside `transfer_syntax_uid` (C30). From any state, with `fuel` of at least
the number of bytes behind the cursor plus 3, `parse_sequence`,
`parse_data_elements` and `count_sequence_items` return. A pass of the loop of
`parse_data_elements`, of `parse_sequence`, of the two loops of
`count_sequence_items` and of the top-level loop that does not end the loop leaves
the cursor at least 4 bytes further (the tag was read in full). Above `max_sq_depth`
`parse_sequence` parses nothing: it counts the items and returns. -/
theorem parser_terminates (env : Env) (state : parser_state) (max_elements : Int)
    (filter : Option (List Nat)) :
    (∀ (fuel : Nat) (file : Option (List Nat)) (collapse_sequences : Bool) (max_sq_depth : Int)
        (show_full_values : Bool), (file.getD []).length + 70 ≤ fuel →
      parse_dicom_header env fuel file max_elements collapse_sequences max_sq_depth
        show_full_values filter ≠ Except.error Halt.out_of_fuel) ∧
    (∀ (fuel : Nat) (depth : Int) (r : Run), r.fp.data.length - r.fp.pos + 3 ≤ fuel →
      (∃ res, parse_sequence env state max_elements filter fuel depth r = some res) ∧
      (∃ res, parse_data_elements env state max_elements filter fuel depth r = some res) ∧
      (∃ res, count_sequence_items env state fuel r.fp = some res)) ∧
    (∀ (depth : Int) (r r1 : Run),
      (data_element env state filter depth r = Step.next r1 ∨
        ∃ len, data_element env state filter depth r = Step.sequence len r1) →
      r.fp.pos + 4 ≤ r1.fp.pos) ∧
    (∀ (depth : Int) (r r1 : Run),
      (sequence_item state depth r = SeqStep.next r1 ∨
        ∃ len, sequence_item state depth r = SeqStep.item len r1) →
      r.fp.pos + 4 ≤ r1.fp.pos) ∧
    (∀ (fp fp1 : FILE),
      (count_step state fp = CountStep.skip fp1 ∨ count_step state fp = CountStep.item fp1 ∨
        count_step state fp = CountStep.item_undefined fp1) →
      fp.pos + 4 ≤ fp1.pos) ∧
    (∀ (fp fp1 : FILE),
      (body_step env state fp = BodyStep.next fp1 ∨
        body_step env state fp = BodyStep.sequence fp1) →
      fp.pos + 4 ≤ fp1.pos) ∧
    (∀ (fuel : Nat) (t : Top) (res : Bool × Top),
      top_step env max_elements filter fuel t = Except.ok res → res.1 = true →
      t.run.fp.pos + 4 ≤ res.2.run.fp.pos) ∧
    (∀ (fuel : Nat) (depth : Int) (r : Run), depth > state.max_sq_depth →
      parse_sequence env state max_elements filter (fuel + 1) depth r
        = (count_sequence_items env state fuel r.fp).bind fun res =>
            some (-1, { r with fp := res.2.2,
                               out := r.out ++ print_indent (depth - 1) ++
                                 [Out.above_max_depth res.1] })) := by
  refine ⟨?_, ?_, ?_, ?_, ?_, ?_, ?_, ?_⟩
  · intro fuel file collapse_sequences max_sq_depth show_full_values hf
    exact parse_dicom_header_terminates env fuel file max_elements collapse_sequences
      max_sq_depth show_full_values filter hf
  · intro fuel depth r hf
    have hp := parse_terminates env state max_elements filter r.fp.data fuel
    exact ⟨hp.1 _ depth r (tail_self r.fp) hf, hp.2.2 _ depth r (tail_self r.fp) (by omega),
      count_sequence_items_terminates env state _ r.fp.data fuel r.fp (tail_self r.fp)
        (by omega)⟩
  · intro depth r r1 hs
    exact (data_element_progress _ r.fp.data env state filter depth r (tail_self r.fp) r1
      hs).2.2.2
  · intro depth r r1 hs
    exact (sequence_item_progress _ r.fp.data state depth r (tail_self r.fp) r1 hs).2.2.2
  · intro fp fp1 hs
    exact (count_step_progress _ fp.data fp (tail_self fp) state fp1 hs).2.2.2
  · intro fp fp1 hs
    exact (body_step_progress _ fp.data fp (tail_self fp) env state fp1 hs).2.2.2
  · intro fuel t res hres hgo
    exact (top_step_progress env max_elements filter fuel t _ t.run.fp.data
      (tail_self t.run.fp) res hres hgo).2.2.2
  · intro fuel depth r hd
    rw [parse_sequence, if_pos hd]

/-- The statement of `parser_terminates` for `sample_file_two_items` (220 bytes)
and 300 units of fuel, and for the sequence of that file (from offset 144) with 100
units. -/
theorem parser_terminates_witness :
    parse_dicom_header sample_env 300 (some sample_file_two_items) 250 false 5 false none
      ≠ Except.error Halt.out_of_fuel ∧
    ∃ res, parse_sequence sample_env sample_state 250 none 100 1
      { fp := { data := sample_file_two_items, pos := 144, eof := false },
        element_count := 1, out := [] } = some res :=
  ⟨(parser_terminates sample_env sample_state 250 none).1 300 (some sample_file_two_items)
      false 5 false (by decide),
   ((parser_terminates sample_env sample_state 250 none).2.1 100 1
      { fp := { data := sample_file_two_items, pos := 144, eof := false },
        element_count := 1, out := [] } (by decide)).1⟩

/-- C30: for a `(0002,0010)` value of length 1..64 that is read in full and consists
only of spaces and NUL bytes, the right-trim loop of lines 660-663 leaves the
buffer `transfer_syntax_uid[65]`: after the index 0 the `uint32_t` index is
`0xFFFFFFFF` (`i >= 0` always holds), and the model halts with `out_of_bounds` at
the read of that index. -/
theorem ts_trim_leaves_buffer (env : Env) (state : parser_state) (fuel : Nat) (vr : List Nat)
    (length : Nat) (should_display : Bool) (transfer_syntax_uid : List Nat) (r : Run)
    (hlen : 1 ≤ length ∧ length ≤ 64) (hfull : (fread r.fp length).1.length = length)
    (hblank : ∀ b ∈ (fread r.fp length).1, b = 32 ∨ b = 0)
    (hbuf : transfer_syntax_uid.length = 65) (hfuel : 65 ≤ fuel) :
    ts_capture env state fuel vr length should_display transfer_syntax_uid r
      = Except.error Halt.out_of_bounds ∧
    (∀ (f : Nat) (buf : List Nat) (c : Nat), buf.get? 0 = some c → (c = 32 ∨ c = 0) →
      ts_trim (f + 1) buf 0 = ts_trim f (buf.set 0 0) 0xFFFFFFFF) ∧
    (∀ (f : Nat) (buf : List Nat), buf.length = 65 →
      ts_trim (f + 1) buf 0xFFFFFFFF = Except.error Halt.out_of_bounds) := by
  refine ⟨ts_capture_blank env state fuel vr length should_display transfer_syntax_uid r hlen
    hfull hblank hbuf hfuel, ?_, ?_⟩
  · intro f buf c hget hc
    rw [ts_trim, hget]
    dsimp only
    rw [if_pos hc]
  · intro f buf hl
    have hnone : buf.get? 0xFFFFFFFF = none := by
      rw [List.get?_eq_none]
      omega
    rw [ts_trim, hnone]

/-- The statement of `ts_trim_leaves_buffer` for `sample_file_blank_ts`, whose
transfer syntax UID is four spaces: the capture halts, and so does the parse of the
file. -/
theorem ts_trim_leaves_buffer_witness :
    ts_capture sample_env sample_state 100 (cstr "UI") 4 true (List.replicate 65 0)
        { fp := { data := sample_file_blank_ts, pos := 140, eof := false },
          element_count := 0, out := [] }
      = Except.error Halt.out_of_bounds ∧
    parse_dicom_header sample_env 100 (some sample_file_blank_ts) 250 false 5 false none
      = Except.error Halt.out_of_bounds :=
  ⟨(ts_trim_leaves_buffer sample_env sample_state 100 (cstr "UI") 4 true (List.replicate 65 0)
      { fp := { data := sample_file_blank_ts, pos := 140, eof := false },
        element_count := 0, out := [] }
      (by decide) (by rfl) (by decide) (by decide) (by decide)).1,
   by rfl⟩

/-- C31 (code at the failing input): in `sample_file_two_sequences` two sequences of
defined length 18 stand at top level one behind the other (headers at offsets 132
and 162, the input ends behind the second), so both have the nesting level 1 and
`sq_depth 1 = 1`. With collapse off the parse of the item of the first sequence is
not stopped at the length 10 of the item and reads the second sequence as an element
of that item, so that `parse_sequence` gets it with depth 3: what `top_sequence`
does for the first sequence takes in the second one and ends at the end of the
input. With `max_sq_depth = 1` the second sequence is therefore not descended (its
row and the line of the depth guard are printed behind four units of indentation)
although `sq_depth 1 <= 1`; with `max_sq_depth = 5` its item line is printed behind
six units of indentation and its element with the depth 4. In collapse mode, where
the item is skipped by its length, `top_sequence` ends at `144 + 18` and both
sequences are found at top level. The last part of the claim holds for every input:
`max_sq_depth = 2m - 1` and `max_sq_depth = 2m` give the same result. -/
theorem sequence_level_overrun :
    read_vr_length sample_env sample_state 0x00081110
        { data := sample_file_two_sequences, pos := 136, eof := false }
      = Header.ok (cstr "SQ") 18
          { data := sample_file_two_sequences, pos := 144, eof := false } ∧
    tag_at sample_state sample_file_two_sequences (144 + 18) = (0x0008, 0x1115) ∧
    read_vr_length sample_env sample_state 0x00081115
        { data := sample_file_two_sequences, pos := 166, eof := false }
      = Header.ok (cstr "SQ") 18
          { data := sample_file_two_sequences, pos := 174, eof := false } ∧
    sample_file_two_sequences.length = 174 + 18 ∧
    sq_depth 1 ≤ (sample_state.with_depth 1).max_sq_depth ∧
    top_sequence sample_env (sample_state.with_depth 1) 250 none 100 0x0008 0x1110 (cstr "SQ") 18
        { fp := { data := sample_file_two_sequences, pos := 144, eof := false },
          element_count := 0, out := [] }
      = Except.ok
          { fp := { data := sample_file_two_sequences, pos := 192, eof := true },
            element_count := 4,
            out := [Out.sq_row 0x0008 0x1110 (cstr "SQ") (cstr "[N/A]") (cstr "[N/A]"),
                Out.lit "(sequence - defined length)\n"] ++
              print_indent 1 ++ [Out.item_start (some 10)] ++
              print_indent 2 ++ [Out.row 0x0008 0x0060 (cstr "CS") 2 (cstr "[N/A]") (cstr "[N/A]"),
                Out.value (cstr "CS") (cstr "CT") 2 2
                  (create_display_context sample_env sample_state),
                Out.lit "\n"] ++
              print_indent 2 ++ [Out.sq_row 0x0008 0x1115 (cstr "SQ") (cstr "[N/A]") (cstr "[N/A]"),
                Out.sq_defined_length 18] ++
              print_indent 2 ++ [Out.above_max_depth 1] ++
              print_indent 2 ++ [Out.rule] ++
              [Out.lit "  ", Out.rule] } ∧
    top_sequence sample_env (sample_state.with_depth 5) 250 none 100 0x0008 0x1110 (cstr "SQ") 18
        { fp := { data := sample_file_two_sequences, pos := 144, eof := false },
          element_count := 0, out := [] }
      = Except.ok
          { fp := { data := sample_file_two_sequences, pos := 192, eof := true },
            element_count := 6,
            out := [Out.sq_row 0x0008 0x1110 (cstr "SQ") (cstr "[N/A]") (cstr "[N/A]"),
                Out.lit "(sequence - defined length)\n"] ++
              print_indent 1 ++ [Out.item_start (some 10)] ++
              print_indent 2 ++ [Out.row 0x0008 0x0060 (cstr "CS") 2 (cstr "[N/A]") (cstr "[N/A]"),
                Out.value (cstr "CS") (cstr "CT") 2 2
                  (create_display_context sample_env sample_state),
                Out.lit "\n"] ++
              print_indent 2 ++ [Out.sq_row 0x0008 0x1115 (cstr "SQ") (cstr "[N/A]") (cstr "[N/A]"),
                Out.sq_defined_length 18] ++
              print_indent 3 ++ [Out.item_start (some 10)] ++
              print_indent 4 ++ [Out.row 0x0008 0x0060 (cstr "CS") 2 (cstr "[N/A]") (cstr "[N/A]"),
                Out.value (cstr "CS") (cstr "CT") 2 4
                  (create_display_context sample_env sample_state),
                Out.lit "\n"] ++
              print_indent 2 ++ [Out.rule] ++
              [Out.lit "  ", Out.rule] } ∧
    top_sequence sample_env (sample_top_collapsed sample_file_two_sequences).state 250 none 100
        0x0008 0x1110 (cstr "SQ") 18
        { fp := { data := sample_file_two_sequences, pos := 144, eof := false },
          element_count := 0, out := [] }
      = Except.ok
          { fp := { data := sample_file_two_sequences, pos := 144 + 18, eof := false },
            element_count := 1,
            out := [Out.sq_row 0x0008 0x1110 (cstr "SQ") (cstr "[N/A]") (cstr "[N/A]"),
                Out.sq_collapsed 1] } ∧
    (sample_result_collapsed sample_file_two_sequences).out =
      [Out.lit "DICOM version: 2025d\n", Out.table_header, Out.rule,
       Out.sq_row 0x0008 0x1110 (cstr "SQ") (cstr "[N/A]") (cstr "[N/A]"),
       Out.sq_collapsed 1,
       Out.sq_row 0x0008 0x1115 (cstr "SQ") (cstr "[N/A]") (cstr "[N/A]"),
       Out.sq_collapsed 1, Out.footer 2] ∧
    ∀ (env : Env) (fuel : Nat) (file : Option (List Nat)) (max_elements : Int)
      (collapse show_full_values : Bool) (filter : Option (List Nat)) (m : Int),
      parse_dicom_header env fuel file max_elements collapse (2 * m - 1) show_full_values filter
        = parse_dicom_header env fuel file max_elements collapse (2 * m) show_full_values
            filter :=
  ⟨by rfl, by rfl, by rfl, by rfl, by decide, by rfl, by rfl, by rfl, by rfl,
   fun env fuel file max_elements collapse show_full_values filter m =>
     parse_dicom_header_depth_eq env fuel file max_elements collapse (2 * m - 1) (2 * m)
       show_full_values filter (fun d hd => by omega)⟩

end Dcmloupe
